import Mathlib

/-!
Verification development for `kernel/trace/trace.c`.

A shallow embedding of the consumer iterator and its merge protocol, the snapshot engine
and its users, the tracer switch and the tracer registry, the reservation and commit
pipeline, the stack trace that follows a commit, the printk designation, the error log, the
readers of `trace_pipe` and `trace_pipe_raw`, the resize and sub-buffer size controls, the
trace exports, the addresses of the previous boot, the format buffer of an iterator, the
parser of user input with the pid filter and the command files that use it, the list of
instances, and producers that run while the buffers change places, of
`kernel/trace/trace.c`, and theorems about them.

Conventions: pointers that may be `NULL` are `Option`s, C integers that can be negative
are `Int`, sizes, counters and timestamps are `Nat` (with explicit wrap-around where the C
arithmetic can wrap), out-parameters are passed in and returned, and code reached through a
function pointer is a function taken as an argument or stored in the record of its plugin.
The per-CPU ring buffer (`kernel/trace/ring_buffer.c`) is not among the sources; it is
modelled from the specification as one FIFO of committed events per CPU, and what its
operations that can fail return is taken from an environment.  The sequence buffer
(`kernel/trace/trace_seq.c`) is not among the sources either; it is modelled as the bytes
written, with writes that either fit as a whole or set the overflow flag.  A call that may
sleep returns an outcome that says whether it returned or was suspended.  The kernel is
configured with `CONFIG_TRACER_MAX_TRACE`, `CONFIG_TRACER_SNAPSHOT` and `CONFIG_STACKTRACE`
and without the startup tests.

The definitions come first, the theorems after them.
-/

namespace Trace

/-! ## Data model -/

/-- The record handed to consumers: the fields of `struct trace_entry` (`ctx` stands for
`flags` and `preempt_count`, which are filled from the trace context) and the bytes of the
type-specific payload that follows it. -/
structure trace_entry where
  type : Nat
  ctx : Nat
  pid : Int
  payload : List Nat
deriving DecidableEq, Repr

/-- Modelled from the spec: a committed event of the ring buffer, whose definition is in
the absent `ring_buffer.c`: its timestamp, its length and its data. -/
structure ring_buffer_event where
  ts : Nat
  length : Nat
  data : trace_entry
deriving DecidableEq, Repr

/-- Modelled from the spec: one CPU's circular log (absent `ring_buffer.c`): the committed
events in FIFO order, oldest first, the number of events lost before the oldest, and the
capacity the log was last resized to. -/
structure ring_buffer_per_cpu where
  events : List ring_buffer_event
  lost_events : Nat
  size : Nat
deriving DecidableEq, Repr

/-- Modelled from the spec: `struct trace_buffer` (absent `ring_buffer.c`): one log per CPU,
indexed by CPU number, the recording switch, the nesting count of temporary disabling, the
sub-buffer order shared by the logs and the largest event the logs accept. -/
structure trace_buffer where
  cpus : List ring_buffer_per_cpu
  record_on : Bool
  record_disabled : Nat
  subbuf_order : Nat
  max_event_size : Nat
deriving DecidableEq, Repr

/-- Modelled from the spec: a non-consuming read cursor on one CPU's log
(`struct ring_buffer_iter` of the absent `ring_buffer.c`). -/
structure ring_buffer_iter where
  head : Nat
  dropped : Bool
deriving DecidableEq, Repr

/-- `RING_BUFFER_ALL_CPUS`. -/
def RING_BUFFER_ALL_CPUS : Int := -1

/-- `(unsigned long)-1` on a 64-bit kernel. -/
def ULONG_MAX : Nat := 2 ^ 64 - 1

/-- Modelled from the spec: the scratch string buffer of an iterator (`struct trace_seq` of
the absent `trace_seq.h`): the bytes written so far (`seq.len` of them), the position up to
which they have been handed to the reader, and the flag that a write did not fit. -/
structure trace_seq where
  buffer : List Nat := []
  readpos : Nat := 0
  full : Bool := false
deriving DecidableEq, Repr

/-- `enum print_line_t`. -/
inductive print_line_t where
  | TRACE_TYPE_PARTIAL_LINE
  | TRACE_TYPE_HANDLED
  | TRACE_TYPE_UNHANDLED
  | TRACE_TYPE_NO_CONSUME
deriving DecidableEq, Repr

/-- The fields of `struct trace_iterator` that the merge protocol and the read handles read
or write.  `array_buffer` stands for `iter->array_buffer->buffer`; `wait_index` is the
32-bit pattern of the `atomic_t`. -/
structure trace_iterator where
  array_buffer : trace_buffer
  buffer_iter : Option (List (Option ring_buffer_iter))
  cpu_file : Int
  ent : Option trace_entry
  ent_size : Nat
  cpu : Int
  ts : Nat
  lost_events : Nat
  idx : Int
  seq : trace_seq := {}
  pos : Int := 0
  snapshot : Bool := false
  closed : Bool := false
  wait_index : Nat := 0
deriving DecidableEq, Repr

/-! ## Ring buffer primitives -/

/-- Modelled from the spec: `ring_buffer_empty_cpu` of the absent `ring_buffer.c`: a CPU
without a log, or with no committed event, is empty. -/
def ring_buffer_empty_cpu (buffer : trace_buffer) (cpu : Nat) : Bool :=
  match buffer.cpus[cpu]? with
  | none => true
  | some cpu_buffer => cpu_buffer.events.isEmpty

/-- Modelled from the spec: `ring_buffer_peek` of the absent `ring_buffer.c`: the oldest
event of the CPU without consuming it; its timestamp and the lost count are stored through
the out-parameters only when there is an event. -/
def ring_buffer_peek (buffer : trace_buffer) (cpu : Nat) (ts lost_events : Nat) :
    Option ring_buffer_event × Nat × Nat :=
  match buffer.cpus[cpu]? with
  | none => (none, ts, lost_events)
  | some cpu_buffer =>
    match cpu_buffer.events with
    | [] => (none, ts, lost_events)
    | event :: _ => (some event, event.ts, cpu_buffer.lost_events)

/-- Modelled from the spec: `ring_buffer_iter_peek` of the absent `ring_buffer.c`: the event
under the cursor, its timestamp stored through `ts` only when there is one. -/
def ring_buffer_iter_peek (buffer : trace_buffer) (cpu : Nat) (buf_iter : ring_buffer_iter)
    (ts : Nat) : Option ring_buffer_event × Nat :=
  match buffer.cpus[cpu]? with
  | none => (none, ts)
  | some cpu_buffer =>
    match cpu_buffer.events[buf_iter.head]? with
    | none => (none, ts)
    | some event => (some event, event.ts)

/-- Modelled from the spec: `ring_buffer_iter_dropped` of the absent `ring_buffer.c`. -/
def ring_buffer_iter_dropped (buf_iter : ring_buffer_iter) : Bool :=
  buf_iter.dropped

/-- Modelled from the spec: `ring_buffer_iter_advance` of the absent `ring_buffer.c`. -/
def ring_buffer_iter_advance (buf_iter : ring_buffer_iter) : ring_buffer_iter :=
  { buf_iter with head := buf_iter.head + 1 }

/-- Modelled from the spec: `ring_buffer_consume` of the absent `ring_buffer.c`: removes the
oldest event of the CPU (FIFO), reporting its timestamp and the lost count. -/
def ring_buffer_consume (buffer : trace_buffer) (cpu : Nat) (ts lost_events : Nat) :
    trace_buffer × Option ring_buffer_event × Nat × Nat :=
  match buffer.cpus[cpu]? with
  | none => (buffer, none, ts, lost_events)
  | some cpu_buffer =>
    match cpu_buffer.events with
    | [] => (buffer, none, ts, lost_events)
    | event :: rest =>
      ({ buffer with
          cpus := buffer.cpus.set cpu { cpu_buffer with events := rest, lost_events := 0 } },
        some event, event.ts, cpu_buffer.lost_events)

/-- `ring_buffer_event_length`. -/
def ring_buffer_event_length (event : ring_buffer_event) : Nat := event.length

/-- `ring_buffer_event_data`. -/
def ring_buffer_event_data (event : ring_buffer_event) : trace_entry := event.data

/-- `trace_buffer_iter` (trace.h): `iter->buffer_iter ? iter->buffer_iter[cpu] : NULL`. -/
def trace_buffer_iter (iter : trace_iterator) (cpu : Nat) : Option ring_buffer_iter :=
  match iter.buffer_iter with
  | none => none
  | some arr => (arr[cpu]?).join

/-! ## The merge protocol -/

/-- `peek_next_entry`: returns the iterator (its `ent_size` updated), the entry, and the
out-parameters `ts` and `lost_events`. -/
def peek_next_entry (iter : trace_iterator) (cpu : Nat) (ts lost_events : Nat) :
    trace_iterator × Option trace_entry × Nat × Nat :=
  let r : Option ring_buffer_event × Nat × Nat :=
    match trace_buffer_iter iter cpu with
    | some buf_iter =>
      let p := ring_buffer_iter_peek iter.array_buffer cpu buf_iter ts
      (p.1, p.2, if ring_buffer_iter_dropped buf_iter then ULONG_MAX else 0)
    | none => ring_buffer_peek iter.array_buffer cpu ts lost_events
  match r.1 with
  | some event =>
    ({ iter with ent_size := ring_buffer_event_length event },
      some (ring_buffer_event_data event), r.2.1, r.2.2)
  | none => ({ iter with ent_size := 0 }, none, r.2.1, r.2.2)

/-- The local variables of the full-scope loop of `__find_next_entry`. -/
structure find_locals where
  iter : trace_iterator
  next : Option trace_entry
  next_cpu : Int
  next_ts : Nat
  next_lost : Nat
  next_size : Nat
  ts : Nat
  lost_events : Nat
deriving DecidableEq, Repr

/-- One iteration of the `for_each_tracing_cpu` loop of `__find_next_entry`. -/
def find_next_step (buffer : trace_buffer) (s : find_locals) (cpu : Nat) : find_locals :=
  if ring_buffer_empty_cpu buffer cpu then s
  else
    let r := peek_next_entry s.iter cpu s.ts s.lost_events
    match r.2.1 with
    | some ent =>
      if s.next.isNone || decide (r.2.2.1 < s.next_ts) then
        { iter := r.1, next := some ent, next_cpu := (cpu : Int), next_ts := r.2.2.1,
          next_lost := r.2.2.2, next_size := r.1.ent_size, ts := r.2.2.1,
          lost_events := r.2.2.2 }
      else { s with iter := r.1, ts := r.2.2.1, lost_events := r.2.2.2 }
    | none => { s with iter := r.1, ts := r.2.2.1, lost_events := r.2.2.2 }

/-- The CPUs `for_each_tracing_cpu` visits, in increasing order: `tracing_buffer_mask` is the
mask of possible CPUs, each of which has a log in the buffer. -/
def for_each_tracing_cpu (buffer : trace_buffer) : List Nat :=
  List.range buffer.cpus.length

/-- What `__find_next_entry` returns: the iterator, the entry, and the out-parameters. -/
structure find_result where
  iter : trace_iterator
  ent : Option trace_entry
  ent_cpu : Int
  missing_events : Nat
  ent_ts : Nat
deriving DecidableEq, Repr

/-- `__find_next_entry`.  `ent_cpu`, `missing_events` and `ent_ts` are the values the
out-parameters hold before the call. -/
def __find_next_entry (iter : trace_iterator) (ent_cpu : Int) (missing_events ent_ts : Nat) :
    find_result :=
  let buffer := iter.array_buffer
  let cpu_file := iter.cpu_file
  if cpu_file > RING_BUFFER_ALL_CPUS then
    if ring_buffer_empty_cpu buffer cpu_file.toNat then
      { iter := iter, ent := none, ent_cpu := ent_cpu, missing_events := missing_events,
        ent_ts := ent_ts }
    else
      let r := peek_next_entry iter cpu_file.toNat ent_ts missing_events
      { iter := r.1, ent := r.2.1, ent_cpu := cpu_file, missing_events := r.2.2.2,
        ent_ts := r.2.2.1 }
  else
    let s := (for_each_tracing_cpu buffer).foldl (find_next_step buffer)
      { iter := iter, next := none, next_cpu := -1, next_ts := 0, next_lost := 0,
        next_size := 0, ts := 0, lost_events := 0 }
    { iter := { s.iter with ent_size := s.next_size }, ent := s.next, ent_cpu := s.next_cpu,
      missing_events := s.next_lost, ent_ts := s.next_ts }

/-- `trace_iterator_increment`. -/
def trace_iterator_increment (iter : trace_iterator) : trace_iterator :=
  match trace_buffer_iter iter iter.cpu.toNat with
  | none => { iter with idx := iter.idx + 1 }
  | some buf_iter =>
    { iter with
      idx := iter.idx + 1
      buffer_iter := iter.buffer_iter.map
        (fun arr => arr.set iter.cpu.toNat (some (ring_buffer_iter_advance buf_iter))) }

/-- `trace_find_next_entry_inc`: the iterator afterwards and whether it returned non-NULL. -/
def trace_find_next_entry_inc (iter : trace_iterator) : trace_iterator × Bool :=
  let r := __find_next_entry iter iter.cpu iter.lost_events iter.ts
  let iter1 : trace_iterator :=
    { r.iter with ent := r.ent, cpu := r.ent_cpu, lost_events := r.missing_events,
                  ts := r.ent_ts }
  match iter1.ent with
  | some _ => (trace_iterator_increment iter1, true)
  | none => (iter1, false)

/-- `trace_consume`. -/
def trace_consume (iter : trace_iterator) : trace_iterator :=
  let r := ring_buffer_consume iter.array_buffer iter.cpu.toNat iter.ts iter.lost_events
  { iter with array_buffer := r.1, ts := r.2.2.1, lost_events := r.2.2.2 }

/-- A record as a consumer sees it: the entry, the CPU it was read from, its timestamp. -/
structure record where
  ent : trace_entry
  cpu : Int
  ts : Nat
deriving DecidableEq, Repr

/-- The consuming read loop (`tracing_read_pipe`): `trace_find_next_entry_inc` followed by
`trace_consume`, until the former returns NULL.  `none` when the fuel runs out first (a
non-NULL return comes with `iter->ent` set, so the inner `none` is never taken). -/
def drain : Nat → trace_iterator → Option (List record × trace_iterator)
  | 0, _ => none
  | fuel + 1, iter =>
    let r := trace_find_next_entry_inc iter
    if r.2 then
      match r.1.ent with
      | some ent =>
        match drain fuel (trace_consume r.1) with
        | some (out, last) => some ({ ent := ent, cpu := r.1.cpu, ts := r.1.ts } :: out, last)
        | none => none
      | none => none
    else some ([], r.1)


/-! ## Specification vocabulary for the merge protocol -/

/-- The records of `cpu` that the iterator has still to read: from the cursor on when the
iterator has one for this CPU, the whole log otherwise. -/
def pending (iter : trace_iterator) (cpu : Nat) : List ring_buffer_event :=
  match iter.array_buffer.cpus[cpu]? with
  | none => []
  | some cpu_buffer =>
    match trace_buffer_iter iter cpu with
    | some buf_iter => cpu_buffer.events.drop buf_iter.head
    | none => cpu_buffer.events

/-- Loop invariant of the full-scope scan of `__find_next_entry` once the CPUs below `n`
have been visited. -/
def scan_inv (iter : trace_iterator) (n : Nat) (s : find_locals) : Prop :=
  (∃ sz, s.iter = { iter with ent_size := sz }) ∧
  match s.next with
  | none => (∀ cpu, cpu < n → pending iter cpu = []) ∧ s.next_cpu = -1 ∧ s.next_ts = 0
  | some ent => ∃ cpu e, cpu < n ∧ s.next_cpu = (cpu : Int) ∧
      (pending iter cpu).head? = some e ∧ e.data = ent ∧ s.next_ts = e.ts ∧
      s.next_size = e.length ∧
      ∀ cpu' e', cpu' < n → (pending iter cpu').head? = some e' →
        e.ts ≤ e'.ts ∧ (cpu' < cpu → e.ts < e'.ts)

/-- The locals of `__find_next_entry` when the full-scope loop has run. -/
def scan_all (iter : trace_iterator) : find_locals :=
  (for_each_tracing_cpu iter.array_buffer).foldl (find_next_step iter.array_buffer)
    { iter := iter, next := none, next_cpu := -1, next_ts := 0, next_lost := 0,
      next_size := 0, ts := 0, lost_events := 0 }

/-- The committed records of the logs `cpus`, the first of which is CPU `start`, each with
the CPU it was committed on, CPU by CPU in commit order. -/
def records_from (start : Nat) : List ring_buffer_per_cpu → List record
  | [] => []
  | cpu_buffer :: rest =>
    cpu_buffer.events.map (fun e => { ent := e.data, cpu := (start : Int), ts := e.ts })
      ++ records_from (start + 1) rest

/-- All committed records of a buffer. -/
def committed (buffer : trace_buffer) : List record := records_from 0 buffer.cpus

/-- The committed records of one CPU of a buffer, in commit order. -/
def committed_cpu (buffer : trace_buffer) (cpu : Nat) : List record :=
  match buffer.cpus[cpu]? with
  | none => []
  | some cpu_buffer =>
    cpu_buffer.events.map (fun e => { ent := e.data, cpu := (cpu : Int), ts := e.ts })

/-- Each CPU's records are in non-decreasing timestamp order. -/
def per_cpu_ordered (buffer : trace_buffer) : Prop :=
  ∀ cpu_buffer ∈ buffer.cpus, cpu_buffer.events.Pairwise (fun a b => a.ts ≤ b.ts)

/-- Record A of the example scenario, committed on CPU 0 at timestamp 1. -/
def scenario_A : ring_buffer_event :=
  { ts := 1, length := 1, data := { type := 1, ctx := 0, pid := 100, payload := [65] } }

/-- Record B of the example scenario, committed on CPU 0 at timestamp 3. -/
def scenario_B : ring_buffer_event :=
  { ts := 3, length := 1, data := { type := 1, ctx := 0, pid := 100, payload := [66] } }

/-- Record C of the example scenario, committed on CPU 1 at timestamp 2. -/
def scenario_C : ring_buffer_event :=
  { ts := 2, length := 1, data := { type := 1, ctx := 0, pid := 200, payload := [67] } }

/-- The live buffer of the example scenario: CPU0 = [A, B], CPU1 = [C]. -/
def scenario_buffer : trace_buffer :=
  { cpus := [{ events := [scenario_A, scenario_B], lost_events := 0, size := 4 },
             { events := [scenario_C], lost_events := 0, size := 4 }],
    record_on := true, record_disabled := 0, subbuf_order := 0, max_event_size := 4072 }

/-- A freshly opened consuming iterator on `buffer` with the given scope. -/
def open_pipe (buffer : trace_buffer) (cpu_file : Int) : trace_iterator :=
  { array_buffer := buffer, buffer_iter := none, cpu_file := cpu_file, ent := none,
    ent_size := 0, cpu := 0, ts := 0, lost_events := 0, idx := 0 }

/-! ## Trace instance, snapshot engine and tracer switch -/

/-- `EBADF`. -/
def EBADF : Int := 9

/-- `ENOMEM`. -/
def ENOMEM : Int := 12

/-- `EFAULT`. -/
def EFAULT : Int := 14

/-- `EBUSY`. -/
def EBUSY : Int := 16

/-- `EINVAL`. -/
def EINVAL : Int := 22

/-- `UINT_MAX`. -/
def UINT_MAX : Nat := 2 ^ 32 - 1

/-- `MAX_RT_PRIO`. -/
def MAX_RT_PRIO : Int := 100

/-- Per-CPU bookkeeping of a log buffer set (`struct trace_array_cpu`): the cached number of
entries and the latency metadata of the task that caused a snapshot. -/
structure trace_array_cpu where
  entries : Nat
  preempt_timestamp : Nat
  critical_start : Nat
  critical_end : Nat
  saved_latency : Nat
  comm : String
  pid : Int
  uid : Nat
  nice : Int
  policy : Nat
  rt_priority : Nat
deriving DecidableEq, Repr

/-- A log buffer set (`struct array_buffer`). -/
structure array_buffer where
  buffer : trace_buffer
  data : List trace_array_cpu
  cpu : Int
  time_start : Nat
deriving DecidableEq, Repr

/-- The fields of `struct task_struct` that `__update_max_tr` reads.  `cred_uid` is what
`current_uid()` returns when the task is the running one, `real_cred_uid` what `task_uid()`
returns. -/
structure task_struct where
  comm : String
  pid : Int
  cred_uid : Nat
  real_cred_uid : Nat
  static_prio : Int
  policy : Nat
  rt_priority : Nat
deriving DecidableEq, Repr

/-- A registered conditional snapshot (`struct cond_snapshot`).  Its `update` member is a
pointer to code; the function it points to is passed to `update_max_tr` separately. -/
structure cond_snapshot where
  cond_data : Nat
deriving DecidableEq, Repr

/-- An entry of the error log (`struct tracing_log_err` with its `struct err_info`; the
function of the same name keeps the name); `errs` stands for the pointer to the table of
static error strings of the caller. -/
structure struct_tracing_log_err where
  loc : List Char
  cmd : List Char
  errs : Nat
  type : Nat
  pos : Nat
  ts : Nat
deriving DecidableEq, Repr

/-- The fields of `struct trace_array` used here.  `fl_global`, `fl_boot` and `fl_last_boot`
are the bits `TRACE_ARRAY_FL_GLOBAL`, `TRACE_ARRAY_FL_BOOT` and `TRACE_ARRAY_FL_LAST_BOOT` of
`flags`; `current_trace` is a pointer to a tracer, an index into the table of tracers. -/
structure trace_array where
  fl_global : Bool
  fl_boot : Bool
  fl_last_boot : Bool
  array_buffer : Trace.array_buffer
  max_buffer : Trace.array_buffer
  allocated_snapshot : Bool
  snapshot : Nat
  mapped : Nat
  cond_snapshot : Option Trace.cond_snapshot
  max_latency : Nat
  stop_count : Int
  current_trace : Nat
  trace_flags : Nat
  ref : Int
  trace_ref : Nat
  ring_buffer_expanded : Bool
  range_addr_start : Nat
  no_filter_buffering_ref : Nat
  n_err_log_entries : Nat
  err_log : List struct_tracing_log_err
  buffer_disabled : Int := 0
  name : Option String := none
deriving DecidableEq, Repr

/-- A tracer plugin (`struct tracer`).  The hooks are code of the plugin; `set_flag` takes
the instance, the old flags, the bit and whether to set it; `flags` says whether the
pointer of that name is set; `read` returns what the hook returns and the iterator as it
leaves it, the bytes it may hand to the reader being outside this state. -/
structure tracer where
  name : Option String
  use_max_tr : Bool
  noboot : Bool
  allow_instances : Bool
  enabled : Int
  reset : Option (trace_array → trace_array)
  init : Option (trace_array → Int × trace_array)
  flag_changed : Option (trace_array → Nat → Bool → Int)
  set_flag : Option (trace_array → Nat → Nat → Int → Int) := none
  flags : Bool := false
  read : Option (trace_iterator → Int × trace_iterator) := none
  print_line : Option (trace_iterator → print_line_t × trace_iterator) := none

/-- Modelled from the spec: what the operations of the absent `ring_buffer.c` that can fail
return (`ring_buffer_subbuf_order_set`, `ring_buffer_resize`, `ring_buffer_swap_cpu`), and
the trace clock. -/
structure ring_buffer_env where
  subbuf_order_set_ret : trace_buffer → Nat → Int
  resize_ret : trace_buffer → Nat → Int → Int
  now : Nat
  swap_cpu_ret : trace_buffer → trace_buffer → Nat → Int := fun _ _ _ => 0

/-- Modelled from the spec: `ring_buffer_record_is_set_on` of the absent `ring_buffer.c`. -/
def ring_buffer_record_is_set_on (buffer : trace_buffer) : Bool := buffer.record_on

/-- Modelled from the spec: `ring_buffer_record_on` of the absent `ring_buffer.c`. -/
def ring_buffer_record_on (buffer : trace_buffer) : trace_buffer :=
  { buffer with record_on := true }

/-- Modelled from the spec: `ring_buffer_record_off` of the absent `ring_buffer.c`. -/
def ring_buffer_record_off (buffer : trace_buffer) : trace_buffer :=
  { buffer with record_on := false }

/-- Modelled from the spec: `ring_buffer_record_disable` of the absent `ring_buffer.c`. -/
def ring_buffer_record_disable (buffer : trace_buffer) : trace_buffer :=
  { buffer with record_disabled := buffer.record_disabled + 1 }

/-- Modelled from the spec: `ring_buffer_record_enable` of the absent `ring_buffer.c`. -/
def ring_buffer_record_enable (buffer : trace_buffer) : trace_buffer :=
  { buffer with record_disabled := buffer.record_disabled - 1 }

/-- Modelled from the spec: `ring_buffer_subbuf_order_get` of the absent `ring_buffer.c`. -/
def ring_buffer_subbuf_order_get (buffer : trace_buffer) : Nat := buffer.subbuf_order

/-- Modelled from the spec: `ring_buffer_subbuf_order_set` of the absent `ring_buffer.c`:
on success the logs of the buffer have the given sub-buffer order. -/
def ring_buffer_subbuf_order_set (env : ring_buffer_env) (buffer : trace_buffer)
    (order : Nat) : Int × trace_buffer :=
  let ret := env.subbuf_order_set_ret buffer order
  if ret < 0 then (ret, buffer) else (ret, { buffer with subbuf_order := order })

/-- Modelled from the spec: `ring_buffer_resize` of the absent `ring_buffer.c`: on success
the log of `cpu_id`, or every log for `RING_BUFFER_ALL_CPUS`, has capacity `size`. -/
def ring_buffer_resize (env : ring_buffer_env) (buffer : trace_buffer) (size : Nat)
    (cpu_id : Int) : Int × trace_buffer :=
  let ret := env.resize_ret buffer size cpu_id
  if ret < 0 then (ret, buffer)
  else if cpu_id = RING_BUFFER_ALL_CPUS then
    (ret, { buffer with cpus := buffer.cpus.map (fun c => { c with size := size }) })
  else
    (ret, { buffer with
      cpus := List.modify (fun c => { c with size := size }) cpu_id.toNat buffer.cpus })

/-- Modelled from the spec: `ring_buffer_size` of the absent `ring_buffer.c`. -/
def ring_buffer_size (buffer : trace_buffer) (cpu : Nat) : Nat :=
  match buffer.cpus[cpu]? with
  | none => 0
  | some c => c.size

/-- Modelled from the spec: `ring_buffer_reset` and `ring_buffer_reset_online_cpus` of the
absent `ring_buffer.c`: every log is emptied. -/
def ring_buffer_reset (buffer : trace_buffer) : trace_buffer :=
  { buffer with cpus := buffer.cpus.map (fun c => { c with events := [], lost_events := 0 }) }

/-- `__update_max_tr`.  `cpu` is a valid CPU number.  The calls `tracing_record_cmdline` and
`latency_fsnotify` at its end leave the instance as it is. -/
def __update_max_tr (tr : trace_array) (tsk : task_struct) (tsk_is_current : Bool)
    (cpu : Nat) : trace_array :=
  match tr.array_buffer.data[cpu]?, tr.max_buffer.data[cpu]? with
  | some data, some max_data =>
    let max_data1 : trace_array_cpu :=
      { max_data with
        saved_latency := tr.max_latency
        critical_start := data.critical_start
        critical_end := data.critical_end
        comm := tsk.comm
        pid := tsk.pid
        uid := if tsk_is_current then tsk.cred_uid else tsk.real_cred_uid
        nice := tsk.static_prio - 20 - MAX_RT_PRIO
        policy := tsk.policy
        rt_priority := tsk.rt_priority }
    { tr with
      max_buffer :=
        { tr.max_buffer with
          cpu := (cpu : Int)
          time_start := data.preempt_timestamp
          data := tr.max_buffer.data.set cpu max_data1 } }
  | _, _ => tr

/-- `update_max_tr`.  `update` is the function `tr->cond_snapshot->update` points to. -/
def update_max_tr (update : trace_array → Nat → Bool) (tr : trace_array)
    (tsk : task_struct) (tsk_is_current : Bool) (cpu : Nat) (cond_data : Nat) : trace_array :=
  if tr.stop_count ≠ 0 then tr
  else if !tr.allocated_snapshot then tr
  else
    /- Inherit the recordable setting from array_buffer -/
    let tr1 : trace_array :=
      { tr with
        max_buffer :=
          { tr.max_buffer with
            buffer :=
              if ring_buffer_record_is_set_on tr.array_buffer.buffer then
                ring_buffer_record_on tr.max_buffer.buffer
              else ring_buffer_record_off tr.max_buffer.buffer } }
    if tr1.cond_snapshot.isSome && !update tr1 cond_data then tr1
    else
      let tr2 : trace_array :=
        { tr1 with
          array_buffer := { tr1.array_buffer with buffer := tr1.max_buffer.buffer }
          max_buffer := { tr1.max_buffer with buffer := tr1.array_buffer.buffer } }
      __update_max_tr tr2 tsk tsk_is_current cpu

/-- `set_buffer_entries`. -/
def set_buffer_entries (buf : array_buffer) (val : Nat) : array_buffer :=
  { buf with data := buf.data.map (fun d => { d with entries := val }) }

/-- `tracing_reset_online_cpus`. -/
def tracing_reset_online_cpus (env : ring_buffer_env) (buf : array_buffer) : array_buffer :=
  { buf with
    time_start := env.now
    buffer :=
      ring_buffer_record_enable (ring_buffer_reset (ring_buffer_record_disable buf.buffer)) }

/-- `per_cpu_ptr(buf->data, cpu)->entries`. -/
def per_cpu_entries (buf : array_buffer) (cpu : Nat) : Nat :=
  match buf.data[cpu]? with
  | some d => d.entries
  | none => 0

/-- The loop of `resize_buffer_duplicate_size` for `RING_BUFFER_ALL_CPUS`: `ret` is the
value the variable holds when the remaining CPUs are visited. -/
def resize_buffer_duplicate_loop (env : ring_buffer_env) (size_buf : array_buffer) :
    List Nat → Int → array_buffer → Int × array_buffer
  | [], ret, trace_buf => (ret, trace_buf)
  | cpu :: rest, _, trace_buf =>
    let entries := per_cpu_entries size_buf cpu
    let r := ring_buffer_resize env trace_buf.buffer entries (cpu : Int)
    if r.1 < 0 then (r.1, { trace_buf with buffer := r.2 })
    else
      resize_buffer_duplicate_loop env size_buf rest r.1
        { trace_buf with
          buffer := r.2
          data := List.modify (fun d => { d with entries := entries }) cpu trace_buf.data }

/-- `resize_buffer_duplicate_size`. -/
def resize_buffer_duplicate_size (env : ring_buffer_env) (trace_buf size_buf : array_buffer)
    (cpu_id : Int) : Int × array_buffer :=
  if cpu_id = RING_BUFFER_ALL_CPUS then
    resize_buffer_duplicate_loop env size_buf (for_each_tracing_cpu trace_buf.buffer) 0
      trace_buf
  else
    let entries := per_cpu_entries size_buf cpu_id.toNat
    let r := ring_buffer_resize env trace_buf.buffer entries cpu_id
    if r.1 = 0 then
      (r.1, { trace_buf with
        buffer := r.2
        data := List.modify (fun d => { d with entries := entries }) cpu_id.toNat
          trace_buf.data })
    else (r.1, { trace_buf with buffer := r.2 })

/-- `tracing_alloc_snapshot_instance`. -/
def tracing_alloc_snapshot_instance (env : ring_buffer_env) (tr : trace_array) :
    Int × trace_array :=
  if !tr.allocated_snapshot then
    /- Make the snapshot buffer have the same order as main buffer -/
    let order := ring_buffer_subbuf_order_get tr.array_buffer.buffer
    let r := ring_buffer_subbuf_order_set env tr.max_buffer.buffer order
    let tr1 : trace_array := { tr with max_buffer := { tr.max_buffer with buffer := r.2 } }
    if r.1 < 0 then (r.1, tr1)
    else
      /- allocate spare buffer -/
      let r2 := resize_buffer_duplicate_size env tr1.max_buffer tr1.array_buffer
        RING_BUFFER_ALL_CPUS
      let tr2 : trace_array := { tr1 with max_buffer := r2.2 }
      if r2.1 < 0 then (r2.1, tr2)
      else (0, { tr2 with allocated_snapshot := true })
  else (0, tr)

/-- `free_snapshot`. -/
def free_snapshot (env : ring_buffer_env) (tr : trace_array) : trace_array :=
  let b1 := (ring_buffer_subbuf_order_set env tr.max_buffer.buffer 0).2
  let b2 := (ring_buffer_resize env b1 1 RING_BUFFER_ALL_CPUS).2
  let max1 := set_buffer_entries { tr.max_buffer with buffer := b2 } 1
  { tr with max_buffer := tracing_reset_online_cpus env max1, allocated_snapshot := false }

/-- `tracing_arm_snapshot_locked`. -/
def tracing_arm_snapshot_locked (env : ring_buffer_env) (tr : trace_array) :
    Int × trace_array :=
  if tr.snapshot = UINT_MAX || tr.mapped ≠ 0 then (-EBUSY, tr)
  else
    let tr1 : trace_array := { tr with snapshot := tr.snapshot + 1 }
    let r := tracing_alloc_snapshot_instance env tr1
    if r.1 ≠ 0 then (r.1, { r.2 with snapshot := r.2.snapshot - 1 })
    else (r.1, r.2)

/-- `tracing_arm_snapshot`: `tracing_arm_snapshot_locked` under `trace_types_lock`. -/
def tracing_arm_snapshot (env : ring_buffer_env) (tr : trace_array) : Int × trace_array :=
  tracing_arm_snapshot_locked env tr

/-- `tracing_disarm_snapshot`. -/
def tracing_disarm_snapshot (tr : trace_array) : trace_array :=
  if tr.snapshot ≠ 0 then { tr with snapshot := tr.snapshot - 1 } else tr

/-- Global state of `trace.c` read or written by the tracer switch.  `trace_types` holds the
registered tracers in list order, a tracer pointer being an index into it; `nop_trace` is
`&nop_trace`; `system_running` says `system_state >= SYSTEM_RUNNING`. -/
structure tracer_globals where
  trace_types : List tracer
  nop_trace : Nat
  tracing_disabled : Bool
  trace_buf_size : Nat
  system_running : Bool

/-- A call of a tracer hook, with the tracer it belongs to. -/
inductive hook_call where
  | reset (t : Nat)
  | init (t : Nat)
deriving DecidableEq, Repr

/-- What `tracing_set_tracer` leaves behind: its return value, the globals, the instance
and the hooks it called, in order. -/
structure set_tracer_result where
  ret : Int
  g : tracer_globals
  tr : trace_array
  calls : List hook_call

/-- `tracing_reset_all_cpus`. -/
def tracing_reset_all_cpus (env : ring_buffer_env) (buf : array_buffer) : array_buffer :=
  { buf with
    time_start := env.now
    buffer :=
      ring_buffer_record_enable (ring_buffer_reset (ring_buffer_record_disable buf.buffer)) }

/-- `update_last_data`, on the fields of the instance modelled here (the scratch area and
the module list of a boot-mapped instance are not). -/
def update_last_data (env : ring_buffer_env) (tr : trace_array) : trace_array :=
  if !tr.fl_boot then tr
  else if !tr.fl_last_boot then tr
  else
    { tr with
      fl_last_boot := false
      array_buffer := tracing_reset_all_cpus env tr.array_buffer }

/-- `tracing_stop_tr`. -/
def tracing_stop_tr (tr : trace_array) : trace_array :=
  if tr.stop_count ≠ 0 then { tr with stop_count := tr.stop_count + 1 }
  else
    { tr with
      stop_count := tr.stop_count + 1
      array_buffer :=
        { tr.array_buffer with buffer := ring_buffer_record_disable tr.array_buffer.buffer }
      max_buffer :=
        { tr.max_buffer with buffer := ring_buffer_record_disable tr.max_buffer.buffer } }

/-- `tracing_start_tr`. -/
def tracing_start_tr (g : tracer_globals) (tr : trace_array) : trace_array :=
  if g.tracing_disabled then tr
  else if tr.stop_count - 1 ≠ 0 then
    if tr.stop_count - 1 < 0 then { tr with stop_count := 0 }
    else { tr with stop_count := tr.stop_count - 1 }
  else
    { tr with
      stop_count := tr.stop_count - 1
      array_buffer :=
        { tr.array_buffer with buffer := ring_buffer_record_enable tr.array_buffer.buffer }
      max_buffer :=
        { tr.max_buffer with buffer := ring_buffer_record_enable tr.max_buffer.buffer } }

/-- `update_buffer_entries`. -/
def update_buffer_entries (buf : array_buffer) (cpu : Int) : array_buffer :=
  if cpu = RING_BUFFER_ALL_CPUS then set_buffer_entries buf (ring_buffer_size buf.buffer 0)
  else
    let val := ring_buffer_size buf.buffer cpu.toNat
    { buf with data := List.modify (fun d => { d with entries := val }) cpu.toNat buf.data }

/-- `__tracing_resize_ring_buffer`. -/
def __tracing_resize_ring_buffer (env : ring_buffer_env) (g : tracer_globals)
    (tr : trace_array) (size : Nat) (cpu : Int) : Int × tracer_globals × trace_array :=
  let tr0 : trace_array := { tr with ring_buffer_expanded := true }
  /- Do not allow tracing while resizing ring buffer -/
  let tr1 := tracing_stop_tr tr0
  let r := ring_buffer_resize env tr1.array_buffer.buffer size cpu
  let tr2 : trace_array := { tr1 with array_buffer := { tr1.array_buffer with buffer := r.2 } }
  if r.1 < 0 then (r.1, g, tracing_start_tr g tr2)
  else if !tr2.allocated_snapshot then
    let tr3 : trace_array :=
      { tr2 with array_buffer := update_buffer_entries tr2.array_buffer cpu }
    (r.1, g, tracing_start_tr g tr3)
  else
    let rm := ring_buffer_resize env tr2.max_buffer.buffer size cpu
    let tr3 : trace_array := { tr2 with max_buffer := { tr2.max_buffer with buffer := rm.2 } }
    if rm.1 < 0 then
      let rr := resize_buffer_duplicate_size env tr3.array_buffer tr3.array_buffer cpu
      let tr4 : trace_array := { tr3 with array_buffer := rr.2 }
      let g1 : tracer_globals := if rr.1 < 0 then { g with tracing_disabled := true } else g
      (rm.1, g1, tracing_start_tr g1 tr4)
    else
      let tr4 : trace_array :=
        { tr3 with max_buffer := update_buffer_entries tr3.max_buffer cpu }
      let tr5 : trace_array :=
        { tr4 with array_buffer := update_buffer_entries tr4.array_buffer cpu }
      (rm.1, g, tracing_start_tr g tr5)

/-- `trace_ok_for_array`. -/
def trace_ok_for_array (t : tracer) (tr : trace_array) : Bool :=
  if tr.range_addr_start ≠ 0 && t.use_max_tr then false
  else tr.fl_global || t.allow_instances

/-- The lookup loop of `tracing_set_tracer`: the first registered tracer named `buf`. -/
def find_tracer (trace_types : List tracer) (buf : String) : Option Nat :=
  let i := trace_types.findIdx (fun t => t.name == some buf)
  if i < trace_types.length then some i else none

/-- `t->enabled += d` on the tracer `t` points to. -/
def tracer_enabled_add (g : tracer_globals) (t : Nat) (d : Int) : tracer_globals :=
  { g with
    trace_types :=
      List.modify (fun x => { x with enabled := x.enabled + d }) t g.trace_types }

/-- `tracer_init`: the instance afterwards and what `t->init` returned. -/
def tracer_init (env : ring_buffer_env) (init : trace_array → Int × trace_array)
    (tr : trace_array) : Int × trace_array :=
  init { tr with array_buffer := tracing_reset_online_cpus env tr.array_buffer }

/-- The part of `tracing_set_tracer` after its checks: tear down the current tracer `cur`
(object `old`), then set up `t` (object `new`).  The branch tracer switches
(`trace_branch_disable`, `trace_branch_enable`) and `synchronize_rcu` leave this state
as it is. -/
def tracing_set_tracer_switch (env : ring_buffer_env) (g : tracer_globals) (tr : trace_array)
    (cur : Nat) (old : tracer) (t : Nat) (new : tracer) : set_tracer_result :=
  let g1 := tracer_enabled_add g cur (-1)
  let tr1 := match old.reset with
    | some reset => reset tr
    | none => tr
  let calls1 := match old.reset with
    | some _ => [hook_call.reset cur]
    | none => []
  let had_max_tr := old.use_max_tr
  /- Current trace needs to be nop_trace before synchronize_rcu -/
  let tr2 : trace_array := { tr1 with current_trace := g.nop_trace }
  let tr3 :=
    if had_max_tr && !new.use_max_tr then tracing_disarm_snapshot (free_snapshot env tr2)
    else tr2
  let armed : Int × trace_array :=
    if !had_max_tr && new.use_max_tr then tracing_arm_snapshot_locked env tr3 else (0, tr3)
  if armed.1 ≠ 0 then { ret := armed.1, g := g1, tr := armed.2, calls := calls1 }
  else
    let started : Int × trace_array := match new.init with
      | some init => tracer_init env init armed.2
      | none => (0, armed.2)
    let calls2 := match new.init with
      | some _ => calls1 ++ [hook_call.init t]
      | none => calls1
    if started.1 ≠ 0 then
      { ret := started.1, g := g1,
        tr := if new.use_max_tr then tracing_disarm_snapshot started.2 else started.2,
        calls := calls2 }
    else
      { ret := 0, g := tracer_enabled_add g1 t 1, tr := { started.2 with current_trace := t },
        calls := calls2 }

/-- The first statements of `tracing_set_tracer`: `update_last_data`, then the expansion of
the ring buffer if it has not been expanded yet.  Returns `ret`, the globals and the
instance. -/
def tracing_set_tracer_expand (env : ring_buffer_env) (g : tracer_globals) (tr : trace_array) :
    Int × tracer_globals × trace_array :=
  let tr0 := update_last_data env tr
  if !tr0.ring_buffer_expanded then
    __tracing_resize_ring_buffer env g tr0 g.trace_buf_size RING_BUFFER_ALL_CPUS
  else (0, g, tr0)

/-- `tracing_set_tracer`.  `tr->current_trace` points to a registered tracer; on a dangling
pointer, where the C code is undefined, the model rejects the call. -/
def tracing_set_tracer (env : ring_buffer_env) (g : tracer_globals) (tr : trace_array)
    (buf : String) : set_tracer_result :=
  let r := tracing_set_tracer_expand env g tr
  if r.1 < 0 then { ret := r.1, g := r.2.1, tr := r.2.2, calls := [] }
  else
    let g0 := r.2.1
    let tr1 := r.2.2
    match find_tracer g0.trace_types buf with
    | none => { ret := -EINVAL, g := g0, tr := tr1, calls := [] }
    | some t =>
      match g0.trace_types[t]?, g0.trace_types[tr1.current_trace]? with
      | some new, some old =>
        if t = tr1.current_trace then { ret := 0, g := g0, tr := tr1, calls := [] }
        else if new.use_max_tr && tr1.cond_snapshot.isSome then
          { ret := -EBUSY, g := g0, tr := tr1, calls := [] }
        /- Some tracers do not work on the kernel command line -/
        else if !g0.system_running && new.noboot then
          { ret := -EINVAL, g := g0, tr := tr1, calls := [] }
        /- Some tracers are only allowed for the top level buffer -/
        else if !trace_ok_for_array new tr1 then
          { ret := -EINVAL, g := g0, tr := tr1, calls := [] }
        /- If trace pipe files are being read, the tracer cannot be changed -/
        else if tr1.trace_ref ≠ 0 then { ret := -EBUSY, g := g0, tr := tr1, calls := [] }
        else tracing_set_tracer_switch env g0 tr1 tr1.current_trace old t new
      | _, _ => { ret := -EINVAL, g := g0, tr := tr1, calls := [] }

/-! ## Reservation and commit -/

/-- `PAGE_SIZE`, for 4 KiB pages. -/
def PAGE_SIZE : Nat := 4096

/-- `sizeof(struct ring_buffer_event)` plus one element of its `array` member, that is
`struct_size(entry, array, 1)`: two 32-bit words. -/
def RB_EVENT_HDR_SIZE : Nat := 8

/-- `sizeof(struct print_entry)` on a 64-bit kernel: the 8 bytes of `struct trace_entry` and
the 8-byte `ip`; the flexible `buf` follows. -/
def sizeof_print_entry : Nat := 16

/-- `sizeof(struct raw_data_entry)`: the 8 bytes of `struct trace_entry` and the 4-byte
`id`; the flexible `buf` follows. -/
def sizeof_raw_data_entry : Nat := 12

/-- `TRACE_MARKER_MAX_SIZE`. -/
def TRACE_MARKER_MAX_SIZE : Nat := 4096

/-- `FAULTED_STR`, the bytes of "<faulted>". -/
def FAULTED_STR : List Nat := [60, 102, 97, 117, 108, 116, 101, 100, 62]

/-- `FAULTED_SIZE`. -/
def FAULTED_SIZE : Nat := 9

/-- `TRACE_PRINT`, the event type of a marker (its value, from the absent `trace.h`, plays
no part). -/
def TRACE_PRINT : Nat := 5

/-- `TRACE_RAW_DATA` (see `TRACE_PRINT`). -/
def TRACE_RAW_DATA : Nat := 15

/-- `TRACE_ITER_MARKERS`: bit 21 of the option flags.  The bit positions of the
`TRACE_ITER_` flags are those of the `TRACE_FLAGS` list of the absent `trace.h`; what
matters here is that they are distinct single bits. -/
def TRACE_ITER_MARKERS : Nat := 1 <<< 21

/-- Arithmetic in `size_t` (64 bits). -/
def size_t (n : Int) : Nat := (n % (2 ^ 64 : Int)).toNat

/-- Modelled from the spec: `ring_buffer_max_event_size` of the absent `ring_buffer.c`. -/
def ring_buffer_max_event_size (buffer : trace_buffer) : Nat := buffer.max_event_size

/-- Modelled from the spec: `ring_buffer_lock_reserve` of the absent `ring_buffer.c`: the
reservation fails when recording is off or the event is larger than the configured
maximum; otherwise it hands out a blank event of the requested length, stamped with the
clock. -/
def ring_buffer_lock_reserve (env : ring_buffer_env) (buffer : trace_buffer) (length : Nat) :
    Option ring_buffer_event :=
  if !buffer.record_on || buffer.record_disabled ≠ 0 || length > buffer.max_event_size then
    none
  else
    some { ts := env.now, length := length,
           data := { type := 0, ctx := 0, pid := 0, payload := [] } }

/-- Modelled from the spec: `ring_buffer_unlock_commit` of the absent `ring_buffer.c`: the
event reserved on `cpu` becomes the newest committed record of that CPU. -/
def ring_buffer_unlock_commit (buffer : trace_buffer) (cpu : Nat) (event : ring_buffer_event) :
    trace_buffer :=
  { buffer with
    cpus := List.modify (fun c => { c with events := c.events ++ [event] }) cpu buffer.cpus }

/-- Modelled from the spec: `ring_buffer_write` of the absent `ring_buffer.c`: reserve
`length` bytes, copy `data` into them and commit, or do nothing if the reservation fails. -/
def ring_buffer_write (env : ring_buffer_env) (buffer : trace_buffer) (cpu : Nat)
    (length : Nat) (data : trace_entry) : trace_buffer :=
  match ring_buffer_lock_reserve env buffer length with
  | none => buffer
  | some event => ring_buffer_unlock_commit buffer cpu { event with data := data }

/-- `trace_event_setup` (with `tracing_generic_entry_update` of the absent `trace_event.c`,
which fills the type, the context bits and the pid of the current task). -/
def trace_event_setup (ent : trace_entry) (type : Nat) (trace_ctx : Nat) (pid : Int) :
    trace_entry :=
  { ent with type := type, ctx := trace_ctx, pid := pid }

/-- `__trace_buffer_lock_reserve`.  `pid` is the pid of the current task. -/
def __trace_buffer_lock_reserve (env : ring_buffer_env) (buffer : trace_buffer) (type : Nat)
    (len : Nat) (trace_ctx : Nat) (pid : Int) : Option ring_buffer_event :=
  match ring_buffer_lock_reserve env buffer len with
  | some event => some { event with data := trace_event_setup event.data type trace_ctx pid }
  | none => none

/-- The caller of a marker write: the CPU it runs on, its trace context and pid, the bytes
at `ubuf`, whether copying them from user space faults, and the most significant byte of
`_THIS_IP_`, which is the byte in front of `entry->buf`. -/
structure marker_caller where
  cpu : Nat
  trace_ctx : Nat
  pid : Int
  ubuf : List Nat
  faults : Bool
  ip_top_byte : Nat

/-- What a marker write returns and the live buffer it leaves behind. -/
structure marker_result where
  written : Int
  buffer : trace_buffer
deriving DecidableEq, Repr

/-- The part of `tracing_mark_write` from the label `again` on, for an instance without
triggers on its marker file.  `none` when the fuel for the `goto again` runs out. -/
def tracing_mark_write_again (env : ring_buffer_env) (buffer : trace_buffer)
    (c : marker_caller) : Nat → Nat → Option marker_result
  | 0, _ => none
  | fuel + 1, cnt =>
    let meta_size := sizeof_print_entry + 2
    let size0 := size_t (cnt + meta_size)
    /- If less than "<faulted>", then make sure we can still add that -/
    let size := if cnt < FAULTED_SIZE then size_t (size0 + (FAULTED_SIZE - cnt)) else size0
    match __trace_buffer_lock_reserve env buffer TRACE_PRINT size c.trace_ctx c.pid with
    | none =>
      /- If the size was greater than what was allowed, then make it smaller and try again -/
      if size > ring_buffer_max_event_size buffer then
        if cnt < FAULTED_SIZE then some { written := -EBADF, buffer := buffer }
        else
          let cnt1 := size_t ((ring_buffer_max_event_size buffer : Int) - meta_size)
          if size_t (cnt1 + meta_size) = size then some { written := -EBADF, buffer := buffer }
          else tracing_mark_write_again env buffer c fuel cnt1
      /- Ring buffer disabled, return as if not open for write -/
      else some { written := -EBADF, buffer := buffer }
    | some event =>
      let text := if c.faults then FAULTED_STR else c.ubuf.take cnt
      let cnt2 := if c.faults then FAULTED_SIZE else cnt
      let written : Int := if c.faults then -EFAULT else (cnt : Int)
      let last := if cnt2 = 0 then c.ip_top_byte else text.getD (cnt2 - 1) 0
      let buf := if last ≠ 10 then text ++ [10, 0] else text ++ [0]
      some { written := written,
             buffer := ring_buffer_unlock_commit buffer c.cpu
               { event with data := { event.data with payload := buf } } }

/-- `tracing_mark_write`, for an instance without triggers on its marker file.  `cnt` is
the `size_t` count of the write. -/
def tracing_mark_write (env : ring_buffer_env) (tracing_disabled : Bool) (tr : trace_array)
    (c : marker_caller) (cnt : Nat) (fuel : Nat) : Option marker_result :=
  if tracing_disabled then some { written := -EINVAL, buffer := tr.array_buffer.buffer }
  else if tr.trace_flags &&& TRACE_ITER_MARKERS = 0 then
    some { written := -EINVAL, buffer := tr.array_buffer.buffer }
  else if cnt ≥ 2 ^ 63 then some { written := -EINVAL, buffer := tr.array_buffer.buffer }
  else
    let cnt1 := if cnt > TRACE_MARKER_MAX_SIZE then TRACE_MARKER_MAX_SIZE else cnt
    tracing_mark_write_again env tr.array_buffer.buffer c fuel cnt1

/-- `tracing_mark_raw_write`.  The payload starts at `entry->id`. -/
def tracing_mark_raw_write (env : ring_buffer_env) (tracing_disabled : Bool) (tr : trace_array)
    (c : marker_caller) (cnt : Nat) : marker_result :=
  let buffer := tr.array_buffer.buffer
  if tracing_disabled then { written := -EINVAL, buffer := buffer }
  else if tr.trace_flags &&& TRACE_ITER_MARKERS = 0 then { written := -EINVAL, buffer := buffer }
  /- The marker must at least have a tag id -/
  else if cnt < 4 then { written := -EINVAL, buffer := buffer }
  else
    let size0 : Int := ((sizeof_raw_data_entry + cnt : Nat) : Int)
    let size : Int :=
      if cnt < FAULTED_SIZE + 4 then size0 + ((FAULTED_SIZE + 4 - cnt : Nat) : Int) else size0
    let size32 : Int := (size + 2 ^ 31) % 2 ^ 32 - 2 ^ 31
    if size_t size32 > ring_buffer_max_event_size buffer then
      { written := -EINVAL, buffer := buffer }
    else
      match __trace_buffer_lock_reserve env buffer TRACE_RAW_DATA (size_t size32) c.trace_ctx
        c.pid with
      | none => { written := -EBADF, buffer := buffer }
      | some event =>
        let payload :=
          if c.faults then [255, 255, 255, 255] ++ FAULTED_STR else c.ubuf.take cnt
        let written : Int := if c.faults then -EFAULT else (cnt : Int)
        { written := written,
          buffer := ring_buffer_unlock_commit buffer c.cpu
            { event with data := { event.data with payload := payload } } }

/-! ## The per-CPU temp buffer of the filtered fast path -/

/-- The page `trace_buffered_event` points to on one CPU, used as a `ring_buffer_event`
with `type_len` zero: `array[0]` holds the length and the entry starts at `array[1]`. -/
structure buffered_event where
  array0 : Nat
  data : trace_entry
deriving DecidableEq, Repr

/-- The per-CPU variables `trace_buffered_event` and `trace_buffered_event_cnt` of one
CPU. -/
structure buffered_percpu where
  trace_buffered_event : Option buffered_event
  trace_buffered_event_cnt : Int
deriving DecidableEq, Repr

/-- The fields of `struct trace_event_file` that the reservation reads: the bits
`EVENT_FILE_FL_SOFT_DISABLED`, `EVENT_FILE_FL_FILTERED` and `EVENT_FILE_FL_TRIGGER_COND` of
`flags`, and of `tr` what the reservation reads besides its live buffer. -/
structure trace_event_file where
  soft_disabled : Bool
  filtered : Bool
  trigger_cond : Bool
  no_filter_buffering_ref : Nat
deriving DecidableEq, Repr

/-- The buffer `*current_rb` is left pointing to. -/
inductive current_rb where
  | live
  | temp_buffer
deriving DecidableEq, Repr

/-- The event a reservation hands out: the temp buffer of this CPU, or an event reserved
in a ring buffer. -/
inductive reserved_event where
  | buffered (e : buffered_event)
  | ring (rb : current_rb) (e : ring_buffer_event)
deriving DecidableEq, Repr

/-- What `trace_event_buffer_lock_reserve` returns and leaves behind. -/
structure reserve_result where
  entry : Option reserved_event
  rb : current_rb
  percpu : buffered_percpu
deriving DecidableEq, Repr

/-- `trace_event_buffer_lock_reserve`, on the CPU whose per-CPU variables are `pc`, for a
file of an instance with live buffer `buffer`; `temp_buffer` is the global of that name. -/
def trace_event_buffer_lock_reserve (env : ring_buffer_env) (buffer temp_buffer : trace_buffer)
    (pc : buffered_percpu) (trace_file : trace_event_file) (type : Nat) (len : Nat)
    (trace_ctx : Nat) (pid : Int) : reserve_result :=
  let slow (pc1 : buffered_percpu) : reserve_result :=
    match __trace_buffer_lock_reserve env buffer type len trace_ctx pid with
    | some e => { entry := some (reserved_event.ring current_rb.live e), rb := current_rb.live,
                  percpu := pc1 }
    | none =>
      /- If tracing is off, but we have triggers enabled we still need to look at the
         event data. -/
      if trace_file.trigger_cond then
        { entry := (__trace_buffer_lock_reserve env temp_buffer type len trace_ctx pid).map
            (reserved_event.ring current_rb.temp_buffer),
          rb := current_rb.temp_buffer, percpu := pc1 }
      else { entry := none, rb := current_rb.live, percpu := pc1 }
  if trace_file.no_filter_buffering_ref = 0 &&
      (trace_file.soft_disabled || trace_file.filtered) then
    match pc.trace_buffered_event with
    | some entry =>
      let max_len := PAGE_SIZE - RB_EVENT_HDR_SIZE
      let val := pc.trace_buffered_event_cnt + 1
      if val = 1 ∧ len ≤ max_len then
        let entry1 : buffered_event :=
          { array0 := len, data := trace_event_setup entry.data type trace_ctx pid }
        { entry := some (reserved_event.buffered entry1), rb := current_rb.live,
          percpu := { trace_buffered_event := some entry1, trace_buffered_event_cnt := val } }
      else slow { pc with trace_buffered_event_cnt := val - 1 }
    | none => slow pc
  else slow pc

/-- `__buffer_unlock_commit`, on CPU `cpu` with per-CPU variables `pc`: the event is the
temp buffer exactly when it is the one `trace_buffered_event` points to. -/
def __buffer_unlock_commit (env : ring_buffer_env) (buffer : trace_buffer) (cpu : Nat)
    (pc : buffered_percpu) (event : reserved_event) : trace_buffer × buffered_percpu :=
  match event with
  | reserved_event.buffered e =>
    /- Length is in event->array[0] -/
    (ring_buffer_write env buffer cpu e.array0 e.data,
      { pc with trace_buffered_event_cnt := pc.trace_buffered_event_cnt - 1 })
  | reserved_event.ring _ e => (ring_buffer_unlock_commit buffer cpu e, pc)

/-- Whether a reserved event is the temp buffer. -/
def reserved_event.is_buffered : reserved_event → Bool
  | reserved_event.buffered _ => true
  | reserved_event.ring _ _ => false

/-- One CPU at work: its per-CPU variables, the live buffer, and the events reserved on
it and not yet committed. -/
structure cpu_state where
  percpu : buffered_percpu
  buffer : trace_buffer
  outstanding : List reserved_event
deriving DecidableEq, Repr

/-- What a producer on the CPU does next: reserve an event, or commit the `i`-th of the
outstanding ones. -/
inductive producer_op where
  | reserve (trace_file : trace_event_file) (type len trace_ctx : Nat) (pid : Int)
  | commit (i : Nat)
deriving DecidableEq, Repr

/-- The CPU after one producer operation. -/
def producer_step (env : ring_buffer_env) (temp_buffer : trace_buffer) (cpu : Nat)
    (s : cpu_state) : producer_op → cpu_state
  | producer_op.reserve trace_file type len trace_ctx pid =>
    let r := trace_event_buffer_lock_reserve env s.buffer temp_buffer s.percpu trace_file type
      len trace_ctx pid
    match r.entry with
    | some e => { s with percpu := r.percpu, outstanding := e :: s.outstanding }
    | none => { s with percpu := r.percpu }
  | producer_op.commit i =>
    match s.outstanding[i]? with
    | some (reserved_event.ring current_rb.temp_buffer _) =>
      { s with outstanding := s.outstanding.eraseIdx i }
    | some e =>
      let r := __buffer_unlock_commit env s.buffer cpu s.percpu e
      { percpu := r.2, buffer := r.1, outstanding := s.outstanding.eraseIdx i }
    | none => s

/-- The number of temp-buffer reservations outstanding on a CPU. -/
def outstanding_buffered (s : cpu_state) : Nat :=
  (s.outstanding.filter reserved_event.is_buffered).length

/-- A CPU on which nothing is reserved, with the temp buffer free. -/
def cpu_idle (s : cpu_state) : Prop :=
  s.outstanding = [] ∧ s.percpu.trace_buffered_event_cnt = 0

/-! ## Option flags and the printk designation -/

/-- `TRACE_ITER_PRINTK` (for the bit positions see `TRACE_ITER_MARKERS`). -/
def TRACE_ITER_PRINTK : Nat := 1 <<< 9

/-- `TRACE_ITER_RECORD_CMD`. -/
def TRACE_ITER_RECORD_CMD : Nat := 1 <<< 16

/-- `TRACE_ITER_RECORD_TGID`. -/
def TRACE_ITER_RECORD_TGID : Nat := 1 <<< 17

/-- `TRACE_ITER_OVERWRITE`. -/
def TRACE_ITER_OVERWRITE : Nat := 1 <<< 18

/-- `TRACE_ITER_EVENT_FORK`. -/
def TRACE_ITER_EVENT_FORK : Nat := 1 <<< 22

/-- `TRACE_ITER_TRACE_PRINTK`. -/
def TRACE_ITER_TRACE_PRINTK : Nat := 1 <<< 23

/-- `TRACE_ITER_FUNC_FORK`. -/
def TRACE_ITER_FUNC_FORK : Nat := 1 <<< 27

/-- `ZEROED_TRACE_FLAGS`. -/
def ZEROED_TRACE_FLAGS : Nat :=
  TRACE_ITER_EVENT_FORK ||| TRACE_ITER_FUNC_FORK ||| TRACE_ITER_TRACE_PRINTK

/-- `TRACE_FLAGS_MAX_SIZE`. -/
def TRACE_FLAGS_MAX_SIZE : Nat := 32

/-- `ENODEV`. -/
def ENODEV : Int := 19

/-- The address of `global_trace`. -/
def global_trace : Nat := 0

/-- The trace instances of the system: the `struct trace_array` objects by address (the
listed instances, with `global_trace`), the pointer `printk_trace`, the tracers, and the
list `ftrace_trace_arrays` as the addresses of its entries from the head on. -/
structure trace_system where
  g : tracer_globals
  arrays : Nat → Option trace_array
  printk_trace : Nat
  ftrace_trace_arrays : List Nat := []

/-- An assignment through the pointer `p`: the object at `p` becomes `f` of itself. -/
def modify_tr (arrays : Nat → Option trace_array) (p : Nat) (f : trace_array → trace_array) :
    Nat → Option trace_array :=
  fun q => if q = p then (arrays q).map f else arrays q

/-- `tr->trace_flags |= mask`. -/
def set_flags (mask : Nat) (tr : trace_array) : trace_array :=
  { tr with trace_flags := tr.trace_flags ||| mask }

/-- `tr->trace_flags &= ~mask`, on 32 bits. -/
def clear_flags (mask : Nat) (tr : trace_array) : trace_array :=
  { tr with trace_flags := tr.trace_flags &&& (UINT_MAX ^^^ mask) }

/-- `update_printk_trace`. -/
def update_printk_trace (sys : trace_system) (tr : Nat) : trace_system :=
  if sys.printk_trace = tr then sys
  else
    let a1 := modify_tr sys.arrays sys.printk_trace (clear_flags TRACE_ITER_TRACE_PRINTK)
    { sys with
      arrays := modify_tr a1 tr (set_flags TRACE_ITER_TRACE_PRINTK)
      printk_trace := tr }

/-- Whether the current tracer of the instance has a `flag_changed` hook and the hook
rejects the change. -/
def flag_change_rejected (g : tracer_globals) (tr : trace_array) (mask : Nat) (set : Bool) :
    Bool :=
  match g.trace_types[tr.current_trace]? with
  | none => false
  | some t =>
    match t.flag_changed with
    | none => false
    | some hook => hook tr mask set ≠ 0

/-- `set_tracer_flag` on the instance at `tr`, on the option flags and the printk
designation (what it does besides to event recording, fork following, the overwrite mode
of the ring buffers and printk is outside this state).  `tgid_alloc_ok` says whether
`trace_alloc_tgid_map` succeeds. -/
def set_tracer_flag (tgid_alloc_ok : Bool) (sys : trace_system) (tr : Nat) (mask : Nat)
    (enabled : Int) : Int × trace_system :=
  match sys.arrays tr with
  | none => (0, sys)
  | some t =>
    /- do nothing if flag is already set -/
    if decide (t.trace_flags &&& mask ≠ 0) = decide (enabled ≠ 0) then (0, sys)
    /- Give the tracer a chance to approve the change -/
    else if flag_change_rejected sys.g t mask (decide (enabled ≠ 0)) then (-EINVAL, sys)
    else
      let designated : Option trace_system :=
        if mask = TRACE_ITER_TRACE_PRINTK then
          if enabled ≠ 0 then some (update_printk_trace sys tr)
          /- The global_trace cannot clear this. -/
          else if sys.printk_trace = global_trace then none
          /- An instance must always have it set. -/
          else if sys.printk_trace = tr then some (update_printk_trace sys global_trace)
          else some sys
        else some sys
      match designated with
      | none => (-EINVAL, sys)
      | some sys1 =>
        let sys2 : trace_system :=
          { sys1 with
            arrays := modify_tr sys1.arrays tr
              (if enabled ≠ 0 then set_flags mask else clear_flags mask) }
        if mask = TRACE_ITER_RECORD_TGID ∧ tgid_alloc_ok = false then
          (-ENOMEM,
            { sys2 with arrays := modify_tr sys2.arrays tr (clear_flags TRACE_ITER_RECORD_TGID) })
        else (0, sys2)

/-- The loop of `__remove_instance` that disables the flags in `ZEROED_TRACE_FLAGS`. -/
def remove_instance_flags (tgid_alloc_ok : Bool) (tr : Nat) (sys : trace_system) (i : Nat) :
    trace_system :=
  if (1 <<< i) &&& ZEROED_TRACE_FLAGS ≠ 0 then (set_tracer_flag tgid_alloc_ok sys tr (1 <<< i) 0).2
  else sys

/-- `__remove_instance` for a listed instance (its callers return `-ENODEV` for one that
is not), on the list of instances, the option flags, the printk designation and the
tracers.  `tr->current_trace` is a tracer of the table and never NULL. -/
def __remove_instance (tgid_alloc_ok : Bool) (sys : trace_system) (tr : Nat) :
    Int × trace_system :=
  match sys.arrays tr with
  | none => (-ENODEV, sys)
  | some t =>
    /- Reference counter for a newly created trace array = 1. -/
    if t.ref > 1 || t.trace_ref ≠ 0 then (-EBUSY, sys)
    else
      /- list_del(&tr->list) -/
      let sys0 := { sys with ftrace_trace_arrays := sys.ftrace_trace_arrays.erase tr }
      /- Disable all the flags that were enabled coming in -/
      let sys1 := (List.range TRACE_FLAGS_MAX_SIZE).foldl
        (remove_instance_flags tgid_alloc_ok tr) sys0
      let sys2 := if sys1.printk_trace = tr then update_printk_trace sys1 global_trace else sys1
      /- tracing_set_nop: the tracer of the instance, unless it is nop, is disabled -/
      let g1 := match sys2.arrays tr with
        | none => sys2.g
        | some t2 =>
          if t2.current_trace = sys2.g.nop_trace then sys2.g
          else tracer_enabled_add sys2.g t2.current_trace (-1)
      (0, { sys2 with g := g1, arrays := fun q => if q = tr then none else sys2.arrays q })

/-- The invariant of the printk designation: `global_trace` exists, `printk_trace` points to
an instance, and an instance has `TRACE_ITER_TRACE_PRINTK` set exactly when it is the one
`printk_trace` points to. -/
def printk_inv (sys : trace_system) : Prop :=
  (∃ t, sys.arrays global_trace = some t) ∧ (∃ t, sys.arrays sys.printk_trace = some t) ∧
  ∀ p t, sys.arrays p = some t →
    (t.trace_flags &&& TRACE_ITER_TRACE_PRINTK ≠ 0 ↔ p = sys.printk_trace)

/-! ## The error log -/

/-- `TRACING_LOG_ERRS_MAX`. -/
def TRACING_LOG_ERRS_MAX : Nat := 8

/-- `TRACING_LOG_LOC_MAX`. -/
def TRACING_LOG_LOC_MAX : Nat := 128

/-- `CMD_PREFIX`. -/
def CMD_PREFIX : List Char := "  Command: ".toList

/-- `snprintf(buf, size, ...)` of a text: at most `size - 1` characters are stored. -/
def snprintf (size : Nat) (text : List Char) : List Char := text.take (size - 1)

/-- `get_tracing_log_err`: the entry to fill (`none` for `ERR_PTR(-ENOMEM)`) and the
instance.  While there is room a new entry is allocated; otherwise the first entry of the
list is taken off it for reuse.  `alloc_ok` says whether the allocations succeed. -/
def get_tracing_log_err (alloc_ok : Bool) (tr : trace_array) (_len : Nat) :
    Option struct_tracing_log_err × trace_array :=
  if tr.n_err_log_entries < TRACING_LOG_ERRS_MAX then
    if alloc_ok then
      (some { loc := [], cmd := [], errs := 0, type := 0, pos := 0, ts := 0 },
        { tr with n_err_log_entries := tr.n_err_log_entries + 1 })
    else (none, tr)
  else if !alloc_ok then (none, tr)
  else
    match tr.err_log with
    | err :: rest => (some { err with cmd := [] }, { tr with err_log := rest })
    | [] => (none, tr)

/-- `tracing_log_err` on the instance `tr` (the caller passes `global_trace` for NULL).
`errs` stands for the pointer to the table of error strings, `type` is a `u8`, `pos` a
`u16`, and `clock` is what `local_clock()` returns. -/
def tracing_log_err (alloc_ok : Bool) (clock : Nat) (tr : trace_array) (loc cmd : List Char)
    (errs type pos : Nat) : trace_array :=
  let len := (CMD_PREFIX.length + 1) + 2 * 2 + cmd.length + 1
  let r := get_tracing_log_err alloc_ok tr len
  match r.1 with
  | none => r.2
  | some err =>
    let err1 : struct_tracing_log_err :=
      { err with
        loc := snprintf TRACING_LOG_LOC_MAX (loc ++ ": error: ".toList)
        cmd := snprintf len (['\n'] ++ CMD_PREFIX ++ cmd ++ ['\n'])
        errs := errs
        type := type
        pos := pos
        ts := clock }
    { r.2 with err_log := r.2.err_log ++ [err1] }

/-- An error to log: the arguments of one `tracing_log_err` call and the clock at it. -/
structure err_request where
  loc : List Char
  cmd : List Char
  errs : Nat
  type : Nat
  pos : Nat
  clock : Nat
deriving DecidableEq, Repr

/-- The entry that records a request: where, the command behind its prefix, which error,
where the caret goes, and when. -/
def err_request.entry (r : err_request) : struct_tracing_log_err :=
  { loc := (r.loc ++ ": error: ".toList).take (TRACING_LOG_LOC_MAX - 1),
    cmd := ['\n'] ++ CMD_PREFIX ++ r.cmd ++ ['\n'],
    errs := r.errs, type := r.type, pos := r.pos, ts := r.clock }

/-- A sequence of `tracing_log_err` calls, all allocations succeeding. -/
def log_errs (tr : trace_array) (reqs : List err_request) : trace_array :=
  reqs.foldl (fun t r => tracing_log_err true r.clock t r.loc r.cmd r.errs r.type r.pos) tr

/-! ## Starting and stopping an instance -/

/-- `tracing_start`: `tracing_start_tr(&global_trace)`, on the whole system.  The function
reads `tracing_disabled` and writes the instance only. -/
def tracing_start (sys : trace_system) : trace_system :=
  { sys with arrays := modify_tr sys.arrays global_trace (tracing_start_tr sys.g) }

/-- `tracing_stop`: `tracing_stop_tr(&global_trace)`, on the whole system. -/
def tracing_stop (sys : trace_system) : trace_system :=
  { sys with arrays := modify_tr sys.arrays global_trace tracing_stop_tr }

/-! ## The stack trace that follows a commit -/

/-- `FTRACE_KSTACK_NESTING`: 4 levels of nesting, normal, softirq, irq, NMI. -/
def FTRACE_KSTACK_NESTING : Nat := 4

/-- `FTRACE_KSTACK_ENTRIES`: `SZ_4K / FTRACE_KSTACK_NESTING`. -/
def FTRACE_KSTACK_ENTRIES : Nat := 4096 / FTRACE_KSTACK_NESTING

/-- `TRACE_STACK` (see `TRACE_PRINT`). -/
def TRACE_STACK : Nat := 4

/-- `TRACE_ITER_STACKTRACE` (for the bit positions see `TRACE_ITER_MARKERS`). -/
def TRACE_ITER_STACKTRACE : Nat := 1 <<< 29

/-- `FTRACE_TRAMPOLINE_MARKER`: `(unsigned long) INT_MAX`. -/
def FTRACE_TRAMPOLINE_MARKER : Nat := 2 ^ 31 - 1

/-- `struct_size(entry, caller, nr_entries)` for a `struct stack_entry` on a 64-bit kernel:
the 8 bytes of `struct trace_entry`, the `int size` padded to 8 bytes, and 8 bytes for each
caller. -/
def stack_entry_size (nr_entries : Nat) : Nat := 16 + 8 * nr_entries

/-- The per-CPU variables of one CPU: `trace_buffered_event` with its count,
`ftrace_stack_reserve`, the `FTRACE_KSTACK_NESTING` scratch stacks of `ftrace_stacks`, each
with the callers last saved in it, and the `nesting` of `trace_percpu_buffer`, with `none`
when `trace_percpu_buffer` is not allocated. -/
structure percpu_vars where
  buffered : buffered_percpu
  ftrace_stack_reserve : Int
  ftrace_stacks : List (List Nat)
  trace_percpu_buffer : Option Int := none
deriving DecidableEq, Repr

/-- What the code that records a stack trace is given besides the buffer: the sub-range of
trampoline code of `tr->ops` (start and size, a start of 0 for none), whether the kernel
unwinds with ORC (`CONFIG_UNWINDER_ORC`), the CPU, the pid of the current task, and the
return addresses an unwinder finds, from the calling frame and from `regs`. -/
structure stack_caller where
  trampoline : Nat
  trampoline_size : Nat
  unwinder_orc : Bool
  cpu : Nat
  pid : Int
  stack : List Nat
  regs_stack : List Nat
deriving DecidableEq, Repr

/-- Modelled from the spec: `stack_trace_save` and `stack_trace_save_regs` of the absent
`kernel/stacktrace.c`: store at most `size` return addresses, after skipping the first
`skipnr`. -/
def stack_trace_save (stack : List Nat) (size : Nat) (skipnr : Int) : List Nat :=
  (stack.drop skipnr.toNat).take size

/-- The loop of `__ftrace_trace_stack` that marks the entries inside the trampoline. -/
def mark_trampoline (c : stack_caller) (calls : List Nat) : List Nat :=
  if c.trampoline ≠ 0 then
    calls.map (fun a =>
      if a ≥ c.trampoline ∧ a < c.trampoline + c.trampoline_size then FTRACE_TRAMPOLINE_MARKER
      else a)
  else calls

/-- What `__ftrace_trace_stack` leaves behind: the per-CPU variables, the buffer, and, for
the proofs, the index of the scratch stack it used, if it used one. -/
structure stack_result where
  percpu : percpu_vars
  buffer : trace_buffer
  slot : Option Int
deriving DecidableEq, Repr

/-- The first statements of `__ftrace_trace_stack`, up to the test of `stackidx`: the value
of `skip`, the index, and the per-CPU variables with the counter incremented. -/
def ftrace_stack_enter (c : stack_caller) (pc : percpu_vars) (skip : Int) (regs : Bool) :
    Int × Int × percpu_vars :=
  /- Add one, for this function and the call to save_stack_trace().  If regs is set, then
     these functions will not be in the way. -/
  let skip1 := if !c.unwinder_orc && !regs then skip + 1 else skip
  let stackidx := (pc.ftrace_stack_reserve + 1) - 1
  (skip1, stackidx, { pc with ftrace_stack_reserve := pc.ftrace_stack_reserve + 1 })

/-- The statements of `__ftrace_trace_stack` that fill the scratch stack `stackidx`: the
per-CPU variables afterwards and `nr_entries`. -/
def ftrace_stack_save (c : stack_caller) (pc : percpu_vars) (stackidx : Int) (skip : Int)
    (regs : Bool) : percpu_vars × Nat :=
  let size := FTRACE_KSTACK_ENTRIES
  let saved :=
    if regs then stack_trace_save c.regs_stack size skip
    else stack_trace_save c.stack size skip
  let calls := mark_trampoline c saved
  ({ pc with ftrace_stacks := pc.ftrace_stacks.set stackidx.toNat calls }, calls.length)

/-- The statements of `__ftrace_trace_stack` that reserve the event, copy the scratch stack
`stackidx` into it and commit it. -/
def ftrace_stack_record (env : ring_buffer_env) (c : stack_caller) (pc : percpu_vars)
    (buffer : trace_buffer) (trace_ctx : Nat) (stackidx : Int) (nr_entries : Nat) :
    trace_buffer × percpu_vars :=
  match __trace_buffer_lock_reserve env buffer TRACE_STACK (stack_entry_size nr_entries)
      trace_ctx c.pid with
  | none => (buffer, pc)
  | some event =>
    let calls := (pc.ftrace_stacks.getD stackidx.toNat []).take nr_entries
    let r := __buffer_unlock_commit env buffer c.cpu pc.buffered
      (reserved_event.ring current_rb.live
        { event with data := { event.data with payload := nr_entries :: calls } })
    (r.1, { pc with buffered := r.2 })

/-- The label `out` of `__ftrace_trace_stack`. -/
def ftrace_stack_out (pc : percpu_vars) : percpu_vars :=
  { pc with ftrace_stack_reserve := pc.ftrace_stack_reserve - 1 }

/-- `__ftrace_trace_stack`, run without being interrupted.  `regs` says whether the
argument of that name is set. -/
def __ftrace_trace_stack (env : ring_buffer_env) (c : stack_caller) (pc : percpu_vars)
    (buffer : trace_buffer) (trace_ctx : Nat) (skip : Int) (regs : Bool) : stack_result :=
  let e := ftrace_stack_enter c pc skip regs
  let stackidx := e.2.1
  /- This should never happen. If it does, yell once and skip -/
  if stackidx ≥ (FTRACE_KSTACK_NESTING : Int) then
    { percpu := ftrace_stack_out e.2.2, buffer := buffer, slot := none }
  else
    let s := ftrace_stack_save c e.2.2 stackidx e.1 regs
    let r := ftrace_stack_record env c s.1 buffer trace_ctx stackidx s.2
    { percpu := ftrace_stack_out r.2, buffer := r.1, slot := some stackidx }

/-- `ftrace_trace_stack`. -/
def ftrace_trace_stack (env : ring_buffer_env) (c : stack_caller) (tr : trace_array)
    (pc : percpu_vars) (buffer : trace_buffer) (trace_ctx : Nat) (skip : Int) (regs : Bool) :
    stack_result :=
  if tr.trace_flags &&& TRACE_ITER_STACKTRACE = 0 then
    { percpu := pc, buffer := buffer, slot := none }
  else __ftrace_trace_stack env c pc buffer trace_ctx skip regs

/-- A call of `__ftrace_trace_stack` in progress: its arguments, the index it took, the
value of the counter when it was entered, and `nr_entries` once the scratch stack is
filled. -/
structure stack_frame where
  trace_ctx : Nat
  skip : Int
  regs : Bool
  stackidx : Int
  entry_reserve : Int
  nr_entries : Option Nat
deriving DecidableEq, Repr

/-- One CPU on which calls of `__ftrace_trace_stack` nest: an interrupt that arrives while
a call is in progress may call the function again, and returns before the interrupted call
goes on.  `frames` holds the calls in progress, innermost first; `used` lists the indices
of the scratch stacks used so far, newest first. -/
structure stack_cpu where
  percpu : percpu_vars
  buffer : trace_buffer
  frames : List stack_frame
  used : List Int
deriving DecidableEq, Repr

/-- What happens next on the CPU: a context calls `__ftrace_trace_stack`, which runs up to
the test of `stackidx`, or the innermost call in progress goes on, to the point where its
scratch stack is filled and then to its return. -/
inductive stack_op where
  | call (trace_ctx : Nat) (skip : Int) (regs : Bool)
  | resume
deriving DecidableEq, Repr

/-- The CPU after one step. -/
def stack_step (env : ring_buffer_env) (c : stack_caller) (s : stack_cpu) :
    stack_op → stack_cpu
  | stack_op.call trace_ctx skip regs =>
    let e := ftrace_stack_enter c s.percpu skip regs
    { s with
      percpu := e.2.2
      frames := { trace_ctx := trace_ctx, skip := e.1, regs := regs, stackidx := e.2.1,
                  entry_reserve := s.percpu.ftrace_stack_reserve, nr_entries := none }
                :: s.frames }
  | stack_op.resume =>
    match s.frames with
    | [] => s
    | f :: rest =>
      match f.nr_entries with
      | none =>
        if f.stackidx ≥ (FTRACE_KSTACK_NESTING : Int) then
          { s with percpu := ftrace_stack_out s.percpu, frames := rest }
        else
          let r := ftrace_stack_save c s.percpu f.stackidx f.skip f.regs
          { s with
            percpu := r.1
            frames := { f with nr_entries := some r.2 } :: rest
            used := f.stackidx :: s.used }
      | some nr_entries =>
        let r := ftrace_stack_record env c s.percpu s.buffer f.trace_ctx f.stackidx nr_entries
        { s with percpu := ftrace_stack_out r.2, buffer := r.1, frames := rest }

/-- The CPU after a sequence of steps. -/
def stack_run (env : ring_buffer_env) (c : stack_caller) (s : stack_cpu)
    (ops : List stack_op) : stack_cpu :=
  ops.foldl (stack_step env c) s

/-- The calls in progress are consistent with a counter that was `base` before the
outermost of them: each took the value of the counter at its entry as its index, these
values count up from `base`, and a call that has filled a scratch stack has an index below
`FTRACE_KSTACK_NESTING`. -/
def frames_ok (base : Int) : List stack_frame → Prop
  | [] => True
  | f :: rest =>
    f.entry_reserve = base + rest.length ∧ f.stackidx = f.entry_reserve ∧
      (f.nr_entries ≠ none → f.stackidx < (FTRACE_KSTACK_NESTING : Int)) ∧ frames_ok base rest

/-! ## Messages written into a buffer -/

/-- `TRACE_BUF_SIZE`. -/
def TRACE_BUF_SIZE : Nat := 1024

/-- `EAGAIN`. -/
def EAGAIN : Int := 11

/-- The bytes of a string constant of the source. -/
def bytes (s : String) : List Nat := s.toList.map Char.toNat

/-- `__trace_array_puts`, in a kernel without startup tests (`tracing_selftest_running` is
0).  `size` is the length of `str`, as `trace_array_puts` passes it; the byte in front of
`entry->buf` is the most significant byte of `ip`.  Returns what the function returns, the
instance and the per-CPU variables. -/
def __trace_array_puts (env : ring_buffer_env) (g : tracer_globals) (c : stack_caller)
    (pc : percpu_vars) (tr : trace_array) (trace_ctx : Nat) (ip : Nat) (str : List Nat) :
    Int × trace_array × percpu_vars :=
  let size := str.length
  if tr.trace_flags &&& TRACE_ITER_PRINTK = 0 then (0, tr, pc)
  else if g.tracing_disabled then (0, tr, pc)
  else
    /- possible \n added -/
    let alloc := sizeof_print_entry + size + 2
    let buffer := tr.array_buffer.buffer
    match __trace_buffer_lock_reserve env buffer TRACE_PRINT alloc trace_ctx c.pid with
    | none => (0, tr, pc)
    | some event =>
      let last := if size = 0 then ip / 2 ^ 56 % 256 else str.getD (size - 1) 0
      /- Add a newline if necessary -/
      let buf := if last ≠ 10 then str ++ [10, 0] else str ++ [0]
      let r := __buffer_unlock_commit env buffer c.cpu pc.buffered
        (reserved_event.ring current_rb.live
          { event with data := { event.data with payload := buf } })
      let s := ftrace_trace_stack env c tr { pc with buffered := r.2 } r.1 trace_ctx 4 false
      ((size : Int), { tr with array_buffer := { tr.array_buffer with buffer := s.buffer } },
        s.percpu)

/-- `trace_array_puts` (`trace.h`): `__trace_array_puts` with the length of the string. -/
def trace_array_puts (env : ring_buffer_env) (g : tracer_globals) (c : stack_caller)
    (pc : percpu_vars) (tr : trace_array) (trace_ctx : Nat) (ip : Nat) (str : String) :
    trace_array × percpu_vars :=
  (__trace_array_puts env g c pc tr trace_ctx ip (bytes str)).2

/-- `get_trace_buf`: whether it returns a buffer, and the per-CPU variables. -/
def get_trace_buf (pc : percpu_vars) : Bool × percpu_vars :=
  match pc.trace_percpu_buffer with
  | none => (false, pc)
  | some nesting =>
    if nesting ≥ 4 then (false, pc)
    else (true, { pc with trace_percpu_buffer := some (nesting + 1) })

/-- `put_trace_buf`. -/
def put_trace_buf (pc : percpu_vars) : percpu_vars :=
  { pc with trace_percpu_buffer := pc.trace_percpu_buffer.map (fun nesting => nesting - 1) }

/-- `__trace_array_vprintk`.  `text` is what `fmt` and `args` format to, of which
`vscnprintf` keeps at most `TRACE_BUF_SIZE - 1` bytes; `printk_trace` is the instance the
pointer of that name points to.  Returns `len`, the buffer and the per-CPU variables. -/
def __trace_array_vprintk (env : ring_buffer_env) (g : tracer_globals) (c : stack_caller)
    (pc : percpu_vars) (printk_trace : trace_array) (buffer : trace_buffer) (trace_ctx : Nat)
    (text : List Nat) : Int × trace_buffer × percpu_vars :=
  if g.tracing_disabled then (0, buffer, pc)
  else
    let t := get_trace_buf pc
    if !t.1 then (0, buffer, t.2)
    else
      let tbuffer := text.take (TRACE_BUF_SIZE - 1)
      let len := tbuffer.length
      let size := sizeof_print_entry + len + 1
      match __trace_buffer_lock_reserve env buffer TRACE_PRINT size trace_ctx c.pid with
      | none => ((len : Int), buffer, put_trace_buf t.2)
      | some event =>
        let r := __buffer_unlock_commit env buffer c.cpu t.2.buffered
          (reserved_event.ring current_rb.live
            { event with data := { event.data with payload := tbuffer ++ [0] } })
        let s := ftrace_trace_stack env c printk_trace { t.2 with buffered := r.2 } r.1
          trace_ctx 6 false
        ((len : Int), s.buffer, put_trace_buf s.percpu)

/-- `trace_array_printk_buf`. -/
def trace_array_printk_buf (env : ring_buffer_env) (g : tracer_globals) (c : stack_caller)
    (pc : percpu_vars) (printk_trace : trace_array) (buffer : trace_buffer) (trace_ctx : Nat)
    (text : List Nat) : Int × trace_buffer × percpu_vars :=
  if printk_trace.trace_flags &&& TRACE_ITER_PRINTK = 0 then (0, buffer, pc)
  else __trace_array_vprintk env g c pc printk_trace buffer trace_ctx text

/-- `tracer_tracing_off`. -/
def tracer_tracing_off (tr : trace_array) : trace_array :=
  { tr with
    array_buffer :=
      { tr.array_buffer with buffer := ring_buffer_record_off tr.array_buffer.buffer }
    buffer_disabled := 1 }

/-- `tracer_tracing_is_on`, for an instance whose buffer is allocated. -/
def tracer_tracing_is_on (tr : trace_array) : Bool :=
  ring_buffer_record_is_set_on tr.array_buffer.buffer

/-! ## Users of the snapshot: conditional snapshots, the single-CPU swap, mappings -/

/-- Modelled from the spec: `ring_buffer_swap_cpu` of the absent `ring_buffer.c`: the logs of
`cpu` in the two buffers change places; when the swap cannot be done safely (a commit or a
resize in progress, recording disabled, logs of different size) it fails softly with the
error the environment gives and swaps nothing. -/
def ring_buffer_swap_cpu (env : ring_buffer_env) (buffer_a buffer_b : trace_buffer)
    (cpu : Nat) : Int × trace_buffer × trace_buffer :=
  let ret := env.swap_cpu_ret buffer_a buffer_b cpu
  if ret ≠ 0 then (ret, buffer_a, buffer_b)
  else
    match buffer_a.cpus[cpu]?, buffer_b.cpus[cpu]? with
    | some a, some b =>
      (0, { buffer_a with cpus := buffer_a.cpus.set cpu b },
        { buffer_b with cpus := buffer_b.cpus.set cpu a })
    | _, _ => (-EINVAL, buffer_a, buffer_b)

/-- `update_max_tr_single`.  `c` is the CPU the function runs on, `cpu` the CPU of the
buffer to flip. -/
def update_max_tr_single (env : ring_buffer_env) (g : tracer_globals) (c : stack_caller)
    (pc : percpu_vars) (printk_trace : trace_array) (trace_ctx : Nat) (tr : trace_array)
    (tsk : task_struct) (tsk_is_current : Bool) (cpu : Nat) : trace_array × percpu_vars :=
  if tr.stop_count ≠ 0 then (tr, pc)
  else if !tr.allocated_snapshot then (tr, pc)
  else
    let r := ring_buffer_swap_cpu env tr.max_buffer.buffer tr.array_buffer.buffer cpu
    let tr1 : trace_array :=
      { tr with
        max_buffer := { tr.max_buffer with buffer := r.2.1 }
        array_buffer := { tr.array_buffer with buffer := r.2.2 } }
    /- We failed to swap the buffer due to a commit taking place on this CPU.  We fail to
       record, but we reset the max trace buffer and flag that it failed. -/
    let p : Int × trace_buffer × percpu_vars :=
      if r.1 = -EBUSY then
        trace_array_printk_buf env g c pc printk_trace tr1.max_buffer.buffer trace_ctx
          (bytes "Failed to swap buffers due to commit or resize in progress\n")
      else (0, tr1.max_buffer.buffer, pc)
    let tr2 : trace_array := { tr1 with max_buffer := { tr1.max_buffer with buffer := p.2.1 } }
    (__update_max_tr tr2 tsk tsk_is_current cpu, p.2.2)

/-- `tracing_snapshot_instance_cond`.  `current` is the running task, `c.cpu` is
`smp_processor_id()`, `update` the function `tr->cond_snapshot->update` points to; an
instance whose `current_trace` points to no tracer is left as it is. -/
def tracing_snapshot_instance_cond (env : ring_buffer_env) (g : tracer_globals)
    (c : stack_caller) (pc : percpu_vars) (update : trace_array → Nat → Bool)
    (trace_ctx : Nat) (ip : Nat) (in_nmi : Bool) (current : task_struct) (tr : trace_array)
    (cond_data : Nat) : trace_array × percpu_vars :=
  match g.trace_types[tr.current_trace]? with
  | none => (tr, pc)
  | some tracer =>
    if in_nmi then
      let r := trace_array_puts env g c pc tr trace_ctx ip
        "*** SNAPSHOT CALLED FROM NMI CONTEXT ***\n"
      trace_array_puts env g c r.2 r.1 trace_ctx ip "*** snapshot is being ignored        ***\n"
    else if !tr.allocated_snapshot then
      let r := trace_array_puts env g c pc tr trace_ctx ip "*** SNAPSHOT NOT ALLOCATED ***\n"
      let r2 := trace_array_puts env g c r.2 r.1 trace_ctx ip "*** stopping trace here!   ***\n"
      (tracer_tracing_off r2.1, r2.2)
    /- Note, snapshot can not be used when the tracer uses it -/
    else if tracer.use_max_tr then
      let r := trace_array_puts env g c pc tr trace_ctx ip "*** LATENCY TRACER ACTIVE ***\n"
      trace_array_puts env g c r.2 r.1 trace_ctx ip "*** Can not use snapshot (sorry) ***\n"
    else if tr.mapped ≠ 0 then
      let r := trace_array_puts env g c pc tr trace_ctx ip "*** BUFFER MEMORY MAPPED ***\n"
      trace_array_puts env g c r.2 r.1 trace_ctx ip "*** Can not use snapshot (sorry) ***\n"
    else (update_max_tr update tr current true c.cpu cond_data, pc)

/-- `tracing_snapshot_cond_enable`.  `alloc_ok` says whether `kzalloc` returns memory; the
function `update` is kept by the caller, who passes it to `update_max_tr`; an instance
whose `current_trace` points to no tracer is refused. -/
def tracing_snapshot_cond_enable (env : ring_buffer_env) (g : tracer_globals)
    (alloc_ok : Bool) (tr : trace_array) (cond_data : Nat) : Int × trace_array :=
  if !alloc_ok then (-ENOMEM, tr)
  else
    match g.trace_types[tr.current_trace]? with
    | none => (-EINVAL, tr)
    | some tracer =>
      if tracer.use_max_tr then (-EBUSY, tr)
      else if tr.cond_snapshot.isSome then (-EBUSY, tr)
      else
        let r := tracing_arm_snapshot_locked env tr
        if r.1 ≠ 0 then r
        else (0, { r.2 with cond_snapshot := some { cond_data := cond_data } })

/-- `tracing_snapshot_cond_disable`. -/
def tracing_snapshot_cond_disable (tr : trace_array) : Int × trace_array :=
  let r : Int × trace_array :=
    if tr.cond_snapshot.isNone then (-EINVAL, tr)
    else (0, { tr with cond_snapshot := none })
  (r.1, tracing_disarm_snapshot r.2)

/-- `get_snapshot_map`. -/
def get_snapshot_map (tr : trace_array) : Int × trace_array :=
  if tr.snapshot ≠ 0 || tr.mapped = UINT_MAX then (-EBUSY, tr)
  else (0, { tr with mapped := tr.mapped + 1 })

/-- `put_snapshot_map`. -/
def put_snapshot_map (tr : trace_array) : trace_array :=
  if tr.mapped ≠ 0 then { tr with mapped := tr.mapped - 1 } else tr

/-- An operation on the armed counter or the mapped counter of an instance. -/
inductive snapshot_op where
  | arm
  | disarm
  | get_map
  | put_map
deriving DecidableEq, Repr

/-- The instance after one operation. -/
def snapshot_step (env : ring_buffer_env) (tr : trace_array) : snapshot_op → trace_array
  | snapshot_op.arm => (tracing_arm_snapshot env tr).2
  | snapshot_op.disarm => tracing_disarm_snapshot tr
  | snapshot_op.get_map => (get_snapshot_map tr).2
  | snapshot_op.put_map => put_snapshot_map tr

/-- The log of every CPU of `old` is still there in `new`, in front of what was added. -/
def buffer_extends (old new : trace_buffer) : Prop :=
  new.cpus.length = old.cpus.length ∧
    ∀ (cpu : Nat) (a : ring_buffer_per_cpu), old.cpus[cpu]? = some a →
      ∃ b, new.cpus[cpu]? = some b ∧ a.events <+: b.events

/-- The spare set of `after` holds the metadata of the task `tsk` for `cpu`: its per-CPU
record for `cpu` has the task's comm, pid, uid (`current_uid()` for the running task,
`task_uid` otherwise), nice value, policy and rt_priority, and the maximum latency of
`before`; its `cpu` field is `cpu`; the records of the other CPUs are those of `before`. -/
def spare_holds_metadata (before after : trace_array) (tsk : task_struct)
    (tsk_is_current : Bool) (cpu : Nat) : Prop :=
  after.max_buffer.cpu = (cpu : Int) ∧
  (∃ d, after.max_buffer.data[cpu]? = some d ∧ d.comm = tsk.comm ∧ d.pid = tsk.pid ∧
    d.uid = (if tsk_is_current then tsk.cred_uid else tsk.real_cred_uid) ∧
    d.nice = tsk.static_prio - 20 - MAX_RT_PRIO ∧ d.policy = tsk.policy ∧
    d.rt_priority = tsk.rt_priority ∧ d.saved_latency = before.max_latency) ∧
  ∀ j, j ≠ cpu → after.max_buffer.data[j]? = before.max_buffer.data[j]?

/-- The instance `after` is `before` but for its live buffer, which still holds the records
of every CPU in front of what was added: live and spare have not changed places. -/
def live_extended (before after : trace_array) : Prop :=
  ∃ b, after = { before with array_buffer := { before.array_buffer with buffer := b } } ∧
    buffer_extends before.array_buffer.buffer b

/-! ## The snapshot control file -/

/-- `tracing_update_buffers`.  Returns `ret`, the globals and the instance. -/
def tracing_update_buffers (env : ring_buffer_env) (g : tracer_globals) (tr : trace_array) :
    Int × tracer_globals × trace_array :=
  let tr0 := update_last_data env tr
  if !tr0.ring_buffer_expanded then
    __tracing_resize_ring_buffer env g tr0 g.trace_buf_size RING_BUFFER_ALL_CPUS
  else (0, g, tr0)

/-- Modelled from the spec: `ring_buffer_reset_cpu` of the absent `ring_buffer.c`: the log
of the CPU is emptied. -/
def ring_buffer_reset_cpu (buffer : trace_buffer) (cpu : Nat) : trace_buffer :=
  { buffer with
    cpus := List.modify (fun c => { c with events := [], lost_events := 0 }) cpu buffer.cpus }

/-- `tracing_reset_cpu`. -/
def tracing_reset_cpu (buf : array_buffer) (cpu : Nat) : array_buffer :=
  { buf with
    buffer :=
      ring_buffer_record_enable
        (ring_buffer_reset_cpu (ring_buffer_record_disable buf.buffer) cpu) }

/-- A CPU as code runs on it: what recording a stack trace is given, the per-CPU
variables, the running task and what `tracing_gen_ctx` returns. -/
structure cpu_context where
  caller : stack_caller
  percpu : percpu_vars
  current : task_struct
  trace_ctx : Nat

/-- What a write to the snapshot file returns and leaves behind; `remote` holds the
per-CPU variables of the CPU that `smp_call_function_single` ran on. -/
structure snapshot_write_result where
  ret : Int
  g : tracer_globals
  tr : trace_array
  remote : percpu_vars

/-- The `switch (val)` of `tracing_snapshot_write` and the statements after it, on the file
of `cpu_file` (`iter->cpu_file`).  `allow_swap` says whether the kernel has
`CONFIG_RING_BUFFER_ALLOW_SWAP`; `this_cpu` is the CPU of the writer and `remote` the CPU
`cpu_file` as `tracing_swap_cpu_buffer` runs on it, where `smp_processor_id()` is
`cpu_file`; `update` is the function a conditional snapshot would point to. -/
def tracing_snapshot_write_switch (env : ring_buffer_env) (g : tracer_globals)
    (printk_trace : trace_array) (allow_swap : Bool) (update : trace_array → Nat → Bool)
    (this_cpu remote : cpu_context) (tr : trace_array) (cpu_file : Int) (val : Nat)
    (cnt : Nat) : snapshot_write_result :=
  if val = 0 then
    if cpu_file ≠ RING_BUFFER_ALL_CPUS then
      { ret := -EINVAL, g := g, tr := tr, remote := remote.percpu }
    else
      { ret := cnt, g := g, tr := if tr.allocated_snapshot then free_snapshot env tr else tr,
        remote := remote.percpu }
  else if val = 1 then
    /- Only allow per-cpu swap if the ring buffer supports it -/
    if !allow_swap && decide (cpu_file ≠ RING_BUFFER_ALL_CPUS) then
      { ret := -EINVAL, g := g, tr := tr, remote := remote.percpu }
    else
      let tr2 : trace_array :=
        if tr.allocated_snapshot then
          { tr with
            max_buffer :=
              (resize_buffer_duplicate_size env tr.max_buffer tr.array_buffer cpu_file).2 }
        else tr
      let a := tracing_arm_snapshot_locked env tr2
      if a.1 ≠ 0 then { ret := a.1, g := g, tr := a.2, remote := remote.percpu }
      else
        /- Now, we're going to swap -/
        let s : trace_array × percpu_vars :=
          if cpu_file = RING_BUFFER_ALL_CPUS then
            (update_max_tr update a.2 this_cpu.current true this_cpu.caller.cpu 0,
              remote.percpu)
          else
            update_max_tr_single env g remote.caller remote.percpu printk_trace
              remote.trace_ctx a.2 remote.current true cpu_file.toNat
        { ret := cnt, g := g, tr := tracing_disarm_snapshot s.1, remote := s.2 }
  else
    let tr2 : trace_array :=
      if tr.allocated_snapshot then
        if cpu_file = RING_BUFFER_ALL_CPUS then
          { tr with max_buffer := tracing_reset_online_cpus env tr.max_buffer }
        else { tr with max_buffer := tracing_reset_cpu tr.max_buffer cpu_file.toNat }
      else tr
    { ret := cnt, g := g, tr := tr2, remote := remote.percpu }

/-- `tracing_snapshot_write`.  `kstrtoul` is what `kstrtoul_from_user` returns and stores
in `val`.  An instance whose `current_trace` points to no tracer is refused. -/
def tracing_snapshot_write (env : ring_buffer_env) (g : tracer_globals)
    (printk_trace : trace_array) (allow_swap : Bool) (update : trace_array → Nat → Bool)
    (this_cpu remote : cpu_context) (tr : trace_array) (cpu_file : Int) (kstrtoul : Int × Nat)
    (cnt : Nat) : snapshot_write_result :=
  let u := tracing_update_buffers env g tr
  let g1 := u.2.1
  let tr1 := u.2.2
  if u.1 < 0 then { ret := u.1, g := g1, tr := tr1, remote := remote.percpu }
  else if kstrtoul.1 ≠ 0 then { ret := kstrtoul.1, g := g1, tr := tr1, remote := remote.percpu }
  else
    match g1.trace_types[tr1.current_trace]? with
    | none => { ret := -EINVAL, g := g1, tr := tr1, remote := remote.percpu }
    | some tracer =>
      if tracer.use_max_tr then { ret := -EBUSY, g := g1, tr := tr1, remote := remote.percpu }
      else if tr1.cond_snapshot.isSome then
        { ret := -EBUSY, g := g1, tr := tr1, remote := remote.percpu }
      else
        tracing_snapshot_write_switch env g1 printk_trace allow_swap update this_cpu remote tr1
          cpu_file kstrtoul.2 cnt

/-! ## The tracer registry -/

/-- `EPERM`. -/
def EPERM : Int := 1

/-- `dummy_set_flag`. -/
def dummy_set_flag (_tr : trace_array) (_old_flags _bit : Nat) (_set : Int) : Int := 0

/-- What `register_tracer` returns and leaves behind: the globals with the registry, the
instance `global_trace`, `default_bootup_tracer`, the object `type` points to, and the
tracer hooks called. -/
structure register_result where
  ret : Int
  g : tracer_globals
  tr : trace_array
  default_bootup_tracer : Option String
  type : tracer
  calls : List hook_call

/-- The part of `register_tracer` from the allocation of the dummy `tracer_flags` on, in a
kernel without startup tests (`do_run_tracer_selftest` returns 0), for a tracer `type`
named `name`.  A tracer pointer being a position in `trace_types`, linking the tracer at
the head of the list moves the positions held in `nop_trace` and in `tr->current_trace` up
by one. -/
def register_tracer_link (env : ring_buffer_env) (MAX_TRACER_SIZE : Nat) (alloc_ok : Bool)
    (apply_trace_boot_options : trace_array → trace_array) (g : tracer_globals)
    (tr : trace_array) (default_bootup_tracer : Option String) (name : String)
    (type : tracer) : register_result :=
  if !type.flags && !alloc_ok then
    { ret := -ENOMEM, g := g, tr := tr, default_bootup_tracer := default_bootup_tracer,
      type := type, calls := [] }
  else
    /- allocate a dummy tracer_flags -/
    let type2 : tracer := { type with flags := true }
    let g1 : tracer_globals :=
      { g with trace_types := type2 :: g.trace_types, nop_trace := g.nop_trace + 1 }
    let tr1 : trace_array := { tr with current_trace := tr.current_trace + 1 }
    match default_bootup_tracer with
    | none =>
      { ret := 0, g := g1, tr := tr1, default_bootup_tracer := none, type := type2,
        calls := [] }
    | some boot =>
      if boot.toList.take MAX_TRACER_SIZE ≠ name.toList.take MAX_TRACER_SIZE then
        { ret := 0, g := g1, tr := tr1, default_bootup_tracer := default_bootup_tracer,
          type := type2, calls := [] }
      else
        /- Do we want this tracer to start on bootup? -/
        let r := tracing_set_tracer env g1 tr1 name
        { ret := 0, g := r.g, tr := apply_trace_boot_options r.tr,
          default_bootup_tracer := none, type := type2, calls := r.calls }

/-- `register_tracer`.  `MAX_TRACER_SIZE` is the constant of the absent `trace.h`;
`locked_down` is what `security_locked_down(LOCKDOWN_TRACEFS)` returns, `alloc_ok` whether
`kmalloc` returns memory; `tr` is the instance `global_trace`; `apply_trace_boot_options`
is what the function of that name does to it. -/
def register_tracer (env : ring_buffer_env) (MAX_TRACER_SIZE : Nat) (locked_down : Bool)
    (alloc_ok : Bool) (apply_trace_boot_options : trace_array → trace_array)
    (g : tracer_globals) (tr : trace_array) (default_bootup_tracer : Option String)
    (type : tracer) : register_result :=
  match type.name with
  | none =>
    { ret := -1, g := g, tr := tr, default_bootup_tracer := default_bootup_tracer,
      type := type, calls := [] }
  | some name =>
    if name.utf8ByteSize ≥ MAX_TRACER_SIZE then
      { ret := -1, g := g, tr := tr, default_bootup_tracer := default_bootup_tracer,
        type := type, calls := [] }
    else if locked_down then
      { ret := -EPERM, g := g, tr := tr, default_bootup_tracer := default_bootup_tracer,
        type := type, calls := [] }
    else if g.trace_types.any (fun t => t.name == some name) then
      /- already found -/
      { ret := -1, g := g, tr := tr, default_bootup_tracer := default_bootup_tracer,
        type := type, calls := [] }
    else
      register_tracer_link env MAX_TRACER_SIZE alloc_ok apply_trace_boot_options g tr
        default_bootup_tracer name
        (if type.set_flag.isNone then { type with set_flag := some dummy_set_flag } else type)

/-- The names in the registry are pairwise distinct. -/
def names_distinct (trace_types : List tracer) : Prop :=
  trace_types.Pairwise (fun a b => a.name ≠ b.name)

/-- Two registries hold the same tracers in the same order, up to their enabled counts. -/
def same_tracers (before after : List tracer) : Prop :=
  List.Forall₂ (fun a b => b = { a with enabled := b.enabled }) before after

/-- What a refused or void tracer switch keeps of an instance: the current tracer, the
armed counter and the allocation of the spare set, the conditional snapshot and the count
of open pipe readers. -/
def tracer_state_kept (before after : trace_array) : Prop :=
  after.current_trace = before.current_trace ∧ after.snapshot = before.snapshot ∧
    after.allocated_snapshot = before.allocated_snapshot ∧
    after.cond_snapshot = before.cond_snapshot ∧ after.trace_ref = before.trace_ref ∧
    after.fl_global = before.fl_global ∧ after.range_addr_start = before.range_addr_start ∧
    after.mapped = before.mapped

/-! ## Waiting for data, and the page reads of `trace_pipe_raw` -/

/-- `EINTR`. -/
def EINTR : Int := 4

/-- Modelled from the spec: `ring_buffer_iter_empty` of the absent `ring_buffer.c`: the
cursor stands behind the last committed event of its CPU. -/
def ring_buffer_iter_empty (buffer : trace_buffer) (cpu : Nat) (buf_iter : ring_buffer_iter) :
    Bool :=
  match buffer.cpus[cpu]? with
  | none => true
  | some cpu_buffer => decide (cpu_buffer.events.length ≤ buf_iter.head)

/-- The test both branches of `trace_empty` make for one CPU: whether the iterator has
nothing to read there. -/
def trace_empty_cpu (iter : trace_iterator) (cpu : Nat) : Bool :=
  match trace_buffer_iter iter cpu with
  | some buf_iter => ring_buffer_iter_empty iter.array_buffer cpu buf_iter
  | none => ring_buffer_empty_cpu iter.array_buffer cpu

/-- `trace_empty`. -/
def trace_empty (iter : trace_iterator) : Bool :=
  /- If we are looking at one CPU buffer, only check that one -/
  if iter.cpu_file ≠ RING_BUFFER_ALL_CPUS then trace_empty_cpu iter iter.cpu_file.toNat
  else (for_each_tracing_cpu iter.array_buffer).all (trace_empty_cpu iter)

/-- `struct pipe_wait`: the generation sampled before the wait.  Its `iter` pointer is the
iterator the condition is evaluated on. -/
structure pipe_wait where
  wait_index : Nat
deriving DecidableEq, Repr

/-- `wait_pipe_cond`, on the iterator as it is when the condition is evaluated. -/
def wait_pipe_cond (pwait : pipe_wait) (iter : trace_iterator) : Bool :=
  if iter.wait_index ≠ pwait.wait_index then true
  else iter.closed

/-- How a call that may sleep ends: it returns, or it is suspended in `ring_buffer_wait`
with the condition `wait_pipe_cond` on `pwait`. -/
inductive wait_result where
  | returned (ret : Int)
  | suspended (pwait : pipe_wait)
deriving DecidableEq, Repr

/-- `wait_on_pipe`, up to the call of `ring_buffer_wait`.  An iterator on the snapshot
buffer keeps pointing to it afterwards (`iter->array_buffer = &iter->tr->max_buffer`),
which here is no change. -/
def wait_on_pipe (iter : trace_iterator) : wait_result :=
  /- Iterators are static, they should be filled or empty -/
  if (trace_buffer_iter iter iter.cpu_file.toNat).isSome then wait_result.returned 0
  else wait_result.suspended { wait_index := iter.wait_index }

/-- `struct ftrace_buffer_info`: `spare` holds the bytes of the spare page once it is
allocated. -/
structure ftrace_buffer_info where
  iter : trace_iterator
  spare : Option (List Nat)
  spare_cpu : Int
  spare_size : Nat
  read : Nat
deriving DecidableEq, Repr

/-- What the page operations of the absent `ring_buffer.c` and the copy to user space do:
the page `ring_buffer_alloc_read_page` returns or its error, what `ring_buffer_read_page`
returns on a CPU with committed events (return value, buffer and page afterwards), and the
number of bytes `copy_to_user` could not copy out of `n`. -/
structure read_page_env where
  alloc_read_page : trace_buffer → Int → Except Int (List Nat)
  read_page : trace_buffer → List Nat → Nat → Int → Int × trace_buffer × List Nat
  copy_to_user : Nat → Nat

/-- Modelled from the spec: `ring_buffer_subbuf_size_get` of the absent `ring_buffer.c`. -/
def ring_buffer_subbuf_size_get (buffer : trace_buffer) : Nat :=
  PAGE_SIZE * 2 ^ buffer.subbuf_order

/-- Modelled from the spec: `ring_buffer_read_page` of the absent `ring_buffer.c`: for a
CPU that is not in the buffer or has no committed event there is nothing to read and the
return value is -1. -/
def ring_buffer_read_page (penv : read_page_env) (buffer : trace_buffer)
    (data_page : List Nat) (len : Nat) (cpu : Int) : Int × trace_buffer × List Nat :=
  if cpu < 0 ∨ ring_buffer_empty_cpu buffer cpu.toNat = true then (-1, buffer, data_page)
  else penv.read_page buffer data_page len cpu

/-- How a read of a file ends: it returns `ret` with `ubuf` written to the user buffer, or
it is suspended in `ring_buffer_wait`. -/
inductive buffers_read_outcome where
  | returned (ret : Int) (info : ftrace_buffer_info) (ubuf : List Nat)
  | suspended (pwait : pipe_wait) (info : ftrace_buffer_info)
deriving DecidableEq, Repr

/-- The statements of `tracing_buffers_read` from the label `read` on. -/
def tracing_buffers_read_copy (penv : read_page_env) (info : ftrace_buffer_info)
    (page_size count : Nat) : buffers_read_outcome :=
  let size0 := page_size - info.read
  let size := if size0 > count then count else size0
  let trace_data := info.spare.getD []
  let ret := penv.copy_to_user size
  if ret = size then buffers_read_outcome.returned (-EFAULT) info []
  else
    let size1 := size - ret
    buffers_read_outcome.returned (size1 : Int) { info with read := info.read + size1 }
      ((trace_data.drop info.read).take size1)

/-- The statements of `tracing_buffers_read` from the label `again` on; the fuel bounds the
number of times `wait_on_pipe` returns 0 without sleeping. -/
def tracing_buffers_read_again (penv : read_page_env) (nonblock : Bool)
    (page_size count : Nat) : Nat → ftrace_buffer_info → Option buffers_read_outcome
  | 0, _ => none
  | fuel + 1, info =>
    let iter := info.iter
    let r := ring_buffer_read_page penv iter.array_buffer (info.spare.getD []) count
      iter.cpu_file
    let info1 : ftrace_buffer_info :=
      { info with iter := { iter with array_buffer := r.2.1 }, spare := some r.2.2 }
    if r.1 < 0 then
      if trace_empty info1.iter && !info1.iter.closed then
        if nonblock then some (buffers_read_outcome.returned (-EAGAIN) info1 [])
        else
          match wait_on_pipe info1.iter with
          | wait_result.suspended pwait => some (buffers_read_outcome.suspended pwait info1)
          | wait_result.returned ret =>
            if ret ≠ 0 then some (buffers_read_outcome.returned ret info1 [])
            else tracing_buffers_read_again penv nonblock page_size count fuel info1
      else some (buffers_read_outcome.returned 0 info1 [])
    else
      some (tracing_buffers_read_copy penv { info1 with read := 0 } page_size count)

/-- `tracing_buffers_read`.  `use_max_tr` is `iter->tr->current_trace->use_max_tr`,
`nonblock` is `filp->f_flags & O_NONBLOCK`. -/
def tracing_buffers_read (penv : read_page_env) (use_max_tr nonblock : Bool) (count : Nat)
    (fuel : Nat) (info : ftrace_buffer_info) : Option buffers_read_outcome :=
  if count = 0 then some (buffers_read_outcome.returned 0 info [])
  else if info.iter.snapshot && use_max_tr then
    some (buffers_read_outcome.returned (-EBUSY) info [])
  else
    let iter := info.iter
    let page_size := ring_buffer_subbuf_size_get iter.array_buffer
    /- Make sure the spare matches the current sub buffer size -/
    let info1 : ftrace_buffer_info :=
      if info.spare.isSome && decide (page_size ≠ info.spare_size) then
        { info with spare := none }
      else info
    let alloc : Int × ftrace_buffer_info :=
      if info1.spare.isNone then
        match penv.alloc_read_page iter.array_buffer iter.cpu_file with
        | Except.error e => (e, { info1 with spare := none })
        | Except.ok page =>
          (0, { info1 with spare := some page, spare_cpu := iter.cpu_file,
                           spare_size := page_size })
      else (0, info1)
    let info2 := alloc.2
    if info2.spare.isNone then some (buffers_read_outcome.returned alloc.1 info2 [])
    /- Do we have previous read data to read? -/
    else if info2.read < page_size then
      some (tracing_buffers_read_copy penv info2 page_size count)
    else tracing_buffers_read_again penv nonblock page_size count fuel info2

/-- The rest of `tracing_buffers_read` once `ring_buffer_wait` has returned `ret` to
`wait_on_pipe`. -/
def tracing_buffers_read_woken (penv : read_page_env) (nonblock : Bool) (count : Nat)
    (ret : Int) (fuel : Nat) (info : ftrace_buffer_info) : Option buffers_read_outcome :=
  if ret ≠ 0 then some (buffers_read_outcome.returned ret info [])
  else
    tracing_buffers_read_again penv nonblock
      (ring_buffer_subbuf_size_get info.iter.array_buffer) count fuel info

/-- `tracing_buffers_flush`: `wait_index` is an `atomic_t`, whose increment wraps at 32
bits.  Waking the waiters (`ring_buffer_wake_waiters`) makes them evaluate their
condition. -/
def tracing_buffers_flush (info : ftrace_buffer_info) : ftrace_buffer_info :=
  { info with
    iter := { info.iter with
      closed := true
      /- Make sure the waiters see the new wait_index -/
      wait_index := (info.iter.wait_index + 1) % 2 ^ 32 } }

/-! ## The consuming reader of `trace_pipe` -/

/-- Modelled from the spec: `trace_seq_init` of the absent `trace_seq.h`. -/
def trace_seq_init : trace_seq := {}

/-- Modelled from the spec: `trace_seq_used` of the absent `trace_seq.h`. -/
def trace_seq_used (s : trace_seq) : Nat := s.buffer.length

/-- Modelled from the spec: `trace_seq_has_overflowed` of the absent `trace_seq.h`. -/
def trace_seq_has_overflowed (s : trace_seq) : Bool := s.full

/-- Modelled from the spec: a write of the absent `trace_seq.c` (`trace_seq_puts`, and
likewise `trace_seq_printf` and `trace_seq_putmem`): nothing is written once the buffer has
overflowed, and a string that does not fit into what is left of the
`TRACE_SEQ_BUFFER_SIZE` bytes sets the overflow flag and writes nothing. -/
def trace_seq_puts (TRACE_SEQ_BUFFER_SIZE : Nat) (s : trace_seq) (str : List Nat) :
    trace_seq :=
  if s.full then s
  else if TRACE_SEQ_BUFFER_SIZE - s.buffer.length < str.length then { s with full := true }
  else { s with buffer := s.buffer ++ str }

/-- Modelled from the spec: `trace_seq_to_user` of the absent `trace_seq.c`: copies up to
`cnt` of the bytes not yet handed over and advances the read position by what was copied;
-EBUSY when nothing is left.  `copy_to_user n` is the number of bytes that could not be
copied out of `n`.  Returns the return value, the buffer and what reached the user. -/
def trace_seq_to_user (copy_to_user : Nat → Nat) (s : trace_seq) (cnt : Nat) :
    Int × trace_seq × List Nat :=
  if cnt = 0 then (0, s, [])
  else if s.buffer.length ≤ s.readpos then (-EBUSY, s, [])
  else
    let len := s.buffer.length - s.readpos
    let cnt1 := if cnt > len then len else cnt
    let ret := copy_to_user cnt1
    if ret = cnt1 then (-EFAULT, s, [])
    else
      let n := cnt1 - ret
      ((n : Int), { s with readpos := s.readpos + n }, (s.buffer.drop s.readpos).take n)

/-- Modelled from the spec: `trace_iterator_reset` of the absent `trace.h`: the fields from
`seq` on are zeroed and `pos` is -1. -/
def trace_iterator_reset (iter : trace_iterator) : trace_iterator :=
  { iter with
    seq := {}, ent := none, lost_events := 0, ent_size := 0, cpu := 0, ts := 0, idx := 0,
    pos := -1 }

/-- The output functions of the events, which are not in this file: `event_line` gives the
pieces that the format selected by the trace flags (`print_trace_fmt`, `print_raw_fmt`,
`print_hex_fmt`, `print_bin_fmt` or a message-only printer, with the callbacks of the event
they find) writes for an entry read on `cpu` with timestamp `ts`, each piece by one write
of the `trace_seq` family, the printer returning through `trace_handle_return`. -/
structure trace_output where
  event_line : trace_entry → Int → Nat → List (List Nat)

/-- The text written for `iter->lost_events` at the head of a line. -/
def lost_events_text (iter : trace_iterator) : List Nat :=
  if iter.lost_events = ULONG_MAX then
    bytes ("CPU:" ++ toString iter.cpu ++ " [LOST EVENTS]\n")
  else
    bytes ("CPU:" ++ toString iter.cpu ++ " [LOST " ++ toString iter.lost_events ++
      " EVENTS]\n")

/-- `trace_handle_return`. -/
def trace_handle_return (s : trace_seq) : print_line_t :=
  if trace_seq_has_overflowed s then print_line_t.TRACE_TYPE_PARTIAL_LINE
  else print_line_t.TRACE_TYPE_HANDLED

/-- The last part of `print_trace_line`: the printer the trace flags select writes the
pieces of `iter->ent`, which is set when the function is called. -/
def print_trace_line_event (out : trace_output) (TRACE_SEQ_BUFFER_SIZE : Nat)
    (iter : trace_iterator) : print_line_t × trace_iterator :=
  match iter.ent with
  | none => (print_line_t.TRACE_TYPE_HANDLED, iter)
  | some ent =>
    let s := (out.event_line ent iter.cpu iter.ts).foldl
      (trace_seq_puts TRACE_SEQ_BUFFER_SIZE) iter.seq
    (trace_handle_return s, { iter with seq := s })

/-- `print_trace_line`, for the tracer `trace` of the iterator. -/
def print_trace_line (out : trace_output) (trace : tracer) (TRACE_SEQ_BUFFER_SIZE : Nat)
    (iter : trace_iterator) : print_line_t × trace_iterator :=
  let iter1 : trace_iterator :=
    if iter.lost_events ≠ 0 then
      { iter with seq := trace_seq_puts TRACE_SEQ_BUFFER_SIZE iter.seq (lost_events_text iter) }
    else iter
  if iter.lost_events ≠ 0 ∧ trace_seq_has_overflowed iter1.seq = true then
    (print_line_t.TRACE_TYPE_PARTIAL_LINE, iter1)
  else
    match trace.print_line with
    | some print_line =>
      let r := print_line iter1
      if r.1 ≠ print_line_t.TRACE_TYPE_UNHANDLED then r
      else print_trace_line_event out TRACE_SEQ_BUFFER_SIZE r.2
    | none => print_trace_line_event out TRACE_SEQ_BUFFER_SIZE iter1

/-- `tracing_wait_pipe`; the fuel bounds the number of times `wait_on_pipe` returns 0
without sleeping.  `nonblock` is `filp->f_flags & O_NONBLOCK`. -/
def tracing_wait_pipe (tr : trace_array) (nonblock : Bool) :
    Nat → trace_iterator → Option wait_result
  | 0, _ => none
  | fuel + 1, iter =>
    if trace_empty iter then
      if nonblock then some (wait_result.returned (-EAGAIN))
      /- We block until we read something and tracing is disabled. -/
      else if !tracer_tracing_is_on tr && decide (iter.pos ≠ 0) then
        some (wait_result.returned 1)
      else
        match wait_on_pipe iter with
        | wait_result.suspended pwait => some (wait_result.suspended pwait)
        | wait_result.returned ret =>
          if ret ≠ 0 then some (wait_result.returned ret)
          else tracing_wait_pipe tr nonblock fuel iter
    else some (wait_result.returned 1)

/-- The text put in the place of a line that does not fit into an empty buffer. -/
def LINE_TOO_BIG : List Nat := bytes "[LINE TOO BIG]\n"

/-- The `while` loop of `tracing_read_pipe`: the iterator when the loop is left, `none` when
the fuel runs out first. -/
def tracing_read_pipe_loop (out : trace_output) (trace : tracer) (TRACE_SEQ_BUFFER_SIZE : Nat)
    (cnt : Nat) : Nat → trace_iterator → Option trace_iterator
  | 0, _ => none
  | fuel + 1, iter =>
    let r := trace_find_next_entry_inc iter
    if !r.2 then some r.1
    else
      let save_len := r.1.seq.buffer.length
      let p := print_trace_line out trace TRACE_SEQ_BUFFER_SIZE r.1
      if p.1 = print_line_t.TRACE_TYPE_PARTIAL_LINE then
        if save_len = 0 then
          some (trace_consume
            { p.2 with
              seq := trace_seq_puts TRACE_SEQ_BUFFER_SIZE { p.2.seq with full := false }
                LINE_TOO_BIG })
        /- In other cases, don't print partial lines -/
        else some { p.2 with seq := { p.2.seq with buffer := p.2.seq.buffer.take save_len } }
      else
        let iter3 := if p.1 ≠ print_line_t.TRACE_TYPE_NO_CONSUME then trace_consume p.2 else p.2
        if trace_seq_used iter3.seq ≥ cnt then some iter3
        else tracing_read_pipe_loop out trace TRACE_SEQ_BUFFER_SIZE cnt fuel iter3

/-- How a read of `trace_pipe` ends: it returns `sret` with `ubuf` written to the user
buffer, or it is suspended in `ring_buffer_wait`. -/
inductive read_pipe_outcome where
  | returned (sret : Int) (ubuf : List Nat) (iter : trace_iterator)
  | suspended (pwait : pipe_wait) (iter : trace_iterator)
deriving DecidableEq, Repr

/-- The statements of `tracing_read_pipe` from the label `waitagain` on.  The mask
`iter->started`, which the function clears, is not part of this state. -/
def tracing_read_pipe_waitagain (out : trace_output) (copy_to_user : Nat → Nat)
    (tr : trace_array) (trace : tracer) (TRACE_SEQ_BUFFER_SIZE : Nat) (nonblock : Bool)
    (cnt : Nat) : Nat → trace_iterator → Option read_pipe_outcome
  | 0, _ => none
  | fuel + 1, iter =>
    match tracing_wait_pipe tr nonblock (fuel + 1) iter with
    | none => none
    | some (wait_result.suspended pwait) => some (read_pipe_outcome.suspended pwait iter)
    | some (wait_result.returned sret) =>
      if sret ≤ 0 then some (read_pipe_outcome.returned sret [] iter)
      /- stop when tracing is finished -/
      else if trace_empty iter then some (read_pipe_outcome.returned 0 [] iter)
      else
        let cnt1 := if cnt ≥ TRACE_SEQ_BUFFER_SIZE then TRACE_SEQ_BUFFER_SIZE - 1 else cnt
        /- reset all but tr, trace, and overruns -/
        let iter1 : trace_iterator := { trace_iterator_reset iter with seq := trace_seq_init }
        match tracing_read_pipe_loop out trace TRACE_SEQ_BUFFER_SIZE cnt1 fuel iter1 with
        | none => none
        | some iter2 =>
          /- Now copy what we have to the user -/
          let u := trace_seq_to_user copy_to_user iter2.seq cnt1
          let iter3 : trace_iterator :=
            { iter2 with
              seq := if u.2.1.readpos ≥ trace_seq_used u.2.1 then trace_seq_init else u.2.1 }
          if u.1 = -EBUSY then
            tracing_read_pipe_waitagain out copy_to_user tr trace TRACE_SEQ_BUFFER_SIZE
              nonblock cnt fuel iter3
          else some (read_pipe_outcome.returned u.1 u.2.2 iter3)

/-- `tracing_read_pipe`.  What the `read` hook of a tracer writes to the user buffer is not
part of this state. -/
def tracing_read_pipe (out : trace_output) (copy_to_user : Nat → Nat) (tr : trace_array)
    (trace : tracer) (TRACE_SEQ_BUFFER_SIZE : Nat) (nonblock : Bool) (cnt : Nat) (fuel : Nat)
    (iter : trace_iterator) : Option read_pipe_outcome :=
  /- return any leftover data -/
  let u := trace_seq_to_user copy_to_user iter.seq cnt
  if u.1 ≠ -EBUSY then some (read_pipe_outcome.returned u.1 u.2.2 { iter with seq := u.2.1 })
  else
    let iter1 : trace_iterator := { iter with seq := trace_seq_init }
    let hooked : Int × trace_iterator := match trace.read with
      | some read => read iter1
      | none => (0, iter1)
    if hooked.1 ≠ 0 then some (read_pipe_outcome.returned hooked.1 [] hooked.2)
    else
      tracing_read_pipe_waitagain out copy_to_user tr trace TRACE_SEQ_BUFFER_SIZE nonblock cnt
        fuel hooked.2

/-- The rest of `tracing_read_pipe` once `ring_buffer_wait` has returned `ret` to
`wait_on_pipe` in `tracing_wait_pipe`. -/
def tracing_read_pipe_woken (out : trace_output) (copy_to_user : Nat → Nat) (tr : trace_array)
    (trace : tracer) (TRACE_SEQ_BUFFER_SIZE : Nat) (nonblock : Bool) (cnt : Nat) (ret : Int)
    (fuel : Nat) (iter : trace_iterator) : Option read_pipe_outcome :=
  if ret ≠ 0 then some (read_pipe_outcome.returned ret [] iter)
  else
    tracing_read_pipe_waitagain out copy_to_user tr trace TRACE_SEQ_BUFFER_SIZE nonblock cnt
      fuel iter

/-! ## Specification vocabulary for the consuming reader -/

/-- The pieces of the line of the record the iterator stands on: the notice of lost events,
if any were lost before it, and the pieces of the entry. -/
def record_chunks (out : trace_output) (iter : trace_iterator) : List (List Nat) :=
  (if iter.lost_events ≠ 0 then [lost_events_text iter] else []) ++
    match iter.ent with
    | some ent => out.event_line ent iter.cpu iter.ts
    | none => []

/-- The formatted line of the record the iterator stands on. -/
def record_line (out : trace_output) (iter : trace_iterator) : List Nat :=
  (record_chunks out iter).flatten

/-- What a reader is to get for the record the iterator stands on: its line, if the line
fits into an empty buffer of `TRACE_SEQ_BUFFER_SIZE` bytes; otherwise the pieces written
before the first piece that does not fit, followed by the text put in the place of the
line, if that fits. -/
def record_text (out : trace_output) (TRACE_SEQ_BUFFER_SIZE : Nat) (iter : trace_iterator) :
    List Nat :=
  if (record_line out iter).length ≤ TRACE_SEQ_BUFFER_SIZE then record_line out iter
  else
    (trace_seq_puts TRACE_SEQ_BUFFER_SIZE
      { (record_chunks out iter).foldl (trace_seq_puts TRACE_SEQ_BUFFER_SIZE) {} with
        full := false } LINE_TOO_BIG).buffer

/-- The text of the records the iterator has still to deliver, in the order in which
`trace_find_next_entry_inc` and `trace_consume` deliver them, for at most `n` records. -/
def pipe_remaining (out : trace_output) (TRACE_SEQ_BUFFER_SIZE : Nat) :
    Nat → trace_iterator → List Nat
  | 0, _ => []
  | n + 1, iter =>
    let r := trace_find_next_entry_inc iter
    if r.2 then
      record_text out TRACE_SEQ_BUFFER_SIZE r.1 ++
        pipe_remaining out TRACE_SEQ_BUFFER_SIZE n (trace_consume r.1)
    else []

/-- The text of every record in the ring buffer of a consuming iterator, in delivery
order. -/
def pipe_pending (out : trace_output) (TRACE_SEQ_BUFFER_SIZE : Nat) (iter : trace_iterator) :
    List Nat :=
  pipe_remaining out TRACE_SEQ_BUFFER_SIZE ((committed iter.array_buffer).length + 1) iter

/-- The bytes a reader of the pipe has still to get: what is left in the sequence buffer,
then the text of every record in the ring buffer. -/
def pipe_text (out : trace_output) (TRACE_SEQ_BUFFER_SIZE : Nat) (iter : trace_iterator) :
    List Nat :=
  iter.seq.buffer.drop iter.seq.readpos ++ pipe_pending out TRACE_SEQ_BUFFER_SIZE iter

/-- Two consuming iterators that read the same logs with the same scope. -/
def reads_alike (a b : trace_iterator) : Prop :=
  a.array_buffer = b.array_buffer ∧ a.buffer_iter = none ∧ b.buffer_iter = none ∧
    a.cpu_file = b.cpu_file

/-- Two states of the full-scope loop of `__find_next_entry` that differ at most in fields
of the iterator the loop does not read. -/
def scans_alike (s t : find_locals) : Prop :=
  reads_alike s.iter t.iter ∧ s.next = t.next ∧ s.next_cpu = t.next_cpu ∧
    s.next_ts = t.next_ts ∧ s.next_lost = t.next_lost ∧ s.next_size = t.next_size ∧
    s.ts = t.ts ∧ s.lost_events = t.lost_events

/-- What a read of a consuming iterator is to keep: the bytes handed to the reader followed
by the bytes the reader has still to get are the bytes the reader had to get before the
read, a non-negative return value is the number of bytes handed over, and the iterator is
still a consuming one of the same scope; a suspended read has handed over nothing and its
sequence buffer is empty. -/
def pipe_outcome_keeps (out : trace_output) (TRACE_SEQ_BUFFER_SIZE : Nat)
    (iter : trace_iterator) : read_pipe_outcome → Prop
  | read_pipe_outcome.returned sret ubuf last =>
    ubuf ++ pipe_text out TRACE_SEQ_BUFFER_SIZE last = pipe_text out TRACE_SEQ_BUFFER_SIZE iter ∧
      (0 ≤ sret → sret = (ubuf.length : Int)) ∧
      last.buffer_iter = none ∧ last.cpu_file = iter.cpu_file
  | read_pipe_outcome.suspended pwait last =>
    pipe_text out TRACE_SEQ_BUFFER_SIZE last = pipe_text out TRACE_SEQ_BUFFER_SIZE iter ∧
      last.seq = {} ∧ pwait.wait_index = last.wait_index ∧
      last.buffer_iter = none ∧ last.cpu_file = iter.cpu_file

/-! ## The pause around a resize -/

/-- The instance as `__tracing_resize_ring_buffer` has it while the ring buffer is resized:
marked as expanded and stopped by `tracing_stop_tr`. -/
def resize_paused (tr : trace_array) : trace_array :=
  tracing_stop_tr { tr with ring_buffer_expanded := true }

/-- The outcome of `__tracing_resize_ring_buffer` that its comment calls AARGH: the live
buffer was resized, the resize of the spare buffer failed, and putting the live buffer back
with `resize_buffer_duplicate_size` failed too. -/
def resize_left_unequal (env : ring_buffer_env) (tr : trace_array) (size : Nat) (cpu : Int) :
    Prop :=
  ¬ (ring_buffer_resize env (resize_paused tr).array_buffer.buffer size cpu).1 < 0 ∧
    (resize_paused tr).allocated_snapshot = true ∧
    (ring_buffer_resize env (resize_paused tr).max_buffer.buffer size cpu).1 < 0 ∧
    (resize_buffer_duplicate_size env
      { (resize_paused tr).array_buffer with
        buffer := (ring_buffer_resize env (resize_paused tr).array_buffer.buffer size cpu).2 }
      { (resize_paused tr).array_buffer with
        buffer := (ring_buffer_resize env (resize_paused tr).array_buffer.buffer size cpu).2 }
      cpu).1 < 0

/-! ## The sub-buffer size control -/

/-- Modelled from the spec: `fls` of the absent bit operations, on a 32-bit word: the
position of the most significant set bit, counted from 1, and 0 for 0. -/
def fls (x : Nat) : Nat :=
  (List.range 32).foldl (fun acc i => if x.testBit i then i + 1 else acc) 0

/-- `DIV_ROUND_UP(n, d)` in `unsigned long` arithmetic: `(n + d - 1) / d`, the sum wrapping
at 64 bits. -/
def DIV_ROUND_UP (n d : Nat) : Nat := (n + d - 1) % 2 ^ 64 / d

/-- The order `buffer_subbuf_size_write` computes from the number written: `val` is an
`unsigned long`, `pages` an `int` that takes the low 32 bits of the quotient, and `fls`
gets `pages - 1` as an `unsigned int`. -/
def subbuf_size_order (val : Nat) : Nat :=
  /- value passed in is in KB -/
  let val1 := val * 1024 % 2 ^ 64
  let pages := DIV_ROUND_UP val1 PAGE_SIZE % 2 ^ 32
  fls ((pages + (2 ^ 32 - 1)) % 2 ^ 32)

/-- `buffer_subbuf_size_write`.  `kstrtoul` is what `kstrtoul_from_user` returns and stores
in `val`.  The order is not negative, so of the test `order < 0 || order > 7` the second
half decides; the file position is not part of this state.  Returns the return value, the
globals and the instance. -/
def buffer_subbuf_size_write (env : ring_buffer_env) (g : tracer_globals) (tr : trace_array)
    (kstrtoul : Int × Nat) (cnt : Nat) : Int × tracer_globals × trace_array :=
  if kstrtoul.1 ≠ 0 then (kstrtoul.1, g, tr)
  else
    let order := subbuf_size_order kstrtoul.2
    /- limit between 1 and 128 system pages -/
    if order > 7 then (-EINVAL, g, tr)
    else
      /- Do not allow tracing while changing the order of the ring buffer -/
      let tr1 := tracing_stop_tr tr
      let old_order := ring_buffer_subbuf_order_get tr1.array_buffer.buffer
      if old_order = order then ((cnt : Int), g, tracing_start_tr g tr1)
      else
        let r := ring_buffer_subbuf_order_set env tr1.array_buffer.buffer order
        let tr2 : trace_array :=
          { tr1 with array_buffer := { tr1.array_buffer with buffer := r.2 } }
        if r.1 ≠ 0 then (r.1, g, tracing_start_tr g tr2)
        else if !tr2.allocated_snapshot then ((cnt : Int), g, tracing_start_tr g tr2)
        else
          let rm := ring_buffer_subbuf_order_set env tr2.max_buffer.buffer order
          let tr3 : trace_array :=
            { tr2 with max_buffer := { tr2.max_buffer with buffer := rm.2 } }
          if rm.1 ≠ 0 then
            /- Put back the old order -/
            let rb := ring_buffer_subbuf_order_set env tr3.array_buffer.buffer old_order
            let tr4 : trace_array :=
              { tr3 with array_buffer := { tr3.array_buffer with buffer := rb.2 } }
            let g1 : tracer_globals :=
              if rb.1 ≠ 0 then { g with tracing_disabled := true } else g
            (rm.1, g1, tracing_start_tr g1 tr4)
          else ((cnt : Int), g, tracing_start_tr g tr3)

/-! ## Trace exports -/

/-- `TRACE_EXPORT_FUNCTION`. -/
def TRACE_EXPORT_FUNCTION : Nat := 1 <<< 0

/-- `TRACE_EXPORT_EVENT`. -/
def TRACE_EXPORT_EVENT : Nat := 1 <<< 1

/-- `TRACE_EXPORT_MARKER`. -/
def TRACE_EXPORT_MARKER : Nat := 1 <<< 2

/-- The fields of `struct trace_export` other than `next`: `write` says whether the pointer
to the write function is set. -/
structure trace_export where
  write : Bool
  flags : Nat
deriving DecidableEq, Repr

/-- The exports kept by `trace.c`: `ftrace_exports_list` as the addresses of the exports in
list order, and the counts of the three static keys. -/
structure ftrace_exports_state where
  ftrace_exports_list : List Nat
  trace_function_exports_enabled : Nat
  trace_event_exports_enabled : Nat
  trace_marker_exports_enabled : Nat
deriving DecidableEq, Repr

/-- Modelled from the spec: `static_branch_inc` of the absent jump labels. -/
def static_branch_inc (key : Nat) : Nat := key + 1

/-- Modelled from the spec: `static_branch_dec` of the absent jump labels: a count of 0 is
warned about and stays 0. -/
def static_branch_dec (key : Nat) : Nat := key - 1

/-- `ftrace_exports_enable`. -/
def ftrace_exports_enable (st : ftrace_exports_state) (exp : trace_export) :
    ftrace_exports_state :=
  let st1 :=
    if exp.flags &&& TRACE_EXPORT_FUNCTION ≠ 0 then
      { st with
        trace_function_exports_enabled := static_branch_inc st.trace_function_exports_enabled }
    else st
  let st2 :=
    if exp.flags &&& TRACE_EXPORT_EVENT ≠ 0 then
      { st1 with
        trace_event_exports_enabled := static_branch_inc st1.trace_event_exports_enabled }
    else st1
  if exp.flags &&& TRACE_EXPORT_MARKER ≠ 0 then
    { st2 with
      trace_marker_exports_enabled := static_branch_inc st2.trace_marker_exports_enabled }
  else st2

/-- `ftrace_exports_disable`. -/
def ftrace_exports_disable (st : ftrace_exports_state) (exp : trace_export) :
    ftrace_exports_state :=
  let st1 :=
    if exp.flags &&& TRACE_EXPORT_FUNCTION ≠ 0 then
      { st with
        trace_function_exports_enabled := static_branch_dec st.trace_function_exports_enabled }
    else st
  let st2 :=
    if exp.flags &&& TRACE_EXPORT_EVENT ≠ 0 then
      { st1 with
        trace_event_exports_enabled := static_branch_dec st1.trace_event_exports_enabled }
    else st1
  if exp.flags &&& TRACE_EXPORT_MARKER ≠ 0 then
    { st2 with
      trace_marker_exports_enabled := static_branch_dec st2.trace_marker_exports_enabled }
  else st2

/-- `add_trace_export`: the export at address `export` becomes the head of the list. -/
def add_trace_export (list : List Nat) (exp : Nat) : List Nat := exp :: list

/-- `rm_trace_export`: the first occurrence of the address is unlinked; -1 when the list
does not hold it. -/
def rm_trace_export (list : List Nat) (exp : Nat) : Int × List Nat :=
  if exp ∈ list then (0, list.erase exp) else (-1, list)

/-- `add_ftrace_export`. -/
def add_ftrace_export (heap : Nat → trace_export) (st : ftrace_exports_state) (exp : Nat) :
    ftrace_exports_state :=
  let st1 := ftrace_exports_enable st (heap exp)
  { st1 with ftrace_exports_list := add_trace_export st1.ftrace_exports_list exp }

/-- `rm_ftrace_export`. -/
def rm_ftrace_export (heap : Nat → trace_export) (st : ftrace_exports_state) (exp : Nat) :
    Int × ftrace_exports_state :=
  let r := rm_trace_export st.ftrace_exports_list exp
  let st1 : ftrace_exports_state := { st with ftrace_exports_list := r.2 }
  (r.1, ftrace_exports_disable st1 (heap exp))

/-- `register_ftrace_export`; `heap` maps the address of an export to the object there. -/
def register_ftrace_export (heap : Nat → trace_export) (st : ftrace_exports_state)
    (exp : Nat) : Int × ftrace_exports_state :=
  if !(heap exp).write then (-1, st)
  else (0, add_ftrace_export heap st exp)

/-- `unregister_ftrace_export`. -/
def unregister_ftrace_export (heap : Nat → trace_export) (st : ftrace_exports_state)
    (exp : Nat) : Int × ftrace_exports_state :=
  rm_ftrace_export heap st exp

/-- The number of registered exports whose flags include `flag`. -/
def exports_with (heap : Nat → trace_export) (list : List Nat) (flag : Nat) : Nat :=
  (list.filter (fun e => decide ((heap e).flags &&& flag ≠ 0))).length

/-- Each of the three enable counts is the number of registered exports of its kind. -/
def exports_counted (heap : Nat → trace_export) (st : ftrace_exports_state) : Prop :=
  st.trace_function_exports_enabled =
      exports_with heap st.ftrace_exports_list TRACE_EXPORT_FUNCTION ∧
    st.trace_event_exports_enabled =
      exports_with heap st.ftrace_exports_list TRACE_EXPORT_EVENT ∧
    st.trace_marker_exports_enabled =
      exports_with heap st.ftrace_exports_list TRACE_EXPORT_MARKER

/-! ## Addresses of the previous boot -/

/-- `struct trace_scratch`, on the addresses of its module entries; `nr_entries` is the
number of entries. -/
structure trace_scratch where
  text_addr : Nat
  entries : List Nat
deriving DecidableEq, Repr

/-- The fields of a persistent-buffer instance that `trace_adjust_address` reads beside
the flags: `text_delta`, the scratch area, and the array `module_delta->delta` when
`tr->module_delta` is set. -/
structure last_boot_info where
  text_delta : Nat
  scratch : trace_scratch
  module_delta : Option (List Nat)
deriving DecidableEq, Repr

/-- The value of an `unsigned long` converted to `int`: the low 32 bits, read as a signed
number. -/
def int_of_ulong (x : Nat) : Int :=
  if x % 2 ^ 32 < 2 ^ 31 then ((x % 2 ^ 32 : Nat) : Int) else ((x % 2 ^ 32 : Nat) : Int) - 2 ^ 32

/-- `cmp_mod_entry` for the key `addr` and the pivot `&entries[i]`; `ent[1]` is
`entries[i + 1]`.  The difference is computed in `unsigned long` and returned as `int`. -/
def cmp_mod_entry (entries : List Nat) (addr : Nat) (i : Nat) : Int :=
  if addr ≥ entries.getD i 0 ∧ addr < entries.getD (i + 1) 0 then 0
  else int_of_ulong ((addr + 2 ^ 64 - entries.getD i 0) % 2 ^ 64)

/-- Modelled from the spec: `__inline_bsearch` of the absent `bsearch.h`, on indices: the
search of `num` elements from index `base` on, halving the range at every step. -/
def __inline_bsearch (cmp : Nat → Int) : Nat → Nat → Nat → Option Nat
  | 0, _, _ => none
  | fuel + 1, base, num =>
    if num = 0 then none
    else
      let pivot := base + num / 2
      let result := cmp pivot
      if result = 0 then some pivot
      else if result > 0 then __inline_bsearch cmp fuel (pivot + 1) ((num - 1) / 2)
      else __inline_bsearch cmp fuel base (num / 2)

/-- `trace_adjust_address`.  `in_kernel` says whether an address is kernel text, core data
or read-only data of the running kernel; the sums are taken in `unsigned long`. -/
def trace_adjust_address (in_kernel : Nat → Bool) (tr : trace_array) (info : last_boot_info)
    (addr : Nat) : Nat :=
  /- If we don't have last boot delta, return the address -/
  if !tr.fl_last_boot then addr
  else
    let tscratch := info.scratch
    let nr_entries := tscratch.entries.length
    match info.module_delta with
    | none =>
      let raddr := (addr + info.text_delta) % 2 ^ 64
      if in_kernel raddr then raddr else addr
    | some delta =>
      if nr_entries = 0 ∨ tscratch.entries.getD 0 0 > addr then
        let raddr := (addr + info.text_delta) % 2 ^ 64
        if in_kernel raddr then raddr else addr
      else
        /- Note that entries must be sorted. -/
        let idx :=
          if nr_entries = 1 ∨ tscratch.entries.getD (nr_entries - 1) 0 < addr then
            nr_entries - 1
          else
            match __inline_bsearch (cmp_mod_entry tscratch.entries addr) (nr_entries - 1) 0
                (nr_entries - 1) with
            | some entry => entry
            | none => 0
        (addr + delta.getD idx 0) % 2 ^ 64

/-! ## The format buffer of an iterator -/

/-- `STATIC_FMT_BUF_SIZE`. -/
def STATIC_FMT_BUF_SIZE : Nat := 128

/-- What `iter->fmt` points to: nothing, the array `static_fmt_buf`, or memory from
`krealloc`. -/
inductive fmt_pointer where
  | NULL
  | static_fmt_buf
  | allocated
deriving DecidableEq, Repr

/-- The fields of `struct trace_iterator` that `trace_event_format` uses: whether
`iter->tr` is set, the bit `TRACE_ITER_HASH_PTR` of its flags, `fmt` and `fmt_size`.
`stores` lists the stores made through `iter->fmt` as offset and byte, the latest last;
`krealloc` keeps the bytes, so the list is kept over a reallocation. -/
structure format_iterator where
  tr : Bool
  hash_ptr : Bool
  fmt : fmt_pointer
  fmt_size : Nat
  stores : List (Nat × Nat)
deriving DecidableEq, Repr

/-- Modelled from the spec: `isalnum` of the absent `ctype.h`, on the digits and the
letters of Latin-1. -/
def isalnum (c : Nat) : Bool :=
  (decide (48 ≤ c) && decide (c ≤ 57)) || (decide (65 ≤ c) && decide (c ≤ 90)) ||
  (decide (97 ≤ c) && decide (c ≤ 122)) ||
  (decide (192 ≤ c) && decide (c ≤ 255) && decide (c ≠ 215) && decide (c ≠ 247))

/-- `trace_iter_expand_format`: the new `iter->fmt`, or `none` for NULL.  `krealloc` says
whether the allocation of the given size succeeds. -/
def trace_iter_expand_format (krealloc : Nat → Bool) (iter : format_iterator) :
    Option fmt_pointer × format_iterator :=
  /-
   - iter->tr is NULL when used with tp_printk, which makes
   - this get called where it is not safe to call krealloc().
   -/
  if !iter.tr || iter.fmt = fmt_pointer.static_fmt_buf then (none, iter)
  else if krealloc (iter.fmt_size + STATIC_FMT_BUF_SIZE) then
    (some fmt_pointer.allocated,
      { iter with fmt_size := iter.fmt_size + STATIC_FMT_BUF_SIZE,
                  fmt := fmt_pointer.allocated })
  else (none, iter)

/-- The store `*q++ = c` at the offset `q` from `iter->fmt`. -/
def fmt_store (iter : format_iterator) (q c : Nat) : format_iterator :=
  { iter with stores := iter.stores ++ [(q, c)] }

/-- The loop of `trace_event_format` on the characters from `p` on, the string ending at
its first NUL or at the end of the list; `q` is the offset `q - new_fmt`.  The result is
the iterator and the offset at the end of the loop, or no offset when the buffer could not
grow. -/
def trace_event_format_loop (krealloc : Nat → Bool) :
    List Nat → format_iterator → Nat → format_iterator × Option Nat
  | [], iter, q => (iter, some q)
  | c :: p, iter, q =>
    if c = 0 then (iter, some q)
    else
      let grown : Option fmt_pointer × format_iterator :=
        if q + 3 > iter.fmt_size then trace_iter_expand_format krealloc iter
        else (some iter.fmt, iter)
      match grown with
      | (none, iter1) => (iter1, none)
      | (some _, iter1) =>
        let iter2 := fmt_store iter1 q c
        /- Replace %p with %px -/
        if c = 37 then
          match p with
          | [] => trace_event_format_loop krealloc [] iter2 (q + 1)
          | c0 :: p1 =>
            if c0 = 37 then
              trace_event_format_loop krealloc p1 (fmt_store iter2 (q + 1) c0) (q + 2)
            else if c0 = 112 ∧ isalnum (p1.headD 0) = false then
              trace_event_format_loop krealloc p1
                (fmt_store (fmt_store iter2 (q + 1) c0) (q + 2) 120) (q + 3)
            else trace_event_format_loop krealloc (c0 :: p1) iter2 (q + 1)
        else trace_event_format_loop krealloc p iter2 (q + 1)

/-- What `trace_event_format` returns: the `fmt` it was given, or `new_fmt`, the buffer of
the iterator. -/
inductive format_result where
  | fmt
  | new_fmt
deriving DecidableEq, Repr

/-- `trace_event_format` for a `fmt` that is not NULL. -/
def trace_event_format (krealloc : Nat → Bool) (iter : format_iterator) (fmt : List Nat) :
    format_result × format_iterator :=
  if !iter.tr || iter.hash_ptr then (format_result.fmt, iter)
  else
    match trace_event_format_loop krealloc fmt iter 0 with
    | (iter1, none) => (format_result.fmt, iter1)
    | (iter1, some q) => (format_result.new_fmt, fmt_store iter1 q 0)

/-! ## The parser of user input -/

/-- Modelled from the spec: `isspace` of the absent `ctype.h`: tab, newline, vertical tab,
form feed, carriage return, space and the no-break space of Latin-1. -/
def isspace (c : Nat) : Bool :=
  (decide (9 ≤ c) && decide (c ≤ 13)) || decide (c = 32) || decide (c = 160)

/-- Modelled from the spec: `struct trace_parser` of the absent `trace.h`, under the name
`trace_parser_struct`; `idx` and `size` are `unsigned`.  `buffer` holds the `size` bytes of
the allocation; `stores` lists the offsets of the stores made through `buffer`, the latest
last. -/
structure trace_parser_struct where
  cont : Bool
  buffer : List Nat
  idx : Nat
  size : Nat
  stores : List Nat
deriving DecidableEq, Repr

/-- Modelled from the spec: `trace_parser_loaded` of the absent `trace.h`. -/
def trace_parser_loaded (parser : trace_parser_struct) : Bool :=
  decide (parser.idx ≠ 0)

/-- Modelled from the spec: `trace_parser_clear` of the absent `trace.h`. -/
def trace_parser_clear (parser : trace_parser_struct) : trace_parser_struct :=
  { parser with cont := false, idx := 0 }

/-- `trace_parser_get_init` when `kmalloc` succeeds and returns memory holding `memory`:
the parser it leaves. -/
def trace_parser_get_init (memory : List Nat) (size : Nat) : trace_parser_struct :=
  { cont := false, buffer := memory, idx := 0, size := size, stores := [] }

/-- The store `parser->buffer[i] = c`. -/
def parser_store (parser : trace_parser_struct) (i c : Nat) : trace_parser_struct :=
  { parser with buffer := parser.buffer.set i c, stores := parser.stores ++ [i] }

/-- The value `parser->size - 1`, computed in `unsigned`. -/
def parser_limit (parser : trace_parser_struct) : Nat :=
  (parser.size + 2 ^ 32 - 1) % 2 ^ 32

/-- The variables of `trace_get_user` at the end of one of its loops; `out` is the value
of `ret` when the loop left with `goto out`. -/
structure get_user_vars where
  parser : trace_parser_struct
  ch : Nat
  ubuf : List Nat
  read : Nat
  cnt : Nat
  out : Option Int
deriving DecidableEq, Repr

/-- The loop of `trace_get_user` that skips white space.  `ubuf` holds the bytes that can
be read from the user pointer on; `get_user` fails with `-EFAULT` behind them. -/
def trace_get_user_skip (parser : trace_parser_struct) :
    List Nat → Nat → Nat → Nat → get_user_vars
  | [], ch, read, cnt =>
    if cnt ≠ 0 ∧ isspace ch = true then
      { parser := parser, ch := 0, ubuf := [], read := read, cnt := cnt,
        out := some (-EFAULT) }
    else { parser := parser, ch := ch, ubuf := [], read := read, cnt := cnt, out := none }
  | c :: ubuf, ch, read, cnt =>
    if cnt ≠ 0 ∧ isspace ch = true then
      trace_get_user_skip parser ubuf c (read + 1) (cnt - 1)
    else
      { parser := parser, ch := ch, ubuf := c :: ubuf, read := read, cnt := cnt,
        out := none }

/-- The loop of `trace_get_user` that reads the non-space input. -/
def trace_get_user_read :
    List Nat → trace_parser_struct → Nat → Nat → Nat → get_user_vars
  | [], parser, ch, read, cnt =>
    if cnt ≠ 0 ∧ isspace ch = false ∧ ch ≠ 0 then
      if parser.idx < parser_limit parser then
        { parser := { parser_store parser parser.idx ch with idx := parser.idx + 1 },
          ch := 0, ubuf := [], read := read, cnt := cnt, out := some (-EFAULT) }
      else
        { parser := parser, ch := ch, ubuf := [], read := read, cnt := cnt,
          out := some (-EINVAL) }
    else { parser := parser, ch := ch, ubuf := [], read := read, cnt := cnt, out := none }
  | c :: ubuf, parser, ch, read, cnt =>
    if cnt ≠ 0 ∧ isspace ch = false ∧ ch ≠ 0 then
      if parser.idx < parser_limit parser then
        trace_get_user_read ubuf
          { parser_store parser parser.idx ch with idx := parser.idx + 1 } c (read + 1)
          (cnt - 1)
      else
        { parser := parser, ch := ch, ubuf := c :: ubuf, read := read, cnt := cnt,
          out := some (-EINVAL) }
    else
      { parser := parser, ch := ch, ubuf := c :: ubuf, read := read, cnt := cnt,
        out := none }

/-- The end of `trace_get_user`, from the test of the last character read on. -/
def trace_get_user_finish (v : get_user_vars) (ppos : Nat) : Int × trace_parser_struct × Nat :=
  match v.out with
  | some ret => (ret, v.parser, ppos)
  | none =>
    let parser := v.parser
    /- We either got finished input or we have to wait for another call. -/
    if isspace v.ch = true ∨ v.ch = 0 then
      (int_of_ulong v.read,
        { parser_store parser parser.idx 0 with cont := false }, ppos + v.read)
    else if parser.idx < parser_limit parser then
      /- Make sure the parsed string always terminates with '\0'. -/
      (int_of_ulong v.read,
        { parser_store (parser_store parser parser.idx v.ch) (parser.idx + 1) 0 with
          cont := true, idx := parser.idx + 1 }, ppos + v.read)
    else (-EINVAL, parser, ppos)

/-- `trace_get_user`: the value returned, the parser and `*ppos`.  `cnt` is a `size_t`,
the value returned the `int` made of the number of bytes read. -/
def trace_get_user (parser : trace_parser_struct) (ubuf : List Nat) (cnt : Nat) (ppos : Nat) :
    Int × trace_parser_struct × Nat :=
  let parser0 := if ppos = 0 then trace_parser_clear parser else parser
  match ubuf with
  | [] => (-EFAULT, parser0, ppos)
  | ch :: ubuf1 =>
    let read := 1
    let cnt1 := (cnt + 2 ^ 64 - 1) % 2 ^ 64
    /-
     - The parser is not finished with the last write,
     - continue reading the user input without skipping spaces.
     -/
    if parser0.cont = false then
      /- skip white space -/
      let v := trace_get_user_skip parser0 ubuf1 ch read cnt1
      match v.out with
      | some ret => (ret, parser0, ppos)
      | none =>
        let parser1 := { parser0 with idx := 0 }
        /- only spaces were written -/
        if isspace v.ch = true ∨ v.ch = 0 then (int_of_ulong v.read, parser1, ppos + v.read)
        else
          trace_get_user_finish (trace_get_user_read v.ubuf parser1 v.ch v.read v.cnt) ppos
    else trace_get_user_finish (trace_get_user_read ubuf1 parser0 ch read cnt1) ppos

/-- The parser after the stores `parser->buffer[parser->idx++] = c` for the characters of
`token`, in their order. -/
def parser_fill (parser : trace_parser_struct) (token : List Nat) : trace_parser_struct :=
  token.foldl (fun p c => { parser_store p p.idx c with idx := p.idx + 1 }) parser

/-- The string in the buffer of a parser: its bytes up to the first NUL. -/
def parser_string (parser : trace_parser_struct) : List Nat :=
  parser.buffer.takeWhile (fun c => decide (c ≠ 0))

/-! ## Writes to a pid filter -/

/-- `PID_BUF_SIZE`: 128 should be much more than enough. -/
def PID_BUF_SIZE : Nat := 127

/-- Modelled from the spec: `MAX_PID` of the absent `pid_list.h`. -/
def MAX_PID : Nat := 2 ^ 30

/-- What the allocations and the number conversion of `trace_pid_write` do: the memory
`kmalloc` returns for the buffer of the parser, or `none`; whether `trace_pid_list_alloc`
succeeds; whether `trace_pid_list_set` finds the memory for a pid that is not yet in the
list; and the value `kstrtoul` with base 0 stores for a string, a number below 2^64, or
`none` when it returns an error. -/
structure pid_write_env where
  parser_memory : Option (List Nat)
  pid_list_alloc : Bool
  chunk_alloc : List Nat → Nat → Bool
  kstrtoul : List Nat → Option Nat

/-- Modelled from the spec: `trace_pid_list_set` of the absent `pid_list.c`, on a
`struct trace_pid_list` given as the ascending list of the pids set in it; `pid` is an
`unsigned int`. -/
def trace_pid_list_set (env : pid_write_env) (pid_list : List Nat) (pid : Nat) :
    Int × List Nat :=
  if pid ≥ MAX_PID then (-EINVAL, pid_list)
  else if pid ∈ pid_list then (0, pid_list)
  else if env.chunk_alloc pid_list pid then
    (0, pid_list.orderedInsert (fun a b => decide (a ≤ b)) pid)
  else (-ENOMEM, pid_list)

/-- The loop of `trace_pid_write` that copies the current bits to the new list:
`trace_pid_list_first` and `trace_pid_list_next` of the absent `pid_list.c` give the pids
of `filtered_pids` in ascending order.  The result is the new list and `nr_pids`. -/
def trace_pid_write_copy (env : pid_write_env) (filtered_pids : List Nat)
    (pid_list : List Nat) (nr_pids : Nat) : List Nat × Nat :=
  filtered_pids.foldl
    (fun (acc : List Nat × Nat) pid => ((trace_pid_list_set env acc.1 pid).2, acc.2 + 1))
    (pid_list, nr_pids)

/-- The variables of `trace_pid_write` in its loop over the input. -/
structure pid_write_vars where
  parser : trace_parser_struct
  pid_list : List Nat
  nr_pids : Nat
  read : Int
  ret : Int
  ubuf : List Nat
  cnt : Nat
deriving DecidableEq, Repr

/-- The loop `while (cnt > 0)` of `trace_pid_write`; the fuel bounds the number of its
iterations.  `pid` is a `pid_t`, converted to `unsigned int` in the call of
`trace_pid_list_set`. -/
def trace_pid_write_loop (env : pid_write_env) : Nat → pid_write_vars → Option pid_write_vars
  | 0, _ => none
  | fuel + 1, v =>
    if v.cnt > 0 then
      let pos := 0
      let r := trace_get_user v.parser v.ubuf v.cnt pos
      let ret := r.1
      let parser := r.2.1
      if ret < 0 then some { v with parser := parser, ret := ret }
      else
        let v1 : pid_write_vars :=
          { v with parser := parser, ret := ret, read := v.read + ret,
                   ubuf := v.ubuf.drop ret.toNat,
                   cnt := (v.cnt + 2 ^ 64 - ret.toNat) % 2 ^ 64 }
        if !trace_parser_loaded parser then some v1
        else
          match env.kstrtoul (parser_string parser) with
          | none => some { v1 with ret := -EINVAL }
          | some val =>
            let pid : Int := int_of_ulong val
            let s := trace_pid_list_set env v1.pid_list (pid % 2 ^ 32).toNat
            if s.1 < 0 then some { v1 with ret := -1 }
            else
              trace_pid_write_loop env fuel
                { v1 with pid_list := s.2, nr_pids := v1.nr_pids + 1,
                          parser := trace_parser_clear parser, ret := 0 }
    else some v

/-- `trace_pid_write`: the value returned and what is stored to `*new_pid_list`, `none`
when nothing is stored, `some none` for NULL.  `filtered_pids` is `none` for NULL.  The
result is `none` when the fuel does not suffice for the loop over the input. -/
def trace_pid_write (env : pid_write_env) (filtered_pids : Option (List Nat))
    (ubuf : List Nat) (cnt : Nat) (fuel : Nat) : Option (Int × Option (Option (List Nat))) :=
  match env.parser_memory with
  | none => some (-ENOMEM, none)
  | some memory =>
    let parser := trace_parser_get_init memory (PID_BUF_SIZE + 1)
    /-
     - Always recreate a new array. The write is an all or nothing
     - operation. Always create a new array when adding new pids by
     - the user. If the operation fails, then the current list is
     - not modified.
     -/
    if !env.pid_list_alloc then some (-ENOMEM, none)
    else
      let copied : List Nat × Nat :=
        match filtered_pids with
        /- copy the current bits to the new max -/
        | some pids => trace_pid_write_copy env pids [] 0
        | none => ([], 0)
      match trace_pid_write_loop env fuel
          { parser := parser, pid_list := copied.1, nr_pids := copied.2, read := 0, ret := 0,
            ubuf := ubuf, cnt := cnt } with
      | none => none
      | some v =>
        if v.ret < 0 then some (v.ret, none)
        else if v.nr_pids = 0 then
          /- Cleared the list of pids -/
          some (int_of_ulong (v.read % 2 ^ 64).toNat, some none)
        else some (int_of_ulong (v.read % 2 ^ 64).toNat, some (some v.pid_list))

/-! ## Commands written line by line -/

/-- `WRITE_BUFSIZE`. -/
def WRITE_BUFSIZE : Nat := 4096

/-- Modelled from the spec: `strchr` of the absent `string.h` for a character that is not
NUL, on the bytes from the pointer on, the string ending at its first NUL or with the
list: the offset of the first occurrence, or `none` for NULL. -/
def strchr : List Nat → Nat → Option Nat
  | [], _ => none
  | ch :: s, c =>
    if ch = c then some 0
    else if ch = 0 then none
    else (strchr s c).map (fun i => i + 1)

/-- Modelled from the spec: `strlen` of the absent `string.h`, on the bytes from the
pointer on. -/
def strlen : List Nat → Nat
  | [] => 0
  | ch :: s => if ch = 0 then 0 else strlen s + 1

/-- Modelled from the spec: `copy_from_user` of `n` bytes from the offset `offset` of the
user buffer, whose readable bytes are `buffer`: the bytes copied, or `none` when some could
not be copied. -/
def copy_from_user (buffer : List Nat) (offset n : Nat) : Option (List Nat) :=
  if offset + n ≤ buffer.length then some ((buffer.drop offset).take n) else none

/-- How the inner loop of `trace_parse_run_command` ends: with `goto out` and the value of
`ret`, or back in the outer loop, by `break` or by its condition, with the value of
`done`. -/
inductive run_command_step (σ : Type) where
  | out (ret : Int) (s : σ)
  | again (done : Nat) (s : σ)

/-- The string `createfn` is called with: the line with its comment removed, that is, up
to its first '#'. -/
def remove_comment (line : List Nat) : List Nat :=
  match strchr line 35 with
  | some tmp => line.take tmp
  | none => line

/-- The loop `do ... while (done < count)` of `trace_parse_run_command`.  `kbuf` holds the
bytes copied, which `kbuf[size] = 0` terminates; `buf` is the offset `buf - kbuf`.
`createfn` is given the state of what it acts on and returns its result and the new state.
The stores of NUL over the newline and the '#' end the string `createfn` gets; both lie
before the next `buf`.  The fuel bounds the number of iterations. -/
def trace_parse_run_command_lines {σ : Type} (createfn : σ → List Nat → Int × σ)
    (count : Nat) (kbuf : List Nat) : Nat → Nat → Nat → σ → Option (run_command_step σ)
  | 0, _, _, _ => none
  | fuel + 1, buf, done, s =>
    let str := kbuf.drop buf
    /- the size and the line when the loop goes on to `done += size` -/
    let found : Option (Nat × List Nat) :=
      match strchr str 10 with
      | some tmp => some (tmp + 1, str.take tmp)
      | none =>
        let size := strlen str
        if done + size < count then none else some (size, str.take size)
    match found with
    | none =>
      if buf ≠ 0 then some (run_command_step.again done s)
      /- This can accept WRITE_BUFSIZE - 2 ('\n' + '\0') -/
      else some (run_command_step.out (-EINVAL) s)
    | some (size, line) =>
      let done1 := done + size
      /- Remove comments -/
      let r := createfn s (remove_comment line)
      if r.1 ≠ 0 then some (run_command_step.out r.1 r.2)
      else if done1 < count then
        trace_parse_run_command_lines createfn count kbuf fuel (buf + size) done1 r.2
      else some (run_command_step.again done1 r.2)

/-- The loop `while (done < count)` of `trace_parse_run_command`; the fuel bounds the
number of iterations of either loop. -/
def trace_parse_run_command_loop {σ : Type} (createfn : σ → List Nat → Int × σ)
    (buffer : List Nat) (count : Nat) : Nat → Nat → σ → Option (Int × σ)
  | 0, _, _ => none
  | fuel + 1, done, s =>
    if done < count then
      let size0 := count - done
      let size := if size0 ≥ WRITE_BUFSIZE then WRITE_BUFSIZE - 1 else size0
      match copy_from_user buffer done size with
      | none => some (-EFAULT, s)
      | some kbuf =>
        match trace_parse_run_command_lines createfn count kbuf (fuel + 1) 0 done s with
        | none => none
        | some (run_command_step.out ret s1) => some (ret, s1)
        | some (run_command_step.again done1 s1) =>
          trace_parse_run_command_loop createfn buffer count fuel done1 s1
    else some (int_of_ulong done, s)

/-- `trace_parse_run_command`: the value returned and the state `createfn` leaves.
`kmalloc` says whether the allocation of `kbuf` succeeds. -/
def trace_parse_run_command {σ : Type} (kmalloc : Bool) (createfn : σ → List Nat → Int × σ)
    (buffer : List Nat) (count : Nat) (fuel : Nat) (s : σ) : Option (Int × σ) :=
  if !kmalloc then some (-ENOMEM, s)
  else trace_parse_run_command_loop createfn buffer count fuel 0 s

/-- What follows the inner loop of `trace_parse_run_command`: the return, or the rest of
the outer loop. -/
def trace_parse_run_command_resume {σ : Type} (createfn : σ → List Nat → Int × σ)
    (buffer : List Nat) (count : Nat) (fuel : Nat) :
    Option (run_command_step σ) → Option (Int × σ)
  | none => none
  | some (run_command_step.out ret s) => some (ret, s)
  | some (run_command_step.again done s) =>
    trace_parse_run_command_loop createfn buffer count fuel done s

/-- The input made of the lines `lines`, each followed by a newline, and of `tail`. -/
def render_lines (lines : List (List Nat)) (tail : List Nat) : List Nat :=
  lines.foldr (fun l acc => l ++ 10 :: acc) tail

/-- The text of a line up to but not including its first '#'. -/
def line_text (line : List Nat) : List Nat :=
  line.takeWhile (fun c => decide (c ≠ 35))

/-- One call of `createfn` per line, in order, with the text of the line, up to the first
call that does not return 0; `last` is what follows the last line. -/
def createfn_per_line {σ : Type} (createfn : σ → List Nat → Int × σ) (last : σ → Int × σ) :
    List (List Nat) → σ → Int × σ
  | [], s => last s
  | l :: ls, s =>
    if (createfn s (line_text l)).1 ≠ 0 then createfn s (line_text l)
    else createfn_per_line createfn last ls (createfn s (line_text l)).2

/-- The first pass of the inner loop over the remaining input `R` gives, with what
follows it, the result `E`. -/
def lines_first_ok {σ : Type} (createfn : σ → List Nat → Int × σ) (buffer : List Nat)
    (count : Nat) (R : List Nat) (E : σ → Int × σ) : Prop :=
  ∀ (done : Nat) (s : σ) (F f : Nat), R ≠ [] → (buffer.take count).drop done = R →
    done + R.length = count → R.length + 1 ≤ f → R.length ≤ F →
    trace_parse_run_command_resume createfn buffer count F
      (trace_parse_run_command_lines createfn count (R.take 4095) f 0 done s) = some (E s)

/-- A later pass of the inner loop over the remaining input `R` gives, with what follows
it, the result `E`. -/
def lines_next_ok {σ : Type} (createfn : σ → List Nat → Int × σ) (buffer : List Nat)
    (count : Nat) (R : List Nat) (E : σ → Int × σ) : Prop :=
  ∀ (kbuf : List Nat) (buf done : Nat) (s : σ) (F f k : Nat), R ≠ [] →
    (buffer.take count).drop done = R → done + R.length = count →
    kbuf.drop buf = R.take k → k ≤ 4095 → buf ≠ 0 → R.length + 1 ≤ f → R.length + 1 ≤ F →
    trace_parse_run_command_resume createfn buffer count F
      (trace_parse_run_command_lines createfn count kbuf f buf done s) = some (E s)

/-- The outer loop over the remaining input `R` gives the result `E`. -/
def lines_loop_ok {σ : Type} (createfn : σ → List Nat → Int × σ) (buffer : List Nat)
    (count : Nat) (R : List Nat) (E : σ → Int × σ) : Prop :=
  ∀ (done : Nat) (s : σ) (F : Nat), (buffer.take count).drop done = R →
    done + R.length = count → R.length + 1 ≤ F →
    trace_parse_run_command_loop createfn buffer count F done s = some (E s)

/-- What the function returns once all lines are done: the count, as an `int`. -/
def run_command_done {σ : Type} (count : Nat) (s : σ) : Int × σ :=
  (int_of_ulong count, s)

/-- What follows the complete lines when the input ends with the text `t` without a
newline: nothing for an empty `t`, else one more call of `createfn`. -/
def run_command_last {σ : Type} (createfn : σ → List Nat → Int × σ) (count : Nat)
    (t : List Nat) (s : σ) : Int × σ :=
  if t = [] then run_command_done count s
  else createfn_per_line createfn (run_command_done count) [t] s

/-- What follows the complete lines when a text too long for the buffer comes next. -/
def run_command_too_long {σ : Type} (s : σ) : Int × σ :=
  (-EINVAL, s)

/-! ## Creating and removing instances -/

/-- `EEXIST`. -/
def EEXIST : Int := 17

/-- What `trace_array_create_systems` gets for a new instance: the address and the object
as `kzalloc` and the allocations of the buffers, masks and directories leave it, or the
error with which it ends at `out_free_tr`. -/
structure instance_env where
  alloc : trace_system → String → Except Int (Nat × trace_array)
  tgid_alloc_ok : Bool

/-- Whether the entry of the list at `tr` is an object with `tr->name` set and equal to
`name`. -/
def instance_named (sys : trace_system) (name : String) (tr : Nat) : Bool :=
  match sys.arrays tr with
  | none => false
  | some t => decide (t.name = some name)

/-- `trace_array_find`: the first entry of `ftrace_trace_arrays` with the name, or `none`
for NULL. -/
def trace_array_find (sys : trace_system) (name : String) : Option Nat :=
  sys.ftrace_trace_arrays.find? (instance_named sys name)

/-- `trace_array_create_systems` without a range of memory: the new instance, or the error
of `ERR_PTR`.  The assignments listed are the ones made to the fields of this model. -/
def trace_array_create_systems (env : instance_env) (sys : trace_system) (name : String) :
    Except Int Nat × trace_system :=
  match env.alloc sys name with
  | Except.error ret => (Except.error ret, sys)
  | Except.ok (p, t) =>
    let global_flags := match sys.arrays global_trace with
      | some gt => gt.trace_flags
      | none => 0
    let tr : trace_array :=
      { t with
        name := some name
        range_addr_start := 0
        trace_flags := global_flags &&& (UINT_MAX ^^^ ZEROED_TRACE_FLAGS)
        current_trace := sys.g.nop_trace
        /- The ring buffer is defaultly expanded -/
        ring_buffer_expanded := true }
    (Except.ok p,
      { sys with
        /- list_add(&tr->list, &ftrace_trace_arrays) and tr->ref++ -/
        arrays := fun q => if q = p then some { tr with ref := tr.ref + 1 } else sys.arrays q
        ftrace_trace_arrays := p :: sys.ftrace_trace_arrays })

/-- `trace_array_create`. -/
def trace_array_create (env : instance_env) (sys : trace_system) (name : String) :
    Except Int Nat × trace_system :=
  trace_array_create_systems env sys name

/-- `instance_mkdir`. -/
def instance_mkdir (env : instance_env) (sys : trace_system) (name : String) :
    Int × trace_system :=
  if (trace_array_find sys name).isSome then (-EEXIST, sys)
  else
    match trace_array_create env sys name with
    /- PTR_ERR_OR_ZERO -/
    | (Except.error ret, sys1) => (ret, sys1)
    | (Except.ok _, sys1) => (0, sys1)

/-- `tr->ref++`. -/
def trace_array_ref_inc (tr : trace_array) : trace_array :=
  { tr with ref := tr.ref + 1 }

/-- `trace_array_get_by_name`: the instance, or `none` for NULL. -/
def trace_array_get_by_name (env : instance_env) (sys : trace_system) (name : String) :
    Option Nat × trace_system :=
  match sys.ftrace_trace_arrays.find? (instance_named sys name) with
  | some tr => (some tr, { sys with arrays := modify_tr sys.arrays tr trace_array_ref_inc })
  | none =>
    match trace_array_create_systems env sys name with
    | (Except.error _, sys1) => (none, sys1)
    | (Except.ok tr, sys1) =>
      (some tr, { sys1 with arrays := modify_tr sys1.arrays tr trace_array_ref_inc })

/-- `__trace_array_put`; with `ref` at 0 it warns and still decrements. -/
def __trace_array_put (this_tr : trace_array) : trace_array :=
  { this_tr with ref := this_tr.ref - 1 }

/-- `trace_array_put`. -/
def trace_array_put (sys : trace_system) (this_tr : Option Nat) : trace_system :=
  match this_tr with
  | none => sys
  | some tr => { sys with arrays := modify_tr sys.arrays tr __trace_array_put }

/-- `trace_array_destroy`. -/
def trace_array_destroy (tgid_alloc_ok : Bool) (sys : trace_system) (this_tr : Option Nat) :
    Int × trace_system :=
  match this_tr with
  | none => (-EINVAL, sys)
  | some tr =>
    /- Making sure trace array exists before destroying it. -/
    if tr ∈ sys.ftrace_trace_arrays then __remove_instance tgid_alloc_ok sys tr
    else (-ENODEV, sys)

/-- `instance_rmdir`. -/
def instance_rmdir (tgid_alloc_ok : Bool) (sys : trace_system) (name : String) :
    Int × trace_system :=
  match trace_array_find sys name with
  | none => (-ENODEV, sys)
  | some tr => __remove_instance tgid_alloc_ok sys tr

/-- Instance names are unique: two entries of the list with the same name set are the
same entry. -/
def names_unique (sys : trace_system) : Prop :=
  ∀ p q tp tq, p ∈ sys.ftrace_trace_arrays → q ∈ sys.ftrace_trace_arrays →
    sys.arrays p = some tp → sys.arrays q = some tq → tp.name ≠ none → tp.name = tq.name →
    p = q

/-- What holds of the list of instances: an entry is on the list once, and every entry is
an object. -/
def instances_listed (sys : trace_system) : Prop :=
  sys.ftrace_trace_arrays.Nodup ∧ ∀ p ∈ sys.ftrace_trace_arrays, (sys.arrays p).isSome = true

/-- What holds of the memory the environment gives for a new instance: its address is not
that of an object in use nor on the list, and `kzalloc` has zeroed the counters. -/
def instance_env_fresh (env : instance_env) (sys : trace_system) (name : String) : Prop :=
  ∀ p t, env.alloc sys name = Except.ok (p, t) →
    sys.arrays p = none ∧ p ∉ sys.ftrace_trace_arrays ∧ t.ref = 0 ∧ t.trace_ref = 0

/-! ## Producers that run while live and spare change places -/

/-- `TRACE_FN` of `enum trace_type` (`trace.h`). -/
def TRACE_FN : Nat := 1

/-- The size of `struct ftrace_entry` (`trace_entries.h`): the common header of 8 bytes,
`ip` and `parent_ip`. -/
def sizeof_ftrace_entry : Nat := 24

/-- The two `struct trace_buffer` objects of an instance, by identity. -/
inductive buffer_object where
  | first
  | second
deriving DecidableEq, Repr

/-- The other object. -/
def buffer_object.other : buffer_object → buffer_object
  | buffer_object.first => buffer_object.second
  | buffer_object.second => buffer_object.first

/-- An instance together with the identity of its buffers: `live` is the object
`tr->array_buffer.buffer` points to, whose contents `tr.array_buffer.buffer` holds;
`tr->max_buffer.buffer` points to the other object. -/
structure swap_machine where
  tr : trace_array
  live : buffer_object
deriving DecidableEq, Repr

/-- The contents of the object `x`. -/
def object_at (m : swap_machine) (x : buffer_object) : trace_buffer :=
  if x = m.live then m.tr.array_buffer.buffer else m.tr.max_buffer.buffer

/-- A store to the object `x`. -/
def store_object (m : swap_machine) (x : buffer_object) (b : trace_buffer) : swap_machine :=
  if x = m.live then
    { m with tr := { m.tr with array_buffer := { m.tr.array_buffer with buffer := b } } }
  else { m with tr := { m.tr with max_buffer := { m.tr.max_buffer with buffer := b } } }

/-- The statements of `update_max_tr` that inherit the recordable setting from
`array_buffer`: the calls of `ring_buffer_record_on` and `ring_buffer_record_off` act on
the object `tr->max_buffer.buffer` points to. -/
def inherit_recordable (m : swap_machine) : swap_machine :=
  store_object m m.live.other
    (if ring_buffer_record_is_set_on (object_at m m.live) then
      ring_buffer_record_on (object_at m m.live.other)
    else ring_buffer_record_off (object_at m m.live.other))

/-- `update_max_tr` with the identity of the buffers: `swap` exchanges the two
pointers. -/
def update_max_tr_objects (update : trace_array → Nat → Bool) (m : swap_machine)
    (tsk : task_struct) (tsk_is_current : Bool) (cpu : Nat) (cond_data : Nat) :
    swap_machine :=
  if m.tr.stop_count ≠ 0 then m
  else if !m.tr.allocated_snapshot then m
  else
    /- Inherit the recordable setting from array_buffer -/
    let m1 := inherit_recordable m
    if m1.tr.cond_snapshot.isSome && !update m1.tr cond_data then m1
    else
      /- swap(tr->array_buffer.buffer, tr->max_buffer.buffer) -/
      let tr2 : trace_array :=
        { m1.tr with
          array_buffer := { m1.tr.array_buffer with buffer := m1.tr.max_buffer.buffer }
          max_buffer := { m1.tr.max_buffer with buffer := m1.tr.array_buffer.buffer } }
      { tr := __update_max_tr tr2 tsk tsk_is_current cpu, live := m1.live.other }

/-- A call of `trace_function` without registers: the CPU and the pid of the caller and
the arguments. -/
structure function_call where
  cpu : Nat
  pid : Int
  ip : Nat
  parent_ip : Nat
  trace_ctx : Nat
deriving DecidableEq, Repr

/-- Where a call of `trace_function` stands: at its entry; with `buffer` loaded from
`tr->array_buffer.buffer`; with the event reserved on `buffer` and filled; or returned,
with the object and the event of its commit when it made one. -/
inductive producer where
  | entry
  | loaded (buffer : buffer_object)
  | reserved (buffer : buffer_object) (event : ring_buffer_event)
  | returned (committed : Option (buffer_object × ring_buffer_event))
deriving DecidableEq, Repr

/-- The next step of a call of `trace_function`: the load of the pointer, the reservation
with the stores to the entry, or the commit.  The event is not the temp buffer of the CPU,
so `__buffer_unlock_commit` is `ring_buffer_unlock_commit`. -/
def trace_function_step (env : ring_buffer_env) (m : swap_machine) (c : function_call) :
    producer → swap_machine × producer
  | producer.entry => (m, producer.loaded m.live)
  | producer.loaded buffer =>
    match __trace_buffer_lock_reserve env (object_at m buffer) TRACE_FN sizeof_ftrace_entry
        c.trace_ctx c.pid with
    | none => (m, producer.returned none)
    | some event =>
      (m, producer.reserved buffer
        { event with data := { event.data with payload := [c.ip, c.parent_ip] } })
  | producer.reserved buffer event =>
    (store_object m buffer (ring_buffer_unlock_commit (object_at m buffer) c.cpu event),
      producer.returned (some (buffer, event)))
  | producer.returned committed => (m, producer.returned committed)

/-- What runs next: the whole of `update_max_tr`, which holds `max_lock` with interrupts
off, or the next step of the producer with the given number. -/
inductive schedule_action where
  | exchange (tsk : task_struct) (tsk_is_current : Bool) (cpu : Nat) (cond_data : Nat)
  | step (i : Nat)
deriving DecidableEq, Repr

/-- The instance and the calls of `trace_function` in progress on it. -/
structure producers_state where
  m : swap_machine
  producers : List (function_call × producer)
deriving DecidableEq, Repr

/-- One action of a schedule. -/
def schedule_step (env : ring_buffer_env) (update : trace_array → Nat → Bool)
    (s : producers_state) : schedule_action → producers_state
  | schedule_action.exchange tsk tsk_is_current cpu cond_data =>
    { s with m := update_max_tr_objects update s.m tsk tsk_is_current cpu cond_data }
  | schedule_action.step i =>
    match s.producers[i]? with
    | none => s
    | some (c, p) =>
      { m := (trace_function_step env s.m c p).1,
        producers := s.producers.set i (c, (trace_function_step env s.m c p).2) }

/-- A schedule, action by action. -/
def schedule_run (env : ring_buffer_env) (update : trace_array → Nat → Bool)
    (s : producers_state) (schedule : List schedule_action) : producers_state :=
  schedule.foldl (schedule_step env update) s

/-- A commit: the object and the CPU it went to, and the event. -/
structure commit_record where
  buffer : buffer_object
  cpu : Nat
  event : ring_buffer_event
deriving DecidableEq, Repr

/-- The commit an action makes in a state, if it makes one. -/
def commit_of (s : producers_state) : schedule_action → List commit_record
  | schedule_action.exchange _ _ _ _ => []
  | schedule_action.step i =>
    match s.producers[i]? with
    | some (c, producer.reserved buffer event) =>
      [{ buffer := buffer, cpu := c.cpu, event := event }]
    | _ => []

/-- The commits of a schedule, in their order. -/
def commits_of (env : ring_buffer_env) (update : trace_array → Nat → Bool) :
    producers_state → List schedule_action → List commit_record
  | _, [] => []
  | s, a :: rest => commit_of s a ++ commits_of env update (schedule_step env update s a) rest

/-- The committed records of a CPU in a buffer object. -/
def object_events (buffer : trace_buffer) (cpu : Nat) : List ring_buffer_event :=
  match buffer.cpus[cpu]? with
  | some c => c.events
  | none => []

/-- The commits that went to the object `x` on the CPU `cpu`. -/
def commits_to (commits : List commit_record) (x : buffer_object) (cpu : Nat) :
    List ring_buffer_event :=
  (commits.filter (fun c => decide (c.buffer = x ∧ c.cpu = cpu))).map (fun c => c.event)

/-- Every producer runs on a CPU that both buffer objects have. -/
def producers_on_cpus (s : producers_state) : Prop :=
  ∀ cp ∈ s.producers, ∀ x, cp.1.cpu < (object_at s.m x).cpus.length

/-! ## Example scenarios -/

/-- Per-CPU bookkeeping with nothing recorded. -/
def scenario_cpu_data : trace_array_cpu :=
  { entries := 4, preempt_timestamp := 0, critical_start := 0, critical_end := 0,
    saved_latency := 0, comm := "", pid := 0, uid := 0, nice := 0, policy := 0,
    rt_priority := 0 }

/-- An empty buffer for two CPUs of capacity 4 each. -/
def scenario_empty_buffer : trace_buffer :=
  { cpus := [{ events := [], lost_events := 0, size := 4 },
             { events := [], lost_events := 0, size := 4 }],
    record_on := true, record_disabled := 0, subbuf_order := 0, max_event_size := 4072 }

/-- The instance of the example scenario: two CPUs, the live set holding A, B on CPU 0 and
C on CPU 1, the spare set allocated and empty, no tracer but `nop` (tracer 0). -/
def scenario_tr : trace_array :=
  { fl_global := true, fl_boot := false, fl_last_boot := false,
    array_buffer :=
      { buffer := scenario_buffer, data := [scenario_cpu_data, scenario_cpu_data], cpu := 0,
        time_start := 0 },
    max_buffer :=
      { buffer := scenario_empty_buffer, data := [scenario_cpu_data, scenario_cpu_data],
        cpu := 0, time_start := 0 },
    allocated_snapshot := true, snapshot := 1, mapped := 0, cond_snapshot := none,
    max_latency := 0, stop_count := 0, current_trace := 0, trace_flags := 0, ref := 1,
    trace_ref := 0,
    ring_buffer_expanded := true, range_addr_start := 0, no_filter_buffering_ref := 0,
    n_err_log_entries := 0, err_log := [] }

/-- The task that triggers the snapshot in the examples. -/
def scenario_task : task_struct :=
  { comm := "bash", pid := 42, cred_uid := 1000, real_cred_uid := 1000, static_prio := 120,
    policy := 0, rt_priority := 0 }

/-- A conditional-snapshot callback that declines whatever it is given. -/
def decline_update (_tr : trace_array) (_cond_data : Nat) : Bool := false

/-- A conditional-snapshot callback that accepts whatever it is given. -/
def accept_update (_tr : trace_array) (_cond_data : Nat) : Bool := true

/-- The scenario instance with a conditional snapshot registered and a spare buffer that
has recording switched off. -/
def scenario_tr_cond : trace_array :=
  { scenario_tr with
    cond_snapshot := some { cond_data := 7 }
    max_buffer :=
      { scenario_tr.max_buffer with
        buffer := { scenario_empty_buffer with record_on := false } } }

/-- Ring buffer operations that all succeed. -/
def env_ok : ring_buffer_env :=
  { subbuf_order_set_ret := fun _ _ => 0, resize_ret := fun _ _ _ => 0, now := 100 }

/-- Ring buffer operations of which the resize runs out of memory. -/
def env_nomem : ring_buffer_env :=
  { subbuf_order_set_ret := fun _ _ => 0, resize_ret := fun _ _ _ => -ENOMEM, now := 100 }

/-- The `nop` tracer. -/
def scenario_nop : tracer :=
  { name := some "nop", use_max_tr := false, noboot := false, allow_instances := true,
    enabled := 0, reset := some (fun tr => tr), init := some (fun tr => (0, tr)),
    flag_changed := none }

/-- A tracer that does not use the spare buffer, with a reset hook that clears the recorded
maximum latency. -/
def scenario_function : tracer :=
  { name := some "function", use_max_tr := false, noboot := false, allow_instances := true,
    enabled := 1, reset := some (fun tr => { tr with max_latency := 0 }),
    init := some (fun tr => (0, tr)), flag_changed := none }

/-- A latency tracer, which requires the spare buffer. -/
def scenario_irqsoff : tracer :=
  { name := some "irqsoff", use_max_tr := true, noboot := false, allow_instances := true,
    enabled := 0, reset := some (fun tr => tr), init := some (fun tr => (0, tr)),
    flag_changed := none }

/-- The globals of the examples: tracers `nop` (0), `function` (1) and `irqsoff` (2). -/
def scenario_globals : tracer_globals :=
  { trace_types := [scenario_nop, scenario_function, scenario_irqsoff], nop_trace := 0,
    tracing_disabled := false, trace_buf_size := 4, system_running := true }

/-- An instance running the `function` tracer, its spare buffer not allocated. -/
def scenario_tr_function : trace_array :=
  { scenario_tr with current_trace := 1, allocated_snapshot := false, snapshot := 0,
                     max_latency := 55 }

/-- An instance running the `irqsoff` tracer, which holds the spare buffer armed. -/
def scenario_tr_irqsoff : trace_array :=
  { scenario_tr with current_trace := 2, allocated_snapshot := true, snapshot := 1 }

/-- `TRACE_ITER_MARKERS` set and nothing else. -/
def scenario_marker_flags : Nat := TRACE_ITER_MARKERS

/-- The scenario instance with markers enabled and a live buffer, empty, whose largest
event is 28 bytes. -/
def scenario_tr_small : trace_array :=
  { scenario_tr with
    trace_flags := scenario_marker_flags
    array_buffer :=
      { scenario_tr.array_buffer with
        buffer := { scenario_empty_buffer with max_event_size := 28 } } }

/-- A write of the twelve bytes of "hello world" and a newline to `trace_marker`, from
CPU 0. -/
def scenario_marker : marker_caller :=
  { cpu := 0, trace_ctx := 0, pid := 42,
    ubuf := [104, 101, 108, 108, 111, 32, 119, 111, 114, 108, 100, 10],
    faults := false, ip_top_byte := 255 }

/-- An event file with a filter attached. -/
def scenario_filtered_file : trace_event_file :=
  { soft_disabled := false, filtered := true, trigger_cond := false,
    no_filter_buffering_ref := 0 }

/-- The per-CPU variables of a CPU whose temp buffer is allocated and free. -/
def scenario_percpu : buffered_percpu :=
  { trace_buffered_event :=
      some { array0 := 0, data := { type := 0, ctx := 0, pid := 0, payload := [] } },
    trace_buffered_event_cnt := 0 }

/-- A CPU with the temp buffer allocated and free, nothing reserved, and an empty live
buffer. -/
def scenario_cpu : cpu_state :=
  { percpu := scenario_percpu, buffer := scenario_empty_buffer, outstanding := [] }

/-- A system of two instances: `global_trace`, which holds the printk designation, and an
instance at address 1. -/
def scenario_system : trace_system :=
  { g := scenario_globals,
    arrays := fun p =>
      if p = 0 then some { scenario_tr with trace_flags := TRACE_ITER_TRACE_PRINTK }
      else if p = 1 then some { scenario_tr with fl_global := false, trace_flags := 0 }
      else none,
    printk_trace := 0 }

/-- The scenario instance with markers enabled; the largest event of its live buffer is
4072 bytes. -/
def scenario_tr_markers : trace_array :=
  { scenario_tr with trace_flags := scenario_marker_flags }

/-- A write of 4096 bytes, each the letter a, to `trace_marker`, from CPU 0. -/
def scenario_marker_4k : marker_caller :=
  { cpu := 0, trace_ctx := 0, pid := 42, ubuf := List.replicate 4096 97, faults := false,
    ip_top_byte := 255 }

/-- The per-CPU variables of an idle CPU: the temp buffer free, no scratch stack in use. -/
def scenario_percpu_vars : percpu_vars :=
  { buffered := scenario_percpu, ftrace_stack_reserve := 0, ftrace_stacks := [[], [], [], []] }

/-- A caller on CPU 0 with three return addresses on its stack, in a kernel that unwinds
with ORC and has no trampoline. -/
def scenario_stack_caller : stack_caller :=
  { trampoline := 0, trampoline_size := 0, unwinder_orc := true, cpu := 0, pid := 42,
    stack := [1001, 1002, 1003], regs_stack := [] }

/-- An idle CPU with an empty live buffer. -/
def scenario_stack_cpu : stack_cpu :=
  { percpu := scenario_percpu_vars, buffer := scenario_empty_buffer, frames := [], used := [] }

/-- Five nested calls of `__ftrace_trace_stack`: each of the first four is interrupted
after it has filled its scratch stack, the fifth finds the four levels in use, and then the
four go on to their return, innermost first. -/
def scenario_stack_ops : List stack_op :=
  [stack_op.call 0 0 false, stack_op.resume, stack_op.call 1 0 false, stack_op.resume,
   stack_op.call 2 0 false, stack_op.resume, stack_op.call 3 0 false, stack_op.resume,
   stack_op.call 4 0 false, stack_op.resume,
   stack_op.resume, stack_op.resume, stack_op.resume, stack_op.resume]

/-- Ring buffer operations of which the swap of one CPU reports busy. -/
def env_swap_busy : ring_buffer_env :=
  { subbuf_order_set_ret := fun _ _ => 0, resize_ret := fun _ _ _ => 0, now := 100,
    swap_cpu_ret := fun _ _ _ => -EBUSY }

/-- The scenario instance with a maximum latency of 250 recorded. -/
def scenario_tr_latency : trace_array := { scenario_tr with max_latency := 250 }

/-- An instance whose buffer is mapped once, with messages into the buffer enabled. -/
def scenario_tr_mapped : trace_array :=
  { scenario_tr with snapshot := 0, mapped := 1, trace_flags := TRACE_ITER_PRINTK }

/-- CPU 0 running the scenario task. -/
def scenario_cpu_context : cpu_context :=
  { caller := scenario_stack_caller, percpu := scenario_percpu_vars, current := scenario_task,
    trace_ctx := 0 }

/-- An instance running `nop` that is not armed: its spare set is allocated and empty, its
live set holds A, B and C. -/
def scenario_tr_idle : trace_array := { scenario_tr with snapshot := 0 }

/-- The idle instance with its buffer mapped once. -/
def scenario_tr_idle_mapped : trace_array := { scenario_tr_idle with mapped := 1 }

/-- The idle instance stopped once by `tracing_stop_tr`. -/
def scenario_tr_idle_stopped : trace_array := { scenario_tr_idle with stop_count := 1 }

/-- A tracer that is not allowed in instances. -/
def scenario_mmiotrace : tracer :=
  { name := some "mmiotrace", use_max_tr := false, noboot := false, allow_instances := false,
    enabled := 0, reset := none, init := none, flag_changed := none }

/-- The globals of the examples with `mmiotrace` registered as tracer 3. -/
def scenario_globals_mmio : tracer_globals :=
  { scenario_globals with
    trace_types := [scenario_nop, scenario_function, scenario_irqsoff, scenario_mmiotrace] }

/-- An instance other than `global_trace` that runs `function` and has one `trace_pipe`
reader. -/
def scenario_tr_piped : trace_array :=
  { scenario_tr_function with fl_global := false, trace_ref := 1 }

/-- A tracer that defines no flag setter and is not registered in the examples. -/
def scenario_function_graph : tracer :=
  { name := some "function_graph", use_max_tr := false, noboot := false,
    allow_instances := true, enabled := 0, reset := none, init := none,
    flag_changed := none, set_flag := none }

/-- A handle on `per_cpu/cpu0/trace_pipe_raw` of the empty buffer, as `tracing_buffers_open`
leaves it. -/
def scenario_info : ftrace_buffer_info :=
  { iter := open_pipe scenario_empty_buffer 0, spare := none, spare_cpu := 0, spare_size := 0,
    read := 2 ^ 32 - 1 }

/-- A handle on `per_cpu/cpu0/snapshot_raw` of the empty buffer. -/
def scenario_snapshot_info : ftrace_buffer_info :=
  { scenario_info with iter := { scenario_info.iter with snapshot := true } }

/-- Page operations that succeed: the allocation returns a page, the user buffer is
writable. -/
def penv_ok : read_page_env :=
  { alloc_read_page := fun _ _ => Except.ok [],
    read_page := fun buffer data_page _ _ => (0, buffer, data_page),
    copy_to_user := fun _ => 0 }

/-- The value of `TRACE_SEQ_BUFFER_SIZE` on a 64-bit kernel with 4 KiB pages: two pages
less the bookkeeping of `struct trace_seq`. -/
def scenario_seq_size : Nat := 8156

/-- Event printers that write the payload of an entry and a newline. -/
def out_short : trace_output :=
  { event_line := fun ent _ _ => [ent.payload, [10]] }

/-- Event printers that write one piece of 8157 bytes for every entry. -/
def out_wide : trace_output :=
  { event_line := fun _ _ _ => [List.replicate 8157 65] }

/-- A user buffer that can be written. -/
def copy_ok (_n : Nat) : Nat := 0

/-- Ring buffer operations of which a resize succeeds only for all CPUs of a buffer that
holds records: the resize of the live buffer succeeds, that of the empty spare buffer and
the per-CPU resizes that put the live buffer back fail. -/
def env_resize_unequal : ring_buffer_env :=
  { subbuf_order_set_ret := fun _ _ => 0,
    resize_ret := fun buffer _ cpu =>
      if cpu = RING_BUFFER_ALL_CPUS ∧ (buffer.cpus.all (fun c => c.events.isEmpty)) = false
      then 0 else -ENOMEM,
    now := 100 }

/-- The example instance with sub-buffers of 8 pages (order 3) in both buffer sets. -/
def scenario_tr_order3 : trace_array :=
  { scenario_tr with
    array_buffer :=
      { scenario_tr.array_buffer with
        buffer := { scenario_tr.array_buffer.buffer with subbuf_order := 3 } }
    max_buffer :=
      { scenario_tr.max_buffer with
        buffer := { scenario_tr.max_buffer.buffer with subbuf_order := 3 } } }

/-- Ring buffer operations of which a change of the sub-buffer order succeeds only on a
buffer that holds records and only to order 0: the change of the live buffer succeeds, that
of the empty spare buffer and the change back of the live buffer fail. -/
def env_order_unequal : ring_buffer_env :=
  { subbuf_order_set_ret := fun buffer order =>
      if order = 0 ∧ (buffer.cpus.all (fun c => c.events.isEmpty)) = false then 0
      else -ENOMEM,
    resize_ret := fun _ _ _ => 0,
    now := 100 }

/-- Two exports: the one at address 1 takes function calls and events, the one at address
2 function calls and markers; every other address holds an export without flags. -/
def scenario_exports (exp : Nat) : trace_export :=
  if exp = 1 then { write := true, flags := TRACE_EXPORT_FUNCTION ||| TRACE_EXPORT_EVENT }
  else if exp = 2 then
    { write := true, flags := TRACE_EXPORT_FUNCTION ||| TRACE_EXPORT_MARKER }
  else { write := true, flags := 0 }

/-- No export registered. -/
def scenario_no_exports : ftrace_exports_state :=
  { ftrace_exports_list := [], trace_function_exports_enabled := 0,
    trace_event_exports_enabled := 0, trace_marker_exports_enabled := 0 }

/-- The example instance as a persistent-buffer instance that holds the data of the last
boot. -/
def scenario_tr_last_boot : trace_array :=
  { scenario_tr with fl_boot := true, fl_last_boot := true }

/-- Three modules of the last boot at 0x1000, 0x2000 and 0x3000, which the running kernel
has loaded 16, 32 and 48 bytes higher. -/
def scenario_last_boot : last_boot_info :=
  { text_delta := 0,
    scratch := { text_addr := 0, entries := [4096, 8192, 12288] },
    module_delta := some [16, 32, 48] }

/-- Four modules of the last boot of which the second lies 4 GiB above the first. -/
def scenario_last_boot_far : last_boot_info :=
  { text_delta := 0,
    scratch := { text_addr := 0, entries := [4096, 4294971392, 4294975488, 4294979584] },
    module_delta := some [16, 32, 48, 64] }

/-- An iterator as `__tracing_open` leaves its format fields: no buffer yet. -/
def scenario_format_iter : format_iterator :=
  { tr := true, hash_ptr := false, fmt := fmt_pointer.NULL, fmt_size := 0, stores := [] }

/-- An iterator as `trace_init_iter` leaves its format fields: the static buffer. -/
def scenario_format_iter_static : format_iterator :=
  { tr := true, hash_ptr := false, fmt := fmt_pointer.static_fmt_buf,
    fmt_size := STATIC_FMT_BUF_SIZE, stores := [] }

/-- A format of 125 letters followed by "%p". -/
def scenario_fmt_127 : List Nat := List.replicate 125 97 ++ [37, 112]

/-- A parser of eight bytes as `trace_parser_get_init` leaves it. -/
def scenario_parse_state : trace_parser_struct :=
  trace_parser_get_init [255, 255, 255, 255, 255, 255, 255, 255] 8

/-- What `kstrtoul` with base 0 returns for a string of decimal digits that does not start
with 0 and stands for a number below 2^64; every other string is an error here. -/
def kstrtoul_decimal (s : List Nat) : Option Nat :=
  if s = [] ∨ s.head? = some 48 ∨ ¬(∀ c ∈ s, 48 ≤ c ∧ c ≤ 57) then none
  else
    let val := s.foldl (fun a c => a * 10 + (c - 48)) 0
    if val < 2 ^ 64 then some val else none

/-- An environment in which every allocation succeeds, the memory of the parser holds
0xff bytes, and `kstrtoul` reads decimal numbers. -/
def scenario_pid_env : pid_write_env :=
  { parser_memory := some (List.replicate 128 255), pid_list_alloc := true,
    chunk_alloc := fun _ _ => true, kstrtoul := kstrtoul_decimal }

/-- A `createfn` that returns 0 and keeps the list of the strings it was called with. -/
def createfn_log (s : List (List Nat)) (line : List Nat) : Int × List (List Nat) :=
  (0, s ++ [line])

/-- A `createfn` that fails with -22 on the string "bad" and otherwise returns 0 and keeps
the list of the strings it was called with. -/
def createfn_bad (s : List (List Nat)) (line : List Nat) : Int × List (List Nat) :=
  if line = [98, 97, 100] then (-22, s) else (0, s ++ [line])

/-- A system of two listed instances: `global_trace`, without a name, and the instance
"foo" at address 1 with its creation reference. -/
def scenario_instances : trace_system :=
  { g := scenario_globals,
    arrays := fun p =>
      if p = 0 then some { scenario_tr with trace_flags := TRACE_ITER_TRACE_PRINTK }
      else if p = 1 then
        some { scenario_tr with fl_global := false, trace_flags := 0, name := some "foo" }
      else none,
    printk_trace := 0,
    ftrace_trace_arrays := [1, 0] }

/-- The system of two instances with a reader of `trace_pipe` open on "foo". -/
def scenario_instances_reader : trace_system :=
  { scenario_instances with
    arrays := modify_tr scenario_instances.arrays 1 (fun t => { t with trace_ref := 1 }) }

/-- An environment that places a new instance at address 2, zeroed but for its buffers. -/
def scenario_instance_env : instance_env :=
  { alloc := fun _ _ =>
      Except.ok (2, { scenario_tr with fl_global := false, allocated_snapshot := false,
                                       snapshot := 0, ref := 0 }),
    tgid_alloc_ok := true }

/-- The scenario instance with the identity of its buffers, and one call of
`trace_function` on CPU 0 at its entry. -/
def scenario_producers : producers_state :=
  { m := { tr := scenario_tr, live := buffer_object.first },
    producers := [({ cpu := 0, pid := 42, ip := 4096, parent_ip := 8192, trace_ctx := 0 },
      producer.entry)] }

/-- The producer loads the buffer pointer, the buffers change places, and the producer
reserves and commits. -/
def scenario_schedule : List schedule_action :=
  [schedule_action.step 0, schedule_action.exchange scenario_task true 0 0,
    schedule_action.step 0, schedule_action.step 0]


/-! ## The merge protocol: `__find_next_entry` and the drain -/

theorem pending_of_empty_cpu (iter : trace_iterator) (cpu : Nat)
    (h : ring_buffer_empty_cpu iter.array_buffer cpu = true) : pending iter cpu = [] := by
  unfold ring_buffer_empty_cpu at h
  unfold pending
  cases hc : iter.array_buffer.cpus[cpu]? with
  | none => rfl
  | some cb =>
    rw [hc] at h
    have he : cb.events = [] := by simpa using h
    cases trace_buffer_iter iter cpu <;> simp [he]

theorem peek_next_entry_ent (iter : trace_iterator) (cpu ts lost : Nat) :
    (peek_next_entry iter cpu ts lost).2.1 = (pending iter cpu).head?.map (fun e => e.data) := by
  unfold peek_next_entry pending ring_buffer_iter_peek ring_buffer_peek
  cases hc : iter.array_buffer.cpus[cpu]? with
  | none => cases trace_buffer_iter iter cpu <;> simp
  | some cb =>
    obtain ⟨evs, cl, csz⟩ := cb
    cases hb : trace_buffer_iter iter cpu with
    | none =>
      cases evs <;> simp [ring_buffer_event_data]
    | some bi =>
      simp only [List.head?_drop]
      cases he : evs[bi.head]? <;> simp [ring_buffer_event_data]

theorem peek_next_entry_ts (iter : trace_iterator) (cpu ts lost : Nat) :
    (peek_next_entry iter cpu ts lost).2.2.1 =
      ((pending iter cpu).head?.map (fun e => e.ts)).getD ts := by
  unfold peek_next_entry pending ring_buffer_iter_peek ring_buffer_peek
  cases hc : iter.array_buffer.cpus[cpu]? with
  | none => cases trace_buffer_iter iter cpu <;> simp
  | some cb =>
    obtain ⟨evs, cl, csz⟩ := cb
    cases hb : trace_buffer_iter iter cpu with
    | none =>
      cases evs <;> simp
    | some bi =>
      simp only [List.head?_drop]
      cases he : evs[bi.head]? <;> simp

theorem peek_next_entry_iter (iter : trace_iterator) (cpu ts lost : Nat) :
    (peek_next_entry iter cpu ts lost).1 =
      { iter with ent_size := ((pending iter cpu).head?.map (fun e => e.length)).getD 0 } := by
  unfold peek_next_entry pending ring_buffer_iter_peek ring_buffer_peek
  cases hc : iter.array_buffer.cpus[cpu]? with
  | none => cases trace_buffer_iter iter cpu <;> simp
  | some cb =>
    obtain ⟨evs, cl, csz⟩ := cb
    cases hb : trace_buffer_iter iter cpu with
    | none =>
      cases evs <;> simp [ring_buffer_event_length]
    | some bi =>
      simp only [List.head?_drop]
      cases he : evs[bi.head]? <;> simp [ring_buffer_event_length]

theorem pending_ent_size (iter : trace_iterator) (sz : Nat) :
    pending { iter with ent_size := sz } = pending iter := rfl

theorem scan_inv_step (iter : trace_iterator) (n : Nat) (s : find_locals)
    (h : scan_inv iter n s) :
    scan_inv iter (n + 1) (find_next_step iter.array_buffer s n) := by
  obtain ⟨⟨sz, hsz⟩, hn⟩ := h
  have hp : pending s.iter n = pending iter n := by rw [hsz]; rfl
  have hent := peek_next_entry_ent s.iter n s.ts s.lost_events
  have hts := peek_next_entry_ts s.iter n s.ts s.lost_events
  have hit := peek_next_entry_iter s.iter n s.ts s.lost_events
  rw [hp] at hent hts hit
  have hit2 : (peek_next_entry s.iter n s.ts s.lost_events).1 =
      { iter with ent_size := ((pending iter n).head?.map (fun e => e.length)).getD 0 } := by
    rw [hit, hsz]
  -- the case where CPU `n` contributes nothing
  have skip : ∀ s' : find_locals, (∃ sz', s'.iter = { iter with ent_size := sz' }) →
      s'.next = s.next → s'.next_cpu = s.next_cpu → s'.next_ts = s.next_ts →
      s'.next_size = s.next_size →
      (pending iter n).head? = none → scan_inv iter (n + 1) s' := by
    intro s' hi h1 h2 h3 h4 hnone
    refine ⟨hi, ?_⟩
    rw [h1, h2, h3, h4]
    cases hnx : s.next with
    | none =>
      rw [hnx] at hn
      refine ⟨?_, hn.2⟩
      intro cpu hc
      rcases Nat.lt_succ_iff_lt_or_eq.mp hc with hlt | heq
      · exact hn.1 cpu hlt
      · subst heq; exact List.head?_eq_none_iff.mp hnone
    | some ent =>
      rw [hnx] at hn
      obtain ⟨cpu, e, hc, h5, h6, h7, h8, h9, h10⟩ := hn
      refine ⟨cpu, e, Nat.lt_succ_of_lt hc, h5, h6, h7, h8, h9, ?_⟩
      intro cpu' e' hc' he'
      rcases Nat.lt_succ_iff_lt_or_eq.mp hc' with hlt | heq
      · exact h10 cpu' e' hlt he'
      · subst heq; rw [hnone] at he'; cases he'
  unfold find_next_step
  by_cases hemp : ring_buffer_empty_cpu iter.array_buffer n = true
  · rw [if_pos hemp]
    have : pending iter n = [] := pending_of_empty_cpu iter n hemp
    exact skip s ⟨sz, hsz⟩ rfl rfl rfl rfl (by rw [this]; rfl)
  · rw [if_neg hemp]
    cases hh : (pending iter n).head? with
    | none =>
      rw [hh] at hent
      simp only [Option.map_none'] at hent
      simp only [hent]
      exact skip _ ⟨_, hit2⟩ rfl rfl rfl rfl hh
    | some e =>
      rw [hh] at hent hts hit hit2
      simp only [Option.map_some', Option.getD_some] at hent hts hit hit2
      simp only [hent, hts]
      by_cases hc : (s.next.isNone || decide (e.ts < s.next_ts)) = true
      · rw [if_pos hc]
        refine ⟨⟨e.length, hit2⟩, ?_⟩
        · refine ⟨n, e, Nat.lt_succ_self n, rfl, hh, rfl, rfl, ?_, ?_⟩
          · show (peek_next_entry s.iter n s.ts s.lost_events).1.ent_size = _
            rw [hit2]
          · intro cpu' e' hc' he'
            rcases Nat.lt_succ_iff_lt_or_eq.mp hc' with hlt | heq
            · cases hnx : s.next with
              | none =>
                rw [hnx] at hn
                rw [hn.1 cpu' hlt] at he'; cases he'
              | some ent =>
                rw [hnx] at hn hc
                obtain ⟨cpu, e0, hc0, h5, h6, h7, h8, h9, h10⟩ := hn
                simp only [Option.isNone_some, Bool.false_or, decide_eq_true_eq] at hc
                have := (h10 cpu' e' hlt he').1
                constructor <;> intros <;> omega
            · subst heq
              rw [hh] at he'
              cases he'
              exact ⟨le_refl _, fun h => absurd h (lt_irrefl _)⟩
      · rw [if_neg hc]
        refine ⟨⟨e.length, hit2⟩, ?_⟩
        · show (match s.next with | none => _ | some ent => _)
          cases hnx : s.next with
          | none => rw [hnx] at hc; simp at hc
          | some ent =>
            rw [hnx] at hn hc
            obtain ⟨cpu, e0, hc0, h5, h6, h7, h8, h9, h10⟩ := hn
            simp only [Option.isNone_some, Bool.false_or, decide_eq_true_eq] at hc
            refine ⟨cpu, e0, Nat.lt_succ_of_lt hc0, h5, h6, h7, h8, h9, ?_⟩
            intro cpu' e' hc' he'
            rcases Nat.lt_succ_iff_lt_or_eq.mp hc' with hlt | heq
            · exact h10 cpu' e' hlt he'
            · subst heq
              rw [hh] at he'
              cases he'
              constructor
              · omega
              · intro h; omega

theorem scan_inv_range (iter : trace_iterator) (s0 : find_locals) (h0 : scan_inv iter 0 s0)
    (n : Nat) : scan_inv iter n ((List.range n).foldl (find_next_step iter.array_buffer) s0) := by
  induction n with
  | zero => simpa using h0
  | succ n ih =>
    rw [List.range_succ, List.foldl_append]
    exact scan_inv_step iter n _ ih

theorem peek_next_entry_congr (a b : trace_iterator) (cpu ts lost : Nat)
    (h1 : trace_buffer_iter a cpu = trace_buffer_iter b cpu)
    (h2 : a.array_buffer.cpus[cpu]? = b.array_buffer.cpus[cpu]?) :
    (peek_next_entry a cpu ts lost).2 = (peek_next_entry b cpu ts lost).2 := by
  unfold peek_next_entry ring_buffer_iter_peek ring_buffer_peek
  rw [h1, h2]
  cases hb : trace_buffer_iter b cpu with
  | none =>
    cases hc : b.array_buffer.cpus[cpu]? with
    | none => rfl
    | some cb =>
      obtain ⟨evs, cl, csz⟩ := cb
      cases evs <;> rfl
  | some bi =>
    cases hc : b.array_buffer.cpus[cpu]? with
    | none => rfl
    | some cb =>
      simp only
      cases he : cb.events[bi.head]? <;> rfl

theorem ring_buffer_empty_cpu_eq_pending (iter : trace_iterator) (cpu : Nat)
    (h : ring_buffer_empty_cpu iter.array_buffer cpu = true) :
    (pending iter cpu).head? = none := by
  rw [pending_of_empty_cpu iter cpu h]; rfl

theorem find_next_entry_scoped (iter : trace_iterator) (ent_cpu : Int)
    (missing_events ent_ts : Nat) (h : iter.cpu_file > RING_BUFFER_ALL_CPUS) :
    __find_next_entry iter ent_cpu missing_events ent_ts =
      if ring_buffer_empty_cpu iter.array_buffer iter.cpu_file.toNat then
        { iter := iter, ent := none, ent_cpu := ent_cpu, missing_events := missing_events,
          ent_ts := ent_ts }
      else
        { iter := (peek_next_entry iter iter.cpu_file.toNat ent_ts missing_events).1,
          ent := (peek_next_entry iter iter.cpu_file.toNat ent_ts missing_events).2.1,
          ent_cpu := iter.cpu_file,
          missing_events := (peek_next_entry iter iter.cpu_file.toNat ent_ts missing_events).2.2.2,
          ent_ts := (peek_next_entry iter iter.cpu_file.toNat ent_ts missing_events).2.2.1 } := by
  unfold __find_next_entry
  simp only [if_pos h]

theorem find_next_entry_full (iter : trace_iterator) (ent_cpu : Int)
    (missing_events ent_ts : Nat) (h : ¬ iter.cpu_file > RING_BUFFER_ALL_CPUS) :
    __find_next_entry iter ent_cpu missing_events ent_ts =
      { iter := { (scan_all iter).iter with ent_size := (scan_all iter).next_size },
        ent := (scan_all iter).next, ent_cpu := (scan_all iter).next_cpu,
        missing_events := (scan_all iter).next_lost, ent_ts := (scan_all iter).next_ts } := by
  unfold __find_next_entry scan_all
  simp only [if_neg h]

theorem scan_all_inv (iter : trace_iterator) :
    scan_inv iter iter.array_buffer.cpus.length (scan_all iter) := by
  unfold scan_all for_each_tracing_cpu
  apply scan_inv_range
  exact ⟨⟨iter.ent_size, rfl⟩, fun _ h => absurd h (Nat.not_lt_zero _), rfl, rfl⟩

theorem pending_out_of_range (iter : trace_iterator) (cpu : Nat)
    (h : iter.array_buffer.cpus.length ≤ cpu) : pending iter cpu = [] := by
  unfold pending
  rw [List.getElem?_eq_none h]

theorem ring_buffer_empty_cpu_congr (a b : trace_buffer) (cpu : Nat)
    (h : a.cpus[cpu]? = b.cpus[cpu]?) :
    ring_buffer_empty_cpu a cpu = ring_buffer_empty_cpu b cpu := by
  unfold ring_buffer_empty_cpu
  rw [h]

theorem pending_nonempty_of_not_empty_cpu (iter : trace_iterator) (cpu : Nat)
    (h : pending iter cpu ≠ []) : ring_buffer_empty_cpu iter.array_buffer cpu = false := by
  cases hb : ring_buffer_empty_cpu iter.array_buffer cpu with
  | false => rfl
  | true => exact absurd (pending_of_empty_cpu iter cpu hb) h

theorem find_next_entry_scoped_spec (iter : trace_iterator) (ent_cpu : Int)
    (missing_events ent_ts : Nat) (h : iter.cpu_file > RING_BUFFER_ALL_CPUS) :
    (__find_next_entry iter ent_cpu missing_events ent_ts).ent =
        (pending iter iter.cpu_file.toNat).head?.map (fun e => e.data) ∧
      (∀ e, (pending iter iter.cpu_file.toNat).head? = some e →
        (__find_next_entry iter ent_cpu missing_events ent_ts).ent_cpu = iter.cpu_file ∧
        (__find_next_entry iter ent_cpu missing_events ent_ts).ent_ts = e.ts) := by
  constructor
  · rw [find_next_entry_scoped iter _ _ _ h]
    split
    · rename_i hemp
      rw [ring_buffer_empty_cpu_eq_pending iter _ hemp]; rfl
    · exact peek_next_entry_ent iter _ _ _
  · intro e he
    have hne : pending iter iter.cpu_file.toNat ≠ [] := by
      intro hnil; rw [hnil] at he; cases he
    rw [find_next_entry_scoped iter _ _ _ h,
      pending_nonempty_of_not_empty_cpu iter _ hne]
    refine ⟨rfl, ?_⟩
    show (peek_next_entry iter iter.cpu_file.toNat ent_ts missing_events).2.2.1 = e.ts
    rw [peek_next_entry_ts, he]; rfl

theorem find_next_entry_full_spec (iter : trace_iterator) (ent_cpu : Int)
    (missing_events ent_ts : Nat) (h : ¬ iter.cpu_file > RING_BUFFER_ALL_CPUS) :
    ((__find_next_entry iter ent_cpu missing_events ent_ts).ent = none ↔
        ∀ cpu, cpu < iter.array_buffer.cpus.length → pending iter cpu = []) ∧
      (∀ ent, (__find_next_entry iter ent_cpu missing_events ent_ts).ent = some ent →
        ∃ cpu e, cpu < iter.array_buffer.cpus.length ∧
          (pending iter cpu).head? = some e ∧ e.data = ent ∧
          (__find_next_entry iter ent_cpu missing_events ent_ts).ent_cpu = (cpu : Int) ∧
          (__find_next_entry iter ent_cpu missing_events ent_ts).ent_ts = e.ts ∧
          ∀ cpu' e', (pending iter cpu').head? = some e' →
            e.ts ≤ e'.ts ∧ (cpu' < cpu → e.ts < e'.ts)) := by
  rw [find_next_entry_full iter _ _ _ h]
  have hinv := scan_all_inv iter
  obtain ⟨-, hn⟩ := hinv
  constructor
  · show (scan_all iter).next = none ↔ _
    cases hnx : (scan_all iter).next with
    | none =>
      rw [hnx] at hn
      exact ⟨fun _ => hn.1, fun _ => rfl⟩
    | some ent =>
      rw [hnx] at hn
      obtain ⟨cpu, e, hc, -, h6, -⟩ := hn
      constructor
      · intro hc'; cases hc'
      · intro hall
        rw [hall cpu hc] at h6; cases h6
  · intro ent hent
    change (scan_all iter).next = some ent at hent
    rw [hent] at hn
    obtain ⟨cpu, e, hc, h5, h6, h7, h8, -, h10⟩ := hn
    refine ⟨cpu, e, hc, h6, h7, h5, h8, ?_⟩
    intro cpu' e' he'
    by_cases hlt : cpu' < iter.array_buffer.cpus.length
    · exact h10 cpu' e' hlt he'
    · rw [pending_out_of_range iter cpu' (Nat.le_of_not_lt hlt)] at he'
      cases he'

/-- C1: `__find_next_entry` consumes nothing (the logs, the cursors and every field of the
iterator but the scratch `ent_size` are as before).  Scoped to one CPU it returns the head
record of that CPU as the iterator sees it, with that CPU and the record's timestamp, none
exactly when nothing is pending there, and its results do not depend on any other CPU's
log or cursor.  Full-scope it returns none exactly when no CPU has a pending record, and
otherwise the head record with the smallest timestamp, with its CPU and timestamp, the
lowest CPU among those sharing that timestamp. -/
theorem find_next_entry_contract (iter : trace_iterator) (ent_cpu : Int)
    (missing_events ent_ts : Nat) :
    (∃ sz, (__find_next_entry iter ent_cpu missing_events ent_ts).iter =
        { iter with ent_size := sz }) ∧
    (iter.cpu_file > RING_BUFFER_ALL_CPUS →
      (__find_next_entry iter ent_cpu missing_events ent_ts).ent =
          (pending iter iter.cpu_file.toNat).head?.map (fun e => e.data) ∧
      (∀ e, (pending iter iter.cpu_file.toNat).head? = some e →
        (__find_next_entry iter ent_cpu missing_events ent_ts).ent_cpu = iter.cpu_file ∧
        (__find_next_entry iter ent_cpu missing_events ent_ts).ent_ts = e.ts) ∧
      ((__find_next_entry iter ent_cpu missing_events ent_ts).ent = none ↔
        pending iter iter.cpu_file.toNat = []) ∧
      (∀ other : trace_iterator, other.cpu_file = iter.cpu_file →
        other.array_buffer.cpus[iter.cpu_file.toNat]? =
          iter.array_buffer.cpus[iter.cpu_file.toNat]? →
        trace_buffer_iter other iter.cpu_file.toNat =
          trace_buffer_iter iter iter.cpu_file.toNat →
        (__find_next_entry other ent_cpu missing_events ent_ts).ent =
          (__find_next_entry iter ent_cpu missing_events ent_ts).ent ∧
        (__find_next_entry other ent_cpu missing_events ent_ts).ent_cpu =
          (__find_next_entry iter ent_cpu missing_events ent_ts).ent_cpu ∧
        (__find_next_entry other ent_cpu missing_events ent_ts).ent_ts =
          (__find_next_entry iter ent_cpu missing_events ent_ts).ent_ts ∧
        (__find_next_entry other ent_cpu missing_events ent_ts).missing_events =
          (__find_next_entry iter ent_cpu missing_events ent_ts).missing_events)) ∧
    (¬ iter.cpu_file > RING_BUFFER_ALL_CPUS →
      ((__find_next_entry iter ent_cpu missing_events ent_ts).ent = none ↔
        ∀ cpu, cpu < iter.array_buffer.cpus.length → pending iter cpu = []) ∧
      (∀ ent, (__find_next_entry iter ent_cpu missing_events ent_ts).ent = some ent →
        ∃ cpu e, cpu < iter.array_buffer.cpus.length ∧
          (pending iter cpu).head? = some e ∧ e.data = ent ∧
          (__find_next_entry iter ent_cpu missing_events ent_ts).ent_cpu = (cpu : Int) ∧
          (__find_next_entry iter ent_cpu missing_events ent_ts).ent_ts = e.ts ∧
          ∀ cpu' e', (pending iter cpu').head? = some e' →
            e.ts ≤ e'.ts ∧ (cpu' < cpu → e.ts < e'.ts))) := by
  refine ⟨?_, ?_, ?_⟩
  · by_cases h : iter.cpu_file > RING_BUFFER_ALL_CPUS
    · rw [find_next_entry_scoped iter _ _ _ h]
      split
      · exact ⟨iter.ent_size, rfl⟩
      · exact ⟨_, peek_next_entry_iter iter _ _ _⟩
    · rw [find_next_entry_full iter _ _ _ h]
      obtain ⟨⟨sz, hsz⟩, -⟩ := scan_all_inv iter
      exact ⟨(scan_all iter).next_size, by rw [hsz]⟩
  · intro h
    obtain ⟨hent, hout⟩ := find_next_entry_scoped_spec iter ent_cpu missing_events ent_ts h
    refine ⟨hent, hout, ?_, ?_⟩
    · rw [hent]
      cases hp : pending iter iter.cpu_file.toNat <;> simp
    · intro other h1 h2 h3
      have h' : other.cpu_file > RING_BUFFER_ALL_CPUS := by rw [h1]; exact h
      rw [find_next_entry_scoped iter _ _ _ h, find_next_entry_scoped other _ _ _ h', h1,
        ring_buffer_empty_cpu_congr _ _ _ h2,
        peek_next_entry_congr other iter _ _ _ h3 h2]
      split <;> exact ⟨rfl, rfl, rfl, rfl⟩
  · intro h
    exact find_next_entry_full_spec iter ent_cpu missing_events ent_ts h

/-- The instances of C1 for the example scenario: scoped to CPU 1, and full-scope. -/
theorem find_next_entry_contract_witness :
    (__find_next_entry (open_pipe scenario_buffer 1) 0 0 0).ent =
        (pending (open_pipe scenario_buffer 1) 1).head?.map (fun e => e.data) ∧
      ((__find_next_entry (open_pipe scenario_buffer RING_BUFFER_ALL_CPUS) 0 0 0).ent = none ↔
        ∀ cpu, cpu < 2 → pending (open_pipe scenario_buffer RING_BUFFER_ALL_CPUS) cpu = []) :=
  ⟨((find_next_entry_contract (open_pipe scenario_buffer 1) 0 0 0).2.1 (by decide)).1,
    ((find_next_entry_contract (open_pipe scenario_buffer RING_BUFFER_ALL_CPUS) 0 0 0).2.2
      (by decide)).1⟩

theorem records_from_perm_set (cpus : List ring_buffer_per_cpu) (start k : Nat)
    (e : ring_buffer_event) (rest : List ring_buffer_event) (l l2 sz : Nat)
    (h : cpus[k]? = some { events := e :: rest, lost_events := l, size := sz }) :
    List.Perm (records_from start cpus)
      ({ ent := e.data, cpu := ((start + k : Nat) : Int), ts := e.ts } ::
        records_from start
          (cpus.set k { events := rest, lost_events := l2, size := sz })) := by
  induction cpus generalizing start k with
  | nil => simp at h
  | cons cb tl ih =>
    cases k with
    | zero =>
      simp only [List.getElem?_cons_zero, Option.some.injEq] at h
      subst h
      simp [records_from]
    | succ k =>
      simp only [List.getElem?_cons_succ] at h
      have := ih (start + 1) k h
      simp only [List.set_cons_succ, records_from]
      have e1 : start + 1 + k = start + (k + 1) := by omega
      rw [e1] at this
      exact (List.Perm.append_left _ this).trans List.perm_middle

theorem mem_records_from (cpus : List ring_buffer_per_cpu) (start : Nat) (r : record)
    (h : r ∈ records_from start cpus) :
    ∃ (k : Nat) (cb : ring_buffer_per_cpu) (ev : ring_buffer_event),
      cpus[k]? = some cb ∧ ev ∈ cb.events ∧ r.ts = ev.ts := by
  induction cpus generalizing start with
  | nil => simp [records_from] at h
  | cons cb tl ih =>
    simp only [records_from, List.mem_append, List.mem_map] at h
    rcases h with ⟨ev, hev, rfl⟩ | h
    · exact ⟨0, cb, ev, List.getElem?_cons_zero, hev, rfl⟩
    · obtain ⟨k, cb2, ev, h1, h2, h3⟩ := ih (start + 1) h
      exact ⟨k + 1, cb2, ev, by rw [List.getElem?_cons_succ]; exact h1, h2, h3⟩

theorem records_from_eq_nil (cpus : List ring_buffer_per_cpu) (start : Nat)
    (h : ∀ cb ∈ cpus, cb.events = []) : records_from start cpus = [] := by
  induction cpus generalizing start with
  | nil => rfl
  | cons cb tl ih =>
    simp only [records_from]
    rw [h cb (List.mem_cons_self _ _), ih (start + 1) (fun c hc => h c (List.mem_cons_of_mem _ hc))]
    rfl

theorem pending_consuming (iter : trace_iterator) (h : iter.buffer_iter = none) (cpu : Nat) :
    pending iter cpu =
      match iter.array_buffer.cpus[cpu]? with
      | none => []
      | some cb => cb.events := by
  unfold pending trace_buffer_iter
  rw [h]

theorem trace_consume_head (iter : trace_iterator) (cpu : Nat) (e : ring_buffer_event)
    (rest : List ring_buffer_event) (l sz : Nat) (hc : iter.cpu = (cpu : Int))
    (h : iter.array_buffer.cpus[cpu]? =
      some { events := e :: rest, lost_events := l, size := sz }) :
    (trace_consume iter).array_buffer =
        { iter.array_buffer with
          cpus := iter.array_buffer.cpus.set cpu
            { events := rest, lost_events := 0, size := sz } } ∧
      (trace_consume iter).buffer_iter = iter.buffer_iter ∧
      (trace_consume iter).cpu_file = iter.cpu_file := by
  unfold trace_consume ring_buffer_consume
  rw [hc, Int.toNat_ofNat, h]
  exact ⟨rfl, rfl, rfl⟩

theorem trace_iterator_increment_consuming (iter : trace_iterator)
    (h : iter.buffer_iter = none) :
    trace_iterator_increment iter = { iter with idx := iter.idx + 1 } := by
  unfold trace_iterator_increment trace_buffer_iter
  rw [h]

/-- What `trace_find_next_entry_inc` does on a consuming iterator, from what
`__find_next_entry` returned. -/
theorem trace_find_next_entry_inc_consuming (iter : trace_iterator)
    (h : iter.buffer_iter = none) :
    (trace_find_next_entry_inc iter).2 =
        (__find_next_entry iter iter.cpu iter.lost_events iter.ts).ent.isSome ∧
      (trace_find_next_entry_inc iter).1.ent =
        (__find_next_entry iter iter.cpu iter.lost_events iter.ts).ent ∧
      (trace_find_next_entry_inc iter).1.cpu =
        (__find_next_entry iter iter.cpu iter.lost_events iter.ts).ent_cpu ∧
      (trace_find_next_entry_inc iter).1.ts =
        (__find_next_entry iter iter.cpu iter.lost_events iter.ts).ent_ts ∧
      (trace_find_next_entry_inc iter).1.buffer_iter = none ∧
      (trace_find_next_entry_inc iter).1.cpu_file = iter.cpu_file ∧
      (trace_find_next_entry_inc iter).1.array_buffer = iter.array_buffer := by
  have hi : ∃ sz, (__find_next_entry iter iter.cpu iter.lost_events iter.ts).iter =
      { iter with ent_size := sz } := by
    by_cases hs : iter.cpu_file > RING_BUFFER_ALL_CPUS
    · rw [find_next_entry_scoped iter _ _ _ hs]
      split
      · exact ⟨iter.ent_size, rfl⟩
      · exact ⟨_, peek_next_entry_iter iter _ _ _⟩
    · rw [find_next_entry_full iter _ _ _ hs]
      obtain ⟨⟨sz, hsz⟩, -⟩ := scan_all_inv iter
      exact ⟨(scan_all iter).next_size, by rw [hsz]⟩
  obtain ⟨sz, hsz⟩ := hi
  unfold trace_find_next_entry_inc
  simp only
  cases hent : (__find_next_entry iter iter.cpu iter.lost_events iter.ts).ent with
  | none => simp [hsz, h]
  | some ent =>
    simp only
    rw [trace_iterator_increment_consuming _ (by simp [hsz, h])]
    simp [hsz, h]

theorem per_cpu_ordered_set (buffer : trace_buffer) (cpu : Nat) (e : ring_buffer_event)
    (rest : List ring_buffer_event) (l l2 sz : Nat) (ho : per_cpu_ordered buffer)
    (h : buffer.cpus[cpu]? = some { events := e :: rest, lost_events := l, size := sz }) :
    per_cpu_ordered
      { buffer with
        cpus := buffer.cpus.set cpu { events := rest, lost_events := l2, size := sz } } := by
  intro cb hcb
  have hmem := List.mem_or_eq_of_mem_set hcb
  rcases hmem with hmem | rfl
  · exact ho cb hmem
  · have := ho _ (List.getElem?_mem h)
    exact (List.pairwise_cons.mp this).2

theorem drain_full_aux (fuel : Nat) : ∀ (iter : trace_iterator),
    iter.buffer_iter = none → ¬ iter.cpu_file > RING_BUFFER_ALL_CPUS →
    per_cpu_ordered iter.array_buffer → (committed iter.array_buffer).length < fuel →
    ∃ out last, drain fuel iter = some (out, last) ∧
      List.Perm out (committed iter.array_buffer) ∧
      out.Pairwise (fun a b => a.ts ≤ b.ts) ∧ committed last.array_buffer = [] := by
  induction fuel with
  | zero => intro iter _ _ _ h; exact absurd h (Nat.not_lt_zero _)
  | succ fuel ih =>
    intro iter hb hf ho hlen
    obtain ⟨h1, h2, h3, h4, h5, h6, h7⟩ := trace_find_next_entry_inc_consuming iter hb
    obtain ⟨hnone, hsome⟩ := find_next_entry_full_spec iter iter.cpu iter.lost_events iter.ts hf
    unfold drain
    simp only
    cases hent : (__find_next_entry iter iter.cpu iter.lost_events iter.ts).ent with
    | none =>
      rw [hent] at h1 h2
      have hall := hnone.mp hent
      have hnil : committed iter.array_buffer = [] := by
        apply records_from_eq_nil
        intro cb hcb
        obtain ⟨k, hk, hget⟩ := List.getElem_of_mem hcb
        have := hall k hk
        rw [pending_consuming iter hb, List.getElem?_eq_getElem hk, hget] at this
        exact this
      rw [h1]
      refine ⟨[], _, rfl, ?_, List.Pairwise.nil, ?_⟩
      · rw [hnil]
      · rw [h7]; exact hnil
    | some ent =>
      rw [hent] at h1 h2
      obtain ⟨cpu, e, hc, hhead, hdata, hcpu, hts, hmin⟩ := hsome ent hent
      rw [pending_consuming iter hb] at hhead
      cases hget : iter.array_buffer.cpus[cpu]? with
      | none => rw [hget] at hhead; cases hhead
      | some cb =>
        rw [hget] at hhead
        obtain ⟨evs, l, sz⟩ := cb
        cases evs with
        | nil => cases hhead
        | cons e0 rest =>
          simp only [List.head?_cons, Option.some.injEq] at hhead
          subst hhead
          have hget1 : (trace_find_next_entry_inc iter).1.array_buffer.cpus[cpu]? =
              some { events := e0 :: rest, lost_events := l, size := sz } := by rw [h7]; exact hget
          obtain ⟨c1, c2, c3⟩ := trace_consume_head (trace_find_next_entry_inc iter).1 cpu e0
            rest l sz (by rw [h3, hcpu]) hget1
          rw [h7] at c1
          have hperm := records_from_perm_set iter.array_buffer.cpus 0 cpu e0 rest l 0 sz hget
          have ho2 := per_cpu_ordered_set iter.array_buffer cpu e0 rest l 0 sz ho hget
          have hlen2 : (committed (trace_consume (trace_find_next_entry_inc iter).1).array_buffer).length
              < fuel := by
            rw [c1]
            have := hperm.length_eq
            simp only [List.length_cons] at this
            unfold committed at hlen ⊢
            show (records_from 0 (iter.array_buffer.cpus.set cpu
              { events := rest, lost_events := 0, size := sz })).length < fuel
            omega
          obtain ⟨out, last, hd, hp, hs, hl⟩ := ih (trace_consume (trace_find_next_entry_inc iter).1)
            (by rw [c2, h5]) (by rw [c3, h6]; exact hf) (by rw [c1]; exact ho2) hlen2
          rw [h1, h2, hd]
          simp only [Option.isSome_some, if_true]
          refine ⟨_, last, rfl, ?_, ?_, hl⟩
          · rw [h3, h4, hcpu, hts, ← hdata]
            rw [c1] at hp
            unfold committed at hp ⊢
            have := (List.Perm.cons { ent := e0.data, cpu := ((0 + cpu : Nat) : Int), ts := e0.ts } hp).trans
              hperm.symm
            simpa using this
          · rw [List.pairwise_cons]
            refine ⟨?_, hs⟩
            intro r hr
            have hr2 := hp.subset hr
            rw [c1] at hr2
            obtain ⟨k, cb2, ev, hk, hev, hrts⟩ := mem_records_from _ 0 r hr2
            rw [h4, hts, hrts]
            simp only at hk
            by_cases hkc : cpu = k
            · subst hkc
              rw [List.getElem?_set_self hc] at hk
              cases hk
              have := ho _ (List.getElem?_mem hget)
              exact List.rel_of_pairwise_cons this hev
            · rw [List.getElem?_set_ne hkc] at hk
              obtain ⟨evs2, l2, sz2⟩ := cb2
              cases evs2 with
              | nil => cases hev
              | cons e2 rest2 =>
                have hm := (hmin k e2 (by rw [pending_consuming iter hb, hk]; rfl)).1
                rcases List.mem_cons.mp hev with rfl | hin
                · exact hm
                · have := ho _ (List.getElem?_mem hk)
                  exact le_trans hm (List.rel_of_pairwise_cons this hin)

theorem drain_scoped_aux (c : Nat) (fuel : Nat) : ∀ (iter : trace_iterator),
    iter.buffer_iter = none → iter.cpu_file = (c : Int) →
    (committed_cpu iter.array_buffer c).length < fuel →
    ∃ last, drain fuel iter = some (committed_cpu iter.array_buffer c, last) ∧
      committed_cpu last.array_buffer c = [] := by
  induction fuel with
  | zero => intro iter _ _ h; exact absurd h (Nat.not_lt_zero _)
  | succ fuel ih =>
    intro iter hb hf hlen
    have hgt : iter.cpu_file > RING_BUFFER_ALL_CPUS := by
      rw [hf]; unfold RING_BUFFER_ALL_CPUS; omega
    obtain ⟨h1, h2, h3, h4, h5, h6, h7⟩ := trace_find_next_entry_inc_consuming iter hb
    obtain ⟨hent, hout⟩ :=
      find_next_entry_scoped_spec iter iter.cpu iter.lost_events iter.ts hgt
    rw [hf, Int.toNat_ofNat, pending_consuming iter hb] at hent hout
    unfold drain
    simp only
    cases hget : iter.array_buffer.cpus[c]? with
    | none =>
      rw [hget] at hent
      simp only [List.head?_nil, Option.map_none'] at hent
      rw [hent] at h1 h2
      have hnil : committed_cpu iter.array_buffer c = [] := by
        unfold committed_cpu; rw [hget]
      rw [h1, hnil]
      exact ⟨_, rfl, by rw [h7]; exact hnil⟩
    | some cb =>
      obtain ⟨evs, l, sz⟩ := cb
      rw [hget] at hent hout
      cases evs with
      | nil =>
        simp only [List.head?_nil, Option.map_none'] at hent
        rw [hent] at h1 h2
        have hnil : committed_cpu iter.array_buffer c = [] := by
          unfold committed_cpu; rw [hget]; rfl
        rw [h1, hnil]
        exact ⟨_, rfl, by rw [h7]; exact hnil⟩
      | cons e0 rest =>
        simp only [List.head?_cons, Option.map_some'] at hent
        obtain ⟨hcpu, hts⟩ := hout e0 rfl
        rw [hent] at h1 h2
        have hget1 : (trace_find_next_entry_inc iter).1.array_buffer.cpus[c]? =
            some { events := e0 :: rest, lost_events := l, size := sz } := by rw [h7]; exact hget
        obtain ⟨c1, c2, c3⟩ := trace_consume_head (trace_find_next_entry_inc iter).1 c e0
          rest l sz (by rw [h3, hcpu]) hget1
        rw [h7] at c1
        have hlt : c < iter.array_buffer.cpus.length := by
          by_contra hnot
          rw [List.getElem?_eq_none (Nat.le_of_not_lt hnot)] at hget
          cases hget
        have hcc : committed_cpu iter.array_buffer c =
            { ent := e0.data, cpu := (c : Int), ts := e0.ts } ::
              committed_cpu (trace_consume (trace_find_next_entry_inc iter).1).array_buffer c := by
          rw [c1]
          unfold committed_cpu
          rw [hget]
          simp only [List.getElem?_set_self hlt, List.map_cons]
        have hlen2 : (committed_cpu (trace_consume (trace_find_next_entry_inc iter).1).array_buffer
            c).length < fuel := by
          rw [hcc] at hlen
          simp only [List.length_cons] at hlen
          omega
        obtain ⟨last, hd, hl⟩ := ih (trace_consume (trace_find_next_entry_inc iter).1)
          (by rw [c2, h5]) (by rw [c3, h6]; exact hf) hlen2
        rw [h1, h2, hd]
        simp only [Option.isSome_some, if_true]
        refine ⟨last, ?_, hl⟩
        rw [hcc, h3, h4, hcpu, hts]

/-- C2: draining a consuming iterator with enough fuel terminates.  When every CPU's
records are in non-decreasing timestamp order, a full-scope drain yields a permutation of
all committed records (each exactly once) in non-decreasing timestamp order and leaves the
buffer empty; a drain scoped to CPU `c` yields exactly the records of `c` in commit order;
in the example scenario the full-scope drain yields exactly [A, C, B]. -/
theorem drain_contract (iter : trace_iterator) (fuel : Nat) (hb : iter.buffer_iter = none) :
    (iter.cpu_file = RING_BUFFER_ALL_CPUS → per_cpu_ordered iter.array_buffer →
      (committed iter.array_buffer).length < fuel →
      ∃ out last, drain fuel iter = some (out, last) ∧
        List.Perm out (committed iter.array_buffer) ∧
        out.Pairwise (fun a b => a.ts ≤ b.ts) ∧ committed last.array_buffer = []) ∧
    (∀ c : Nat, iter.cpu_file = (c : Int) →
      (committed_cpu iter.array_buffer c).length < fuel →
      ∃ last, drain fuel iter = some (committed_cpu iter.array_buffer c, last) ∧
        committed_cpu last.array_buffer c = []) ∧
    (drain 4 (open_pipe scenario_buffer RING_BUFFER_ALL_CPUS)).map (fun p => p.1) =
      some [{ ent := scenario_A.data, cpu := 0, ts := 1 },
            { ent := scenario_C.data, cpu := 1, ts := 2 },
            { ent := scenario_B.data, cpu := 0, ts := 3 }] := by
  refine ⟨?_, ?_, ?_⟩
  · intro hf ho hlen
    exact drain_full_aux fuel iter hb (by rw [hf]; exact lt_irrefl _) ho hlen
  · intro c hf hlen
    exact drain_scoped_aux c fuel iter hb hf hlen
  · decide

/-- The instance of C2 for the full-scope drain of the example scenario. -/
theorem drain_contract_witness :
    ∃ out last, drain 4 (open_pipe scenario_buffer RING_BUFFER_ALL_CPUS) = some (out, last) ∧
      List.Perm out (committed scenario_buffer) ∧
      out.Pairwise (fun a b => a.ts ≤ b.ts) ∧ committed last.array_buffer = [] :=
  (drain_contract (open_pipe scenario_buffer RING_BUFFER_ALL_CPUS) 4 rfl).1 rfl
    (by unfold per_cpu_ordered; decide) (by decide)

/-! ## The snapshot engine: `update_max_tr` -/

theorem __update_max_tr_frame (tr : trace_array) (tsk : task_struct) (cur : Bool)
    (cpu : Nat) :
    (__update_max_tr tr tsk cur cpu).array_buffer = tr.array_buffer ∧
      (__update_max_tr tr tsk cur cpu).max_buffer.buffer = tr.max_buffer.buffer ∧
      (__update_max_tr tr tsk cur cpu).stop_count = tr.stop_count ∧
      (__update_max_tr tr tsk cur cpu).allocated_snapshot = tr.allocated_snapshot ∧
      (__update_max_tr tr tsk cur cpu).cond_snapshot = tr.cond_snapshot := by
  unfold __update_max_tr
  split <;> exact ⟨rfl, rfl, rfl, rfl, rfl⟩

theorem inherit_record_eq (live spare : trace_buffer) :
    (if ring_buffer_record_is_set_on live then ring_buffer_record_on spare
      else ring_buffer_record_off spare) = { spare with record_on := live.record_on } := by
  unfold ring_buffer_record_is_set_on ring_buffer_record_on ring_buffer_record_off
  cases live.record_on <;> simp

theorem inherit_record_same (tr : trace_array)
    (h : tr.max_buffer.buffer.record_on = tr.array_buffer.buffer.record_on) :
    ({ tr with max_buffer := { tr.max_buffer with
        buffer := { tr.max_buffer.buffer with record_on := tr.array_buffer.buffer.record_on } } } :
      trace_array) = tr := by
  rw [← h]

/-- What `update_max_tr` computes when it goes through with the exchange. -/
theorem update_max_tr_taken (update : trace_array → Nat → Bool) (tr : trace_array)
    (tsk : task_struct) (cur : Bool) (cpu : Nat) (cond_data : Nat)
    (h1 : tr.stop_count = 0) (h2 : tr.allocated_snapshot = true)
    (hacc : tr.cond_snapshot.isSome = true →
      update { tr with max_buffer := { tr.max_buffer with
        buffer := { tr.max_buffer.buffer with record_on := tr.array_buffer.buffer.record_on } } }
        cond_data = true) :
    update_max_tr update tr tsk cur cpu cond_data =
      __update_max_tr
        { tr with
          array_buffer := { tr.array_buffer with
            buffer := { tr.max_buffer.buffer with
              record_on := tr.array_buffer.buffer.record_on } }
          max_buffer := { tr.max_buffer with buffer := tr.array_buffer.buffer } }
        tsk cur cpu := by
  unfold update_max_tr
  rw [if_neg (by rw [h1]; simp), if_neg (by rw [h2]; simp)]
  simp only [inherit_record_eq]
  by_cases hs : tr.cond_snapshot.isSome = true
  · have ha := hacc hs
    dsimp only at ha
    simp only [hs, ha, Bool.not_true, Bool.and_false, if_false, Bool.false_eq_true]
  · simp only [hs, Bool.false_and, if_false, Bool.false_eq_true]

/-- C3: when the instance is not stopped, the snapshot is allocated and the condition
callback, if one is registered, accepts, `update_max_tr` exchanges the buffers: the spare
set holds exactly the buffer that was live, so any drain of it yields what a drain of the
live buffer would have, and the live set holds the log that was spare (recording switched
as it was on the live buffer); stop count, allocation state and callback are untouched; a
second such call puts the first live buffer back as live and the first spare log back as
spare; in the example scenario the spare set then drains to [A, C, B] and the live set is
empty. -/
theorem update_max_tr_exchanges (update : trace_array → Nat → Bool) (tr : trace_array)
    (tsk tsk2 : task_struct) (cur cur2 : Bool) (cpu cpu2 : Nat) (cond_data cond_data2 : Nat)
    (h1 : tr.stop_count = 0) (h2 : tr.allocated_snapshot = true)
    (hacc : tr.cond_snapshot.isSome = true →
      update { tr with max_buffer := { tr.max_buffer with
        buffer := { tr.max_buffer.buffer with record_on := tr.array_buffer.buffer.record_on } } }
        cond_data = true)
    (hacc2 : tr.cond_snapshot.isSome = true →
      update (update_max_tr update tr tsk cur cpu cond_data) cond_data2 = true) :
    (update_max_tr update tr tsk cur cpu cond_data).max_buffer.buffer = tr.array_buffer.buffer ∧
    (∀ fuel scope,
      drain fuel (open_pipe (update_max_tr update tr tsk cur cpu cond_data).max_buffer.buffer
        scope) = drain fuel (open_pipe tr.array_buffer.buffer scope)) ∧
    (update_max_tr update tr tsk cur cpu cond_data).array_buffer.buffer =
      { tr.max_buffer.buffer with record_on := tr.array_buffer.buffer.record_on } ∧
    (update_max_tr update tr tsk cur cpu cond_data).array_buffer.buffer.cpus =
      tr.max_buffer.buffer.cpus ∧
    (update_max_tr update tr tsk cur cpu cond_data).stop_count = tr.stop_count ∧
    (update_max_tr update tr tsk cur cpu cond_data).allocated_snapshot =
      tr.allocated_snapshot ∧
    (update_max_tr update tr tsk cur cpu cond_data).cond_snapshot = tr.cond_snapshot ∧
    (update_max_tr update (update_max_tr update tr tsk cur cpu cond_data) tsk2 cur2 cpu2
      cond_data2).array_buffer.buffer = tr.array_buffer.buffer ∧
    (update_max_tr update (update_max_tr update tr tsk cur cpu cond_data) tsk2 cur2 cpu2
      cond_data2).max_buffer.buffer.cpus = tr.max_buffer.buffer.cpus ∧
    (drain 4 (open_pipe (update_max_tr accept_update scenario_tr scenario_task true 0
        0).max_buffer.buffer RING_BUFFER_ALL_CPUS)).map (fun p => p.1) =
      some [{ ent := scenario_A.data, cpu := 0, ts := 1 },
            { ent := scenario_C.data, cpu := 1, ts := 2 },
            { ent := scenario_B.data, cpu := 0, ts := 3 }] ∧
    committed (update_max_tr accept_update scenario_tr scenario_task true 0
      0).array_buffer.buffer = [] := by
  have e1 := update_max_tr_taken update tr tsk cur cpu cond_data h1 h2 hacc
  obtain ⟨f1, f2, f3, f4, f5⟩ := __update_max_tr_frame
    { tr with
      array_buffer := { tr.array_buffer with
        buffer := { tr.max_buffer.buffer with record_on := tr.array_buffer.buffer.record_on } }
      max_buffer := { tr.max_buffer with buffer := tr.array_buffer.buffer } } tsk cur cpu
  rw [← e1] at f1 f2 f3 f4 f5
  have g1 : (update_max_tr update tr tsk cur cpu cond_data).max_buffer.buffer =
      tr.array_buffer.buffer := f2
  have g2 : (update_max_tr update tr tsk cur cpu cond_data).array_buffer.buffer =
      { tr.max_buffer.buffer with record_on := tr.array_buffer.buffer.record_on } := by
    rw [f1]
  have hrec : (update_max_tr update tr tsk cur cpu cond_data).array_buffer.buffer.record_on =
      tr.array_buffer.buffer.record_on := by rw [g2]
  have e2 := update_max_tr_taken update (update_max_tr update tr tsk cur cpu cond_data) tsk2
    cur2 cpu2 cond_data2 (by rw [f3]; exact h1) (by rw [f4]; exact h2)
    (by
      intro hs
      rw [f5] at hs
      have := hacc2 hs
      rw [inherit_record_same _ (by rw [g1, hrec])]
      exact this)
  obtain ⟨k1, k2, -, -, -⟩ := __update_max_tr_frame
    { (update_max_tr update tr tsk cur cpu cond_data) with
      array_buffer := { (update_max_tr update tr tsk cur cpu cond_data).array_buffer with
        buffer := { (update_max_tr update tr tsk cur cpu cond_data).max_buffer.buffer with
          record_on :=
            (update_max_tr update tr tsk cur cpu cond_data).array_buffer.buffer.record_on } }
      max_buffer := { (update_max_tr update tr tsk cur cpu cond_data).max_buffer with
        buffer := (update_max_tr update tr tsk cur cpu cond_data).array_buffer.buffer } }
    tsk2 cur2 cpu2
  rw [← e2] at k1 k2
  refine ⟨g1, ?_, g2, ?_, f3, f4, f5, ?_, ?_, by decide, by decide⟩
  · intro fuel scope; rw [g1]
  · rw [g2]
  · rw [k1]
    show ({ (update_max_tr update tr tsk cur cpu cond_data).max_buffer.buffer with
      record_on :=
        (update_max_tr update tr tsk cur cpu cond_data).array_buffer.buffer.record_on } :
        trace_buffer) = _
    rw [g1, hrec]
  · rw [k2, g2]

/-- The instance of C3 for the example scenario, which has no conditional snapshot. -/
theorem update_max_tr_exchanges_witness :
    (update_max_tr accept_update scenario_tr scenario_task true 0 0).max_buffer.buffer =
        scenario_tr.array_buffer.buffer ∧
      (update_max_tr accept_update (update_max_tr accept_update scenario_tr scenario_task
        true 0 0) scenario_task true 1 0).array_buffer.buffer =
          scenario_tr.array_buffer.buffer :=
  have h := update_max_tr_exchanges accept_update scenario_tr scenario_task scenario_task true
    true 0 1 0 0 rfl rfl (fun _ => rfl) (fun _ => rfl)
  ⟨h.1, h.2.2.2.2.2.2.2.1⟩

/-- C4, counterexample: with a conditional snapshot registered whose callback declines, on
an instance that is not stopped and has the snapshot allocated, live recording on and spare
recording off, `update_max_tr` switches recording of the spare buffer on. -/
theorem update_max_tr_declined_changes_spare_recording :
    scenario_tr_cond.cond_snapshot.isSome = true ∧
    decline_update scenario_tr_cond 7 = false ∧
    scenario_tr_cond.max_buffer.buffer.record_on = false ∧
    (update_max_tr decline_update scenario_tr_cond scenario_task true 0 7).max_buffer.buffer.record_on
      = true ∧
    update_max_tr decline_update scenario_tr_cond scenario_task true 0 7 ≠ scenario_tr_cond := by
  decide

/-- C4, amended: when a conditional-snapshot callback is registered and declines, the
instance after `update_max_tr` is the instance before it except for the recording switch of
the spare buffer, which, if the instance is not stopped and its snapshot is allocated, is
set to that of the live buffer: nothing is exchanged, no metadata is copied, the live
buffer keeps its recording state. -/
theorem update_max_tr_declined (update : trace_array → Nat → Bool) (tr : trace_array)
    (tsk : task_struct) (cur : Bool) (cpu : Nat) (cond_data : Nat)
    (hreg : tr.cond_snapshot.isSome = true)
    (hdecl : update { tr with max_buffer := { tr.max_buffer with
        buffer := { tr.max_buffer.buffer with record_on := tr.array_buffer.buffer.record_on } } }
        cond_data = false) :
    update_max_tr update tr tsk cur cpu cond_data =
        { tr with max_buffer := { tr.max_buffer with
            buffer := { tr.max_buffer.buffer with
              record_on :=
                if tr.stop_count = 0 ∧ tr.allocated_snapshot = true then
                  tr.array_buffer.buffer.record_on
                else tr.max_buffer.buffer.record_on } } } ∧
      (update_max_tr update tr tsk cur cpu cond_data).array_buffer = tr.array_buffer ∧
      (update_max_tr update tr tsk cur cpu cond_data).max_buffer.buffer.cpus =
        tr.max_buffer.buffer.cpus ∧
      (update_max_tr update tr tsk cur cpu cond_data).max_buffer.data = tr.max_buffer.data := by
  have key : update_max_tr update tr tsk cur cpu cond_data =
      { tr with max_buffer := { tr.max_buffer with
          buffer := { tr.max_buffer.buffer with
            record_on :=
              if tr.stop_count = 0 ∧ tr.allocated_snapshot = true then
                tr.array_buffer.buffer.record_on
              else tr.max_buffer.buffer.record_on } } } := by
    unfold update_max_tr
    by_cases h1 : tr.stop_count = 0
    · by_cases h2 : tr.allocated_snapshot = true
      · rw [if_neg (by rw [h1]; simp), if_neg (by rw [h2]; simp)]
        simp only [inherit_record_eq]
        dsimp only at hdecl
        simp only [hreg, hdecl, Bool.not_false, Bool.and_self, if_true]
        rw [if_pos ⟨h1, h2⟩]
      · rw [if_neg (by rw [h1]; simp), if_pos (by simpa using h2)]
        rw [if_neg (fun h => h2 h.2)]
    · rw [if_pos h1, if_neg (fun h => h1 h.1)]
  rw [key]
  exact ⟨rfl, rfl, rfl, rfl⟩

/-- The instance of C4 for the scenario with a declining callback. -/
theorem update_max_tr_declined_witness :
    (update_max_tr decline_update scenario_tr_cond scenario_task true 0 7).array_buffer =
      scenario_tr_cond.array_buffer :=
  (update_max_tr_declined decline_update scenario_tr_cond scenario_task true 0 7
    (by decide) (by decide)).2.1

/-! ## The tracer switch and arming the snapshot -/

theorem resize_buffer_duplicate_loop_frame (env : ring_buffer_env) (size_buf : array_buffer)
    (l : List Nat) : ∀ (ret : Int) (tb : array_buffer),
    (resize_buffer_duplicate_loop env size_buf l ret tb).2.buffer.subbuf_order =
        tb.buffer.subbuf_order ∧
      (resize_buffer_duplicate_loop env size_buf l ret tb).2.buffer.cpus.length =
        tb.buffer.cpus.length := by
  induction l with
  | nil => intro ret tb; exact ⟨rfl, rfl⟩
  | cons cpu rest ih =>
    intro ret tb
    unfold resize_buffer_duplicate_loop
    simp only
    split
    · unfold ring_buffer_resize
      simp only
      split
      · exact ⟨rfl, rfl⟩
      · split <;> simp
    · obtain ⟨i1, i2⟩ := ih
        (ring_buffer_resize env tb.buffer (per_cpu_entries size_buf cpu) (cpu : Int)).1
        { tb with
          buffer :=
            (ring_buffer_resize env tb.buffer (per_cpu_entries size_buf cpu) (cpu : Int)).2
          data := List.modify (fun d => { d with entries := per_cpu_entries size_buf cpu }) cpu
            tb.data }
      rw [i1, i2]
      unfold ring_buffer_resize
      simp only
      split
      · exact ⟨rfl, rfl⟩
      · split <;> simp

theorem tracing_alloc_snapshot_instance_frame (env : ring_buffer_env) (tr : trace_array) :
    (tracing_alloc_snapshot_instance env tr).2.current_trace = tr.current_trace ∧
      (tracing_alloc_snapshot_instance env tr).2.snapshot = tr.snapshot ∧
      (tracing_alloc_snapshot_instance env tr).2.array_buffer = tr.array_buffer ∧
      (tracing_alloc_snapshot_instance env tr).2.mapped = tr.mapped := by
  unfold tracing_alloc_snapshot_instance
  split
  · simp only
    split
    · exact ⟨rfl, rfl, rfl, rfl⟩
    · split <;> exact ⟨rfl, rfl, rfl, rfl⟩
  · exact ⟨rfl, rfl, rfl, rfl⟩

theorem tracing_arm_snapshot_locked_frame (env : ring_buffer_env) (tr : trace_array) :
    (tracing_arm_snapshot_locked env tr).2.current_trace = tr.current_trace ∧
      (tracing_arm_snapshot_locked env tr).2.array_buffer = tr.array_buffer := by
  unfold tracing_arm_snapshot_locked
  split
  · exact ⟨rfl, rfl⟩
  · obtain ⟨h1, -, h3, -⟩ :=
      tracing_alloc_snapshot_instance_frame env { tr with snapshot := tr.snapshot + 1 }
    simp only
    split
    · exact ⟨h1, h3⟩
    · exact ⟨h1, h3⟩

/-- C5, counterexample: the instance runs `function`, which does not use the spare buffer;
switching to `irqsoff`, which requires it, fails to arm the snapshot for lack of memory.
The call returns `-ENOMEM`, and the instance is left on `nop`: `function` is no longer
current, its enabled count went from 1 to 0 and its reset hook was called. -/
theorem tracing_set_tracer_arm_failure_drops_old_tracer :
    (scenario_globals.trace_types[scenario_tr_function.current_trace]?).map
      (fun t => (t.name, t.use_max_tr, t.enabled)) = some (some "function", false, 1) ∧
    (tracing_arm_snapshot_locked env_nomem
      { scenario_tr_function with current_trace := 0, max_latency := 0 }).1 = -ENOMEM ∧
    (tracing_set_tracer env_nomem scenario_globals scenario_tr_function "irqsoff").ret
      = -ENOMEM ∧
    (tracing_set_tracer env_nomem scenario_globals scenario_tr_function
      "irqsoff").tr.current_trace = scenario_globals.nop_trace ∧
    (tracing_set_tracer env_nomem scenario_globals scenario_tr_function
      "irqsoff").tr.current_trace ≠ scenario_tr_function.current_trace ∧
    ((tracing_set_tracer env_nomem scenario_globals scenario_tr_function
      "irqsoff").g.trace_types[1]?).map (fun t => (t.name, t.enabled)) =
        some (some "function", 0) ∧
    (tracing_set_tracer env_nomem scenario_globals scenario_tr_function "irqsoff").calls =
      [hook_call.reset 1] := by
  decide

/-- C5, amended: when `tracing_set_tracer` passes its gates on the way from a tracer `old`
that does not use the spare buffer to a tracer `new` that requires it, and arming the
snapshot fails, the call returns the error of the arming and leaves the instance on
`nop_trace`: `old` is no longer the current tracer, its enabled count has been decremented
and its reset hook, if it has one, has been called; no other hook has run. -/
theorem tracing_set_tracer_arm_failure (env : ring_buffer_env) (g g0 : tracer_globals)
    (tr tr1 : trace_array) (buf : String) (ret0 : Int) (t : Nat) (new old : tracer)
    (hprep : tracing_set_tracer_expand env g tr = (ret0, g0, tr1)) (hret0 : ¬ ret0 < 0)
    (hfind : find_tracer g0.trace_types buf = some t)
    (hnew : g0.trace_types[t]? = some new)
    (hold : g0.trace_types[tr1.current_trace]? = some old)
    (hne : t ≠ tr1.current_trace)
    (holdmax : old.use_max_tr = false) (hnewmax : new.use_max_tr = true)
    (hcond : tr1.cond_snapshot = none)
    (hboot : g0.system_running = true ∨ new.noboot = false)
    (hok : trace_ok_for_array new tr1 = true)
    (href : tr1.trace_ref = 0)
    (hfail : (tracing_arm_snapshot_locked env
      { (match old.reset with
          | some reset => reset tr1
          | none => tr1) with current_trace := g0.nop_trace }).1 ≠ 0) :
    (tracing_set_tracer env g tr buf).ret =
        (tracing_arm_snapshot_locked env
          { (match old.reset with
              | some reset => reset tr1
              | none => tr1) with current_trace := g0.nop_trace }).1 ∧
      (tracing_set_tracer env g tr buf).ret ≠ 0 ∧
      (tracing_set_tracer env g tr buf).tr.current_trace = g0.nop_trace ∧
      (tracing_set_tracer env g tr buf).g.trace_types[tr1.current_trace]? =
        some { old with enabled := old.enabled - 1 } ∧
      (tracing_set_tracer env g tr buf).calls =
        (match old.reset with
          | some _ => [hook_call.reset tr1.current_trace]
          | none => []) := by
  have hsw : tracing_set_tracer env g tr buf =
      tracing_set_tracer_switch env g0 tr1 tr1.current_trace old t new := by
    unfold tracing_set_tracer
    simp only [hprep, if_neg hret0, hfind, hnew, hold, if_neg hne]
    have c1 : (new.use_max_tr && tr1.cond_snapshot.isSome) = false := by
      rw [hcond]; simp
    have c2 : (!g0.system_running && new.noboot) = false := by
      rcases hboot with h | h <;> simp [h]
    have c3 : (!trace_ok_for_array new tr1) = false := by rw [hok]; rfl
    simp only [c1, c2, c3, href, ne_eq, not_true_eq_false, if_false, Bool.false_eq_true]
  have hsw2 : tracing_set_tracer_switch env g0 tr1 tr1.current_trace old t new =
      { ret := (tracing_arm_snapshot_locked env
          { (match old.reset with
              | some reset => reset tr1
              | none => tr1) with current_trace := g0.nop_trace }).1,
        g := tracer_enabled_add g0 tr1.current_trace (-1),
        tr := (tracing_arm_snapshot_locked env
          { (match old.reset with
              | some reset => reset tr1
              | none => tr1) with current_trace := g0.nop_trace }).2,
        calls := (match old.reset with
          | some _ => [hook_call.reset tr1.current_trace]
          | none => []) } := by
    unfold tracing_set_tracer_switch
    simp only [holdmax, hnewmax, Bool.false_and, Bool.not_false, Bool.true_and,
      Bool.false_eq_true, if_false, if_true, Bool.and_self]
    rw [if_pos hfail]
  rw [hsw, hsw2]
  refine ⟨rfl, hfail, ?_, ?_, rfl⟩
  · exact (tracing_arm_snapshot_locked_frame env _).1
  · show (tracer_enabled_add g0 tr1.current_trace (-1)).trace_types[tr1.current_trace]? = _
    unfold tracer_enabled_add
    simp only [List.getElem?_modify_eq, hold, Option.map_some']
    rfl

/-- The instance of C5 for the failed switch from `function` to `irqsoff`. -/
theorem tracing_set_tracer_arm_failure_witness :
    (tracing_set_tracer env_nomem scenario_globals scenario_tr_function "irqsoff").ret ≠ 0 ∧
    (tracing_set_tracer env_nomem scenario_globals scenario_tr_function
      "irqsoff").tr.current_trace = scenario_globals.nop_trace :=
  have h := tracing_set_tracer_arm_failure env_nomem scenario_globals scenario_globals
    scenario_tr_function scenario_tr_function "irqsoff" 0 2 scenario_irqsoff scenario_function
    rfl (by decide) (by decide) rfl rfl (by decide) rfl rfl rfl (Or.inl rfl) (by decide)
    rfl (by decide)
  ⟨h.2.1, h.2.2.1⟩

theorem ring_buffer_resize_cpu_ok (env : ring_buffer_env) (b : trace_buffer) (size cpu : Nat)
    (h : ¬ (ring_buffer_resize env b size (cpu : Int)).1 < 0) :
    (ring_buffer_resize env b size (cpu : Int)).2 =
      { b with cpus := List.modify (fun c => { c with size := size }) cpu b.cpus } := by
  unfold ring_buffer_resize at h ⊢
  simp only at h ⊢
  split
  · rename_i hneg
    rw [if_pos hneg] at h
    exact absurd hneg h
  · have hcpu : ¬ ((cpu : Int) = RING_BUFFER_ALL_CPUS) := by
      unfold RING_BUFFER_ALL_CPUS; omega
    rw [if_neg hcpu, Int.toNat_ofNat]

/-- When the loop of `resize_buffer_duplicate_size` succeeds, every CPU it visited has the
capacity and the cached entry count of the model buffer, and no other CPU was touched. -/
theorem resize_buffer_duplicate_loop_sizes (env : ring_buffer_env) (size_buf : array_buffer)
    (l : List Nat) : ∀ (ret : Int) (tb : array_buffer),
    ¬ (resize_buffer_duplicate_loop env size_buf l ret tb).1 < 0 → ∀ cpu,
      ((resize_buffer_duplicate_loop env size_buf l ret tb).2.buffer.cpus[cpu]?).map
          (fun c => c.size) =
        (if cpu ∈ l then (tb.buffer.cpus[cpu]?).map (fun _ => per_cpu_entries size_buf cpu)
          else (tb.buffer.cpus[cpu]?).map (fun c => c.size)) ∧
      ((resize_buffer_duplicate_loop env size_buf l ret tb).2.data[cpu]?).map
          (fun d => d.entries) =
        (if cpu ∈ l then (tb.data[cpu]?).map (fun _ => per_cpu_entries size_buf cpu)
          else (tb.data[cpu]?).map (fun d => d.entries)) := by
  induction l with
  | nil => intro ret tb _ cpu; simp [resize_buffer_duplicate_loop]
  | cons c rest ih =>
    intro ret tb hok cpu
    unfold resize_buffer_duplicate_loop at hok ⊢
    simp only at hok ⊢
    by_cases hneg : (ring_buffer_resize env tb.buffer (per_cpu_entries size_buf c) (c : Int)).1 < 0
    · rw [if_pos hneg] at hok
      exact absurd hneg hok
    · rw [if_neg hneg] at hok ⊢
      obtain ⟨i1, i2⟩ := ih _ _ hok cpu
      rw [i1, i2]
      simp only [ring_buffer_resize_cpu_ok env tb.buffer _ c hneg, List.mem_cons]
      by_cases hc : cpu = c
      · subst hc
        simp only [true_or, if_true, List.getElem?_modify_eq, Option.map_map]
        by_cases hr : cpu ∈ rest
        · simp [hr, Function.comp_def]
        · simp [hr, Function.comp_def]
      · have hc2 : c ≠ cpu := fun h => hc h.symm
        simp only [hc, false_or, List.getElem?_modify_ne _ _ hc2]
        exact ⟨trivial, trivial⟩

theorem mem_for_each_tracing_cpu (buffer : trace_buffer) (cpu : Nat) :
    cpu ∈ for_each_tracing_cpu buffer ↔ cpu < buffer.cpus.length := by
  unfold for_each_tracing_cpu
  exact List.mem_range

theorem ring_buffer_subbuf_order_set_ok (env : ring_buffer_env) (b : trace_buffer)
    (order : Nat) (h : ¬ (ring_buffer_subbuf_order_set env b order).1 < 0) :
    (ring_buffer_subbuf_order_set env b order).2 = { b with subbuf_order := order } := by
  unfold ring_buffer_subbuf_order_set at h ⊢
  simp only at h ⊢
  split
  · rename_i hneg
    rw [if_pos hneg] at h
    exact absurd hneg h
  · rfl

theorem tracing_alloc_snapshot_instance_eq (env : ring_buffer_env) (tr : trace_array)
    (h : tr.allocated_snapshot = false) (b1 : Int × trace_buffer) (L : Int × array_buffer)
    (hb1 : ring_buffer_subbuf_order_set env tr.max_buffer.buffer
      (ring_buffer_subbuf_order_get tr.array_buffer.buffer) = b1)
    (hL : resize_buffer_duplicate_loop env tr.array_buffer (for_each_tracing_cpu b1.2) 0
      { tr.max_buffer with buffer := b1.2 } = L) :
    tracing_alloc_snapshot_instance env tr =
      if b1.1 < 0 then (b1.1, { tr with max_buffer := { tr.max_buffer with buffer := b1.2 } })
      else if L.1 < 0 then (L.1, { tr with max_buffer := L.2 })
      else (0, { tr with max_buffer := L.2, allocated_snapshot := true }) := by
  unfold tracing_alloc_snapshot_instance resize_buffer_duplicate_size
  simp only [h, Bool.not_false, if_true, hb1, hL]

/-- What a successful `tracing_alloc_snapshot_instance` leaves behind on an instance whose
snapshot was not allocated. -/
theorem tracing_alloc_snapshot_instance_ok (env : ring_buffer_env) (tr : trace_array)
    (h : tr.allocated_snapshot = false)
    (hok : (tracing_alloc_snapshot_instance env tr).1 = 0) :
    (tracing_alloc_snapshot_instance env tr).2.allocated_snapshot = true ∧
      (tracing_alloc_snapshot_instance env tr).2.max_buffer.buffer.subbuf_order =
        tr.array_buffer.buffer.subbuf_order ∧
      (∀ cpu, cpu < tr.max_buffer.buffer.cpus.length →
        ring_buffer_size (tracing_alloc_snapshot_instance env tr).2.max_buffer.buffer cpu =
          per_cpu_entries tr.array_buffer cpu) ∧
      (∀ cpu, cpu < tr.max_buffer.buffer.cpus.length → cpu < tr.max_buffer.data.length →
        per_cpu_entries (tracing_alloc_snapshot_instance env tr).2.max_buffer cpu =
          per_cpu_entries tr.array_buffer cpu) := by
  rw [tracing_alloc_snapshot_instance_eq env tr h _ _ rfl rfl] at hok ⊢
  by_cases h1 : (ring_buffer_subbuf_order_set env tr.max_buffer.buffer
      (ring_buffer_subbuf_order_get tr.array_buffer.buffer)).1 < 0
  · rw [if_pos h1] at hok
    exact absurd hok (by intro e; rw [e] at h1; exact absurd h1 (by decide))
  · rw [if_neg h1] at hok ⊢
    have hb := ring_buffer_subbuf_order_set_ok env _ _ h1
    generalize ring_buffer_subbuf_order_set env tr.max_buffer.buffer
      (ring_buffer_subbuf_order_get tr.array_buffer.buffer) = b1 at hok hb ⊢
    by_cases h2 : (resize_buffer_duplicate_loop env tr.array_buffer (for_each_tracing_cpu b1.2)
        0 { tr.max_buffer with buffer := b1.2 }).1 < 0
    · rw [if_pos h2] at hok
      exact absurd hok (by intro e; rw [e] at h2; exact absurd h2 (by decide))
    · rw [if_neg h2]
      have hs := resize_buffer_duplicate_loop_sizes env tr.array_buffer _ _ _ h2
      have hf := resize_buffer_duplicate_loop_frame env tr.array_buffer
        (for_each_tracing_cpu b1.2) 0 { tr.max_buffer with buffer := b1.2 }
      have hmem : ∀ cpu, cpu < tr.max_buffer.buffer.cpus.length →
          cpu ∈ for_each_tracing_cpu b1.2 := by
        intro cpu hcpu
        rw [mem_for_each_tracing_cpu, hb]; exact hcpu
      generalize resize_buffer_duplicate_loop env tr.array_buffer (for_each_tracing_cpu b1.2)
        0 { tr.max_buffer with buffer := b1.2 } = L at hs hf ⊢
      refine ⟨rfl, ?_, ?_, ?_⟩
      · show L.2.buffer.subbuf_order = _
        rw [hf.1, hb]
        rfl
      · intro cpu hcpu
        have := (hs cpu).1
        rw [if_pos (hmem cpu hcpu)] at this
        show ring_buffer_size L.2.buffer cpu = _
        unfold ring_buffer_size
        simp only [hb] at this
        rw [List.getElem?_eq_getElem hcpu] at this
        simp only [Option.map_some'] at this
        cases hx : L.2.buffer.cpus[cpu]? with
        | none => rw [hx] at this; cases this
        | some c =>
          rw [hx] at this
          simpa using this
      · intro cpu hcpu hdata
        have := (hs cpu).2
        rw [if_pos (hmem cpu hcpu)] at this
        show per_cpu_entries L.2 cpu = _
        simp only at this
        rw [List.getElem?_eq_getElem hdata] at this
        simp only [Option.map_some'] at this
        unfold per_cpu_entries
        cases hx : L.2.data[cpu]? with
        | none => rw [hx] at this; cases this
        | some c =>
          rw [hx] at this
          simp only [Option.map_some', Option.some.injEq] at this
          simp only [this]
          rfl

/-- A failing `tracing_alloc_snapshot_instance` was called without a snapshot allocated and
leaves it so. -/
theorem tracing_alloc_snapshot_instance_fail (env : ring_buffer_env) (tr : trace_array)
    (hfail : (tracing_alloc_snapshot_instance env tr).1 ≠ 0) :
    tr.allocated_snapshot = false ∧
      (tracing_alloc_snapshot_instance env tr).2.allocated_snapshot = false := by
  cases h : tr.allocated_snapshot with
  | true =>
    unfold tracing_alloc_snapshot_instance at hfail
    simp [h] at hfail
  | false =>
    rw [tracing_alloc_snapshot_instance_eq env tr h _ _ rfl rfl] at hfail ⊢
    refine ⟨rfl, ?_⟩
    split
    · exact h
    · split
      · exact h
      · rename_i h1 h2
        rw [if_neg h1, if_neg h2] at hfail
        exact absurd rfl hfail

/-- C6, counterexample: the instance runs `irqsoff`, a tracer that uses the spare buffer
for its own purposes (and holds it armed), and is not memory-mapped; `tracing_arm_snapshot`
does not fail with `-EBUSY` but succeeds and raises the armed counter from 1 to 2. -/
theorem tracing_arm_snapshot_succeeds_under_max_tracer :
    (scenario_globals.trace_types[scenario_tr_irqsoff.current_trace]?).map
      (fun t => (t.name, t.use_max_tr)) = some (some "irqsoff", true) ∧
    scenario_tr_irqsoff.mapped = 0 ∧ scenario_tr_irqsoff.snapshot = 1 ∧
    (tracing_arm_snapshot env_ok scenario_tr_irqsoff).1 = 0 ∧
    (tracing_arm_snapshot env_ok scenario_tr_irqsoff).1 ≠ -EBUSY ∧
    (tracing_arm_snapshot env_ok scenario_tr_irqsoff).2.snapshot = 2 := by
  decide

/-- C6, amended: `tracing_arm_snapshot` fails with `-EBUSY`, leaving the instance as it is,
whenever the armed counter is saturated at `UINT_MAX` or the buffer is memory-mapped (the
active tracer plays no part).  Otherwise, with the spare set already allocated it
only increments the counter; with the spare set not allocated and the allocation
succeeding it returns 0, the counter is one higher, the spare set is allocated with the
sub-buffer order of the live set and, per CPU, the capacity and entry count recorded for
the live set; and if the allocation fails it returns the error with the counter at its
previous value and the spare set still not allocated. -/
theorem tracing_arm_snapshot_contract (env : ring_buffer_env) (tr : trace_array) :
    ((tr.snapshot = UINT_MAX ∨ tr.mapped ≠ 0) →
      tracing_arm_snapshot env tr = (-EBUSY, tr)) ∧
    (¬ (tr.snapshot = UINT_MAX ∨ tr.mapped ≠ 0) →
      (tr.allocated_snapshot = true →
        tracing_arm_snapshot env tr = (0, { tr with snapshot := tr.snapshot + 1 })) ∧
      (tr.allocated_snapshot = false → (tracing_arm_snapshot env tr).1 = 0 →
        (tracing_arm_snapshot env tr).2.snapshot = tr.snapshot + 1 ∧
        (tracing_arm_snapshot env tr).2.allocated_snapshot = true ∧
        (tracing_arm_snapshot env tr).2.array_buffer = tr.array_buffer ∧
        (tracing_arm_snapshot env tr).2.max_buffer.buffer.subbuf_order =
          tr.array_buffer.buffer.subbuf_order ∧
        (∀ cpu, cpu < tr.max_buffer.buffer.cpus.length →
          ring_buffer_size (tracing_arm_snapshot env tr).2.max_buffer.buffer cpu =
            per_cpu_entries tr.array_buffer cpu) ∧
        (∀ cpu, cpu < tr.max_buffer.buffer.cpus.length → cpu < tr.max_buffer.data.length →
          per_cpu_entries (tracing_arm_snapshot env tr).2.max_buffer cpu =
            per_cpu_entries tr.array_buffer cpu)) ∧
      ((tracing_arm_snapshot env tr).1 ≠ 0 →
        (tracing_arm_snapshot env tr).2.snapshot = tr.snapshot ∧
        tr.allocated_snapshot = false ∧
        (tracing_arm_snapshot env tr).2.allocated_snapshot = false)) := by
  constructor
  · intro hbusy
    unfold tracing_arm_snapshot tracing_arm_snapshot_locked
    rw [if_pos (by simpa using hbusy)]
  · intro hfree
    have hcond : ¬ ((tr.snapshot = UINT_MAX || tr.mapped ≠ 0) = true) := by
      simpa using hfree
    have heq : tracing_arm_snapshot env tr =
        if (tracing_alloc_snapshot_instance env { tr with snapshot := tr.snapshot + 1 }).1 ≠ 0
        then ((tracing_alloc_snapshot_instance env { tr with snapshot := tr.snapshot + 1 }).1,
          { (tracing_alloc_snapshot_instance env { tr with snapshot := tr.snapshot + 1 }).2 with
            snapshot :=
              (tracing_alloc_snapshot_instance env
                { tr with snapshot := tr.snapshot + 1 }).2.snapshot - 1 })
        else ((tracing_alloc_snapshot_instance env { tr with snapshot := tr.snapshot + 1 }).1,
          (tracing_alloc_snapshot_instance env { tr with snapshot := tr.snapshot + 1 }).2) := by
      unfold tracing_arm_snapshot tracing_arm_snapshot_locked
      rw [if_neg hcond]
    obtain ⟨-, fs, fa, -⟩ :=
      tracing_alloc_snapshot_instance_frame env { tr with snapshot := tr.snapshot + 1 }
    refine ⟨?_, ?_, ?_⟩
    · intro halloc
      rw [heq]
      have : tracing_alloc_snapshot_instance env { tr with snapshot := tr.snapshot + 1 } =
          (0, { tr with snapshot := tr.snapshot + 1 }) := by
        unfold tracing_alloc_snapshot_instance
        simp [halloc]
      rw [this]
      simp
    · intro halloc hok
      rw [heq] at hok ⊢
      by_cases hz : (tracing_alloc_snapshot_instance env
          { tr with snapshot := tr.snapshot + 1 }).1 ≠ 0
      · rw [if_pos hz] at hok
        exact absurd hok hz
      · rw [if_neg hz]
        have hz0 : (tracing_alloc_snapshot_instance env
            { tr with snapshot := tr.snapshot + 1 }).1 = 0 := by
          by_contra hne; exact hz hne
        obtain ⟨a1, a2, a3, a4⟩ := tracing_alloc_snapshot_instance_ok env
          { tr with snapshot := tr.snapshot + 1 } halloc hz0
        exact ⟨fs, a1, fa, a2, a3, a4⟩
    · intro hfail
      rw [heq] at hfail ⊢
      by_cases hz : (tracing_alloc_snapshot_instance env
          { tr with snapshot := tr.snapshot + 1 }).1 ≠ 0
      · rw [if_pos hz]
        obtain ⟨b1, b2⟩ := tracing_alloc_snapshot_instance_fail env
          { tr with snapshot := tr.snapshot + 1 } hz
        refine ⟨?_, b1, b2⟩
        show (tracing_alloc_snapshot_instance env
          { tr with snapshot := tr.snapshot + 1 }).2.snapshot - 1 = tr.snapshot
        rw [fs]
        show tr.snapshot + 1 - 1 = tr.snapshot
        omega
      · rw [if_neg hz] at hfail
        exact absurd hfail hz

/-- The instance of C6 for a memory-mapped instance, which is refused. -/
theorem tracing_arm_snapshot_contract_witness :
    tracing_arm_snapshot env_ok { scenario_tr_function with mapped := 1 } =
      (-EBUSY, { scenario_tr_function with mapped := 1 }) :=
  (tracing_arm_snapshot_contract env_ok { scenario_tr_function with mapped := 1 }).1
    (Or.inr (by decide))

/-! ## Reservation larger than the maximum event size -/

theorem size_t_of_nat (n : Nat) (h : n < 2 ^ 64) : size_t (n : Int) = n := by
  unfold size_t
  have h2 : ((n : Int) % (2 ^ 64 : Int)) = (n : Int) := by
    apply Int.emod_eq_of_lt
    · exact Int.ofNat_nonneg n
    · exact_mod_cast h
  rw [h2, Int.toNat_ofNat]

theorem ring_buffer_lock_reserve_too_large (env : ring_buffer_env) (buffer : trace_buffer)
    (len : Nat) (h : len > ring_buffer_max_event_size buffer) :
    ring_buffer_lock_reserve env buffer len = none := by
  unfold ring_buffer_lock_reserve
  unfold ring_buffer_max_event_size at h
  simp [h]

theorem ring_buffer_lock_reserve_fits (env : ring_buffer_env) (buffer : trace_buffer)
    (len : Nat) (hon : buffer.record_on = true) (hdis : buffer.record_disabled = 0)
    (h : len ≤ ring_buffer_max_event_size buffer) :
    ring_buffer_lock_reserve env buffer len =
      some { ts := env.now, length := len,
             data := { type := 0, ctx := 0, pid := 0, payload := [] } } := by
  unfold ring_buffer_lock_reserve
  unfold ring_buffer_max_event_size at h
  simp [hon, hdis, Nat.not_lt.mpr h]

theorem size_t_add (a b : Nat) (h : a + b < 2 ^ 64) : size_t ((a : Int) + (b : Int)) = a + b := by
  have := size_t_of_nat (a + b) h
  rw [← this]
  push_cast
  rfl

theorem size_t_sub (a b : Nat) (hb : b ≤ a) (h : a < 2 ^ 64) :
    size_t ((a : Int) - (b : Int)) = a - b := by
  have := size_t_of_nat (a - b) (by omega)
  rw [← this]
  congr 1
  omega

/-- What `tracing_mark_write` does with a text that does not fit: it retries with the text
shortened to the largest event less the header, and commits that. -/
theorem tracing_mark_write_shortens (env : ring_buffer_env) (tr : trace_array)
    (c : marker_caller) (cnt : Nat)
    (hflag : tr.trace_flags &&& TRACE_ITER_MARKERS ≠ 0)
    (hcnt : FAULTED_SIZE ≤ cnt) (hmax : cnt ≤ TRACE_MARKER_MAX_SIZE)
    (hfault : c.faults = false)
    (hbig : cnt + (sizeof_print_entry + 2) > ring_buffer_max_event_size tr.array_buffer.buffer)
    (hroom : sizeof_print_entry + 2 + FAULTED_SIZE ≤
      ring_buffer_max_event_size tr.array_buffer.buffer)
    (hon : tr.array_buffer.buffer.record_on = true)
    (hdis : tr.array_buffer.buffer.record_disabled = 0) :
    tracing_mark_write env false tr c cnt 2 =
      some { written :=
               ((ring_buffer_max_event_size tr.array_buffer.buffer -
                 (sizeof_print_entry + 2) : Nat) : Int),
             buffer := ring_buffer_unlock_commit tr.array_buffer.buffer c.cpu
               { ts := env.now,
                 length := ring_buffer_max_event_size tr.array_buffer.buffer,
                 data :=
                   { type := TRACE_PRINT, ctx := c.trace_ctx, pid := c.pid,
                     payload :=
                       if (c.ubuf.take (ring_buffer_max_event_size tr.array_buffer.buffer -
                           (sizeof_print_entry + 2))).getD
                             (ring_buffer_max_event_size tr.array_buffer.buffer -
                               (sizeof_print_entry + 2) - 1) 0 ≠ 10 then
                         c.ubuf.take (ring_buffer_max_event_size tr.array_buffer.buffer -
                           (sizeof_print_entry + 2)) ++ [10, 0]
                       else
                         c.ubuf.take (ring_buffer_max_event_size tr.array_buffer.buffer -
                           (sizeof_print_entry + 2)) ++ [0] } } } := by
  generalize hm : ring_buffer_max_event_size tr.array_buffer.buffer = m at *
  have hsz : sizeof_print_entry + 2 = 18 := rfl
  have hfs : FAULTED_SIZE = 9 := rfl
  have hmm : TRACE_MARKER_MAX_SIZE = 4096 := rfl
  rw [hsz] at hbig hroom ⊢
  rw [hfs] at hcnt hroom
  rw [hmm] at hmax
  have hm64 : m < 2 ^ 64 := by omega
  unfold tracing_mark_write
  have h63 : ¬ cnt ≥ 2 ^ 63 := by omega
  simp only [Bool.false_eq_true, if_false, hflag, h63, hmm, Nat.not_lt.mpr hmax]
  -- first attempt: the reservation of cnt + 18 bytes fails
  have s1 : size_t ((cnt : Int) + ((sizeof_print_entry + 2 : Nat) : Int)) = cnt + 18 := by
    rw [hsz]; exact size_t_add cnt 18 (by omega)
  have r1 : __trace_buffer_lock_reserve env tr.array_buffer.buffer TRACE_PRINT (cnt + 18)
      c.trace_ctx c.pid = none := by
    unfold __trace_buffer_lock_reserve
    rw [ring_buffer_lock_reserve_too_large env _ _ (by rw [hm]; omega)]
  have s2 : size_t ((m : Int) - ((sizeof_print_entry + 2 : Nat) : Int)) = m - 18 := by
    rw [hsz]; exact size_t_sub m 18 (by omega) hm64
  have s3 : size_t (((m - 18 : Nat) : Int) + ((sizeof_print_entry + 2 : Nat) : Int)) = m := by
    rw [hsz, size_t_add (m - 18) 18 (by omega)]; omega
  have r2 : __trace_buffer_lock_reserve env tr.array_buffer.buffer TRACE_PRINT m
      c.trace_ctx c.pid =
      some { ts := env.now, length := m,
             data := { type := TRACE_PRINT, ctx := c.trace_ctx, pid := c.pid, payload := [] } } := by
    unfold __trace_buffer_lock_reserve
    rw [ring_buffer_lock_reserve_fits env _ _ hon hdis (by rw [hm])]
    rfl
  have n1 : ¬ cnt < FAULTED_SIZE := by rw [hfs]; omega
  have n2 : ¬ m - 18 < FAULTED_SIZE := by rw [hfs]; omega
  have n3 : ¬ m = cnt + 18 := by omega
  have n4 : ¬ m - 18 = 0 := by omega
  unfold tracing_mark_write_again
  simp only [n1, if_false, s1, r1, hm, s2, s3, n3, gt_iff_lt, hbig, if_true]
  unfold tracing_mark_write_again
  simp only [n2, if_false, s3, r2, hfault, Bool.false_eq_true, n4]

/-- C7, counterexample: a `trace_marker` write of 4096 bytes, the most a write may carry,
needs an event of 4114 bytes where the largest event is 4072.  The reservation of 4114
bytes fails, yet the write does not: it returns 4054, and CPU 0 has gained a record that
holds the first 4054 bytes of the text only. -/
theorem tracing_mark_write_truncates :
    4096 ≤ TRACE_MARKER_MAX_SIZE ∧
    4096 + (sizeof_print_entry + 2) >
      ring_buffer_max_event_size scenario_tr_markers.array_buffer.buffer ∧
    __trace_buffer_lock_reserve env_ok scenario_tr_markers.array_buffer.buffer TRACE_PRINT
      (4096 + (sizeof_print_entry + 2)) 0 42 = none ∧
    tracing_mark_write env_ok false scenario_tr_markers scenario_marker_4k 4096 2 =
      some { written := 4054,
             buffer := ring_buffer_unlock_commit scenario_buffer 0
               { ts := 100, length := 4072,
                 data := { type := TRACE_PRINT, ctx := 0, pid := 42,
                           payload := List.replicate 4054 97 ++ [10, 0] } } } := by
  refine ⟨by decide, by decide, by decide, ?_⟩
  rw [tracing_mark_write_shortens env_ok scenario_tr_markers scenario_marker_4k 4096
    (by decide) (by decide) (by decide) rfl (by decide) (by decide) rfl rfl]
  have e1 : ring_buffer_max_event_size scenario_tr_markers.array_buffer.buffer = 4072 := rfl
  have e2 : sizeof_print_entry + 2 = 18 := rfl
  simp only [e1, e2]
  have e3 : List.take (4072 - 18) scenario_marker_4k.ubuf = List.replicate 4054 97 := by
    show List.take 4054 (List.replicate 4096 97) = _
    rw [List.take_replicate]
    rfl
  rw [e3]
  have e4 : (List.replicate 4054 97).getD (4072 - 18 - 1) 0 = 97 := by
    rw [List.getD_eq_getElem?_getD, List.getElem?_replicate]
    simp
  rw [e4]
  rfl

theorem tracing_mark_raw_write_too_large (env : ring_buffer_env) (tracing_disabled : Bool)
    (tr : trace_array) (c : marker_caller) (cnt : Nat) (hcnt : FAULTED_SIZE + 4 ≤ cnt)
    (hint : sizeof_raw_data_entry + cnt < 2 ^ 31)
    (hbig : sizeof_raw_data_entry + cnt > ring_buffer_max_event_size tr.array_buffer.buffer) :
    tracing_mark_raw_write env tracing_disabled tr c cnt =
      { written := -EINVAL, buffer := tr.array_buffer.buffer } := by
  unfold tracing_mark_raw_write
  simp only
  split
  · rfl
  · split
    · rfl
    · have hfs : FAULTED_SIZE + 4 = 13 := rfl
      rw [hfs] at hcnt
      have n1 : ¬ cnt < 4 := by omega
      have n2 : ¬ cnt < FAULTED_SIZE + 4 := by rw [hfs]; omega
      rw [if_neg n1]
      simp only [n2, if_false]
      have e32 : (((sizeof_raw_data_entry + cnt : Nat) : Int) + 2 ^ 31) % 2 ^ 32 - 2 ^ 31 =
          ((sizeof_raw_data_entry + cnt : Nat) : Int) := by
        omega
      rw [e32, size_t_of_nat _ (by omega), if_pos hbig]

/-- C7, amended: a reservation through `__trace_buffer_lock_reserve` for more than the
maximum event size fails, handing out no event, so that nothing is added to the log;
`tracing_mark_raw_write` rejects a write that needs more with `-EINVAL` and leaves the log
as it is; `tracing_mark_write` is the exception: when the text with its header exceeds the
maximum, it shortens the text to the maximum less the header and records the shortened
text, returning the shortened count. -/
theorem reserve_over_max_event_size (env : ring_buffer_env) (tr : trace_array)
    (c : marker_caller) (type len trace_ctx cnt : Nat) (pid : Int) (tracing_disabled : Bool) :
    (len > ring_buffer_max_event_size tr.array_buffer.buffer →
      __trace_buffer_lock_reserve env tr.array_buffer.buffer type len trace_ctx pid = none) ∧
    (FAULTED_SIZE + 4 ≤ cnt → sizeof_raw_data_entry + cnt < 2 ^ 31 →
      sizeof_raw_data_entry + cnt > ring_buffer_max_event_size tr.array_buffer.buffer →
      tracing_mark_raw_write env tracing_disabled tr c cnt =
        { written := -EINVAL, buffer := tr.array_buffer.buffer }) ∧
    (tr.trace_flags &&& TRACE_ITER_MARKERS ≠ 0 →
      FAULTED_SIZE ≤ cnt → cnt ≤ TRACE_MARKER_MAX_SIZE → c.faults = false →
      cnt + (sizeof_print_entry + 2) > ring_buffer_max_event_size tr.array_buffer.buffer →
      sizeof_print_entry + 2 + FAULTED_SIZE ≤
        ring_buffer_max_event_size tr.array_buffer.buffer →
      tr.array_buffer.buffer.record_on = true →
      tr.array_buffer.buffer.record_disabled = 0 →
      tracing_mark_write env false tr c cnt 2 =
        some { written :=
                 ((ring_buffer_max_event_size tr.array_buffer.buffer -
                   (sizeof_print_entry + 2) : Nat) : Int),
               buffer := ring_buffer_unlock_commit tr.array_buffer.buffer c.cpu
                 { ts := env.now,
                   length := ring_buffer_max_event_size tr.array_buffer.buffer,
                   data :=
                     { type := TRACE_PRINT, ctx := c.trace_ctx, pid := c.pid,
                       payload :=
                         if (c.ubuf.take (ring_buffer_max_event_size tr.array_buffer.buffer -
                             (sizeof_print_entry + 2))).getD
                               (ring_buffer_max_event_size tr.array_buffer.buffer -
                                 (sizeof_print_entry + 2) - 1) 0 ≠ 10 then
                           c.ubuf.take (ring_buffer_max_event_size tr.array_buffer.buffer -
                             (sizeof_print_entry + 2)) ++ [10, 0]
                         else
                           c.ubuf.take (ring_buffer_max_event_size tr.array_buffer.buffer -
                             (sizeof_print_entry + 2)) ++ [0] } } }) := by
  refine ⟨?_, ?_, ?_⟩
  · intro h
    unfold __trace_buffer_lock_reserve
    rw [ring_buffer_lock_reserve_too_large env _ _ h]
  · intro h1 h2 h3
    exact tracing_mark_raw_write_too_large env tracing_disabled tr c cnt h1 h2 h3
  · intro h1 h2 h3 h4 h5 h6 h7 h8
    exact tracing_mark_write_shortens env tr c cnt h1 h2 h3 h4 h5 h6 h7 h8

/-- The instance of C7 for a reservation of 29 bytes where the largest event is 28. -/
theorem reserve_over_max_event_size_witness :
    __trace_buffer_lock_reserve env_ok scenario_tr_small.array_buffer.buffer TRACE_PRINT 29 0
      42 = none :=
  (reserve_over_max_event_size env_ok scenario_tr_small scenario_marker TRACE_PRINT 29 0 12 42
    false).1 (by decide)

theorem size_t_sub_add (m k : Nat) (hm : m < 2 ^ 64) :
    size_t ((size_t ((m : Int) - (k : Int)) : Int) + (k : Int)) = m := by
  unfold size_t
  have h1 : 0 ≤ ((m : Int) - (k : Int)) % (2 ^ 64 : Int) := Int.emod_nonneg _ (by norm_num)
  rw [Int.toNat_of_nonneg h1]
  omega

theorem tracing_mark_write_again_last (env : ring_buffer_env) (buffer : trace_buffer)
    (c : marker_caller) (n : Nat)
    (hn : ¬ n < FAULTED_SIZE →
      ¬ size_t ((n : Int) + ((sizeof_print_entry + 2 : Nat) : Int)) >
        ring_buffer_max_event_size buffer) :
    (tracing_mark_write_again env buffer c 1 n).isSome = true := by
  unfold tracing_mark_write_again
  simp only
  split
  · split_ifs with h1 h2 h3 h4
    all_goals first
      | rfl
      | exact absurd h1 (hn h2)
      | exact absurd h2 (hn h1)
      | exact absurd h3 (hn h2)
      | exact absurd h3 (hn h1)
  · rfl

/-- The `goto again` of `tracing_mark_write` is taken at most once: two rounds of fuel
always give a result. -/
theorem tracing_mark_write_total (env : ring_buffer_env) (tracing_disabled : Bool)
    (tr : trace_array) (c : marker_caller) (cnt : Nat)
    (hm : ring_buffer_max_event_size tr.array_buffer.buffer < 2 ^ 64) :
    (tracing_mark_write env tracing_disabled tr c cnt 2).isSome = true := by
  have hlast := tracing_mark_write_again_last env tr.array_buffer.buffer c
    (size_t ((ring_buffer_max_event_size tr.array_buffer.buffer : Int) -
      ((sizeof_print_entry + 2 : Nat) : Int)))
    (by
      intro _
      rw [size_t_sub_add _ _ hm]
      exact lt_irrefl _)
  unfold tracing_mark_write
  split_ifs
  · rfl
  · rfl
  · rfl
  · generalize TRACE_MARKER_MAX_SIZE = cnt1
    unfold tracing_mark_write_again
    simp only
    split
    · split_ifs
      all_goals first
        | rfl
        | exact hlast
    · rfl
  · unfold tracing_mark_write_again
    simp only
    split
    · split_ifs
      all_goals first
        | rfl
        | exact hlast
    · rfl

/-! ## The temp buffer is single-slot -/

/-- The reservation of `trace_event_buffer_lock_reserve` when it does not use the temp
buffer: on the live ring buffer, or on `temp_buffer` when that fails and triggers are
conditional. -/
theorem trace_event_buffer_lock_reserve_cases (env : ring_buffer_env)
    (buffer temp_buffer : trace_buffer) (pc : buffered_percpu) (trace_file : trace_event_file)
    (type len trace_ctx : Nat) (pid : Int) :
    (∃ e, pc.trace_buffered_event_cnt = 0 ∧
        (trace_file.soft_disabled = true ∨ trace_file.filtered = true) ∧
        trace_file.no_filter_buffering_ref = 0 ∧ len ≤ PAGE_SIZE - RB_EVENT_HDR_SIZE ∧
        pc.trace_buffered_event.isSome = true ∧ e.array0 = len ∧
        trace_event_buffer_lock_reserve env buffer temp_buffer pc trace_file type len trace_ctx
          pid =
          { entry := some (reserved_event.buffered e), rb := current_rb.live,
            percpu := { trace_buffered_event := some e, trace_buffered_event_cnt := 1 } }) ∨
    (¬ (pc.trace_buffered_event_cnt = 0 ∧
        (trace_file.soft_disabled = true ∨ trace_file.filtered = true) ∧
        trace_file.no_filter_buffering_ref = 0 ∧ len ≤ PAGE_SIZE - RB_EVENT_HDR_SIZE ∧
        pc.trace_buffered_event.isSome = true) ∧
      (trace_event_buffer_lock_reserve env buffer temp_buffer pc trace_file type len trace_ctx
        pid).percpu = pc ∧
      (trace_event_buffer_lock_reserve env buffer temp_buffer pc trace_file type len trace_ctx
        pid).entry =
        match __trace_buffer_lock_reserve env buffer type len trace_ctx pid with
        | some e => some (reserved_event.ring current_rb.live e)
        | none =>
          if trace_file.trigger_cond then
            (__trace_buffer_lock_reserve env temp_buffer type len trace_ctx pid).map
              (reserved_event.ring current_rb.temp_buffer)
          else none) := by
  have slow_spec : ∀ pc1 : buffered_percpu, pc1 = pc →
      ((match __trace_buffer_lock_reserve env buffer type len trace_ctx pid with
        | some e => ({ entry := some (reserved_event.ring current_rb.live e),
                       rb := current_rb.live, percpu := pc1 } : reserve_result)
        | none =>
          if trace_file.trigger_cond then
            { entry := (__trace_buffer_lock_reserve env temp_buffer type len trace_ctx pid).map
                (reserved_event.ring current_rb.temp_buffer),
              rb := current_rb.temp_buffer, percpu := pc1 }
          else { entry := none, rb := current_rb.live, percpu := pc1 }).percpu = pc ∧
       (match __trace_buffer_lock_reserve env buffer type len trace_ctx pid with
        | some e => ({ entry := some (reserved_event.ring current_rb.live e),
                       rb := current_rb.live, percpu := pc1 } : reserve_result)
        | none =>
          if trace_file.trigger_cond then
            { entry := (__trace_buffer_lock_reserve env temp_buffer type len trace_ctx pid).map
                (reserved_event.ring current_rb.temp_buffer),
              rb := current_rb.temp_buffer, percpu := pc1 }
          else { entry := none, rb := current_rb.live, percpu := pc1 }).entry =
        match __trace_buffer_lock_reserve env buffer type len trace_ctx pid with
        | some e => some (reserved_event.ring current_rb.live e)
        | none =>
          if trace_file.trigger_cond then
            (__trace_buffer_lock_reserve env temp_buffer type len trace_ctx pid).map
              (reserved_event.ring current_rb.temp_buffer)
          else none) := by
    intro pc1 hpc1
    cases __trace_buffer_lock_reserve env buffer type len trace_ctx pid with
    | some e => exact ⟨hpc1, rfl⟩
    | none =>
      cases trace_file.trigger_cond with
      | true => exact ⟨hpc1, rfl⟩
      | false => exact ⟨hpc1, rfl⟩
  unfold trace_event_buffer_lock_reserve
  simp only
  by_cases hgate : (trace_file.no_filter_buffering_ref = 0 &&
      (trace_file.soft_disabled || trace_file.filtered)) = true
  · rw [if_pos hgate]
    have hg : trace_file.no_filter_buffering_ref = 0 ∧
        (trace_file.soft_disabled = true ∨ trace_file.filtered = true) := by
      simpa using hgate
    cases hev : pc.trace_buffered_event with
    | none =>
      right
      refine ⟨?_, slow_spec pc rfl⟩
      intro h
      have h5 := h.2.2.2.2
      simp [hev] at h5
    | some entry =>
      simp only
      by_cases hval : pc.trace_buffered_event_cnt + 1 = 1 ∧ len ≤ PAGE_SIZE - RB_EVENT_HDR_SIZE
      · left
        rw [if_pos hval]
        exact ⟨_, by omega, hg.2, hg.1, hval.2, rfl, rfl, by rw [hval.1]⟩
      · right
        rw [if_neg hval]
        refine ⟨?_, slow_spec _ ?_⟩
        · intro h
          exact hval ⟨by omega, h.2.2.2.1⟩
        · have hcnt : pc.trace_buffered_event_cnt + 1 - 1 = pc.trace_buffered_event_cnt := by
            omega
          rw [hcnt, ← hev]
  · rw [if_neg hgate]
    right
    refine ⟨?_, slow_spec pc rfl⟩
    intro h
    apply hgate
    rcases h.2.1 with h1 | h1 <;> simp [h.2.2.1, h1]

theorem filter_length_eraseIdx {α : Type} (p : α → Bool) (l : List α) (i : Nat) (x : α)
    (h : l[i]? = some x) :
    ((l.eraseIdx i).filter p).length + (if p x = true then 1 else 0) = (l.filter p).length := by
  induction l generalizing i with
  | nil => simp at h
  | cons a tl ih =>
    cases i with
    | zero =>
      simp only [List.getElem?_cons_zero, Option.some.injEq] at h
      subst h
      simp only [List.eraseIdx_cons_zero, List.filter_cons]
      split <;> simp
    | succ i =>
      simp only [List.getElem?_cons_succ] at h
      have := ih i h
      simp only [List.eraseIdx_cons_succ, List.filter_cons]
      split
      · simp only [List.length_cons]; omega
      · exact this

theorem producer_step_commit_none (env : ring_buffer_env) (temp_buffer : trace_buffer)
    (cpu : Nat) (s : cpu_state) (i : Nat) (h : s.outstanding[i]? = none) :
    producer_step env temp_buffer cpu s (producer_op.commit i) = s := by
  simp only [producer_step, h]

theorem producer_step_commit_buffered (env : ring_buffer_env) (temp_buffer : trace_buffer)
    (cpu : Nat) (s : cpu_state) (i : Nat) (e : buffered_event)
    (h : s.outstanding[i]? = some (reserved_event.buffered e)) :
    producer_step env temp_buffer cpu s (producer_op.commit i) =
      { percpu := { s.percpu with
          trace_buffered_event_cnt := s.percpu.trace_buffered_event_cnt - 1 },
        buffer := ring_buffer_write env s.buffer cpu e.array0 e.data,
        outstanding := s.outstanding.eraseIdx i } := by
  simp only [producer_step, h, __buffer_unlock_commit]

theorem producer_step_commit_ring (env : ring_buffer_env) (temp_buffer : trace_buffer)
    (cpu : Nat) (s : cpu_state) (i : Nat) (rb : current_rb) (e : ring_buffer_event)
    (h : s.outstanding[i]? = some (reserved_event.ring rb e)) :
    producer_step env temp_buffer cpu s (producer_op.commit i) =
      { percpu := s.percpu,
        buffer := match rb with
          | current_rb.live => ring_buffer_unlock_commit s.buffer cpu e
          | current_rb.temp_buffer => s.buffer,
        outstanding := s.outstanding.eraseIdx i } := by
  cases rb <;> simp only [producer_step, h, __buffer_unlock_commit]

/-- The number of outstanding temp-buffer reservations equals the per-CPU count, and is
at most one. -/
theorem producer_step_inv (env : ring_buffer_env) (temp_buffer : trace_buffer) (cpu : Nat)
    (s : cpu_state) (op : producer_op)
    (h : (outstanding_buffered s : Int) = s.percpu.trace_buffered_event_cnt ∧
      outstanding_buffered s ≤ 1) :
    (outstanding_buffered (producer_step env temp_buffer cpu s op) : Int) =
        (producer_step env temp_buffer cpu s op).percpu.trace_buffered_event_cnt ∧
      outstanding_buffered (producer_step env temp_buffer cpu s op) ≤ 1 := by
  obtain ⟨h1, h2⟩ := h
  unfold outstanding_buffered at h1 h2 ⊢
  cases op with
  | reserve trace_file type len trace_ctx pid =>
    unfold producer_step
    simp only
    rcases trace_event_buffer_lock_reserve_cases env s.buffer temp_buffer s.percpu trace_file
      type len trace_ctx pid with ⟨e, c0, -, -, -, -, -, heq⟩ | ⟨-, hpc, hentry⟩
    · rw [heq]
      simp only [List.filter_cons, reserved_event.is_buffered, if_true, List.length_cons]
      rw [c0] at h1
      have : (List.filter reserved_event.is_buffered s.outstanding).length = 0 := by omega
      rw [this]
      exact ⟨rfl, le_refl _⟩
    · rw [hpc]
      cases hres : (trace_event_buffer_lock_reserve env s.buffer temp_buffer s.percpu trace_file
          type len trace_ctx pid).entry with
      | none => simp only; exact ⟨h1, h2⟩
      | some ev =>
        have hnot : ev.is_buffered = false := by
          rw [hres] at hentry
          cases hr : __trace_buffer_lock_reserve env s.buffer type len trace_ctx pid with
          | some e1 =>
            rw [hr] at hentry
            simp only [Option.some.injEq] at hentry
            rw [hentry]; rfl
          | none =>
            rw [hr] at hentry
            simp only at hentry
            split at hentry
            · cases hr2 : __trace_buffer_lock_reserve env temp_buffer type len trace_ctx pid with
              | some e2 =>
                rw [hr2] at hentry
                simp only [Option.map_some', Option.some.injEq] at hentry
                rw [hentry]; rfl
              | none => rw [hr2] at hentry; cases hentry
            · cases hentry
        simp only [List.filter_cons, hnot, Bool.false_eq_true, if_false]
        exact ⟨h1, h2⟩
  | commit i =>
    cases hi : s.outstanding[i]? with
    | none =>
      rw [producer_step_commit_none env temp_buffer cpu s i hi]
      exact ⟨h1, h2⟩
    | some ev =>
      have hf := filter_length_eraseIdx reserved_event.is_buffered s.outstanding i ev hi
      cases ev with
      | buffered e =>
        rw [producer_step_commit_buffered env temp_buffer cpu s i e hi]
        simp only [reserved_event.is_buffered, if_true] at hf
        simp only
        constructor
        · omega
        · omega
      | ring rb e =>
        simp only [reserved_event.is_buffered, Bool.false_eq_true, if_false, Nat.add_zero] at hf
        rw [producer_step_commit_ring env temp_buffer cpu s i rb e hi]
        simp only
        rw [hf]
        exact ⟨h1, h2⟩

theorem producer_run_inv (env : ring_buffer_env) (temp_buffer : trace_buffer) (cpu : Nat)
    (ops : List producer_op) : ∀ (s : cpu_state),
    ((outstanding_buffered s : Int) = s.percpu.trace_buffered_event_cnt ∧
      outstanding_buffered s ≤ 1) →
    (outstanding_buffered (ops.foldl (producer_step env temp_buffer cpu) s) : Int) =
        (ops.foldl (producer_step env temp_buffer cpu) s).percpu.trace_buffered_event_cnt ∧
      outstanding_buffered (ops.foldl (producer_step env temp_buffer cpu) s) ≤ 1 := by
  induction ops with
  | nil => intro s h; exact h
  | cons op rest ih =>
    intro s h
    exact ih _ (producer_step_inv env temp_buffer cpu s op h)

theorem ring_buffer_write_accepted (env : ring_buffer_env) (buffer : trace_buffer)
    (cpu len : Nat) (data : trace_entry) (hon : buffer.record_on = true)
    (hdis : buffer.record_disabled = 0) (hlen : len ≤ ring_buffer_max_event_size buffer) :
    (ring_buffer_write env buffer cpu len data).cpus[cpu]? =
      (buffer.cpus[cpu]?).map (fun c =>
        { c with events := c.events ++ [{ ts := env.now, length := len, data := data }] }) := by
  unfold ring_buffer_write
  rw [ring_buffer_lock_reserve_fits env buffer len hon hdis hlen]
  simp only [ring_buffer_unlock_commit, List.getElem?_modify_eq]
  rfl

/-- C8: `trace_event_buffer_lock_reserve` hands out the temp buffer of the CPU only when
the per-CPU count was 0, the file is filtered or soft-disabled, `no_filter_buffering_ref`
is 0 and `len` fits in a page less the event header, and then the count is 1 and
`array[0]` is `len`; while the count is nonzero the reservation is made in the ring buffer
(the live one, or `temp_buffer` for conditional triggers when that fails) and the count
is as before; committing the temp event hands exactly `array[0]` bytes of it to
`ring_buffer_write`, which appends them as one record when the buffer is recording, and
takes the count from 1 back to 0.  Hence, whatever a CPU that starts idle reserves and
commits, at most one temp-buffer reservation is outstanding on it, their number being the
per-CPU count. -/
theorem temp_buffer_single_slot (env : ring_buffer_env) (buffer temp_buffer : trace_buffer)
    (pc : buffered_percpu) (trace_file : trace_event_file) (type len trace_ctx : Nat)
    (pid : Int) (cpu : Nat) (ops : List producer_op) (s0 : cpu_state) :
    (∀ e, (trace_event_buffer_lock_reserve env buffer temp_buffer pc trace_file type len
        trace_ctx pid).entry = some (reserved_event.buffered e) →
      pc.trace_buffered_event_cnt = 0 ∧
      (trace_file.soft_disabled = true ∨ trace_file.filtered = true) ∧
      trace_file.no_filter_buffering_ref = 0 ∧ len ≤ PAGE_SIZE - RB_EVENT_HDR_SIZE ∧
      (trace_event_buffer_lock_reserve env buffer temp_buffer pc trace_file type len
        trace_ctx pid).percpu.trace_buffered_event_cnt = 1 ∧
      e.array0 = len) ∧
    (pc.trace_buffered_event_cnt ≠ 0 →
      (trace_event_buffer_lock_reserve env buffer temp_buffer pc trace_file type len
        trace_ctx pid).percpu = pc ∧
      (trace_event_buffer_lock_reserve env buffer temp_buffer pc trace_file type len
        trace_ctx pid).entry =
        match __trace_buffer_lock_reserve env buffer type len trace_ctx pid with
        | some e => some (reserved_event.ring current_rb.live e)
        | none =>
          if trace_file.trigger_cond then
            (__trace_buffer_lock_reserve env temp_buffer type len trace_ctx pid).map
              (reserved_event.ring current_rb.temp_buffer)
          else none) ∧
    (∀ (pc1 : buffered_percpu) (e : buffered_event), pc1.trace_buffered_event_cnt = 1 →
      __buffer_unlock_commit env buffer cpu pc1 (reserved_event.buffered e) =
        (ring_buffer_write env buffer cpu e.array0 e.data,
          { pc1 with trace_buffered_event_cnt := 0 }) ∧
      (buffer.record_on = true → buffer.record_disabled = 0 →
        e.array0 ≤ ring_buffer_max_event_size buffer →
        (ring_buffer_write env buffer cpu e.array0 e.data).cpus[cpu]? =
          (buffer.cpus[cpu]?).map (fun c =>
            { c with events := c.events ++
                [{ ts := env.now, length := e.array0, data := e.data }] }))) ∧
    (cpu_idle s0 →
      outstanding_buffered (ops.foldl (producer_step env temp_buffer cpu) s0) ≤ 1 ∧
      (outstanding_buffered (ops.foldl (producer_step env temp_buffer cpu) s0) : Int) =
        (ops.foldl (producer_step env temp_buffer cpu)
          s0).percpu.trace_buffered_event_cnt) := by
  have hc := trace_event_buffer_lock_reserve_cases env buffer temp_buffer pc trace_file type
    len trace_ctx pid
  refine ⟨?_, ?_, ?_, ?_⟩
  · intro e he
    rcases hc with ⟨e1, c0, c1, c2, c3, -, c5, heq⟩ | ⟨-, -, hentry⟩
    · rw [heq] at he ⊢
      simp only [Option.some.injEq, reserved_event.buffered.injEq] at he
      subst he
      exact ⟨c0, c1, c2, c3, rfl, c5⟩
    · rw [hentry] at he
      cases hr : __trace_buffer_lock_reserve env buffer type len trace_ctx pid with
      | some e1 => rw [hr] at he; cases he
      | none =>
        rw [hr] at he
        simp only at he
        split at he
        · cases hr2 : __trace_buffer_lock_reserve env temp_buffer type len trace_ctx pid with
          | some e2 => rw [hr2] at he; cases he
          | none => rw [hr2] at he; cases he
        · cases he
  · intro hne
    rcases hc with ⟨e1, c0, -⟩ | ⟨-, hpc, hentry⟩
    · exact absurd c0 hne
    · exact ⟨hpc, hentry⟩
  · intro pc1 e h1
    refine ⟨?_, fun hon hdis hlen => ring_buffer_write_accepted env buffer cpu _ _ hon hdis hlen⟩
    simp only [__buffer_unlock_commit, h1]
    rfl
  · intro hidle
    obtain ⟨i1, i2⟩ := hidle
    have h0 : (outstanding_buffered s0 : Int) = s0.percpu.trace_buffered_event_cnt ∧
        outstanding_buffered s0 ≤ 1 := by
      unfold outstanding_buffered
      rw [i1, i2]
      exact ⟨rfl, Nat.zero_le _⟩
    obtain ⟨r1, r2⟩ := producer_run_inv env temp_buffer cpu ops s0 h0
    exact ⟨r2, r1⟩

/-- The instance of C8 for a CPU that starts idle and reserves twice on a filtered file
before committing. -/
theorem temp_buffer_single_slot_witness :
    outstanding_buffered
        ([producer_op.reserve scenario_filtered_file 1 8 0 42,
          producer_op.reserve scenario_filtered_file 1 8 0 42].foldl
          (producer_step env_ok scenario_empty_buffer 0) scenario_cpu) ≤ 1 :=
  ((temp_buffer_single_slot env_ok scenario_empty_buffer scenario_empty_buffer
    scenario_percpu scenario_filtered_file 1 8 0 42 0
    [producer_op.reserve scenario_filtered_file 1 8 0 42,
      producer_op.reserve scenario_filtered_file 1 8 0 42] scenario_cpu).2.2.2
    ⟨rfl, rfl⟩).1

/-! ## The printk designation -/

theorem and_two_pow_ne_zero (x k : Nat) : x &&& 2 ^ k ≠ 0 ↔ x.testBit k = true := by
  constructor
  · intro h
    by_contra hb
    apply h
    apply Nat.eq_of_testBit_eq
    intro j
    rw [Nat.testBit_and, Nat.testBit_two_pow, Nat.zero_testBit]
    by_cases hj : k = j
    · subst hj
      simp only [Bool.not_eq_true] at hb
      simp [hb]
    · simp [hj]
  · intro h h0
    have : (x &&& 2 ^ k).testBit k = true := by
      rw [Nat.testBit_and, h, Nat.testBit_two_pow_self]
      rfl
    rw [h0, Nat.zero_testBit] at this
    cases this

theorem printk_flag_iff (x : Nat) : x &&& TRACE_ITER_TRACE_PRINTK ≠ 0 ↔ x.testBit 23 = true := by
  unfold TRACE_ITER_TRACE_PRINTK
  rw [Nat.one_shiftLeft]
  exact and_two_pow_ne_zero x 23

theorem printk_flag_set (x : Nat) :
    (x ||| TRACE_ITER_TRACE_PRINTK) &&& TRACE_ITER_TRACE_PRINTK ≠ 0 := by
  rw [printk_flag_iff, Nat.testBit_or]
  unfold TRACE_ITER_TRACE_PRINTK
  rw [Nat.one_shiftLeft, Nat.testBit_two_pow_self]
  simp

theorem printk_flag_clear (x : Nat) :
    ¬ ((x &&& (UINT_MAX ^^^ TRACE_ITER_TRACE_PRINTK)) &&& TRACE_ITER_TRACE_PRINTK ≠ 0) := by
  rw [printk_flag_iff, Nat.testBit_and, Nat.testBit_xor]
  unfold TRACE_ITER_TRACE_PRINTK UINT_MAX
  rw [Nat.one_shiftLeft, Nat.testBit_two_pow_self, Nat.testBit_two_pow_sub_one]
  simp

theorem printk_flag_or_other (x i : Nat) (h : i ≠ 23) :
    ((x ||| 1 <<< i) &&& TRACE_ITER_TRACE_PRINTK ≠ 0) ↔
      (x &&& TRACE_ITER_TRACE_PRINTK ≠ 0) := by
  rw [printk_flag_iff, printk_flag_iff, Nat.testBit_or, Nat.one_shiftLeft,
    Nat.testBit_two_pow_of_ne h]
  simp

theorem printk_flag_clear_other (x i : Nat) (h : i ≠ 23) :
    ((x &&& (UINT_MAX ^^^ 1 <<< i)) &&& TRACE_ITER_TRACE_PRINTK ≠ 0) ↔
      (x &&& TRACE_ITER_TRACE_PRINTK ≠ 0) := by
  rw [printk_flag_iff, printk_flag_iff, Nat.testBit_and, Nat.testBit_xor, Nat.one_shiftLeft,
    Nat.testBit_two_pow_of_ne h]
  unfold UINT_MAX
  rw [Nat.testBit_two_pow_sub_one]
  simp

theorem shift_eq_printk_iff (i : Nat) : 1 <<< i = TRACE_ITER_TRACE_PRINTK ↔ i = 23 := by
  unfold TRACE_ITER_TRACE_PRINTK
  rw [Nat.one_shiftLeft, Nat.one_shiftLeft]
  constructor
  · intro h
    exact Nat.pow_right_injective (le_refl 2) h
  · intro h; rw [h]

/-- Writing the flags of one instance keeps the invariant when the new flags have the
printk bit exactly if the instance is the designated one. -/
theorem printk_inv_modify (sys : trace_system) (tr : Nat) (f : trace_array → trace_array)
    (h : printk_inv sys)
    (hf : ∀ t, sys.arrays tr = some t →
      ((f t).trace_flags &&& TRACE_ITER_TRACE_PRINTK ≠ 0 ↔ tr = sys.printk_trace)) :
    printk_inv { sys with arrays := modify_tr sys.arrays tr f } := by
  obtain ⟨⟨tg, hg⟩, ⟨tp, hp⟩, hall⟩ := h
  refine ⟨?_, ?_, ?_⟩
  · show ∃ t, modify_tr sys.arrays tr f global_trace = some t
    unfold modify_tr
    split
    · exact ⟨f tg, by rw [hg]; rfl⟩
    · exact ⟨tg, hg⟩
  · show ∃ t, modify_tr sys.arrays tr f sys.printk_trace = some t
    unfold modify_tr
    split
    · exact ⟨f tp, by rw [hp]; rfl⟩
    · exact ⟨tp, hp⟩
  · intro p t hpt
    change modify_tr sys.arrays tr f p = some t at hpt
    show _ ↔ p = sys.printk_trace
    unfold modify_tr at hpt
    split at hpt
    · rename_i hq
      subst hq
      cases ha : sys.arrays p with
      | none => rw [ha] at hpt; cases hpt
      | some t0 =>
        rw [ha] at hpt
        simp only [Option.map_some', Option.some.injEq] at hpt
        subst hpt
        exact hf t0 ha
    · exact hall p t hpt

theorem update_printk_trace_inv (sys : trace_system) (tr : Nat) (h : printk_inv sys)
    (htr : ∃ t, sys.arrays tr = some t) :
    printk_inv (update_printk_trace sys tr) ∧ (update_printk_trace sys tr).printk_trace = tr ∧
      (update_printk_trace sys tr).g = sys.g ∧
      (∀ p, ((update_printk_trace sys tr).arrays p).isSome = (sys.arrays p).isSome) := by
  unfold update_printk_trace
  by_cases heq : sys.printk_trace = tr
  · rw [if_pos heq]
    exact ⟨h, heq, rfl, fun _ => rfl⟩
  · rw [if_neg heq]
    obtain ⟨⟨tg, hg⟩, ⟨tp, hp⟩, hall⟩ := h
    obtain ⟨t0, ht0⟩ := htr
    refine ⟨⟨?_, ?_, ?_⟩, rfl, rfl, ?_⟩
    · show ∃ t, modify_tr (modify_tr sys.arrays sys.printk_trace _) tr _ global_trace = some t
      unfold modify_tr
      split <;> split <;> simp [hg]
    · show ∃ t, modify_tr (modify_tr sys.arrays sys.printk_trace _) tr _ tr = some t
      unfold modify_tr
      simp only [if_true]
      rw [if_neg (fun h => heq h.symm), ht0]
      exact ⟨_, rfl⟩
    · intro p t hpt
      change modify_tr (modify_tr sys.arrays sys.printk_trace
        (clear_flags TRACE_ITER_TRACE_PRINTK)) tr (set_flags TRACE_ITER_TRACE_PRINTK) p = some t
        at hpt
      show _ ↔ p = tr
      unfold modify_tr at hpt
      by_cases hptr : p = tr
      · subst hptr
        rw [if_pos rfl, if_neg (fun h => heq h.symm), ht0] at hpt
        simp only [Option.map_some', Option.some.injEq] at hpt
        subst hpt
        simp only [iff_true]
        exact printk_flag_set _
      · rw [if_neg hptr] at hpt
        simp only [hptr, iff_false]
        by_cases hpo : p = sys.printk_trace
        · rw [if_pos hpo, hpo, hp] at hpt
          simp only [Option.map_some', Option.some.injEq] at hpt
          subst hpt
          exact printk_flag_clear _
        · rw [if_neg hpo] at hpt
          rw [hall p t hpt]
          exact hpo
    · intro p
      show (modify_tr (modify_tr sys.arrays sys.printk_trace _) tr _ p).isSome = _
      unfold modify_tr
      split <;> split <;> simp

theorem printk_inv_modify_other (sys : trace_system) (tr : Nat) (f : trace_array → trace_array)
    (h : printk_inv sys)
    (hf : ∀ t : trace_array, ((f t).trace_flags &&& TRACE_ITER_TRACE_PRINTK ≠ 0 ↔
      t.trace_flags &&& TRACE_ITER_TRACE_PRINTK ≠ 0)) :
    printk_inv { sys with arrays := modify_tr sys.arrays tr f } := by
  apply printk_inv_modify sys tr f h
  intro t ht
  rw [hf t]
  exact h.2.2 tr t ht

theorem set_clear_other (i : Nat) (hi : i ≠ 23) (enabled : Int) (t : trace_array) :
    (((if enabled ≠ 0 then set_flags (1 <<< i) else clear_flags (1 <<< i)) t).trace_flags &&&
        TRACE_ITER_TRACE_PRINTK ≠ 0 ↔
      t.trace_flags &&& TRACE_ITER_TRACE_PRINTK ≠ 0) := by
  split
  · exact printk_flag_or_other _ i hi
  · exact printk_flag_clear_other _ i hi

theorem modify_tr_isSome (arrays : Nat → Option trace_array) (p : Nat)
    (f : trace_array → trace_array) (q : Nat) :
    (modify_tr arrays p f q).isSome = (arrays q).isSome := by
  unfold modify_tr
  split <;> simp

/-- `set_tracer_flag` with a single-bit mask keeps the invariant of the printk designation,
and neither creates nor frees an instance. -/
theorem set_tracer_flag_inv (ok : Bool) (sys : trace_system) (tr i : Nat) (enabled : Int)
    (h : printk_inv sys) :
    printk_inv (set_tracer_flag ok sys tr (1 <<< i) enabled).2 ∧
      (∀ p, ((set_tracer_flag ok sys tr (1 <<< i) enabled).2.arrays p).isSome =
        (sys.arrays p).isSome) := by
  unfold set_tracer_flag
  cases htr : sys.arrays tr with
  | none => exact ⟨h, fun _ => rfl⟩
  | some t =>
    simp only
    split
    · exact ⟨h, fun _ => rfl⟩
    · split
      · exact ⟨h, fun _ => rfl⟩
      · by_cases hm : 1 <<< i = TRACE_ITER_TRACE_PRINTK
        · have hnt : ¬ (1 <<< i = TRACE_ITER_RECORD_TGID ∧ ok = false) := by
            intro hc
            rw [hm] at hc
            exact absurd hc.1 (by decide)
          rw [if_pos hm]
          by_cases hen : enabled ≠ 0
          · rw [if_pos hen]
            simp only [if_neg hnt, hen, ne_eq, not_false_eq_true, if_true]
            obtain ⟨u1, u2, -, u4⟩ := update_printk_trace_inv sys tr h ⟨t, htr⟩
            refine ⟨?_, ?_⟩
            · apply printk_inv_modify _ tr _ u1
              intro t1 _
              rw [u2, hm]
              simp only [iff_true]
              exact printk_flag_set _
            · intro p
              rw [modify_tr_isSome, u4]
          · rw [if_neg hen]
            by_cases hg : sys.printk_trace = global_trace
            · rw [if_pos hg]
              exact ⟨h, fun _ => rfl⟩
            · rw [if_neg hg]
              by_cases ho : sys.printk_trace = tr
              · rw [if_pos ho]
                simp only [if_neg hnt, if_neg hen]
                obtain ⟨u1, u2, -, u4⟩ := update_printk_trace_inv sys global_trace h h.1
                refine ⟨?_, ?_⟩
                · apply printk_inv_modify _ tr _ u1
                  intro t1 _
                  rw [u2, hm]
                  have hne : ¬ tr = global_trace := by rw [← ho]; exact hg
                  simp only [hne, iff_false]
                  exact printk_flag_clear _
                · intro p
                  rw [modify_tr_isSome, u4]
              · rw [if_neg ho]
                simp only [if_neg hnt, if_neg hen]
                refine ⟨?_, fun p => modify_tr_isSome _ _ _ _⟩
                apply printk_inv_modify _ tr _ h
                intro t1 _
                rw [hm]
                have hne : ¬ tr = sys.printk_trace := fun hc => ho hc.symm
                simp only [hne, iff_false]
                exact printk_flag_clear _
        · rw [if_neg hm]
          have hi : i ≠ 23 := fun hc => hm ((shift_eq_printk_iff i).mpr hc)
          have h2 := printk_inv_modify_other sys tr
            (if enabled ≠ 0 then set_flags (1 <<< i) else clear_flags (1 <<< i)) h
            (set_clear_other i hi enabled)
          simp only
          split
          · refine ⟨?_, ?_⟩
            · apply printk_inv_modify_other _ tr _ h2
              intro t1
              exact printk_flag_clear_other _ 17 (by decide)
            · intro p
              rw [modify_tr_isSome]
              exact modify_tr_isSome _ _ _ _
          · exact ⟨h2, fun p => modify_tr_isSome _ _ _ _⟩

theorem remove_instance_flags_inv (ok : Bool) (tr : Nat) (l : List Nat) :
    ∀ sys : trace_system, printk_inv sys →
      printk_inv (l.foldl (remove_instance_flags ok tr) sys) ∧
        (∀ p, ((l.foldl (remove_instance_flags ok tr) sys).arrays p).isSome =
          (sys.arrays p).isSome) := by
  induction l with
  | nil => intro sys h; exact ⟨h, fun _ => rfl⟩
  | cons i rest ih =>
    intro sys h
    have hstep : printk_inv (remove_instance_flags ok tr sys i) ∧
        (∀ p, ((remove_instance_flags ok tr sys i).arrays p).isSome =
          (sys.arrays p).isSome) := by
      unfold remove_instance_flags
      split
      · exact set_tracer_flag_inv ok sys tr i 0 h
      · exact ⟨h, fun _ => rfl⟩
    obtain ⟨j1, j2⟩ := ih _ hstep.1
    refine ⟨j1, ?_⟩
    intro p
    rw [List.foldl_cons, j2, hstep.2]

/-- Removing an instance other than `global_trace` keeps the invariant of the printk
designation. -/
theorem __remove_instance_inv (ok : Bool) (sys : trace_system) (tr : Nat)
    (h : printk_inv sys) (hne : tr ≠ global_trace) :
    printk_inv (__remove_instance ok sys tr).2 := by
  unfold __remove_instance
  cases htr : sys.arrays tr with
  | none => exact h
  | some t =>
    simp only
    split
    · exact h
    · obtain ⟨j1, j2⟩ := remove_instance_flags_inv ok tr (List.range TRACE_FLAGS_MAX_SIZE)
        { sys with ftrace_trace_arrays := sys.ftrace_trace_arrays.erase tr } h
      generalize (List.range TRACE_FLAGS_MAX_SIZE).foldl (remove_instance_flags ok tr)
        { sys with ftrace_trace_arrays := sys.ftrace_trace_arrays.erase tr } = sys1 at j1 j2
      have h2 : printk_inv (if sys1.printk_trace = tr then update_printk_trace sys1 global_trace
          else sys1) ∧
          (if sys1.printk_trace = tr then update_printk_trace sys1 global_trace
            else sys1).printk_trace ≠ tr := by
        split
        · obtain ⟨u1, u2, -, -⟩ := update_printk_trace_inv sys1 global_trace j1 j1.1
          exact ⟨u1, by rw [u2]; exact fun hc => hne hc.symm⟩
        · rename_i hno
          exact ⟨j1, hno⟩
      generalize (if sys1.printk_trace = tr then update_printk_trace sys1 global_trace
          else sys1) = sys2 at h2
      obtain ⟨⟨⟨tg, hg⟩, ⟨tp, hp⟩, hall⟩, hown⟩ := h2
      refine ⟨⟨tg, ?_⟩, ⟨tp, ?_⟩, ?_⟩
      · show (if global_trace = tr then none else sys2.arrays global_trace) = some tg
        rw [if_neg (fun hc => hne hc.symm)]
        exact hg
      · show (if sys2.printk_trace = tr then none else sys2.arrays sys2.printk_trace) = some tp
        rw [if_neg hown]
        exact hp
      · intro p t1 hpt
        change (if p = tr then none else sys2.arrays p) = some t1 at hpt
        show _ ↔ p = sys2.printk_trace
        split at hpt
        · cases hpt
        · exact hall p t1 hpt

/-- The three ways `set_tracer_flag` treats `TRACE_ITER_TRACE_PRINTK` under the invariant:
enabling makes the instance the designated one, disabling on a designated instance other
than `global_trace` designates `global_trace`, disabling on a designated `global_trace` is
refused. -/
theorem set_tracer_flag_printk (ok : Bool) (sys : trace_system) (tr : Nat) (t : trace_array)
    (enabled : Int) (h : printk_inv sys) (htr : sys.arrays tr = some t) :
    (enabled ≠ 0 → flag_change_rejected sys.g t TRACE_ITER_TRACE_PRINTK true = false →
      (set_tracer_flag ok sys tr TRACE_ITER_TRACE_PRINTK enabled).1 = 0 ∧
      (set_tracer_flag ok sys tr TRACE_ITER_TRACE_PRINTK enabled).2.printk_trace = tr) ∧
    (sys.printk_trace = tr → tr ≠ global_trace →
      flag_change_rejected sys.g t TRACE_ITER_TRACE_PRINTK false = false →
      (set_tracer_flag ok sys tr TRACE_ITER_TRACE_PRINTK 0).1 = 0 ∧
      (set_tracer_flag ok sys tr TRACE_ITER_TRACE_PRINTK 0).2.printk_trace = global_trace) ∧
    (sys.printk_trace = tr → tr = global_trace →
      set_tracer_flag ok sys tr TRACE_ITER_TRACE_PRINTK 0 = (-EINVAL, sys)) := by
  have hnt : ¬ (TRACE_ITER_TRACE_PRINTK = TRACE_ITER_RECORD_TGID ∧ ok = false) := by
    intro hc
    exact absurd hc.1 (by decide)
  have hflag := h.2.2 tr t htr
  refine ⟨?_, ?_, ?_⟩
  · intro hen hrej
    unfold set_tracer_flag
    simp only [htr, hen, ne_eq, not_false_eq_true, decide_True, decide_eq_true_eq, hrej,
      Bool.false_eq_true, if_false, if_true, if_neg hnt]
    by_cases hset : t.trace_flags &&& TRACE_ITER_TRACE_PRINTK = 0
    · rw [if_neg (by simpa using hset)]
      exact ⟨rfl, (update_printk_trace_inv sys tr h ⟨t, htr⟩).2.1⟩
    · rw [if_pos (by simpa using hset)]
      exact ⟨rfl, (hflag.mp hset).symm⟩
  · intro hown hne hrej
    have hset : t.trace_flags &&& TRACE_ITER_TRACE_PRINTK ≠ 0 := hflag.mpr hown.symm
    have hg : ¬ sys.printk_trace = global_trace := by rw [hown]; exact hne
    unfold set_tracer_flag
    simp only [htr, hset, ne_eq, not_false_eq_true, decide_True, not_true_eq_false,
      decide_False, Bool.true_eq_false, if_false, hrej, Bool.false_eq_true, if_true, hg, hown,
      hne, if_neg hnt]
    exact ⟨trivial, (update_printk_trace_inv sys global_trace h h.1).2.1⟩
  · intro hown hg
    have hset : t.trace_flags &&& TRACE_ITER_TRACE_PRINTK ≠ 0 := hflag.mpr hown.symm
    have hg2 : sys.printk_trace = global_trace := by rw [hown]; exact hg
    unfold set_tracer_flag
    simp only [htr, hset, ne_eq, not_false_eq_true, decide_True, not_true_eq_false,
      decide_False, Bool.true_eq_false, if_false, if_true, hg2]
    split <;> rfl

theorem scenario_system_inv : printk_inv scenario_system := by
  refine ⟨⟨_, rfl⟩, ⟨_, rfl⟩, ?_⟩
  intro p t hpt
  change (if p = 0 then some { scenario_tr with trace_flags := TRACE_ITER_TRACE_PRINTK }
    else if p = 1 then some { scenario_tr with fl_global := false, trace_flags := 0 }
    else none) = some t at hpt
  show _ ↔ p = 0
  by_cases h0 : p = 0
  · rw [if_pos h0] at hpt
    cases hpt
    simp only [h0, iff_true]
    decide
  · rw [if_neg h0] at hpt
    simp only [h0, iff_false]
    by_cases h1 : p = 1
    · rw [if_pos h1] at hpt
      cases hpt
      decide
    · rw [if_neg h1] at hpt
      cases hpt

/-- C9: the invariant that exactly one instance has `TRACE_ITER_TRACE_PRINTK` set, the one
`printk_trace` designates, is kept by `update_printk_trace` on an existing instance, by
`set_tracer_flag` for every single option bit, and by the removal of an instance other
than `global_trace`.  Under it, enabling the flag on an instance (the tracer approving)
succeeds and makes that instance the designated one and the only one with the flag, so
that the previous owner has lost it; disabling it on a designated instance other than
`global_trace` designates `global_trace`, which is then the only one with the flag;
disabling it on `global_trace` while designated returns `-EINVAL` and changes nothing. -/
theorem printk_designation (ok : Bool) (sys : trace_system) (tr i : Nat) (enabled : Int)
    (h : printk_inv sys) :
    ((∃ t, sys.arrays tr = some t) → printk_inv (update_printk_trace sys tr)) ∧
    printk_inv (set_tracer_flag ok sys tr (1 <<< i) enabled).2 ∧
    (tr ≠ global_trace → printk_inv (__remove_instance ok sys tr).2) ∧
    (∀ t, sys.arrays tr = some t → enabled ≠ 0 →
      flag_change_rejected sys.g t TRACE_ITER_TRACE_PRINTK true = false →
      (set_tracer_flag ok sys tr TRACE_ITER_TRACE_PRINTK enabled).1 = 0 ∧
      (set_tracer_flag ok sys tr TRACE_ITER_TRACE_PRINTK enabled).2.printk_trace = tr ∧
      ∀ p t1, (set_tracer_flag ok sys tr TRACE_ITER_TRACE_PRINTK enabled).2.arrays p = some t1 →
        (t1.trace_flags &&& TRACE_ITER_TRACE_PRINTK ≠ 0 ↔ p = tr)) ∧
    (∀ t, sys.arrays tr = some t → sys.printk_trace = tr → tr ≠ global_trace →
      flag_change_rejected sys.g t TRACE_ITER_TRACE_PRINTK false = false →
      (set_tracer_flag ok sys tr TRACE_ITER_TRACE_PRINTK 0).1 = 0 ∧
      (set_tracer_flag ok sys tr TRACE_ITER_TRACE_PRINTK 0).2.printk_trace = global_trace ∧
      ∀ p t1, (set_tracer_flag ok sys tr TRACE_ITER_TRACE_PRINTK 0).2.arrays p = some t1 →
        (t1.trace_flags &&& TRACE_ITER_TRACE_PRINTK ≠ 0 ↔ p = global_trace)) ∧
    (sys.printk_trace = global_trace →
      set_tracer_flag ok sys global_trace TRACE_ITER_TRACE_PRINTK 0 = (-EINVAL, sys)) := by
  have hF : TRACE_ITER_TRACE_PRINTK = 1 <<< 23 := rfl
  refine ⟨?_, ?_, ?_, ?_, ?_, ?_⟩
  · intro htr
    exact (update_printk_trace_inv sys tr h htr).1
  · exact (set_tracer_flag_inv ok sys tr i enabled h).1
  · intro hne
    exact __remove_instance_inv ok sys tr h hne
  · intro t htr hen hrej
    obtain ⟨c1, c2⟩ := (set_tracer_flag_printk ok sys tr t enabled h htr).1 hen hrej
    have hinv := (set_tracer_flag_inv ok sys tr 23 enabled h).1
    rw [← hF] at hinv
    refine ⟨c1, c2, ?_⟩
    intro p t1 hp
    rw [hinv.2.2 p t1 hp, c2]
  · intro t htr hown hne hrej
    obtain ⟨c1, c2⟩ := (set_tracer_flag_printk ok sys tr t 0 h htr).2.1 hown hne hrej
    have hinv := (set_tracer_flag_inv ok sys tr 23 0 h).1
    rw [← hF] at hinv
    refine ⟨c1, c2, ?_⟩
    intro p t1 hp
    rw [hinv.2.2 p t1 hp, c2]
  · intro hown
    obtain ⟨tg, hg⟩ := h.1
    exact (set_tracer_flag_printk ok sys global_trace tg 0 h hg).2.2 hown rfl

/-- The instance of C9 for a system of `global_trace` and one more instance, on which the
flag is enabled. -/
theorem printk_designation_witness :
    printk_inv (set_tracer_flag true scenario_system 1 (1 <<< 23) 1).2 ∧
      set_tracer_flag true scenario_system global_trace TRACE_ITER_TRACE_PRINTK 0 =
        (-EINVAL, scenario_system) :=
  have h := printk_designation true scenario_system 1 23 1 scenario_system_inv
  ⟨h.2.1, h.2.2.2.2.2 rfl⟩

/-! ## The error log is bounded -/

theorem snprintf_cmd (cmd : List Char) :
    snprintf ((CMD_PREFIX.length + 1) + 2 * 2 + cmd.length + 1)
      (['\n'] ++ CMD_PREFIX ++ cmd ++ ['\n']) = ['\n'] ++ CMD_PREFIX ++ cmd ++ ['\n'] := by
  unfold snprintf
  apply List.take_of_length_le
  simp only [List.length_append, List.length_cons, List.length_nil]
  omega

/-- One `tracing_log_err` call on a log that is not full appends the entry. -/
theorem tracing_log_err_room (tr : trace_array) (r : err_request)
    (h : tr.n_err_log_entries < TRACING_LOG_ERRS_MAX) :
    tracing_log_err true r.clock tr r.loc r.cmd r.errs r.type r.pos =
      { tr with n_err_log_entries := tr.n_err_log_entries + 1,
                err_log := tr.err_log ++ [r.entry] } := by
  unfold tracing_log_err get_tracing_log_err
  simp only [h, if_true, snprintf_cmd]
  rfl

/-- One `tracing_log_err` call on a full log evicts the oldest entry and appends the new
one. -/
theorem tracing_log_err_full (tr : trace_array) (r : err_request)
    (old : struct_tracing_log_err) (rest : List struct_tracing_log_err)
    (h : ¬ tr.n_err_log_entries < TRACING_LOG_ERRS_MAX) (hl : tr.err_log = old :: rest) :
    tracing_log_err true r.clock tr r.loc r.cmd r.errs r.type r.pos =
      { tr with err_log := rest ++ [r.entry] } := by
  unfold tracing_log_err get_tracing_log_err
  simp only [h, if_false, hl, Bool.not_true, Bool.false_eq_true, snprintf_cmd]
  rfl

/-- One `tracing_log_err` call on a log whose count is its length, at most 8. -/
theorem tracing_log_err_step (tr : trace_array) (r : err_request)
    (h0 : tr.n_err_log_entries = tr.err_log.length)
    (h1 : tr.err_log.length ≤ TRACING_LOG_ERRS_MAX) :
    (tracing_log_err true r.clock tr r.loc r.cmd r.errs r.type r.pos).err_log =
        (tr.err_log ++ [r.entry]).drop (tr.err_log.length + 1 - TRACING_LOG_ERRS_MAX) ∧
      (tracing_log_err true r.clock tr r.loc r.cmd r.errs r.type r.pos).n_err_log_entries =
        (tracing_log_err true r.clock tr r.loc r.cmd r.errs r.type r.pos).err_log.length ∧
      (tracing_log_err true r.clock tr r.loc r.cmd r.errs r.type r.pos).err_log.length =
        min (tr.err_log.length + 1) TRACING_LOG_ERRS_MAX := by
  by_cases hroom : tr.n_err_log_entries < TRACING_LOG_ERRS_MAX
  · rw [tracing_log_err_room tr r hroom]
    have hz : tr.err_log.length + 1 - TRACING_LOG_ERRS_MAX = 0 := by omega
    simp only [hz, List.drop_zero, List.length_append, List.length_cons, List.length_nil]
    refine ⟨trivial, by omega, by omega⟩
  · have h8 : tr.err_log.length = TRACING_LOG_ERRS_MAX := by omega
    cases hl : tr.err_log with
    | nil => rw [hl] at h8; exact absurd h8 (by decide)
    | cons old rest =>
      rw [tracing_log_err_full tr r old rest hroom hl]
      rw [hl] at h8 h0
      simp only [List.length_cons] at h8 h0
      have h1 : rest.length + 1 + 1 - TRACING_LOG_ERRS_MAX = 1 := by omega
      simp only [List.length_cons, h1, List.cons_append, List.drop_succ_cons, List.drop_zero,
        List.length_append, List.length_nil]
      refine ⟨trivial, by omega, by omega⟩

/-- A sequence of `tracing_log_err` calls keeps the last 8 entries. -/
theorem log_errs_spec (reqs : List err_request) : ∀ tr : trace_array,
    tr.n_err_log_entries = tr.err_log.length → tr.err_log.length ≤ TRACING_LOG_ERRS_MAX →
    (log_errs tr reqs).err_log =
        (tr.err_log ++ reqs.map err_request.entry).drop
          (tr.err_log.length + reqs.length - TRACING_LOG_ERRS_MAX) ∧
      (log_errs tr reqs).n_err_log_entries = (log_errs tr reqs).err_log.length ∧
      (log_errs tr reqs).err_log.length =
        min (tr.err_log.length + reqs.length) TRACING_LOG_ERRS_MAX := by
  induction reqs with
  | nil =>
    intro tr h0 h1
    have hz : tr.err_log.length + 0 - TRACING_LOG_ERRS_MAX = 0 := by omega
    simp only [log_errs, List.foldl_nil, List.map_nil, List.append_nil, List.length_nil, hz,
      List.drop_zero]
    refine ⟨trivial, h0, by omega⟩
  | cons r rest ih =>
    intro tr h0 h1
    obtain ⟨s1, s2, s3⟩ := tracing_log_err_step tr r h0 h1
    have hle : (tracing_log_err true r.clock tr r.loc r.cmd r.errs r.type r.pos).err_log.length
        ≤ TRACING_LOG_ERRS_MAX := by rw [s3]; exact Nat.min_le_right _ _
    obtain ⟨i1, i2, i3⟩ := ih _ s2 hle
    have hfold : log_errs tr (r :: rest) =
        log_errs (tracing_log_err true r.clock tr r.loc r.cmd r.errs r.type r.pos) rest := rfl
    rw [hfold]
    refine ⟨?_, i2, ?_⟩
    · rw [i1, s3, s1]
      have hd : tr.err_log.length + 1 - TRACING_LOG_ERRS_MAX ≤ (tr.err_log ++ [r.entry]).length := by
        simp only [List.length_append, List.length_cons, List.length_nil]
        omega
      rw [← List.drop_append_of_le_length hd, List.drop_drop, List.map_cons, List.length_cons]
      have e1 : tr.err_log ++ [r.entry] ++ List.map err_request.entry rest =
          tr.err_log ++ r.entry :: List.map err_request.entry rest := by simp
      rw [e1]
      congr 1
      omega
    · rw [i3, s3, List.length_cons]
      omega

/-- C10: a sequence of `tracing_log_err` calls, allocations succeeding, on an instance
whose entry count is the length of its error log and at most 8, leaves in the log the last
8 of the old entries followed by the logged errors, in order, each entry with the command
text, caret position and error type of its call, and the count equal to the length of the
list; on a fresh instance these are the most recent min(n, 8) errors; and on a full log
each call evicts exactly the oldest entry. -/
theorem tracing_log_err_bounded (tr : trace_array) (reqs : List err_request) (r : err_request)
    (h0 : tr.n_err_log_entries = tr.err_log.length)
    (h1 : tr.err_log.length ≤ TRACING_LOG_ERRS_MAX) :
    (log_errs tr reqs).err_log =
        (tr.err_log ++ reqs.map err_request.entry).drop
          (tr.err_log.length + reqs.length - TRACING_LOG_ERRS_MAX) ∧
    (log_errs tr reqs).n_err_log_entries = (log_errs tr reqs).err_log.length ∧
    (log_errs tr reqs).err_log.length ≤ TRACING_LOG_ERRS_MAX ∧
    (tr.err_log = [] →
      (log_errs tr reqs).err_log =
          (reqs.map err_request.entry).drop (reqs.length - TRACING_LOG_ERRS_MAX) ∧
        (log_errs tr reqs).err_log.length = min reqs.length TRACING_LOG_ERRS_MAX) ∧
    (tr.err_log.length = TRACING_LOG_ERRS_MAX →
      (tracing_log_err true r.clock tr r.loc r.cmd r.errs r.type r.pos).err_log =
          tr.err_log.tail ++ [r.entry] ∧
        (tracing_log_err true r.clock tr r.loc r.cmd r.errs r.type r.pos).n_err_log_entries =
          TRACING_LOG_ERRS_MAX) := by
  obtain ⟨a1, a2, a3⟩ := log_errs_spec reqs tr h0 h1
  refine ⟨a1, a2, by rw [a3]; exact Nat.min_le_right _ _, ?_, ?_⟩
  · intro hnil
    constructor
    · rw [a1, hnil]
      simp
    · rw [a3, hnil]
      simp
  · intro hfull
    have hroom : ¬ tr.n_err_log_entries < TRACING_LOG_ERRS_MAX := by omega
    cases hl : tr.err_log with
    | nil => rw [hl] at hfull; exact absurd hfull (by decide)
    | cons old rest =>
      rw [tracing_log_err_full tr r old rest hroom hl]
      exact ⟨rfl, by show tr.n_err_log_entries = _; omega⟩

/-- The instance of C10 for two errors logged on a fresh instance. -/
theorem tracing_log_err_bounded_witness :
    (log_errs scenario_tr
      [{ loc := "hist".toList, cmd := "a".toList, errs := 0, type := 1, pos := 0, clock := 5 },
       { loc := "hist".toList, cmd := "b".toList, errs := 0, type := 2, pos := 1,
         clock := 6 }]).err_log.length ≤ TRACING_LOG_ERRS_MAX :=
  (tracing_log_err_bounded scenario_tr
    [{ loc := "hist".toList, cmd := "a".toList, errs := 0, type := 1, pos := 0, clock := 5 },
     { loc := "hist".toList, cmd := "b".toList, errs := 0, type := 2, pos := 1, clock := 6 }]
    { loc := [], cmd := [], errs := 0, type := 0, pos := 0, clock := 0 } rfl
    (by decide)).2.2.1

/-! ## A stop-counter underflow in `tracing_start_tr` -/

/-- C14, counterexample: `tracing_start` on a system whose `global_trace` has a stop counter
of 0 and on which tracing is not disabled.  The counter underflows to -1 and is set back to
0; `tracing_disabled` is still false after the call, the recording state of the buffers is
as before, and a marker written afterwards is still recorded. -/
theorem tracing_start_underflow_keeps_tracing_enabled :
    scenario_system.g.tracing_disabled = false ∧
    (scenario_system.arrays global_trace).map (fun tr => tr.stop_count) = some 0 ∧
    (tracing_start scenario_system).g.tracing_disabled = false ∧
    ((tracing_start scenario_system).arrays global_trace).map (fun tr => tr.stop_count) =
      some 0 ∧
    (tracing_start scenario_system).arrays global_trace = scenario_system.arrays global_trace ∧
    (tracing_start_tr scenario_globals scenario_tr_markers) = scenario_tr_markers ∧
    (tracing_mark_write env_ok scenario_globals.tracing_disabled
      (tracing_start_tr scenario_globals scenario_tr_markers) scenario_marker 12 2).map
        (fun r => r.written) = some 12 := by
  decide

/-- C14, amended: `tracing_start_tr` on an instance whose stop counter is already 0, while
tracing is not disabled, sets the counter back to 0 and changes nothing else of the
instance: recording is not re-enabled a second time, and the function does not write
`tracing_disabled`, which `tracing_start` leaves as it was. -/
theorem tracing_start_tr_underflow (g : tracer_globals) (tr : trace_array)
    (sys : trace_system) (hdis : g.tracing_disabled = false) (hstop : tr.stop_count = 0) :
    tracing_start_tr g tr = tr ∧
      (tracing_start_tr g tr).stop_count = 0 ∧
      (tracing_start sys).g = sys.g ∧
      (tracing_start sys).g.tracing_disabled = sys.g.tracing_disabled := by
  have h : tracing_start_tr g tr = tr := by
    unfold tracing_start_tr
    rw [hdis, hstop]
    simp only [Bool.false_eq_true, if_false]
    rw [if_pos (by decide), if_pos (by decide)]
    cases tr
    simp_all
  exact ⟨h, by rw [h]; exact hstop, rfl, rfl⟩

/-- The instance of C14 for the global instance of the example system. -/
theorem tracing_start_tr_underflow_witness :
    scenario_globals.tracing_disabled = false ∧ scenario_tr.stop_count = 0 ∧
    tracing_start_tr scenario_globals scenario_tr = scenario_tr ∧
    (tracing_start scenario_system).g.tracing_disabled = false :=
  have h := tracing_start_tr_underflow scenario_globals scenario_tr scenario_system rfl rfl
  ⟨rfl, rfl, h.1, h.2.2.2⟩

/-! ## The scratch stacks of `__ftrace_trace_stack` -/

theorem ftrace_stack_record_frame (env : ring_buffer_env) (c : stack_caller) (pc : percpu_vars)
    (buffer : trace_buffer) (trace_ctx : Nat) (stackidx : Int) (nr_entries : Nat) :
    (ftrace_stack_record env c pc buffer trace_ctx stackidx nr_entries).2.ftrace_stack_reserve =
        pc.ftrace_stack_reserve ∧
      (ftrace_stack_record env c pc buffer trace_ctx stackidx nr_entries).2.ftrace_stacks =
        pc.ftrace_stacks := by
  unfold ftrace_stack_record
  split <;> exact ⟨rfl, rfl⟩

theorem ftrace_stack_record_failed (env : ring_buffer_env) (c : stack_caller) (pc : percpu_vars)
    (buffer : trace_buffer) (trace_ctx : Nat) (stackidx : Int) (nr_entries : Nat)
    (h : __trace_buffer_lock_reserve env buffer TRACE_STACK (stack_entry_size nr_entries)
      trace_ctx c.pid = none) :
    ftrace_stack_record env c pc buffer trace_ctx stackidx nr_entries = (buffer, pc) := by
  unfold ftrace_stack_record
  rw [h]

theorem __ftrace_trace_stack_restores (env : ring_buffer_env) (c : stack_caller)
    (pc : percpu_vars) (buffer : trace_buffer) (trace_ctx : Nat) (skip : Int) (regs : Bool) :
    (__ftrace_trace_stack env c pc buffer trace_ctx skip regs).percpu.ftrace_stack_reserve =
      pc.ftrace_stack_reserve := by
  unfold __ftrace_trace_stack
  simp only
  split
  · show pc.ftrace_stack_reserve + 1 - 1 = pc.ftrace_stack_reserve
    omega
  · show (ftrace_stack_record env c _ buffer trace_ctx _ _).2.ftrace_stack_reserve - 1 = _
    rw [(ftrace_stack_record_frame env c _ buffer trace_ctx _ _).1]
    show pc.ftrace_stack_reserve + 1 - 1 = pc.ftrace_stack_reserve
    omega

theorem __ftrace_trace_stack_slot (env : ring_buffer_env) (c : stack_caller)
    (pc : percpu_vars) (buffer : trace_buffer) (trace_ctx : Nat) (skip : Int) (regs : Bool)
    (i : Int)
    (h : (__ftrace_trace_stack env c pc buffer trace_ctx skip regs).slot = some i) :
    i = pc.ftrace_stack_reserve ∧ i < 4 := by
  unfold __ftrace_trace_stack at h
  simp only at h
  split at h
  · exact absurd h (by simp)
  · rename_i hlt
    have hi : (ftrace_stack_enter c pc skip regs).2.1 = i := by
      simpa using h
    have he : (ftrace_stack_enter c pc skip regs).2.1 = pc.ftrace_stack_reserve + 1 - 1 := rfl
    have h4 : ((FTRACE_KSTACK_NESTING : Nat) : Int) = 4 := rfl
    rw [hi, h4] at hlt
    rw [hi] at he
    omega

theorem __ftrace_trace_stack_full (env : ring_buffer_env) (c : stack_caller)
    (pc : percpu_vars) (buffer : trace_buffer) (trace_ctx : Nat) (skip : Int) (regs : Bool)
    (h : 4 ≤ pc.ftrace_stack_reserve) :
    __ftrace_trace_stack env c pc buffer trace_ctx skip regs =
      { percpu := pc, buffer := buffer, slot := none } := by
  unfold __ftrace_trace_stack
  have h4 : ((FTRACE_KSTACK_NESTING : Nat) : Int) = 4 := rfl
  have he : (ftrace_stack_enter c pc skip regs).2.1 = pc.ftrace_stack_reserve + 1 - 1 := rfl
  simp only
  rw [if_pos (by rw [he, h4]; omega)]
  have : ftrace_stack_out (ftrace_stack_enter c pc skip regs).2.2 = pc := by
    unfold ftrace_stack_out ftrace_stack_enter
    cases pc
    simp
  rw [this]

theorem ftrace_stack_save_frame (c : stack_caller) (pc : percpu_vars) (stackidx skip : Int)
    (regs : Bool) :
    (ftrace_stack_save c pc stackidx skip regs).1.ftrace_stack_reserve =
      pc.ftrace_stack_reserve := rfl

theorem stack_step_inv (env : ring_buffer_env) (c : stack_caller) (base : Int) (s : stack_cpu)
    (op : stack_op) (hb : 0 ≤ base)
    (hres : s.percpu.ftrace_stack_reserve = base + s.frames.length)
    (hf : frames_ok base s.frames) (hu : ∀ i ∈ s.used, 0 ≤ i ∧ i ≤ 3) :
    (stack_step env c s op).percpu.ftrace_stack_reserve =
        base + (stack_step env c s op).frames.length ∧
      frames_ok base (stack_step env c s op).frames ∧
      (∀ i ∈ (stack_step env c s op).used, 0 ≤ i ∧ i ≤ 3) := by
  cases op with
  | call trace_ctx skip regs =>
    refine ⟨?_, ?_, hu⟩
    · show s.percpu.ftrace_stack_reserve + 1 = base + ((s.frames.length + 1 : Nat) : Int)
      rw [hres]; push_cast; ring
    · show frames_ok base (_ :: s.frames)
      refine ⟨?_, ?_, ?_, hf⟩
      · exact hres
      · show s.percpu.ftrace_stack_reserve + 1 - 1 = s.percpu.ftrace_stack_reserve
        omega
      · intro h; exact absurd rfl h
  | resume =>
    unfold stack_step
    cases hfr : s.frames with
    | nil =>
      simp only
      exact ⟨hres, hf, hu⟩
    | cons f rest =>
      rw [hfr] at hres hf
      obtain ⟨f1, f2, f3, f4⟩ := hf
      have hlen : (((f :: rest).length : Nat) : Int) = (rest.length : Int) + 1 := by
        simp
      rw [hlen] at hres
      simp only
      cases hn : f.nr_entries with
      | none =>
        simp only
        split
        · refine ⟨?_, f4, hu⟩
          show s.percpu.ftrace_stack_reserve - 1 = base + rest.length
          omega
        · rename_i hlt
          have h4 : ((FTRACE_KSTACK_NESTING : Nat) : Int) = 4 := rfl
          rw [h4] at hlt
          refine ⟨?_, ⟨f1, f2, fun _ => ?_, f4⟩, ?_⟩
          · show s.percpu.ftrace_stack_reserve =
              base + (((_ :: rest : List stack_frame).length : Nat) : Int)
            simp only [List.length_cons]
            push_cast
            omega
          · show f.stackidx < ((FTRACE_KSTACK_NESTING : Nat) : Int)
            rw [h4]; omega
          · intro i hi
            rcases List.mem_cons.1 hi with h | h
            · have : 0 ≤ f.stackidx := by rw [f2, f1]; omega
              rw [h]; omega
            · exact hu i h
      | some n =>
        simp only
        refine ⟨?_, f4, hu⟩
        show (ftrace_stack_record env c s.percpu s.buffer f.trace_ctx f.stackidx
          n).2.ftrace_stack_reserve - 1 = base + rest.length
        rw [(ftrace_stack_record_frame env c _ _ _ _ _).1]
        omega

theorem stack_run_inv (env : ring_buffer_env) (c : stack_caller) (base : Int)
    (ops : List stack_op) (hb : 0 ≤ base) : ∀ (s : stack_cpu),
    s.percpu.ftrace_stack_reserve = base + s.frames.length → frames_ok base s.frames →
    (∀ i ∈ s.used, 0 ≤ i ∧ i ≤ 3) →
    (stack_run env c s ops).percpu.ftrace_stack_reserve =
        base + (stack_run env c s ops).frames.length ∧
      frames_ok base (stack_run env c s ops).frames ∧
      (∀ i ∈ (stack_run env c s ops).used, 0 ≤ i ∧ i ≤ 3) := by
  induction ops with
  | nil => intro s h1 h2 h3; exact ⟨h1, h2, h3⟩
  | cons op rest ih =>
    intro s h1 h2 h3
    obtain ⟨g1, g2, g3⟩ := stack_step_inv env c base s op hb h1 h2 h3
    exact ih (stack_step env c s op) g1 g2 g3

theorem stack_step_return (env : ring_buffer_env) (c : stack_caller) (base : Int)
    (s : stack_cpu) (f : stack_frame) (rest : List stack_frame)
    (hres : s.percpu.ftrace_stack_reserve = base + s.frames.length)
    (hf : frames_ok base s.frames) (hfr : s.frames = f :: rest)
    (hpop : (stack_step env c s stack_op.resume).frames = rest) :
    (stack_step env c s stack_op.resume).percpu.ftrace_stack_reserve = f.entry_reserve := by
  rw [hfr] at hres hf
  obtain ⟨f1, -, -, -⟩ := hf
  have hlen : (((f :: rest).length : Nat) : Int) = (rest.length : Int) + 1 := by simp
  rw [hlen] at hres
  unfold stack_step at hpop ⊢
  rw [hfr] at hpop ⊢
  simp only at hpop ⊢
  cases hn : f.nr_entries with
  | none =>
    rw [hn] at hpop
    simp only at hpop ⊢
    split
    · show s.percpu.ftrace_stack_reserve - 1 = f.entry_reserve
      omega
    · rename_i hlt
      rw [if_neg hlt] at hpop
      have := congrArg List.length hpop
      simp at this
  | some n =>
    simp only
    show (ftrace_stack_record env c s.percpu s.buffer f.trace_ctx f.stackidx
      n).2.ftrace_stack_reserve - 1 = f.entry_reserve
    rw [(ftrace_stack_record_frame env c _ _ _ _ _).1]
    omega

theorem stack_step_full (env : ring_buffer_env) (c : stack_caller) (s : stack_cpu)
    (trace_ctx : Nat) (skip : Int) (regs : Bool) (h : 4 ≤ s.percpu.ftrace_stack_reserve) :
    stack_step env c (stack_step env c s (stack_op.call trace_ctx skip regs)) stack_op.resume
      = s := by
  have h4 : ((FTRACE_KSTACK_NESTING : Nat) : Int) = 4 := rfl
  have he : (ftrace_stack_enter c s.percpu skip regs).2.1 =
      s.percpu.ftrace_stack_reserve + 1 - 1 := rfl
  unfold stack_step
  simp only
  rw [if_pos (by rw [he, h4]; omega)]
  have : ftrace_stack_out (ftrace_stack_enter c s.percpu skip regs).2.2 = s.percpu := by
    unfold ftrace_stack_out ftrace_stack_enter
    cases s.percpu
    simp
  rw [this]

/-- C15: on a CPU that starts idle with a counter that is not negative, for every nesting
of calls of `__ftrace_trace_stack`: every scratch stack used has an index from 0 to 3; the
counter is its starting value plus the number of calls in progress, and when a call
returns, on whichever path, the counter is back at the value it had when that call was
entered; a call made while the counter is 4 or more records nothing, touches no scratch
stack and leaves the CPU as it was.  For a call that is not interrupted: the counter is
restored on every path, a failed reservation leaves the buffer as it is, and the scratch
stack used, if any, is the one the counter pointed to on entry, below 4. -/
theorem ftrace_trace_stack_bounded (env : ring_buffer_env) (c : stack_caller)
    (s0 : stack_cpu) (ops : List stack_op) (hidle : s0.frames = [])
    (hused : s0.used = []) (hres : 0 ≤ s0.percpu.ftrace_stack_reserve) :
    (∀ i ∈ (stack_run env c s0 ops).used, 0 ≤ i ∧ i ≤ 3) ∧
    (stack_run env c s0 ops).percpu.ftrace_stack_reserve =
      s0.percpu.ftrace_stack_reserve + (stack_run env c s0 ops).frames.length ∧
    (∀ f rest, (stack_run env c s0 ops).frames = f :: rest →
      (stack_step env c (stack_run env c s0 ops) stack_op.resume).frames = rest →
      (stack_step env c (stack_run env c s0 ops) stack_op.resume).percpu.ftrace_stack_reserve
        = f.entry_reserve) ∧
    (∀ trace_ctx skip regs, 4 ≤ (stack_run env c s0 ops).percpu.ftrace_stack_reserve →
      stack_step env c (stack_step env c (stack_run env c s0 ops)
        (stack_op.call trace_ctx skip regs)) stack_op.resume = stack_run env c s0 ops) ∧
    (∀ pc buffer trace_ctx skip regs,
      (__ftrace_trace_stack env c pc buffer trace_ctx skip regs).percpu.ftrace_stack_reserve =
        pc.ftrace_stack_reserve ∧
      (4 ≤ pc.ftrace_stack_reserve →
        __ftrace_trace_stack env c pc buffer trace_ctx skip regs =
          { percpu := pc, buffer := buffer, slot := none }) ∧
      (∀ i, (__ftrace_trace_stack env c pc buffer trace_ctx skip regs).slot = some i →
        i = pc.ftrace_stack_reserve ∧ i < 4 ∧
        (__trace_buffer_lock_reserve env buffer TRACE_STACK
            (stack_entry_size (ftrace_stack_save c (ftrace_stack_enter c pc skip regs).2.2 i
              (ftrace_stack_enter c pc skip regs).1 regs).2) trace_ctx c.pid = none →
          (__ftrace_trace_stack env c pc buffer trace_ctx skip regs).buffer = buffer))) := by
  have hinv := stack_run_inv env c s0.percpu.ftrace_stack_reserve ops hres s0
    (by rw [hidle]; simp) (by rw [hidle]; trivial) (by rw [hused]; simp)
  refine ⟨hinv.2.2, hinv.1, ?_, ?_, ?_⟩
  · intro f rest hfr hpop
    exact stack_step_return env c _ _ f rest hinv.1 hinv.2.1 hfr hpop
  · intro trace_ctx skip regs h
    exact stack_step_full env c _ trace_ctx skip regs h
  · intro pc buffer trace_ctx skip regs
    refine ⟨__ftrace_trace_stack_restores env c pc buffer trace_ctx skip regs,
      __ftrace_trace_stack_full env c pc buffer trace_ctx skip regs, ?_⟩
    intro i hi
    obtain ⟨h1, h2⟩ := __ftrace_trace_stack_slot env c pc buffer trace_ctx skip regs i hi
    refine ⟨h1, h2, ?_⟩
    intro hnone
    have he : (ftrace_stack_enter c pc skip regs).2.1 = i := by
      rw [h1]; show pc.ftrace_stack_reserve + 1 - 1 = pc.ftrace_stack_reserve; omega
    have h4 : ((FTRACE_KSTACK_NESTING : Nat) : Int) = 4 := rfl
    unfold __ftrace_trace_stack
    simp only
    rw [if_neg (by rw [he, h4]; omega), he]
    rw [ftrace_stack_record_failed env c _ buffer trace_ctx i _ hnone]

/-- The instance of C15 for five nested calls on an idle CPU: the scratch stacks 0 to 3 are
used, the fifth call uses none, and the counter ends at 0, where it started. -/
theorem ftrace_trace_stack_bounded_witness :
    scenario_stack_cpu.frames = [] ∧ scenario_stack_cpu.used = [] ∧
    0 ≤ scenario_stack_cpu.percpu.ftrace_stack_reserve ∧
    (stack_run env_ok scenario_stack_caller scenario_stack_cpu scenario_stack_ops).used =
      [3, 2, 1, 0] ∧
    (∀ i ∈ (stack_run env_ok scenario_stack_caller scenario_stack_cpu scenario_stack_ops).used,
      0 ≤ i ∧ i ≤ 3) ∧
    (stack_run env_ok scenario_stack_caller scenario_stack_cpu
      scenario_stack_ops).percpu.ftrace_stack_reserve = 0 :=
  have h := ftrace_trace_stack_bounded env_ok scenario_stack_caller scenario_stack_cpu
    scenario_stack_ops rfl rfl (by decide)
  ⟨rfl, rfl, by decide, by decide, h.1, by decide⟩

/-! ## Disabling a conditional snapshot that is not enabled -/

/-- C18, the code at the failing input: an instance without a conditional snapshot whose
snapshot was armed once by another user (`tracing_arm_snapshot` took the counter from 0 to
1).  `tracing_snapshot_cond_disable` returns `-EINVAL` and all the same takes the counter
back to 0, so the instance is not as it was.  On an instance where
`tracing_snapshot_cond_enable` has succeeded, the call returns 0, removes the conditional
snapshot and undoes the one increment of the enable. -/
theorem tracing_snapshot_cond_disable_disarms_when_not_enabled :
    scenario_tr_function.cond_snapshot = none ∧ scenario_tr_function.snapshot = 0 ∧
    (tracing_arm_snapshot env_ok scenario_tr_function).1 = 0 ∧
    (tracing_arm_snapshot env_ok scenario_tr_function).2.snapshot = 1 ∧
    (tracing_arm_snapshot env_ok scenario_tr_function).2.cond_snapshot = none ∧
    (tracing_snapshot_cond_disable (tracing_arm_snapshot env_ok scenario_tr_function).2).1 =
      -EINVAL ∧
    (tracing_snapshot_cond_disable
      (tracing_arm_snapshot env_ok scenario_tr_function).2).2.snapshot = 0 ∧
    (tracing_snapshot_cond_disable (tracing_arm_snapshot env_ok scenario_tr_function).2).2 ≠
      (tracing_arm_snapshot env_ok scenario_tr_function).2 ∧
    (tracing_snapshot_cond_enable env_ok scenario_globals true scenario_tr_function 7).1 = 0 ∧
    (tracing_snapshot_cond_enable env_ok scenario_globals true
      scenario_tr_function 7).2.snapshot = 1 ∧
    (tracing_snapshot_cond_disable (tracing_snapshot_cond_enable env_ok scenario_globals true
      scenario_tr_function 7).2).1 = 0 ∧
    (tracing_snapshot_cond_disable (tracing_snapshot_cond_enable env_ok scenario_globals true
      scenario_tr_function 7).2).2.snapshot = 0 ∧
    (tracing_snapshot_cond_disable (tracing_snapshot_cond_enable env_ok scenario_globals true
      scenario_tr_function 7).2).2.cond_snapshot = none := by
  decide

/-! ## The metadata copied by `__update_max_tr` -/

theorem __update_max_tr_metadata (before tr : trace_array) (tsk : task_struct) (cur : Bool)
    (cpu : Nat) (data max_data : trace_array_cpu)
    (hd : tr.array_buffer.data[cpu]? = some data)
    (hm : tr.max_buffer.data[cpu]? = some max_data)
    (hlat : tr.max_latency = before.max_latency)
    (hsame : tr.max_buffer.data = before.max_buffer.data) :
    spare_holds_metadata before (__update_max_tr tr tsk cur cpu) tsk cur cpu := by
  have hlt : cpu < tr.max_buffer.data.length := by
    rcases List.getElem?_eq_some.1 hm with ⟨h, -⟩
    exact h
  unfold __update_max_tr
  rw [hd, hm]
  refine ⟨rfl, ?_, ?_⟩
  · refine ⟨{ max_data with
        saved_latency := tr.max_latency
        critical_start := data.critical_start
        critical_end := data.critical_end
        comm := tsk.comm
        pid := tsk.pid
        uid := if cur then tsk.cred_uid else tsk.real_cred_uid
        nice := tsk.static_prio - 20 - MAX_RT_PRIO
        policy := tsk.policy
        rt_priority := tsk.rt_priority }, ?_, rfl, rfl, rfl, rfl, rfl, rfl, hlat⟩
    show (tr.max_buffer.data.set cpu _)[cpu]? = some _
    rw [List.getElem?_set_self hlt]
  · intro j hj
    show (tr.max_buffer.data.set cpu _)[j]? = before.max_buffer.data[j]?
    rw [List.getElem?_set_ne (Ne.symm hj), hsame]

/-- C19: after `update_max_tr` has gone through (the instance is not stopped, its snapshot
is allocated and the condition callback, if any, accepts), the spare set holds the metadata
of `tsk` for `cpu`: comm, pid, uid, nice value `static_prio - 20 - MAX_RT_PRIO`, policy,
rt_priority and the maximum latency of the instance in the per-CPU record of `cpu`, `cpu`
in its `cpu` field, and the records of the other CPUs unchanged.  `update_max_tr_single`
leaves the same metadata whatever `ring_buffer_swap_cpu` returns, busy included. -/
theorem update_max_tr_copies_metadata (env : ring_buffer_env) (g : tracer_globals)
    (c : stack_caller) (pc : percpu_vars) (printk_trace : trace_array) (trace_ctx : Nat)
    (update : trace_array → Nat → Bool) (tr : trace_array) (tsk : task_struct) (cur : Bool)
    (cpu : Nat) (cond_data : Nat) (data max_data : trace_array_cpu)
    (h1 : tr.stop_count = 0) (h2 : tr.allocated_snapshot = true)
    (hd : tr.array_buffer.data[cpu]? = some data)
    (hm : tr.max_buffer.data[cpu]? = some max_data)
    (hacc : tr.cond_snapshot.isSome = true →
      update { tr with max_buffer := { tr.max_buffer with
        buffer := { tr.max_buffer.buffer with record_on := tr.array_buffer.buffer.record_on } } }
        cond_data = true) :
    spare_holds_metadata tr (update_max_tr update tr tsk cur cpu cond_data) tsk cur cpu ∧
      spare_holds_metadata tr
        (update_max_tr_single env g c pc printk_trace trace_ctx tr tsk cur cpu).1 tsk cur cpu := by
  constructor
  · rw [update_max_tr_taken update tr tsk cur cpu cond_data h1 h2 hacc]
    exact __update_max_tr_metadata tr _ tsk cur cpu data max_data hd hm rfl rfl
  · unfold update_max_tr_single
    rw [if_neg (by rw [h1]; simp), if_neg (by rw [h2]; simp)]
    exact __update_max_tr_metadata tr _ tsk cur cpu data max_data hd hm rfl rfl

/-- The instance of C19 for the example scenario, with a swap of CPU 1 that reports busy:
the record of CPU 1 in the spare set names the task, that of CPU 0 is as before. -/
theorem update_max_tr_copies_metadata_witness :
    (ring_buffer_swap_cpu env_swap_busy scenario_tr_latency.max_buffer.buffer
      scenario_tr_latency.array_buffer.buffer 1).1 = -EBUSY ∧
    spare_holds_metadata scenario_tr_latency
      (update_max_tr accept_update scenario_tr_latency scenario_task true 1 0)
      scenario_task true 1 ∧
    spare_holds_metadata scenario_tr_latency
      (update_max_tr_single env_swap_busy scenario_globals scenario_stack_caller
        scenario_percpu_vars scenario_tr_latency 0 scenario_tr_latency scenario_task true 1).1
      scenario_task true 1 ∧
    ((update_max_tr_single env_swap_busy scenario_globals scenario_stack_caller
        scenario_percpu_vars scenario_tr_latency 0 scenario_tr_latency scenario_task true
        1).1.max_buffer.data[1]?).map (fun d => (d.comm, d.pid, d.uid, d.nice, d.saved_latency))
      = some ("bash", 42, 1000, 0, 250) :=
  have h := update_max_tr_copies_metadata env_swap_busy scenario_globals scenario_stack_caller
    scenario_percpu_vars scenario_tr_latency 0 accept_update scenario_tr_latency scenario_task
    true 1 0 scenario_cpu_data scenario_cpu_data rfl rfl rfl rfl (by decide)
  ⟨by decide, h.1, h.2, by decide⟩

/-! ## Armed snapshots and mappings exclude each other -/

theorem buffer_extends_refl (b : trace_buffer) : buffer_extends b b :=
  ⟨rfl, fun _ a h => ⟨a, h, List.prefix_refl _⟩⟩

theorem buffer_extends_trans (a b c : trace_buffer) (h1 : buffer_extends a b)
    (h2 : buffer_extends b c) : buffer_extends a c := by
  refine ⟨h2.1.trans h1.1, ?_⟩
  intro cpu x hx
  obtain ⟨y, hy, hxy⟩ := h1.2 cpu x hx
  obtain ⟨z, hz, hyz⟩ := h2.2 cpu y hy
  exact ⟨z, hz, hxy.trans hyz⟩

theorem ring_buffer_unlock_commit_extends (b : trace_buffer) (cpu : Nat)
    (event : ring_buffer_event) : buffer_extends b (ring_buffer_unlock_commit b cpu event) := by
  unfold ring_buffer_unlock_commit
  refine ⟨by simp, ?_⟩
  intro i a ha
  show ∃ x, (List.modify _ cpu b.cpus)[i]? = some x ∧ _
  rw [List.getElem?_modify, ha]
  by_cases h : cpu = i
  · exact ⟨{ a with events := a.events ++ [event] }, by simp [h], by simp⟩
  · exact ⟨a, by simp [h], List.prefix_refl _⟩

theorem ftrace_stack_record_extends (env : ring_buffer_env) (c : stack_caller)
    (pc : percpu_vars) (buffer : trace_buffer) (trace_ctx : Nat) (stackidx : Int)
    (nr_entries : Nat) :
    buffer_extends buffer
      (ftrace_stack_record env c pc buffer trace_ctx stackidx nr_entries).1 := by
  unfold ftrace_stack_record
  split
  · exact buffer_extends_refl _
  · exact ring_buffer_unlock_commit_extends _ _ _

theorem ftrace_trace_stack_extends (env : ring_buffer_env) (c : stack_caller)
    (tr : trace_array) (pc : percpu_vars) (buffer : trace_buffer) (trace_ctx : Nat)
    (skip : Int) (regs : Bool) :
    buffer_extends buffer (ftrace_trace_stack env c tr pc buffer trace_ctx skip regs).buffer := by
  unfold ftrace_trace_stack
  split
  · exact buffer_extends_refl _
  · unfold __ftrace_trace_stack
    simp only
    split
    · exact buffer_extends_refl _
    · exact ftrace_stack_record_extends _ _ _ _ _ _ _

theorem live_extended_refl (tr : trace_array) : live_extended tr tr :=
  ⟨tr.array_buffer.buffer, rfl, buffer_extends_refl _⟩

theorem live_extended_trans (a b c : trace_array) (h1 : live_extended a b)
    (h2 : live_extended b c) : live_extended a c := by
  obtain ⟨x, hx, ex⟩ := h1
  obtain ⟨y, hy, ey⟩ := h2
  refine ⟨y, ?_, ?_⟩
  · rw [hy, hx]
  · rw [hx] at ey
    exact buffer_extends_trans _ _ _ ex ey

/-- A message leaves everything but the live buffer as it is, and the live buffer keeps
its records. -/
theorem __trace_array_puts_live (env : ring_buffer_env) (g : tracer_globals)
    (c : stack_caller) (pc : percpu_vars) (tr : trace_array) (trace_ctx ip : Nat)
    (str : List Nat) :
    live_extended tr (__trace_array_puts env g c pc tr trace_ctx ip str).2.1 := by
  unfold __trace_array_puts
  simp only
  split
  · exact live_extended_refl _
  · split
    · exact live_extended_refl _
    · split
      · exact live_extended_refl _
      · exact ⟨_, rfl, buffer_extends_trans _ _ _ (ring_buffer_unlock_commit_extends _ _ _)
          (ftrace_trace_stack_extends _ _ _ _ _ _ _ _)⟩

theorem trace_array_puts_live (env : ring_buffer_env) (g : tracer_globals)
    (c : stack_caller) (pc : percpu_vars) (tr : trace_array) (trace_ctx ip : Nat)
    (str : String) :
    live_extended tr (trace_array_puts env g c pc tr trace_ctx ip str).1 :=
  __trace_array_puts_live env g c pc tr trace_ctx ip (bytes str)

theorem tracer_tracing_off_spare (tr : trace_array) :
    (tracer_tracing_off tr).max_buffer = tr.max_buffer ∧
      buffer_extends tr.array_buffer.buffer (tracer_tracing_off tr).array_buffer.buffer :=
  ⟨rfl, rfl, fun _ a h => ⟨a, h, List.prefix_refl _⟩⟩

theorem live_extended_spare (a b : trace_array) (h : live_extended a b) :
    b.max_buffer = a.max_buffer ∧
      buffer_extends a.array_buffer.buffer b.array_buffer.buffer ∧ b.mapped = a.mapped ∧
      b.snapshot = a.snapshot := by
  obtain ⟨x, hx, ex⟩ := h
  rw [hx]
  exact ⟨rfl, ex, rfl, rfl⟩

/-- While the buffer is mapped, `tracing_snapshot_instance_cond` leaves the spare set as
it is and the live buffer with all its records. -/
theorem tracing_snapshot_instance_cond_mapped (env : ring_buffer_env) (g : tracer_globals)
    (c : stack_caller) (pc : percpu_vars) (update : trace_array → Nat → Bool)
    (trace_ctx ip : Nat) (in_nmi : Bool) (current : task_struct) (tr : trace_array)
    (cond_data : Nat) (hmap : tr.mapped ≠ 0) :
    (tracing_snapshot_instance_cond env g c pc update trace_ctx ip in_nmi current tr
        cond_data).1.max_buffer = tr.max_buffer ∧
      buffer_extends tr.array_buffer.buffer
        (tracing_snapshot_instance_cond env g c pc update trace_ctx ip in_nmi current tr
          cond_data).1.array_buffer.buffer := by
  have two : ∀ (pc : percpu_vars) (s1 s2 : String),
      live_extended tr (trace_array_puts env g c
        (trace_array_puts env g c pc tr trace_ctx ip s1).2
        (trace_array_puts env g c pc tr trace_ctx ip s1).1 trace_ctx ip s2).1 :=
    fun pc s1 s2 => live_extended_trans _ _ _ (trace_array_puts_live env g c pc tr trace_ctx ip s1)
      (trace_array_puts_live env g c _ _ trace_ctx ip s2)
  unfold tracing_snapshot_instance_cond
  split
  · exact ⟨rfl, buffer_extends_refl _⟩
  · split
    · exact ⟨(live_extended_spare _ _ (two pc _ _)).1, (live_extended_spare _ _ (two pc _ _)).2.1⟩
    · split
      · obtain ⟨h1, h2, -, -⟩ := live_extended_spare _ _ (two pc "*** SNAPSHOT NOT ALLOCATED ***\n"
          "*** stopping trace here!   ***\n")
        obtain ⟨k1, k2⟩ := tracer_tracing_off_spare (trace_array_puts env g c
          (trace_array_puts env g c pc tr trace_ctx ip "*** SNAPSHOT NOT ALLOCATED ***\n").2
          (trace_array_puts env g c pc tr trace_ctx ip "*** SNAPSHOT NOT ALLOCATED ***\n").1
          trace_ctx ip "*** stopping trace here!   ***\n").1
        exact ⟨k1.trans h1, buffer_extends_trans _ _ _ h2 k2⟩
      · split
        · exact ⟨(live_extended_spare _ _ (two pc _ _)).1,
            (live_extended_spare _ _ (two pc _ _)).2.1⟩
        · exact ⟨(live_extended_spare _ _ (two pc _ _)).1,
            (live_extended_spare _ _ (two pc _ _)).2.1⟩

theorem snapshot_step_exclusive (env : ring_buffer_env) (tr : trace_array) (op : snapshot_op)
    (h : tr.snapshot = 0 ∨ tr.mapped = 0) :
    (snapshot_step env tr op).snapshot = 0 ∨ (snapshot_step env tr op).mapped = 0 := by
  cases op with
  | arm =>
    show (tracing_arm_snapshot_locked env tr).2.snapshot = 0 ∨
      (tracing_arm_snapshot_locked env tr).2.mapped = 0
    unfold tracing_arm_snapshot_locked
    split
    · exact h
    · rename_i hc
      have hm : tr.mapped = 0 := by
        by_contra hne
        exact hc (by simp [hne])
      obtain ⟨-, -, -, f4⟩ :=
        tracing_alloc_snapshot_instance_frame env { tr with snapshot := tr.snapshot + 1 }
      right
      simp only
      split
      · exact f4.trans hm
      · exact f4.trans hm
  | disarm =>
    show (tracing_disarm_snapshot tr).snapshot = 0 ∨ (tracing_disarm_snapshot tr).mapped = 0
    unfold tracing_disarm_snapshot
    split
    · rcases h with h | h
      · left; show tr.snapshot - 1 = 0; omega
      · right; exact h
    · exact h
  | get_map =>
    show (get_snapshot_map tr).2.snapshot = 0 ∨ (get_snapshot_map tr).2.mapped = 0
    unfold get_snapshot_map
    split
    · exact h
    · rename_i hc
      left
      show tr.snapshot = 0
      by_contra hne
      exact hc (by simp [hne])
  | put_map =>
    show (put_snapshot_map tr).snapshot = 0 ∨ (put_snapshot_map tr).mapped = 0
    unfold put_snapshot_map
    split
    · rcases h with h | h
      · left; exact h
      · right; show tr.mapped - 1 = 0; omega
    · exact h

theorem snapshot_run_exclusive (env : ring_buffer_env) (ops : List snapshot_op) :
    ∀ tr : trace_array, (tr.snapshot = 0 ∨ tr.mapped = 0) →
      ((ops.foldl (snapshot_step env) tr).snapshot = 0 ∨
        (ops.foldl (snapshot_step env) tr).mapped = 0) := by
  induction ops with
  | nil => intro tr h; exact h
  | cons op rest ih =>
    intro tr h
    exact ih _ (snapshot_step_exclusive env tr op h)

/-- C16, counterexample: on an instance that is not armed, `get_snapshot_map` succeeds and
takes the mapped counter to 1; a second `get_snapshot_map` while that mapping is held
succeeds as well and takes the counter to 2. -/
theorem get_snapshot_map_accepts_second_mapping :
    scenario_tr_function.snapshot = 0 ∧ scenario_tr_function.mapped = 0 ∧
    (get_snapshot_map scenario_tr_function).1 = 0 ∧
    (get_snapshot_map scenario_tr_function).2.mapped = 1 ∧
    (get_snapshot_map (get_snapshot_map scenario_tr_function).2).1 = 0 ∧
    (get_snapshot_map (get_snapshot_map scenario_tr_function).2).2.mapped = 2 := by
  decide

/-- C16, amended: over every sequence of `tracing_arm_snapshot`, `tracing_disarm_snapshot`,
`get_snapshot_map` and `put_snapshot_map` on an instance that starts with one of the two
counters at zero, the armed counter and the mapped counter are never both nonzero.
`get_snapshot_map` fails with `-EBUSY` and changes nothing while a snapshot is armed, and
arming fails with `-EBUSY` and changes nothing while the buffer is mapped.  The mapped
guard is a counter: on an instance that is not armed every `get_snapshot_map` succeeds and
adds one to it, a mapping already held or not, and is refused with `-EBUSY` only at
`UINT_MAX`.  `tracing_snapshot_instance_cond` performs no swap while the buffer is mapped:
the spare set is as before and the live buffer keeps its records. -/
theorem snapshot_map_exclusion (env : ring_buffer_env) (tr : trace_array)
    (ops : List snapshot_op) (h : tr.snapshot = 0 ∨ tr.mapped = 0) :
    ((ops.foldl (snapshot_step env) tr).snapshot = 0 ∨
      (ops.foldl (snapshot_step env) tr).mapped = 0) ∧
    (∀ t : trace_array, t.snapshot ≠ 0 → get_snapshot_map t = (-EBUSY, t)) ∧
    (∀ t : trace_array, t.mapped ≠ 0 → tracing_arm_snapshot env t = (-EBUSY, t)) ∧
    (∀ t : trace_array, t.snapshot = 0 → t.mapped ≠ UINT_MAX →
      get_snapshot_map t = (0, { t with mapped := t.mapped + 1 })) ∧
    (∀ t : trace_array, t.mapped = UINT_MAX → get_snapshot_map t = (-EBUSY, t)) ∧
    (∀ (g : tracer_globals) (c : stack_caller) (pc : percpu_vars)
      (update : trace_array → Nat → Bool) (trace_ctx ip : Nat) (in_nmi : Bool)
      (current : task_struct) (t : trace_array) (cond_data : Nat), t.mapped ≠ 0 →
      (tracing_snapshot_instance_cond env g c pc update trace_ctx ip in_nmi current t
          cond_data).1.max_buffer = t.max_buffer ∧
        buffer_extends t.array_buffer.buffer
          (tracing_snapshot_instance_cond env g c pc update trace_ctx ip in_nmi current t
            cond_data).1.array_buffer.buffer) := by
  refine ⟨snapshot_run_exclusive env ops tr h, ?_, ?_, ?_, ?_, ?_⟩
  · intro t ht
    unfold get_snapshot_map
    rw [if_pos (by simp [ht])]
  · intro t ht
    show tracing_arm_snapshot_locked env t = _
    unfold tracing_arm_snapshot_locked
    rw [if_pos (by simp [ht])]
  · intro t h1 h2
    unfold get_snapshot_map
    rw [if_neg (by simp [h1, h2])]
  · intro t ht
    unfold get_snapshot_map
    rw [if_pos (by simp [ht])]
  · intro g c pc update trace_ctx ip in_nmi current t cond_data ht
    exact tracing_snapshot_instance_cond_mapped env g c pc update trace_ctx ip in_nmi current
      t cond_data ht

/-- The instance of C16 for a mapping taken twice, an attempt to arm, and the two mappings
released: arming is refused, and a snapshot requested while mapped leaves the spare set
empty. -/
theorem snapshot_map_exclusion_witness :
    (scenario_tr_function.snapshot = 0 ∨ scenario_tr_function.mapped = 0) ∧
    (([snapshot_op.get_map, snapshot_op.get_map, snapshot_op.arm, snapshot_op.put_map,
        snapshot_op.put_map].foldl (snapshot_step env_ok) scenario_tr_function).snapshot = 0 ∨
      ([snapshot_op.get_map, snapshot_op.get_map, snapshot_op.arm, snapshot_op.put_map,
        snapshot_op.put_map].foldl (snapshot_step env_ok) scenario_tr_function).mapped = 0) ∧
    ([snapshot_op.get_map, snapshot_op.get_map, snapshot_op.arm].foldl (snapshot_step env_ok)
      scenario_tr_function).snapshot = 0 ∧
    (tracing_snapshot_instance_cond env_ok scenario_globals scenario_stack_caller
      scenario_percpu_vars accept_update 0 0 false scenario_task scenario_tr_mapped
      0).1.max_buffer = scenario_tr_mapped.max_buffer :=
  have h := snapshot_map_exclusion env_ok scenario_tr_function
    [snapshot_op.get_map, snapshot_op.get_map, snapshot_op.arm, snapshot_op.put_map,
      snapshot_op.put_map] (Or.inl rfl)
  ⟨Or.inl rfl, h.1, by decide,
    (h.2.2.2.2.2 scenario_globals scenario_stack_caller scenario_percpu_vars accept_update 0 0
      false scenario_task scenario_tr_mapped 0 (by decide)).1⟩

/-! ## Writes to the snapshot control file -/

theorem tracing_alloc_snapshot_instance_keeps (env : ring_buffer_env) (tr : trace_array) :
    (tracing_alloc_snapshot_instance env tr).2.stop_count = tr.stop_count ∧
      (tracing_alloc_snapshot_instance env tr).2.cond_snapshot = tr.cond_snapshot ∧
      (tracing_alloc_snapshot_instance env tr).2.max_buffer.data.length =
        tr.max_buffer.data.length := by
  unfold tracing_alloc_snapshot_instance
  split
  · simp only
    split
    · exact ⟨rfl, rfl, rfl⟩
    · have hlen : ∀ (l : List Nat) (ret : Int) (tb : array_buffer),
          (resize_buffer_duplicate_loop env tr.array_buffer l ret tb).2.data.length =
            tb.data.length := by
        intro l
        induction l with
        | nil => intro ret tb; rfl
        | cons cpu rest ih =>
          intro ret tb
          unfold resize_buffer_duplicate_loop
          simp only
          split
          · rfl
          · rw [ih]; simp
      have hd : (resize_buffer_duplicate_size env
          { tr.max_buffer with buffer := (ring_buffer_subbuf_order_set env tr.max_buffer.buffer
            (ring_buffer_subbuf_order_get tr.array_buffer.buffer)).2 }
          tr.array_buffer RING_BUFFER_ALL_CPUS).2.data.length = tr.max_buffer.data.length := by
        unfold resize_buffer_duplicate_size
        rw [if_pos rfl, hlen]
      split
      · exact ⟨rfl, rfl, hd⟩
      · exact ⟨rfl, rfl, hd⟩
  · exact ⟨rfl, rfl, rfl⟩

/-- What `tracing_arm_snapshot_locked` leaves as it is, and the armed counter and the
allocation state after a success and after a failure. -/
theorem tracing_arm_snapshot_locked_facts (env : ring_buffer_env) (tr : trace_array) :
    (tracing_arm_snapshot_locked env tr).2.array_buffer = tr.array_buffer ∧
      (tracing_arm_snapshot_locked env tr).2.stop_count = tr.stop_count ∧
      (tracing_arm_snapshot_locked env tr).2.cond_snapshot = tr.cond_snapshot ∧
      ((tracing_arm_snapshot_locked env tr).1 = 0 →
        (tracing_arm_snapshot_locked env tr).2.snapshot = tr.snapshot + 1 ∧
          (tracing_arm_snapshot_locked env tr).2.allocated_snapshot = true ∧ tr.mapped = 0) ∧
      ((tracing_arm_snapshot_locked env tr).1 ≠ 0 →
        (tracing_arm_snapshot_locked env tr).2.snapshot = tr.snapshot ∧
          (tracing_arm_snapshot_locked env tr).2.allocated_snapshot = tr.allocated_snapshot) := by
  unfold tracing_arm_snapshot_locked
  split
  · refine ⟨rfl, rfl, rfl, fun h => ?_, fun _ => ⟨rfl, rfl⟩⟩
    exact absurd h (by show ¬ (-EBUSY : Int) = 0; decide)
  · rename_i hc
    have hm : tr.mapped = 0 := by
      by_contra hne
      exact hc (by simp [hne])
    obtain ⟨-, f2, f3, -⟩ :=
      tracing_alloc_snapshot_instance_frame env { tr with snapshot := tr.snapshot + 1 }
    obtain ⟨k1, k2, -⟩ :=
      tracing_alloc_snapshot_instance_keeps env { tr with snapshot := tr.snapshot + 1 }
    simp only
    split
    · rename_i hne
      refine ⟨f3, k1, k2, fun h => absurd h hne, fun _ => ⟨?_, ?_⟩⟩
      · show (tracing_alloc_snapshot_instance env _).2.snapshot - 1 = tr.snapshot
        rw [f2]
        show tr.snapshot + 1 - 1 = tr.snapshot
        omega
      · exact (tracing_alloc_snapshot_instance_fail env _ hne).2.trans
          (tracing_alloc_snapshot_instance_fail env _ hne).1.symm
    · rename_i hz
      have hz0 : (tracing_alloc_snapshot_instance env
          { tr with snapshot := tr.snapshot + 1 }).1 = 0 := by
        by_contra hne; exact hz hne
      refine ⟨f3, k1, k2, fun _ => ⟨f2, ?_, hm⟩, fun h => absurd hz0 h⟩
      rcases Bool.eq_false_or_eq_true tr.allocated_snapshot with ha | ha
      · unfold tracing_alloc_snapshot_instance
        simp [ha]
      · exact (tracing_alloc_snapshot_instance_ok env { tr with snapshot := tr.snapshot + 1 }
          ha hz0).1

/-- A write of a parsed value, once the buffers are updated and the tracer is looked up. -/
theorem tracing_snapshot_write_eq (env : ring_buffer_env) (g g1 : tracer_globals)
    (printk_trace : trace_array) (allow_swap : Bool) (update : trace_array → Nat → Bool)
    (this_cpu remote : cpu_context) (tr tr1 : trace_array) (cpu_file : Int) (val cnt : Nat)
    (ret0 : Int) (tracer : tracer)
    (hu : tracing_update_buffers env g tr = (ret0, g1, tr1)) (hret0 : ¬ ret0 < 0)
    (ht : g1.trace_types[tr1.current_trace]? = some tracer) :
    tracing_snapshot_write env g printk_trace allow_swap update this_cpu remote tr cpu_file
        (0, val) cnt =
      if tracer.use_max_tr then { ret := -EBUSY, g := g1, tr := tr1, remote := remote.percpu }
      else if tr1.cond_snapshot.isSome then
        { ret := -EBUSY, g := g1, tr := tr1, remote := remote.percpu }
      else
        tracing_snapshot_write_switch env g1 printk_trace allow_swap update this_cpu remote tr1
          cpu_file val cnt := by
  unfold tracing_snapshot_write
  simp only [hu, if_neg hret0, ht, ne_eq, not_true_eq_false, if_false]

/-- C20, counterexample: two writes of the value 1 to the all-CPU snapshot control of an
instance that runs `nop`, has no conditional snapshot and has its spare set allocated.
With the buffer mapped once the write is rejected with `-EBUSY`; with the instance stopped
once the write returns the count as a success.  In both cases live and spare are not
exchanged: the live set still holds the records A, B and C and the spare set is empty. -/
theorem tracing_snapshot_write_one_without_exchange :
    (scenario_globals.trace_types[scenario_tr_idle.current_trace]?).map
      (fun t => (t.name, t.use_max_tr)) = some (some "nop", false) ∧
    scenario_tr_idle.cond_snapshot = none ∧
    (tracing_snapshot_write env_ok scenario_globals scenario_tr false accept_update
      scenario_cpu_context scenario_cpu_context scenario_tr_idle_mapped RING_BUFFER_ALL_CPUS
      (0, 1) 2).ret = -EBUSY ∧
    (tracing_snapshot_write env_ok scenario_globals scenario_tr false accept_update
      scenario_cpu_context scenario_cpu_context scenario_tr_idle_mapped RING_BUFFER_ALL_CPUS
      (0, 1) 2).tr = scenario_tr_idle_mapped ∧
    (tracing_snapshot_write env_ok scenario_globals scenario_tr false accept_update
      scenario_cpu_context scenario_cpu_context scenario_tr_idle_stopped RING_BUFFER_ALL_CPUS
      (0, 1) 2).ret = 2 ∧
    (tracing_snapshot_write env_ok scenario_globals scenario_tr false accept_update
      scenario_cpu_context scenario_cpu_context scenario_tr_idle_stopped RING_BUFFER_ALL_CPUS
      (0, 1) 2).tr.array_buffer.buffer = scenario_buffer ∧
    (tracing_snapshot_write env_ok scenario_globals scenario_tr false accept_update
      scenario_cpu_context scenario_cpu_context scenario_tr_idle_stopped RING_BUFFER_ALL_CPUS
      (0, 1) 2).tr.max_buffer.buffer = scenario_empty_buffer := by
  decide

theorem update_max_tr_keeps (update : trace_array → Nat → Bool) (tr : trace_array)
    (tsk : task_struct) (cur : Bool) (cpu : Nat) (cond_data : Nat) :
    (update_max_tr update tr tsk cur cpu cond_data).snapshot = tr.snapshot ∧
      (update_max_tr update tr tsk cur cpu cond_data).allocated_snapshot =
        tr.allocated_snapshot := by
  unfold update_max_tr
  by_cases h1 : tr.stop_count ≠ 0
  · rw [if_pos h1]; exact ⟨rfl, rfl⟩
  · rw [if_neg h1]
    by_cases h2 : (!tr.allocated_snapshot) = true
    · rw [if_pos h2]; exact ⟨rfl, rfl⟩
    · rw [if_neg h2]
      simp only [inherit_record_eq]
      split
      · exact ⟨rfl, rfl⟩
      · unfold __update_max_tr
        split <;> exact ⟨rfl, rfl⟩

theorem tracing_reset_online_cpus_empty (env : ring_buffer_env) (buf : array_buffer) :
    ∀ c ∈ (tracing_reset_online_cpus env buf).buffer.cpus, c.events = [] := by
  intro c hc
  unfold tracing_reset_online_cpus ring_buffer_record_enable ring_buffer_reset
    ring_buffer_record_disable at hc
  simp only [List.mem_map] at hc
  obtain ⟨x, -, hx⟩ := hc
  rw [← hx]

/-- C20, amended: a write of a number to the snapshot control of an instance whose buffers
are up to date.  While the current tracer uses the spare set or a conditional snapshot is
registered it is rejected with `-EBUSY` and changes nothing.  Otherwise: the value 0 is
rejected with `-EINVAL` on a per-CPU control and on the all-CPU control frees the spare
set, `allocated_snapshot` being false afterwards; the value 1 on the all-CPU control
arms the snapshot, which allocates the spare set if needed, and when that fails (as it
does with `-EBUSY` while the buffer is mapped) returns the error without an exchange;
when it succeeds the write returns the count, the spare set is allocated and the armed
counter is back at its previous value, and live and spare are exchanged exactly once
unless the instance is stopped, in which case they are not exchanged; any other number on
the all-CPU control neither allocates nor frees, and clears the spare set when it is
allocated. -/
theorem tracing_snapshot_write_contract (env : ring_buffer_env) (g g1 : tracer_globals)
    (printk_trace : trace_array) (allow_swap : Bool) (update : trace_array → Nat → Bool)
    (this_cpu remote : cpu_context) (tr tr1 tr2 : trace_array) (cnt : Nat) (ret0 : Int)
    (tracer : tracer) (armed : Int × trace_array)
    (hu : tracing_update_buffers env g tr = (ret0, g1, tr1)) (hret0 : ¬ ret0 < 0)
    (ht : g1.trace_types[tr1.current_trace]? = some tracer)
    (htr2 : tr2 = if tr1.allocated_snapshot then
      { tr1 with
        max_buffer := (resize_buffer_duplicate_size env tr1.max_buffer tr1.array_buffer
          RING_BUFFER_ALL_CPUS).2 }
      else tr1)
    (harm : tracing_arm_snapshot_locked env tr2 = armed) :
    ((tracer.use_max_tr = true ∨ tr1.cond_snapshot.isSome = true) → ∀ cpu_file val,
      (tracing_snapshot_write env g printk_trace allow_swap update this_cpu remote tr cpu_file
        (0, val) cnt).ret = -EBUSY ∧
      (tracing_snapshot_write env g printk_trace allow_swap update this_cpu remote tr cpu_file
        (0, val) cnt).tr = tr1) ∧
    (tracer.use_max_tr = false → tr1.cond_snapshot = none →
      (∀ cpu_file, cpu_file ≠ RING_BUFFER_ALL_CPUS →
        (tracing_snapshot_write env g printk_trace allow_swap update this_cpu remote tr
          cpu_file (0, 0) cnt).ret = -EINVAL ∧
        (tracing_snapshot_write env g printk_trace allow_swap update this_cpu remote tr
          cpu_file (0, 0) cnt).tr = tr1) ∧
      ((tracing_snapshot_write env g printk_trace allow_swap update this_cpu remote tr
          RING_BUFFER_ALL_CPUS (0, 0) cnt).ret = cnt ∧
        (tracing_snapshot_write env g printk_trace allow_swap update this_cpu remote tr
          RING_BUFFER_ALL_CPUS (0, 0) cnt).tr.allocated_snapshot = false ∧
        (tracing_snapshot_write env g printk_trace allow_swap update this_cpu remote tr
          RING_BUFFER_ALL_CPUS (0, 0) cnt).tr.snapshot = tr1.snapshot ∧
        (tracing_snapshot_write env g printk_trace allow_swap update this_cpu remote tr
          RING_BUFFER_ALL_CPUS (0, 0) cnt).tr.array_buffer = tr1.array_buffer) ∧
      (armed.1 ≠ 0 →
        (tracing_snapshot_write env g printk_trace allow_swap update this_cpu remote tr
          RING_BUFFER_ALL_CPUS (0, 1) cnt).ret = armed.1 ∧
        (tracing_snapshot_write env g printk_trace allow_swap update this_cpu remote tr
          RING_BUFFER_ALL_CPUS (0, 1) cnt).tr.array_buffer = tr1.array_buffer ∧
        (tracing_snapshot_write env g printk_trace allow_swap update this_cpu remote tr
          RING_BUFFER_ALL_CPUS (0, 1) cnt).tr.snapshot = tr1.snapshot ∧
        (tracing_snapshot_write env g printk_trace allow_swap update this_cpu remote tr
          RING_BUFFER_ALL_CPUS (0, 1) cnt).tr.allocated_snapshot = tr1.allocated_snapshot) ∧
      (tr1.mapped ≠ 0 → armed.1 = -EBUSY) ∧
      (armed.1 = 0 →
        (tracing_snapshot_write env g printk_trace allow_swap update this_cpu remote tr
          RING_BUFFER_ALL_CPUS (0, 1) cnt).ret = cnt ∧
        (tracing_snapshot_write env g printk_trace allow_swap update this_cpu remote tr
          RING_BUFFER_ALL_CPUS (0, 1) cnt).tr.allocated_snapshot = true ∧
        (tracing_snapshot_write env g printk_trace allow_swap update this_cpu remote tr
          RING_BUFFER_ALL_CPUS (0, 1) cnt).tr.snapshot = tr1.snapshot ∧
        (tr1.stop_count ≠ 0 →
          (tracing_snapshot_write env g printk_trace allow_swap update this_cpu remote tr
            RING_BUFFER_ALL_CPUS (0, 1) cnt).tr.array_buffer = tr1.array_buffer ∧
          (tracing_snapshot_write env g printk_trace allow_swap update this_cpu remote tr
            RING_BUFFER_ALL_CPUS (0, 1) cnt).tr.max_buffer = armed.2.max_buffer) ∧
        (tr1.stop_count = 0 →
          (tracing_snapshot_write env g printk_trace allow_swap update this_cpu remote tr
            RING_BUFFER_ALL_CPUS (0, 1) cnt).tr.max_buffer.buffer = tr1.array_buffer.buffer ∧
          (tracing_snapshot_write env g printk_trace allow_swap update this_cpu remote tr
            RING_BUFFER_ALL_CPUS (0, 1) cnt).tr.array_buffer.buffer =
              { armed.2.max_buffer.buffer with
                record_on := tr1.array_buffer.buffer.record_on })) ∧
      (∀ val, val ≠ 0 → val ≠ 1 →
        (tracing_snapshot_write env g printk_trace allow_swap update this_cpu remote tr
          RING_BUFFER_ALL_CPUS (0, val) cnt).ret = cnt ∧
        (tracing_snapshot_write env g printk_trace allow_swap update this_cpu remote tr
          RING_BUFFER_ALL_CPUS (0, val) cnt).tr.allocated_snapshot = tr1.allocated_snapshot ∧
        (tracing_snapshot_write env g printk_trace allow_swap update this_cpu remote tr
          RING_BUFFER_ALL_CPUS (0, val) cnt).tr.snapshot = tr1.snapshot ∧
        (tracing_snapshot_write env g printk_trace allow_swap update this_cpu remote tr
          RING_BUFFER_ALL_CPUS (0, val) cnt).tr.array_buffer = tr1.array_buffer ∧
        (tracing_snapshot_write env g printk_trace allow_swap update this_cpu remote tr
          RING_BUFFER_ALL_CPUS (0, val) cnt).tr.max_buffer =
            (if tr1.allocated_snapshot then tracing_reset_online_cpus env tr1.max_buffer
              else tr1.max_buffer) ∧
        (tr1.allocated_snapshot = true →
          ∀ c ∈ (tracing_snapshot_write env g printk_trace allow_swap update this_cpu remote tr
            RING_BUFFER_ALL_CPUS (0, val) cnt).tr.max_buffer.buffer.cpus, c.events = []))) := by
  have hw := fun cpu_file val => tracing_snapshot_write_eq env g g1 printk_trace allow_swap
    update this_cpu remote tr tr1 cpu_file val cnt ret0 tracer hu hret0 ht
  have h2array : tr2.array_buffer = tr1.array_buffer := by
    rw [htr2]; split <;> rfl
  have h2snap : tr2.snapshot = tr1.snapshot := by
    rw [htr2]; split <;> rfl
  have h2alloc : tr2.allocated_snapshot = tr1.allocated_snapshot := by
    rw [htr2]; split <;> rfl
  have h2stop : tr2.stop_count = tr1.stop_count := by
    rw [htr2]; split <;> rfl
  have h2cond : tr2.cond_snapshot = tr1.cond_snapshot := by
    rw [htr2]; split <;> rfl
  have h2map : tr2.mapped = tr1.mapped := by
    rw [htr2]; split <;> rfl
  obtain ⟨a1, a2, a3, a4, a5⟩ := tracing_arm_snapshot_locked_facts env tr2
  rw [harm] at a1 a2 a3 a4 a5
  constructor
  · intro hbusy cpu_file val
    rw [hw]
    rcases hbusy with h | h
    · rw [if_pos h]; exact ⟨rfl, rfl⟩
    · by_cases hm : tracer.use_max_tr = true
      · rw [if_pos hm]; exact ⟨rfl, rfl⟩
      · rw [if_neg hm, if_pos h]; exact ⟨rfl, rfl⟩
  · intro hmax hcond
    have hc : tr1.cond_snapshot.isSome = false := by rw [hcond]; rfl
    have hw2 : ∀ cpu_file val, tracing_snapshot_write env g printk_trace allow_swap update
        this_cpu remote tr cpu_file (0, val) cnt =
        tracing_snapshot_write_switch env g1 printk_trace allow_swap update this_cpu remote tr1
          cpu_file val cnt := by
      intro cpu_file val
      rw [hw, hmax, hc]
      simp only [Bool.false_eq_true, if_false]
    have hsw1 : tracing_snapshot_write_switch env g1 printk_trace allow_swap update this_cpu
        remote tr1 RING_BUFFER_ALL_CPUS 1 cnt =
        if armed.1 ≠ 0 then { ret := armed.1, g := g1, tr := armed.2, remote := remote.percpu }
        else { ret := cnt, g := g1,
               tr := tracing_disarm_snapshot
                (update_max_tr update armed.2 this_cpu.current true this_cpu.caller.cpu 0),
               remote := remote.percpu } := by
      unfold tracing_snapshot_write_switch
      rw [if_neg (by decide), if_pos rfl]
      simp only [ne_eq, not_true_eq_false, decide_False, Bool.and_false, Bool.false_eq_true,
        if_false, if_true]
      rw [← htr2, harm]
    refine ⟨?_, ?_, ?_, ?_, ?_, ?_⟩
    · intro cpu_file hcpu
      rw [hw2]
      unfold tracing_snapshot_write_switch
      rw [if_pos rfl, if_pos hcpu]
      exact ⟨rfl, rfl⟩
    · rw [hw2]
      unfold tracing_snapshot_write_switch
      rw [if_pos rfl, if_neg (by simp)]
      refine ⟨rfl, ?_, ?_, ?_⟩
      · show (if tr1.allocated_snapshot then free_snapshot env tr1 else tr1).allocated_snapshot
          = false
        split
        · rfl
        · rename_i h; simpa using h
      · show (if tr1.allocated_snapshot then free_snapshot env tr1 else tr1).snapshot = _
        split <;> rfl
      · show (if tr1.allocated_snapshot then free_snapshot env tr1 else tr1).array_buffer = _
        split <;> rfl
    · intro hfail
      rw [hw2, hsw1, if_pos hfail]
      obtain ⟨b1, b2⟩ := a5 hfail
      exact ⟨rfl, a1.trans h2array, b1.trans h2snap, b2.trans h2alloc⟩
    · intro hmap
      rw [← harm]
      unfold tracing_arm_snapshot_locked
      rw [if_pos (by rw [h2map]; simp [hmap])]
    · intro hok
      obtain ⟨b1, b2, -⟩ := a4 hok
      rw [hw2, hsw1, if_neg (by rw [hok]; simp)]
      obtain ⟨u1, u2⟩ := update_max_tr_keeps update armed.2 this_cpu.current true
        this_cpu.caller.cpu 0
      have hdis : ∀ x : trace_array, x.snapshot = tr1.snapshot + 1 →
          (tracing_disarm_snapshot x).snapshot = tr1.snapshot ∧
            (tracing_disarm_snapshot x).allocated_snapshot = x.allocated_snapshot ∧
            (tracing_disarm_snapshot x).array_buffer = x.array_buffer ∧
            (tracing_disarm_snapshot x).max_buffer = x.max_buffer := by
        intro x hx
        unfold tracing_disarm_snapshot
        rw [if_pos (by rw [hx]; omega)]
        refine ⟨?_, rfl, rfl, rfl⟩
        show x.snapshot - 1 = tr1.snapshot
        omega
      obtain ⟨d1, d2, d3, d4⟩ := hdis _ (u1.trans (b1.trans (by rw [h2snap])))
      refine ⟨rfl, d2.trans (u2.trans b2), d1, ?_, ?_⟩
      · intro hstop
        have : update_max_tr update armed.2 this_cpu.current true this_cpu.caller.cpu 0 =
            armed.2 := by
          unfold update_max_tr
          rw [if_pos (by rw [a2, h2stop]; exact hstop)]
        refine ⟨d3.trans ?_, d4.trans ?_⟩
        · rw [this]; exact a1.trans h2array
        · rw [this]
      · intro hstop
        have ht := update_max_tr_taken update armed.2 this_cpu.current true this_cpu.caller.cpu 0
          (by rw [a2, h2stop]; exact hstop) b2
          (by intro h; rw [a3, h2cond, hcond] at h; exact absurd h (by decide))
        obtain ⟨f1, f2, -, -, -⟩ := __update_max_tr_frame
          { armed.2 with
            array_buffer := { armed.2.array_buffer with
              buffer := { armed.2.max_buffer.buffer with
                record_on := armed.2.array_buffer.buffer.record_on } }
            max_buffer := { armed.2.max_buffer with buffer := armed.2.array_buffer.buffer } }
          this_cpu.current true this_cpu.caller.cpu
        refine ⟨?_, ?_⟩
        · show (tracing_disarm_snapshot _).max_buffer.buffer = _
          rw [d4, ht, f2]
          show armed.2.array_buffer.buffer = _
          rw [a1, h2array]
        · show (tracing_disarm_snapshot _).array_buffer.buffer = _
          rw [d3, ht, f1]
          show ({ armed.2.max_buffer.buffer with
            record_on := armed.2.array_buffer.buffer.record_on } : trace_buffer) = _
          rw [a1, h2array]
    · intro val h0 h1
      rw [hw2]
      unfold tracing_snapshot_write_switch
      rw [if_neg h0, if_neg h1]
      simp only [if_true]
      refine ⟨trivial, ?_, ?_, ?_, ?_, ?_⟩
      · split <;> rfl
      · split <;> rfl
      · split <;> rfl
      · split <;> rfl
      · intro hal
        rw [if_pos hal]
        exact tracing_reset_online_cpus_empty env tr1.max_buffer

/-- The instance of C20 for a write of 1 to the all-CPU control of the idle instance: the
write returns the count, the spare set then holds the buffer that was live, and the armed
counter is 0 as before. -/
theorem tracing_snapshot_write_contract_witness :
    ¬ (0 : Int) < 0 ∧
    (tracing_snapshot_write env_ok scenario_globals scenario_tr false accept_update
      scenario_cpu_context scenario_cpu_context scenario_tr_idle RING_BUFFER_ALL_CPUS
      (0, 1) 2).ret = 2 ∧
    (tracing_snapshot_write env_ok scenario_globals scenario_tr false accept_update
      scenario_cpu_context scenario_cpu_context scenario_tr_idle RING_BUFFER_ALL_CPUS
      (0, 1) 2).tr.snapshot = 0 ∧
    (tracing_snapshot_write env_ok scenario_globals scenario_tr false accept_update
      scenario_cpu_context scenario_cpu_context scenario_tr_idle RING_BUFFER_ALL_CPUS
      (0, 1) 2).tr.max_buffer.buffer = scenario_buffer :=
  have h := tracing_snapshot_write_contract env_ok scenario_globals scenario_globals
    scenario_tr false accept_update scenario_cpu_context scenario_cpu_context scenario_tr_idle
    scenario_tr_idle
    { scenario_tr_idle with
      max_buffer := (resize_buffer_duplicate_size env_ok scenario_tr_idle.max_buffer
        scenario_tr_idle.array_buffer RING_BUFFER_ALL_CPUS).2 }
    2 0 scenario_nop
    (tracing_arm_snapshot_locked env_ok
      { scenario_tr_idle with
        max_buffer := (resize_buffer_duplicate_size env_ok scenario_tr_idle.max_buffer
          scenario_tr_idle.array_buffer RING_BUFFER_ALL_CPUS).2 })
    rfl (by decide) rfl rfl rfl
  have h1 := (h.2 rfl rfl).2.2.2.2.1 (by decide)
  ⟨by decide, h1.1, h1.2.2.1, (h1.2.2.2.2 rfl).1⟩

/-! ## A tracer switch that is refused or void -/

theorem tracer_state_kept_refl (tr : trace_array) : tracer_state_kept tr tr :=
  ⟨rfl, rfl, rfl, rfl, rfl, rfl, rfl, rfl⟩

theorem tracer_state_kept_trans (a b c : trace_array) (h1 : tracer_state_kept a b)
    (h2 : tracer_state_kept b c) : tracer_state_kept a c := by
  obtain ⟨a1, a2, a3, a4, a5, a6, a7, a8⟩ := h1
  obtain ⟨b1, b2, b3, b4, b5, b6, b7, b8⟩ := h2
  exact ⟨b1.trans a1, b2.trans a2, b3.trans a3, b4.trans a4, b5.trans a5, b6.trans a6,
    b7.trans a7, b8.trans a8⟩

theorem tracing_stop_tr_kept (tr : trace_array) : tracer_state_kept tr (tracing_stop_tr tr) := by
  unfold tracing_stop_tr
  split <;> exact ⟨rfl, rfl, rfl, rfl, rfl, rfl, rfl, rfl⟩

theorem tracing_start_tr_kept (g : tracer_globals) (tr : trace_array) :
    tracer_state_kept tr (tracing_start_tr g tr) := by
  unfold tracing_start_tr
  split
  · exact tracer_state_kept_refl _
  · split
    · split <;> exact ⟨rfl, rfl, rfl, rfl, rfl, rfl, rfl, rfl⟩
    · exact ⟨rfl, rfl, rfl, rfl, rfl, rfl, rfl, rfl⟩

theorem update_last_data_kept (env : ring_buffer_env) (tr : trace_array) :
    tracer_state_kept tr (update_last_data env tr) := by
  unfold update_last_data
  split
  · exact tracer_state_kept_refl _
  · split
    · exact tracer_state_kept_refl _
    · exact ⟨rfl, rfl, rfl, rfl, rfl, rfl, rfl, rfl⟩

theorem __tracing_resize_ring_buffer_kept (env : ring_buffer_env) (g : tracer_globals)
    (tr : trace_array) (size : Nat) (cpu : Int) :
    tracer_state_kept tr (__tracing_resize_ring_buffer env g tr size cpu).2.2 ∧
      (__tracing_resize_ring_buffer env g tr size cpu).2.1.trace_types = g.trace_types ∧
      (__tracing_resize_ring_buffer env g tr size cpu).2.1.nop_trace = g.nop_trace ∧
      (__tracing_resize_ring_buffer env g tr size cpu).2.1.system_running =
        g.system_running := by
  have h0 : tracer_state_kept tr (tracing_stop_tr { tr with ring_buffer_expanded := true }) :=
    tracer_state_kept_trans tr { tr with ring_buffer_expanded := true } _
      ⟨rfl, rfl, rfl, rfl, rfl, rfl, rfl, rfl⟩ (tracing_stop_tr_kept _)
  have step : ∀ (g1 : tracer_globals) (x : trace_array),
      tracer_state_kept (tracing_stop_tr { tr with ring_buffer_expanded := true }) x →
      tracer_state_kept tr (tracing_start_tr g1 x) :=
    fun g1 x hx => tracer_state_kept_trans _ _ _ (tracer_state_kept_trans _ _ _ h0 hx)
      (tracing_start_tr_kept g1 x)
  unfold __tracing_resize_ring_buffer
  simp only
  split
  · exact ⟨step _ _ ⟨rfl, rfl, rfl, rfl, rfl, rfl, rfl, rfl⟩, rfl, rfl, rfl⟩
  · split
    · exact ⟨step _ _ ⟨rfl, rfl, rfl, rfl, rfl, rfl, rfl, rfl⟩, rfl, rfl, rfl⟩
    · split
      · refine ⟨step _ _ ⟨rfl, rfl, rfl, rfl, rfl, rfl, rfl, rfl⟩, ?_, ?_, ?_⟩ <;>
          (split <;> rfl)
      · exact ⟨step _ _ ⟨rfl, rfl, rfl, rfl, rfl, rfl, rfl, rfl⟩, rfl, rfl, rfl⟩

theorem tracing_set_tracer_expand_kept (env : ring_buffer_env) (g : tracer_globals)
    (tr : trace_array) :
    tracer_state_kept tr (tracing_set_tracer_expand env g tr).2.2 ∧
      (tracing_set_tracer_expand env g tr).2.1.trace_types = g.trace_types ∧
      (tracing_set_tracer_expand env g tr).2.1.nop_trace = g.nop_trace ∧
      (tracing_set_tracer_expand env g tr).2.1.system_running = g.system_running := by
  unfold tracing_set_tracer_expand
  simp only
  split
  · obtain ⟨h1, h2, h3, h4⟩ := __tracing_resize_ring_buffer_kept env g (update_last_data env tr)
      g.trace_buf_size RING_BUFFER_ALL_CPUS
    exact ⟨tracer_state_kept_trans _ _ _ (update_last_data_kept env tr) h1, h2, h3, h4⟩
  · exact ⟨update_last_data_kept env tr, rfl, rfl, rfl⟩

/-- The first registered tracer named `buf` is the tracer at position `i` when that one
bears the name and the names are pairwise distinct. -/
theorem find_tracer_of_name (trace_types : List tracer) (buf : String) (i : Nat) (t : tracer)
    (hi : trace_types[i]? = some t) (hname : t.name = some buf)
    (hd : names_distinct trace_types) : find_tracer trace_types buf = some i := by
  obtain ⟨hlt, hget⟩ := List.getElem?_eq_some.1 hi
  have hidx : trace_types.findIdx (fun t => t.name == some buf) = i := by
    rw [List.findIdx_eq hlt]
    refine ⟨by rw [hget, hname]; simp, ?_⟩
    intro j hji
    have hp := List.pairwise_iff_getElem.1 hd j i (Nat.lt_trans hji hlt) hlt hji
    rw [hget, hname] at hp
    simpa using hp
  unfold find_tracer
  simp only [hidx, hlt, if_true]

/-- C11, counterexample: an instance other than `global_trace` runs `function` and has a
`trace_pipe` reader open; it is asked to switch to `mmiotrace`, a registered tracer other
than the current one, which is not allowed in instances.  The call returns `-EINVAL`, not
`-EBUSY`. -/
theorem tracing_set_tracer_pipe_open_returns_einval :
    scenario_tr_piped.trace_ref = 1 ∧
    find_tracer scenario_globals_mmio.trace_types "mmiotrace" = some 3 ∧
    scenario_tr_piped.current_trace = 1 ∧
    (tracing_set_tracer env_ok scenario_globals_mmio scenario_tr_piped "mmiotrace").ret =
      -EINVAL ∧
    (tracing_set_tracer env_ok scenario_globals_mmio scenario_tr_piped "mmiotrace").ret ≠
      -EBUSY := by
  decide

/-- C11, amended: `tracing_set_tracer` on an instance whose ring buffer is expanded or
expands without error.  Asked to switch to a registered tracer other than the current one
while a streaming read handle is open (`tr->trace_ref` is not 0), it refuses with `-EBUSY`
or, when an earlier check rejects the tracer (one marked noboot during boot, one not allowed
for this instance), with `-EINVAL`; it returns `-EBUSY` whenever the tracer passes those
checks.  With an unknown name it returns `-EINVAL`, with the name of the current tracer 0.
In all three cases the current tracer, the registry with its enabled counts, the armed
counter and the allocation of the spare set are unchanged. -/
theorem tracing_set_tracer_refused (env : ring_buffer_env) (g g0 : tracer_globals)
    (tr tr1 : trace_array) (buf : String) (ret0 : Int)
    (hprep : tracing_set_tracer_expand env g tr = (ret0, g0, tr1)) (hret0 : ¬ ret0 < 0) :
    (find_tracer g.trace_types buf = none →
      (tracing_set_tracer env g tr buf).ret = -EINVAL ∧
      (tracing_set_tracer env g tr buf).tr = tr1 ∧ (tracing_set_tracer env g tr buf).g = g0) ∧
    (∀ old, g.trace_types[tr.current_trace]? = some old → old.name = some buf →
      names_distinct g.trace_types →
      (tracing_set_tracer env g tr buf).ret = 0 ∧
      (tracing_set_tracer env g tr buf).tr = tr1 ∧ (tracing_set_tracer env g tr buf).g = g0) ∧
    (∀ t new old, find_tracer g.trace_types buf = some t → g.trace_types[t]? = some new →
      g.trace_types[tr.current_trace]? = some old → t ≠ tr.current_trace →
      tr.trace_ref ≠ 0 →
      ((tracing_set_tracer env g tr buf).ret = -EBUSY ∨
        (tracing_set_tracer env g tr buf).ret = -EINVAL) ∧
      (tracing_set_tracer env g tr buf).tr = tr1 ∧ (tracing_set_tracer env g tr buf).g = g0 ∧
      ((g.system_running = true ∨ new.noboot = false) → trace_ok_for_array new tr = true →
        (tracing_set_tracer env g tr buf).ret = -EBUSY)) ∧
    tracer_state_kept tr tr1 ∧ g0.trace_types = g.trace_types := by
  obtain ⟨k1, k2, -, k4⟩ := tracing_set_tracer_expand_kept env g tr
  rw [hprep] at k1 k2 k4
  simp only at k1 k2 k4
  have c1 := k1.1
  have c5 := k1.2.2.2.2.1
  have c6 := k1.2.2.2.2.2.1
  have c7 := k1.2.2.2.2.2.2.1
  have hok : ∀ new : tracer, trace_ok_for_array new tr1 = trace_ok_for_array new tr := by
    intro new
    unfold trace_ok_for_array
    rw [c6, c7]
  refine ⟨?_, ?_, ?_, k1, k2⟩
  · intro hfind
    unfold tracing_set_tracer
    simp only [hprep, if_neg hret0, k2, hfind]
    exact ⟨trivial, trivial, trivial⟩
  · intro old hold hname hd
    have hfind := find_tracer_of_name g.trace_types buf tr.current_trace old hold hname hd
    unfold tracing_set_tracer
    simp only [hprep, if_neg hret0, k2, hfind, c1, hold, if_true]
    exact ⟨trivial, trivial, trivial⟩
  · intro t new old hfind hnew hold hne href
    have hne1 : ¬ t = tr1.current_trace := by rw [c1]; exact hne
    have href1 : tr1.trace_ref ≠ 0 := by rw [c5]; exact href
    unfold tracing_set_tracer
    simp only [hprep, if_neg hret0, k2, hfind, hnew, c1, hold, if_neg hne]
    by_cases b1 : (new.use_max_tr && tr1.cond_snapshot.isSome) = true
    · rw [if_pos b1]
      exact ⟨Or.inl rfl, rfl, rfl, fun _ _ => rfl⟩
    · rw [if_neg b1]
      by_cases b2 : (!g0.system_running && new.noboot) = true
      · rw [if_pos b2]
        refine ⟨Or.inr rfl, rfl, rfl, fun hboot _ => ?_⟩
        rw [k4] at b2
        rcases hboot with h | h <;> simp [h] at b2
      · rw [if_neg b2]
        by_cases b3 : (!trace_ok_for_array new tr1) = true
        · rw [if_pos b3]
          refine ⟨Or.inr rfl, rfl, rfl, fun _ hallowed => ?_⟩
          rw [hok, hallowed] at b3
          exact absurd b3 (by decide)
        · rw [if_neg b3, if_pos href1]
          exact ⟨Or.inl rfl, rfl, rfl, fun _ _ => rfl⟩

/-- The instance of C11 for the three requests on the global instance running `function`
with one `trace_pipe` reader: `irqsoff` is refused with `-EBUSY`, an unknown name with
`-EINVAL`, and `function` itself returns 0. -/
theorem tracing_set_tracer_refused_witness :
    ¬ (0 : Int) < 0 ∧
    (tracing_set_tracer env_ok scenario_globals { scenario_tr_function with trace_ref := 1 }
      "irqsoff").ret = -EBUSY ∧
    (tracing_set_tracer env_ok scenario_globals { scenario_tr_function with trace_ref := 1 }
      "osnoise").ret = -EINVAL ∧
    (tracing_set_tracer env_ok scenario_globals { scenario_tr_function with trace_ref := 1 }
      "function").ret = 0 ∧
    (tracing_set_tracer env_ok scenario_globals { scenario_tr_function with trace_ref := 1 }
      "irqsoff").tr.current_trace = 1 :=
  have h := tracing_set_tracer_refused env_ok scenario_globals scenario_globals
    { scenario_tr_function with trace_ref := 1 } { scenario_tr_function with trace_ref := 1 }
    "irqsoff" 0 rfl (by decide)
  have h2 := h.2.2.1 2 scenario_irqsoff scenario_function (by decide) rfl rfl (by decide)
    (by decide)
  ⟨by decide, h2.2.2.2 (Or.inl rfl) (by decide), by decide, by decide,
    by rw [h2.2.1]; rfl⟩

/-! ## Registering a tracer -/

theorem same_tracers_refl (l : List tracer) : same_tracers l l := by
  unfold same_tracers
  induction l with
  | nil => exact List.Forall₂.nil
  | cons a rest ih => exact List.Forall₂.cons rfl ih

theorem same_tracers_trans (a b c : List tracer) (h1 : same_tracers a b)
    (h2 : same_tracers b c) : same_tracers a c := by
  unfold same_tracers at *
  induction h1 generalizing c with
  | nil => cases h2; exact List.Forall₂.nil
  | cons hxy _ ih =>
    cases h2 with
    | cons hyz hrest =>
      refine List.Forall₂.cons ?_ (ih _ hrest)
      rw [hyz, hxy]

theorem same_tracers_names (a b : List tracer) (h : same_tracers a b) :
    b.map (fun t => t.name) = a.map (fun t => t.name) := by
  unfold same_tracers at h
  induction h with
  | nil => rfl
  | cons hxy _ ih =>
    simp only [List.map_cons, ih]
    rw [hxy]

theorem tracer_enabled_add_same (g : tracer_globals) (t : Nat) (d : Int) :
    same_tracers g.trace_types (tracer_enabled_add g t d).trace_types := by
  unfold tracer_enabled_add same_tracers
  simp only
  generalize g.trace_types = l
  induction l generalizing t with
  | nil => cases t <;> exact List.Forall₂.nil
  | cons a rest ih =>
    cases t with
    | zero => exact List.Forall₂.cons rfl (same_tracers_refl rest)
    | succ n => exact List.Forall₂.cons rfl (ih n)

theorem tracing_set_tracer_switch_same (env : ring_buffer_env) (g : tracer_globals)
    (tr : trace_array) (cur : Nat) (old : tracer) (t : Nat) (new : tracer) :
    same_tracers g.trace_types
      (tracing_set_tracer_switch env g tr cur old t new).g.trace_types := by
  unfold tracing_set_tracer_switch
  simp only
  split_ifs <;>
    first
    | exact tracer_enabled_add_same g cur (-1)
    | exact same_tracers_trans _ _ _ (tracer_enabled_add_same g cur (-1))
        (tracer_enabled_add_same _ t 1)

/-- `tracing_set_tracer` changes nothing of the registry but enabled counts. -/
theorem tracing_set_tracer_same (env : ring_buffer_env) (g : tracer_globals)
    (tr : trace_array) (buf : String) :
    same_tracers g.trace_types (tracing_set_tracer env g tr buf).g.trace_types := by
  obtain ⟨-, k2, -, -⟩ := tracing_set_tracer_expand_kept env g tr
  have h0 : same_tracers g.trace_types (tracing_set_tracer_expand env g tr).2.1.trace_types := by
    rw [k2]; exact same_tracers_refl _
  unfold tracing_set_tracer
  simp only
  split
  · exact h0
  · split
    · exact h0
    · split
      · split_ifs <;>
          first
          | exact h0
          | exact same_tracers_trans _ _ _ h0 (tracing_set_tracer_switch_same _ _ _ _ _ _ _)
      · exact h0

theorem names_distinct_of_names (a b : List tracer)
    (h : b.map (fun t => t.name) = a.map (fun t => t.name)) (hd : names_distinct a) :
    names_distinct b := by
  unfold names_distinct at *
  have ha : (a.map (fun t => t.name)).Pairwise (fun x y => x ≠ y) :=
    List.pairwise_map.2 hd
  rw [← h] at ha
  exact List.pairwise_map.1 ha

theorem register_tracer_link_cases (env : ring_buffer_env) (MAX_TRACER_SIZE : Nat)
    (alloc_ok : Bool) (apply_trace_boot_options : trace_array → trace_array)
    (g : tracer_globals) (tr : trace_array) (default_bootup_tracer : Option String)
    (name : String) (type : tracer) :
    ((register_tracer_link env MAX_TRACER_SIZE alloc_ok apply_trace_boot_options g tr
        default_bootup_tracer name type).ret ≠ 0 ∧
      (register_tracer_link env MAX_TRACER_SIZE alloc_ok apply_trace_boot_options g tr
        default_bootup_tracer name type).g = g) ∨
    ((register_tracer_link env MAX_TRACER_SIZE alloc_ok apply_trace_boot_options g tr
        default_bootup_tracer name type).ret = 0 ∧
      same_tracers ({ type with flags := true } :: g.trace_types)
        (register_tracer_link env MAX_TRACER_SIZE alloc_ok apply_trace_boot_options g tr
          default_bootup_tracer name type).g.trace_types) := by
  have m3 : -ENOMEM ≠ 0 := by decide
  unfold register_tracer_link
  by_cases h4 : (!type.flags && !alloc_ok) = true
  · rw [if_pos h4]; left; exact ⟨m3, rfl⟩
  · rw [if_neg h4]
    right
    cases default_bootup_tracer with
    | none => exact ⟨rfl, same_tracers_refl _⟩
    | some boot =>
      simp only
      split
      · exact ⟨rfl, same_tracers_refl _⟩
      · exact ⟨rfl, tracing_set_tracer_same env
          { g with trace_types := { type with flags := true } :: g.trace_types,
                   nop_trace := g.nop_trace + 1 }
          { tr with current_trace := tr.current_trace + 1 } name⟩

/-- The two outcomes of `register_tracer`: a failure that leaves the globals as they are,
or a success that links the tracer, with its name checked, at the head of the registry. -/
theorem register_tracer_cases (env : ring_buffer_env) (MAX_TRACER_SIZE : Nat)
    (locked_down alloc_ok : Bool) (apply_trace_boot_options : trace_array → trace_array)
    (g : tracer_globals) (tr : trace_array) (default_bootup_tracer : Option String)
    (type : tracer) :
    ((register_tracer env MAX_TRACER_SIZE locked_down alloc_ok apply_trace_boot_options g tr
        default_bootup_tracer type).ret ≠ 0 ∧
      (register_tracer env MAX_TRACER_SIZE locked_down alloc_ok apply_trace_boot_options g tr
        default_bootup_tracer type).g = g) ∨
    ((register_tracer env MAX_TRACER_SIZE locked_down alloc_ok apply_trace_boot_options g tr
        default_bootup_tracer type).ret = 0 ∧
      ∃ name, type.name = some name ∧ name.utf8ByteSize < MAX_TRACER_SIZE ∧
        g.trace_types.any (fun t => t.name == some name) = false ∧
        same_tracers
          ({ (if type.set_flag.isNone then { type with set_flag := some dummy_set_flag }
              else type) with flags := true } :: g.trace_types)
          (register_tracer env MAX_TRACER_SIZE locked_down alloc_ok apply_trace_boot_options g
            tr default_bootup_tracer type).g.trace_types) := by
  have m1 : (-1 : Int) ≠ 0 := by decide
  have m2 : -EPERM ≠ 0 := by decide
  unfold register_tracer
  split
  · left; exact ⟨m1, rfl⟩
  · rename_i name hn
    by_cases h1 : name.utf8ByteSize ≥ MAX_TRACER_SIZE
    · rw [if_pos h1]; left; exact ⟨m1, rfl⟩
    · rw [if_neg h1]
      by_cases h2 : locked_down = true
      · rw [if_pos h2]; left; exact ⟨m2, rfl⟩
      · rw [if_neg h2]
        by_cases h3 : g.trace_types.any (fun t => t.name == some name) = true
        · rw [if_pos h3]; left; exact ⟨m1, rfl⟩
        · rw [if_neg h3]
          have h3' : g.trace_types.any (fun t => t.name == some name) = false := by
            simpa using h3
          rcases register_tracer_link_cases env MAX_TRACER_SIZE alloc_ok
            apply_trace_boot_options g tr default_bootup_tracer name
            (if type.set_flag.isNone then { type with set_flag := some dummy_set_flag }
              else type) with h | h
          · left; exact h
          · right; exact ⟨h.1, name, hn, by omega, h3', h.2⟩

/-- C12: `register_tracer` fails and leaves the registry unchanged when the name is
missing, when it is `MAX_TRACER_SIZE` bytes or longer, and when a tracer of that name is
registered already, as it does on every failure; so names that are pairwise distinct stay
so.  On success the tracer is the head of the registry, followed by the tracers registered
before, and is the only one of its name; if it defined no flag setter its `set_flag` is a
setter that returns 0 for every argument, otherwise it keeps its own. -/
theorem register_tracer_contract (env : ring_buffer_env) (MAX_TRACER_SIZE : Nat)
    (locked_down alloc_ok : Bool) (apply_trace_boot_options : trace_array → trace_array)
    (g : tracer_globals) (tr : trace_array) (default_bootup_tracer : Option String)
    (type : tracer) :
    ((type.name = none ∨ (∃ n, type.name = some n ∧ n.utf8ByteSize ≥ MAX_TRACER_SIZE) ∨
        (∃ t ∈ g.trace_types, t.name = type.name)) →
      (register_tracer env MAX_TRACER_SIZE locked_down alloc_ok apply_trace_boot_options g tr
        default_bootup_tracer type).ret ≠ 0) ∧
    ((register_tracer env MAX_TRACER_SIZE locked_down alloc_ok apply_trace_boot_options g tr
        default_bootup_tracer type).ret ≠ 0 →
      (register_tracer env MAX_TRACER_SIZE locked_down alloc_ok apply_trace_boot_options g tr
        default_bootup_tracer type).g.trace_types = g.trace_types) ∧
    (names_distinct g.trace_types →
      names_distinct (register_tracer env MAX_TRACER_SIZE locked_down alloc_ok
        apply_trace_boot_options g tr default_bootup_tracer type).g.trace_types) ∧
    ((register_tracer env MAX_TRACER_SIZE locked_down alloc_ok apply_trace_boot_options g tr
        default_bootup_tracer type).ret = 0 →
      ∃ head rest,
        (register_tracer env MAX_TRACER_SIZE locked_down alloc_ok apply_trace_boot_options g tr
          default_bootup_tracer type).g.trace_types = head :: rest ∧
        same_tracers g.trace_types rest ∧ head.name = type.name ∧
        ((register_tracer env MAX_TRACER_SIZE locked_down alloc_ok apply_trace_boot_options g
          tr default_bootup_tracer type).g.trace_types.filter
            (fun t => t.name == type.name)).length = 1 ∧
        (type.set_flag = none → ∃ f, head.set_flag = some f ∧
          ∀ tr old_flags bit set, f tr old_flags bit set = 0) ∧
        (∀ f, type.set_flag = some f → head.set_flag = some f)) := by
  have hnone : ∀ l : List tracer, ∀ name : String,
      l.any (fun t => t.name == some name) = false →
      l.filter (fun t => t.name == some name) = [] := by
    intro l name h
    rw [List.filter_eq_nil_iff]
    intro a ha hp
    have : l.any (fun t => t.name == some name) = true := List.any_eq_true.2 ⟨a, ha, hp⟩
    rw [h] at this
    exact absurd this (by decide)
  rcases register_tracer_cases env MAX_TRACER_SIZE locked_down alloc_ok
    apply_trace_boot_options g tr default_bootup_tracer type with ⟨hf, hg⟩ | ⟨hs, name, hn,
      hlen, hany, hsame⟩
  · refine ⟨fun _ => hf, fun _ => by rw [hg], fun hd => by rw [hg]; exact hd,
      fun h0 => absurd h0 hf⟩
  · refine ⟨?_, fun hne => absurd hs hne, ?_, ?_⟩
    · intro hbad
      exfalso
      rcases hbad with h | ⟨n, h1, h2⟩ | ⟨t, ht, h1⟩
      · rw [hn] at h; cases h
      · rw [hn] at h1
        cases h1
        omega
      · have : g.trace_types.any (fun t => t.name == some name) = true :=
          List.any_eq_true.2 ⟨t, ht, by rw [h1, hn]; simp⟩
        rw [hany] at this
        exact absurd this (by decide)
    · intro hd
      refine names_distinct_of_names _ _ (same_tracers_names _ _ hsame) ?_
      refine List.pairwise_cons.2 ⟨?_, hd⟩
      intro a ha
      show _ ≠ a.name
      intro heq
      have hname : ({ (if type.set_flag.isNone then
          { type with set_flag := some dummy_set_flag } else type) with
            flags := true } : tracer).name = some name := by
        split <;> exact hn
      have : g.trace_types.any (fun t => t.name == some name) = true :=
        List.any_eq_true.2 ⟨a, ha, by rw [← heq, hname]; simp⟩
      rw [hany] at this
      exact absurd this (by decide)
    · intro _
      unfold same_tracers at hsame
      obtain ⟨head, rest, hhead, hrest, hlist⟩ := List.forall₂_cons_left_iff.1 hsame
      · have hhn : head.name = type.name := by
          rw [hhead]
          show (if type.set_flag.isNone then
            { type with set_flag := some dummy_set_flag } else type).name = type.name
          split <;> rfl
        have hrn := same_tracers_names _ _ hrest
        have hfilter : rest.filter (fun t => t.name == some name) = [] := by
          rw [List.filter_eq_nil_iff]
          intro a ha hp
          have hmem : a.name ∈ rest.map (fun t => t.name) := List.mem_map.2 ⟨a, ha, rfl⟩
          rw [hrn] at hmem
          obtain ⟨b, hb, hbn⟩ := List.mem_map.1 hmem
          have : g.trace_types.any (fun t => t.name == some name) = true :=
            List.any_eq_true.2 ⟨b, hb, by rw [hbn]; exact hp⟩
          rw [hany] at this
          exact absurd this (by decide)
        refine ⟨head, rest, hlist, hrest, hhn, ?_, ?_, ?_⟩
        · rw [hlist, hn, List.filter_cons, hfilter]
          rw [hhn, hn]
          simp
        · intro hsf
          refine ⟨dummy_set_flag, ?_, fun _ _ _ _ => rfl⟩
          rw [hhead]
          show (if type.set_flag.isNone then
            { type with set_flag := some dummy_set_flag } else type).set_flag = _
          rw [hsf]
          rfl
        · intro f hsf
          rw [hhead]
          show (if type.set_flag.isNone then
            { type with set_flag := some dummy_set_flag } else type).set_flag = _
          rw [hsf, if_neg (by simp)]
          exact hsf

/-- The instance of C12 for the registry of the examples: `function_graph` is registered
at the head of the registry and gets the dummy flag setter, a second tracer named
`function` is refused, and the names stay pairwise distinct. -/
theorem register_tracer_contract_witness :
    (register_tracer env_ok 100 false true id scenario_globals scenario_tr none
      scenario_function_graph).ret = 0 ∧
    (register_tracer env_ok 100 false true id scenario_globals scenario_tr none
      scenario_function_graph).g.trace_types.map (fun t => t.name) =
        [some "function_graph", some "nop", some "function", some "irqsoff"] ∧
    ((register_tracer env_ok 100 false true id scenario_globals scenario_tr none
      scenario_function_graph).g.trace_types.head?.bind (fun t => t.set_flag)).map
        (fun f => f scenario_tr 0 1 1) = some 0 ∧
    (register_tracer env_ok 100 false true id scenario_globals scenario_tr none
      scenario_function).ret = -1 ∧
    names_distinct (register_tracer env_ok 100 false true id scenario_globals scenario_tr none
      scenario_function_graph).g.trace_types :=
  have h := register_tracer_contract env_ok 100 false true id scenario_globals scenario_tr none
    scenario_function_graph
  ⟨by decide, by decide, by decide, by decide,
    h.2.2.1 (by unfold names_distinct; decide)⟩

/-! ## Closing a `trace_pipe_raw` handle -/

theorem tracing_buffers_flush_iterate (n : Nat) (info : ftrace_buffer_info) :
    (tracing_buffers_flush^[n + 1]) info =
      { info with
        iter := { info.iter with
          closed := true
          wait_index := (info.iter.wait_index + (n + 1)) % 2 ^ 32 } } := by
  induction n with
  | zero => rfl
  | succ n ih =>
    rw [Function.iterate_succ_apply', ih]
    unfold tracing_buffers_flush
    simp only
    have : ((info.iter.wait_index + (n + 1)) % 2 ^ 32 + 1) % 2 ^ 32 =
        (info.iter.wait_index + (n + 1 + 1)) % 2 ^ 32 := by omega
    rw [this]

theorem wait_pipe_cond_closed (pwait : pipe_wait) (iter : trace_iterator)
    (h : iter.closed = true) : wait_pipe_cond pwait iter = true := by
  unfold wait_pipe_cond
  split
  · rfl
  · exact h

theorem ring_buffer_read_page_empty (penv : read_page_env) (buffer : trace_buffer)
    (data_page : List Nat) (len : Nat) (cpu : Int)
    (h : cpu < 0 ∨ ring_buffer_empty_cpu buffer cpu.toNat = true) :
    ring_buffer_read_page penv buffer data_page len cpu = (-1, buffer, data_page) := by
  unfold ring_buffer_read_page
  rw [if_pos h]

theorem tracing_buffers_read_again_closed (penv : read_page_env) (nonblock : Bool)
    (page_size count fuel : Nat) (info : ftrace_buffer_info) (hc : info.iter.closed = true)
    (h : info.iter.cpu_file < 0 ∨
      ring_buffer_empty_cpu info.iter.array_buffer info.iter.cpu_file.toNat = true) :
    ∃ info1, tracing_buffers_read_again penv nonblock page_size count (fuel + 1) info =
        some (buffers_read_outcome.returned 0 info1 []) ∧ info1.iter = info.iter := by
  rcases info with ⟨⟨a1, a2, a3, a4, a5, a6, a7, a8, a9, a10, a11, a12, a13, a14⟩, sp, sc, ss, rd⟩
  dsimp only at hc h
  subst hc
  unfold tracing_buffers_read_again
  simp only [ring_buffer_read_page_empty penv _ _ _ _ h]
  rw [if_pos (by decide)]
  simp only [Bool.not_true, Bool.and_false, Bool.false_eq_true, if_false]
  exact ⟨_, rfl, rfl⟩

/-- C17, counterexample: the generation is a 32-bit counter, so after
2^32 flushes of one handle it is again the value a waiter sampled before the first of them;
and a read of a closed snapshot handle whose buffer is empty returns -EBUSY, not 0, while
the current tracer uses the snapshot buffer. -/
theorem tracing_buffers_flush_generation_wraps :
    ((tracing_buffers_flush^[2 ^ 32]) scenario_info).iter.wait_index =
        scenario_info.iter.wait_index ∧
      trace_empty (tracing_buffers_flush scenario_snapshot_info).iter = true ∧
      tracing_buffers_read penv_ok true false 1 1 (tracing_buffers_flush scenario_snapshot_info) =
        some (buffers_read_outcome.returned (-EBUSY)
          (tracing_buffers_flush scenario_snapshot_info) []) := by
  refine ⟨?_, by decide, by decide⟩
  have h := tracing_buffers_flush_iterate (2 ^ 32 - 1) scenario_info
  have e : 2 ^ 32 - 1 + 1 = 2 ^ 32 := by norm_num
  rw [e] at h
  rw [h]
  show (scenario_info.iter.wait_index + 2 ^ 32) % 2 ^ 32 = scenario_info.iter.wait_index
  show (0 + 2 ^ 32) % 2 ^ 32 = 0
  norm_num

/-- C17, amended: after `n ≥ 1` calls of `tracing_buffers_flush` on a handle the closed
flag is set, the generation has advanced by `n` modulo 2^32 (so it differs from the value
before whenever fewer than 2^32 flushes lie between), and `wait_pipe_cond` is true for every
sampled generation, earlier or later, because of the closed flag.  A
`tracing_buffers_read` of the handle, blocking or not, whose ring buffer has nothing for
its CPU returns 0 without writing to the user buffer and without waiting, and leaves the
flag and the generation as they are, provided the handle is not a snapshot handle while
the current tracer uses the snapshot buffer, the spare page can be allocated, and no bytes
of an earlier page are left to return. -/
theorem tracing_buffers_flush_closes (n : Nat) (info : ftrace_buffer_info)
    (penv : read_page_env) (use_max_tr nonblock : Bool) (count fuel : Nat)
    (hn : 0 < n) (hfuel : 0 < fuel)
    (hbusy : (info.iter.snapshot && use_max_tr) = false)
    (halloc : ∀ buffer cpu, ∃ page, penv.alloc_read_page buffer cpu = Except.ok page)
    (hread : ring_buffer_subbuf_size_get info.iter.array_buffer ≤ info.read)
    (hempty : info.iter.cpu_file < 0 ∨
      ring_buffer_empty_cpu info.iter.array_buffer info.iter.cpu_file.toNat = true) :
    ((tracing_buffers_flush^[n]) info).iter.closed = true ∧
      ((tracing_buffers_flush^[n]) info).iter.wait_index =
        (info.iter.wait_index + n) % 2 ^ 32 ∧
      (n < 2 ^ 32 → ((tracing_buffers_flush^[n]) info).iter.wait_index ≠
        info.iter.wait_index) ∧
      (∀ pwait, wait_pipe_cond pwait ((tracing_buffers_flush^[n]) info).iter = true) ∧
      ∃ info1, tracing_buffers_read penv use_max_tr nonblock count fuel
          ((tracing_buffers_flush^[n]) info) = some (buffers_read_outcome.returned 0 info1 []) ∧
        info1.iter = ((tracing_buffers_flush^[n]) info).iter := by
  obtain ⟨m, rfl⟩ : ∃ m, n = m + 1 := ⟨n - 1, by omega⟩
  obtain ⟨k, rfl⟩ : ∃ k, fuel = k + 1 := ⟨fuel - 1, by omega⟩
  rw [tracing_buffers_flush_iterate m info]
  refine ⟨rfl, rfl, ?_, fun pwait => wait_pipe_cond_closed pwait _ rfl, ?_⟩
  · intro hlt
    show (info.iter.wait_index + (m + 1)) % 2 ^ 32 ≠ info.iter.wait_index
    omega
  · unfold tracing_buffers_read
    by_cases hcount : count = 0
    · rw [if_pos hcount]
      exact ⟨_, rfl, rfl⟩
    · rw [if_neg hcount]
      rw [if_neg (by
        show ¬ ((info.iter.snapshot && use_max_tr) = true)
        rw [hbusy]; decide)]
      simp only
      rcases hsp : info.spare with _ | page
      · obtain ⟨page, hpage⟩ := halloc info.iter.array_buffer info.iter.cpu_file
        simp only [hsp, hpage, Option.isSome_none, Bool.false_and, Option.isNone_none,
          Option.isNone_some, if_true, if_false, Bool.false_eq_true]
        rw [if_neg (Nat.not_lt.mpr hread)]
        obtain ⟨i1, e1, e2⟩ :=
          tracing_buffers_read_again_closed penv nonblock
            (ring_buffer_subbuf_size_get info.iter.array_buffer) count k
            { info with
              iter := { info.iter with
                closed := true
                wait_index := (info.iter.wait_index + (m + 1)) % 2 ^ 32 }
              spare := some page
              spare_cpu := info.iter.cpu_file
              spare_size := ring_buffer_subbuf_size_get info.iter.array_buffer } rfl hempty
        exact ⟨i1, e1, e2⟩
      · by_cases hsz : ring_buffer_subbuf_size_get info.iter.array_buffer = info.spare_size
        · simp only [hsp, hsz, Option.isSome_some, Bool.true_and, ne_eq, not_true_eq_false,
            decide_False, Option.isNone_some, if_false, Bool.false_eq_true]
          rw [if_neg (by rw [← hsz]; exact Nat.not_lt.mpr hread)]
          obtain ⟨i1, e1, e2⟩ :=
            tracing_buffers_read_again_closed penv nonblock
              info.spare_size count k
              { info with
                iter := { info.iter with
                  closed := true
                  wait_index := (info.iter.wait_index + (m + 1)) % 2 ^ 32 }
                spare := some page } rfl hempty
          exact ⟨i1, e1, e2⟩
        · obtain ⟨page2, hpage⟩ := halloc info.iter.array_buffer info.iter.cpu_file
          simp only [hsp, hsz, hpage, Option.isSome_some, Bool.true_and, ne_eq,
            not_false_eq_true, decide_True, Option.isNone_none, Option.isNone_some,
            if_true, if_false, Bool.false_eq_true]
          rw [if_neg (Nat.not_lt.mpr hread)]
          obtain ⟨i1, e1, e2⟩ :=
            tracing_buffers_read_again_closed penv nonblock
              (ring_buffer_subbuf_size_get info.iter.array_buffer) count k
              { info with
                iter := { info.iter with
                  closed := true
                  wait_index := (info.iter.wait_index + (m + 1)) % 2 ^ 32 }
                spare := some page2
                spare_cpu := info.iter.cpu_file
                spare_size := ring_buffer_subbuf_size_get info.iter.array_buffer } rfl hempty
          exact ⟨i1, e1, e2⟩

theorem tracing_buffers_flush_closes_witness :
    ((tracing_buffers_flush^[2]) scenario_info).iter.closed = true ∧
      ((tracing_buffers_flush^[2]) scenario_info).iter.wait_index = 2 ∧
      wait_pipe_cond { wait_index := 2 } ((tracing_buffers_flush^[2]) scenario_info).iter = true ∧
      ∃ info1, tracing_buffers_read penv_ok false false 4096 1
          ((tracing_buffers_flush^[2]) scenario_info) =
            some (buffers_read_outcome.returned 0 info1 []) ∧
        info1.iter = ((tracing_buffers_flush^[2]) scenario_info).iter := by
  have h := tracing_buffers_flush_closes 2 scenario_info penv_ok false false 4096 1
    (by decide) (by decide) (by decide) (fun _ _ => ⟨[], rfl⟩) (by decide) (by decide)
  exact ⟨h.1, h.2.1, h.2.2.2.1 _, h.2.2.2.2⟩

/-! ## The consuming reader: nothing is dropped, no line is cut -/

theorem trace_seq_puts_full (size : Nat) (s : trace_seq) (str : List Nat)
    (h : s.full = true) : trace_seq_puts size s str = s := by
  unfold trace_seq_puts
  rw [if_pos h]

theorem trace_seq_fold_full (size : Nat) (chunks : List (List Nat)) :
    ∀ (s : trace_seq), s.full = true → chunks.foldl (trace_seq_puts size) s = s := by
  induction chunks with
  | nil => intro s _; rfl
  | cons c rest ih =>
    intro s h
    rw [List.foldl_cons, trace_seq_puts_full size s c h]
    exact ih s h

theorem trace_seq_fold_fits (size : Nat) (chunks : List (List Nat)) :
    ∀ (s : trace_seq), s.full = false → s.buffer.length + chunks.flatten.length ≤ size →
      chunks.foldl (trace_seq_puts size) s = { s with buffer := s.buffer ++ chunks.flatten } := by
  induction chunks with
  | nil => intro s _ _; simp
  | cons c rest ih =>
    intro s h hlen
    simp only [List.flatten_cons, List.length_append] at hlen
    have h1 : trace_seq_puts size s c = { s with buffer := s.buffer ++ c } := by
      unfold trace_seq_puts
      rw [if_neg (by rw [h]; decide), if_neg (by omega)]
    rw [List.foldl_cons, h1, ih { s with buffer := s.buffer ++ c } h
      (by simp only [List.length_append]; omega)]
    simp

theorem trace_seq_fold_overflow (size : Nat) (chunks : List (List Nat)) :
    ∀ (s : trace_seq), s.full = false → s.buffer.length ≤ size →
      size < s.buffer.length + chunks.flatten.length →
      (chunks.foldl (trace_seq_puts size) s).full = true := by
  induction chunks with
  | nil => intro s _ hs h; simp at h; omega
  | cons c rest ih =>
    intro s h hs hlen
    simp only [List.flatten_cons, List.length_append] at hlen
    rw [List.foldl_cons]
    by_cases hc : size - s.buffer.length < c.length
    · have h1 : trace_seq_puts size s c = { s with full := true } := by
        unfold trace_seq_puts
        rw [if_neg (by rw [h]; decide), if_pos hc]
      rw [h1, trace_seq_fold_full size rest _ rfl]
    · have h1 : trace_seq_puts size s c = { s with buffer := s.buffer ++ c } := by
        unfold trace_seq_puts
        rw [if_neg (by rw [h]; decide), if_neg hc]
      rw [h1]
      exact ih { s with buffer := s.buffer ++ c } h
        (by simp only [List.length_append]; omega)
        (by simp only [List.length_append]; omega)

theorem trace_seq_puts_extends (size : Nat) (s : trace_seq) (str : List Nat) :
    (∃ t, (trace_seq_puts size s str).buffer = s.buffer ++ t) ∧
      (trace_seq_puts size s str).readpos = s.readpos := by
  unfold trace_seq_puts
  split_ifs
  · exact ⟨⟨[], by simp⟩, rfl⟩
  · exact ⟨⟨[], by simp⟩, rfl⟩
  · exact ⟨⟨str, rfl⟩, rfl⟩

theorem trace_seq_fold_extends (size : Nat) (chunks : List (List Nat)) :
    ∀ (s : trace_seq), (∃ t, (chunks.foldl (trace_seq_puts size) s).buffer = s.buffer ++ t) ∧
      (chunks.foldl (trace_seq_puts size) s).readpos = s.readpos := by
  induction chunks with
  | nil => intro s; exact ⟨⟨[], by simp⟩, rfl⟩
  | cons c rest ih =>
    intro s
    rw [List.foldl_cons]
    obtain ⟨⟨t1, h1⟩, r1⟩ := trace_seq_puts_extends size s c
    obtain ⟨⟨t2, h2⟩, r2⟩ := ih (trace_seq_puts size s c)
    exact ⟨⟨t1 ++ t2, by rw [h2, h1, List.append_assoc]⟩, by rw [r2, r1]⟩

/-- Without a `print_line` hook of the tracer, `print_trace_line` writes the pieces of the
line one after the other and reports whether all of them fitted. -/
theorem print_trace_line_pieces (out : trace_output) (trace : tracer) (size : Nat)
    (iter : trace_iterator) (hp : trace.print_line = none) (hf : iter.seq.full = false) :
    print_trace_line out trace size iter =
      (trace_handle_return ((record_chunks out iter).foldl (trace_seq_puts size) iter.seq),
        { iter with seq := (record_chunks out iter).foldl (trace_seq_puts size) iter.seq }) := by
  rcases iter with ⟨a1, a2, a3, ent, a5, a6, a7, lost, a9, seq, a11, a12, a13, a14⟩
  dsimp only at hf
  unfold print_trace_line record_chunks
  simp only [hp]
  by_cases hl : lost = 0
  · subst hl
    simp only [ne_eq, not_true_eq_false, if_false, false_and, List.nil_append]
    unfold print_trace_line_event
    cases ent with
    | none =>
      simp only [List.foldl_nil]
      unfold trace_handle_return trace_seq_has_overflowed
      rw [hf]
      rfl
    | some ent => rfl
  · simp only [hl, ne_eq, not_false_eq_true, if_true, true_and, List.singleton_append,
      List.foldl_cons]
    by_cases ho : trace_seq_has_overflowed (trace_seq_puts size seq (lost_events_text
        { array_buffer := a1, buffer_iter := a2, cpu_file := a3, ent := ent, ent_size := a5,
          cpu := a6, ts := a7, lost_events := lost, idx := a9, seq := seq, pos := a11,
          snapshot := a12, closed := a13, wait_index := a14 })) = true
    · rw [if_pos ho]
      unfold trace_seq_has_overflowed at ho
      rw [trace_seq_fold_full size _ _ ho]
      unfold trace_handle_return trace_seq_has_overflowed
      rw [ho]
      rfl
    · rw [if_neg ho]
      unfold print_trace_line_event
      cases ent with
      | none =>
        simp only [List.foldl_nil]
        unfold trace_handle_return
        rw [if_neg ho]
      | some ent => rfl

theorem reads_alike_refl (a : trace_iterator) (h : a.buffer_iter = none) : reads_alike a a :=
  ⟨rfl, h, h, rfl⟩

theorem reads_alike_symm (a b : trace_iterator) (h : reads_alike a b) : reads_alike b a :=
  ⟨h.1.symm, h.2.2.1, h.2.1, h.2.2.2.symm⟩

theorem reads_alike_trans (a b c : trace_iterator) (h1 : reads_alike a b)
    (h2 : reads_alike b c) : reads_alike a c :=
  ⟨h1.1.trans h2.1, h1.2.1, h2.2.2.1, h1.2.2.2.trans h2.2.2.2⟩

theorem peek_next_entry_alike (a b : trace_iterator) (h : reads_alike a b)
    (cpu ts lost ts2 lost2 : Nat) :
    (peek_next_entry a cpu ts lost).2.1 = (peek_next_entry b cpu ts2 lost2).2.1 ∧
      ((peek_next_entry a cpu ts lost).2.1.isSome = true →
        (peek_next_entry a cpu ts lost).2.2 = (peek_next_entry b cpu ts2 lost2).2.2) ∧
      reads_alike (peek_next_entry a cpu ts lost).1 (peek_next_entry b cpu ts2 lost2).1 ∧
      (peek_next_entry a cpu ts lost).1.ent_size =
        (peek_next_entry b cpu ts2 lost2).1.ent_size := by
  obtain ⟨h1, h2, h3, h4⟩ := h
  unfold peek_next_entry trace_buffer_iter ring_buffer_peek
  rw [h2, h3, ← h1]
  simp only
  cases hc : a.array_buffer.cpus[cpu]? with
  | none =>
    refine ⟨rfl, ?_, ⟨rfl, rfl, rfl, h4⟩, rfl⟩
    intro hx
    simp at hx
  | some cb =>
    obtain ⟨evs, cl, csz⟩ := cb
    cases evs with
    | nil =>
      refine ⟨rfl, ?_, ⟨rfl, rfl, rfl, h4⟩, rfl⟩
      intro hx
      simp at hx
    | cons e rest =>
      refine ⟨rfl, ?_, ⟨rfl, rfl, rfl, h4⟩, rfl⟩
      intro _
      rfl

theorem find_next_step_alike (buffer : trace_buffer) (s t : find_locals) (cpu : Nat)
    (h : scans_alike s t) :
    scans_alike (find_next_step buffer s cpu) (find_next_step buffer t cpu) := by
  obtain ⟨si, n, nc, nt, nl, ns, ts, lo⟩ := s
  obtain ⟨ti, n2, nc2, nt2, nl2, ns2, ts2, lo2⟩ := t
  obtain ⟨hi, h1, h2, h3, h4, h5, h6, h7⟩ := h
  dsimp only at hi h1 h2 h3 h4 h5 h6 h7
  subst h1 h2 h3 h4 h5 h6 h7
  obtain ⟨p1, p2, p3, p4⟩ := peek_next_entry_alike si ti hi cpu ts lo ts lo
  have p5 := peek_next_entry_congr si ti cpu ts lo
    (by unfold trace_buffer_iter; rw [hi.2.1, hi.2.2.1]) (by rw [hi.1])
  unfold find_next_step
  by_cases he : ring_buffer_empty_cpu buffer cpu = true
  · rw [if_pos he, if_pos he]
    exact ⟨hi, rfl, rfl, rfl, rfl, rfl, rfl, rfl⟩
  · rw [if_neg he, if_neg he]
    simp only [← p5, ← p4]
    cases hp : (peek_next_entry si cpu ts lo).2.1 with
    | none => exact ⟨p3, rfl, rfl, rfl, rfl, rfl, rfl, rfl⟩
    | some ent =>
      simp only
      split_ifs <;> exact ⟨p3, rfl, rfl, rfl, rfl, rfl, rfl, rfl⟩

theorem find_next_fold_alike (buffer : trace_buffer) (cpus : List Nat) :
    ∀ (s t : find_locals), scans_alike s t →
      scans_alike (cpus.foldl (find_next_step buffer) s) (cpus.foldl (find_next_step buffer) t) := by
  induction cpus with
  | nil => intro s t h; exact h
  | cons c rest ih =>
    intro s t h
    rw [List.foldl_cons, List.foldl_cons]
    exact ih _ _ (find_next_step_alike buffer s t c h)

/-- What `__find_next_entry` finds depends on the logs and the scope of a consuming
iterator only. -/
theorem find_next_entry_alike (a b : trace_iterator) (h : reads_alike a b)
    (ec ec2 : Int) (me ts me2 ts2 : Nat) :
    (__find_next_entry a ec me ts).ent = (__find_next_entry b ec2 me2 ts2).ent ∧
      reads_alike (__find_next_entry a ec me ts).iter (__find_next_entry b ec2 me2 ts2).iter ∧
      ((__find_next_entry a ec me ts).ent.isSome = true →
        (__find_next_entry a ec me ts).ent_cpu = (__find_next_entry b ec2 me2 ts2).ent_cpu ∧
        (__find_next_entry a ec me ts).missing_events =
          (__find_next_entry b ec2 me2 ts2).missing_events ∧
        (__find_next_entry a ec me ts).ent_ts = (__find_next_entry b ec2 me2 ts2).ent_ts) := by
  by_cases hs : a.cpu_file > RING_BUFFER_ALL_CPUS
  · have hs2 : b.cpu_file > RING_BUFFER_ALL_CPUS := by rw [← h.2.2.2]; exact hs
    rw [find_next_entry_scoped a _ _ _ hs, find_next_entry_scoped b _ _ _ hs2]
    rw [← h.1, ← h.2.2.2]
    by_cases he : ring_buffer_empty_cpu a.array_buffer a.cpu_file.toNat = true
    · rw [if_pos he, if_pos he]
      refine ⟨rfl, h, ?_⟩
      intro hx
      simp at hx
    · rw [if_neg he, if_neg he]
      obtain ⟨p1, p2, p3, p4⟩ := peek_next_entry_alike a b h a.cpu_file.toNat ts me ts2 me2
      refine ⟨p1, p3, ?_⟩
      intro hx
      have := p2 hx
      refine ⟨rfl, ?_, ?_⟩
      · show (peek_next_entry a a.cpu_file.toNat ts me).2.2.2 =
          (peek_next_entry b a.cpu_file.toNat ts2 me2).2.2.2
        rw [this]
      · show (peek_next_entry a a.cpu_file.toNat ts me).2.2.1 =
          (peek_next_entry b a.cpu_file.toNat ts2 me2).2.2.1
        rw [this]
  · have hs2 : ¬ b.cpu_file > RING_BUFFER_ALL_CPUS := by rw [← h.2.2.2]; exact hs
    rw [find_next_entry_full a _ _ _ hs, find_next_entry_full b _ _ _ hs2]
    have hf : scans_alike (scan_all a) (scan_all b) := by
      unfold scan_all
      rw [← h.1]
      exact find_next_fold_alike _ _ _ _ ⟨h, rfl, rfl, rfl, rfl, rfl, rfl, rfl⟩
    obtain ⟨⟨q1, q2, q3, q4⟩, f1, f2, f3, f4, f5, f6, f7⟩ := hf
    refine ⟨f1, ⟨q1, q2, q3, q4⟩, ?_⟩
    intro _
    exact ⟨f2, f4, f3⟩

/-- What `trace_find_next_entry_inc` delivers depends on the logs and the scope of a
consuming iterator only, and the sequence buffer is left alone. -/
theorem trace_find_next_entry_inc_alike (a b : trace_iterator) (h : reads_alike a b) :
    (trace_find_next_entry_inc a).2 = (trace_find_next_entry_inc b).2 ∧
      reads_alike (trace_find_next_entry_inc a).1 (trace_find_next_entry_inc b).1 ∧
      (trace_find_next_entry_inc a).1.seq = a.seq ∧
      reads_alike (trace_find_next_entry_inc a).1 a ∧
      ((trace_find_next_entry_inc a).2 = true →
        (trace_find_next_entry_inc a).1.ent = (trace_find_next_entry_inc b).1.ent ∧
        (trace_find_next_entry_inc a).1.cpu = (trace_find_next_entry_inc b).1.cpu ∧
        (trace_find_next_entry_inc a).1.ts = (trace_find_next_entry_inc b).1.ts ∧
        (trace_find_next_entry_inc a).1.lost_events =
          (trace_find_next_entry_inc b).1.lost_events) := by
  obtain ⟨e1, e2, e3⟩ := find_next_entry_alike a b h a.cpu b.cpu a.lost_events a.ts
    b.lost_events b.ts
  have hia : ∃ sz, (__find_next_entry a a.cpu a.lost_events a.ts).iter =
      { a with ent_size := sz } := by
    by_cases hs : a.cpu_file > RING_BUFFER_ALL_CPUS
    · rw [find_next_entry_scoped a _ _ _ hs]
      split
      · exact ⟨a.ent_size, rfl⟩
      · exact ⟨_, peek_next_entry_iter a _ _ _⟩
    · rw [find_next_entry_full a _ _ _ hs]
      obtain ⟨⟨sz, hsz⟩, -⟩ := scan_all_inv a
      exact ⟨(scan_all a).next_size, by rw [hsz]⟩
  obtain ⟨sz, hsz⟩ := hia
  have ha := h.2.1
  have hb := h.2.2.1
  unfold trace_find_next_entry_inc
  simp only
  rw [← e1]
  cases hent : (__find_next_entry a a.cpu a.lost_events a.ts).ent with
  | none =>
    simp only
    refine ⟨trivial, ⟨e2.1, e2.2.1, e2.2.2.1, e2.2.2.2⟩, by rw [hsz], ?_, ?_⟩
    · rw [hsz]; exact ⟨rfl, ha, ha, rfl⟩
    · intro hx; cases hx
  | some ent =>
    simp only
    rw [hent] at e3
    obtain ⟨c1, c2, c3⟩ := e3 rfl
    rw [trace_iterator_increment_consuming _ (by exact e2.2.1),
      trace_iterator_increment_consuming _ (by exact e2.2.2.1)]
    refine ⟨trivial, ⟨e2.1, e2.2.1, e2.2.2.1, e2.2.2.2⟩, by rw [hsz], ?_, ?_⟩
    · rw [hsz]; exact ⟨rfl, ha, ha, rfl⟩
    · intro _
      exact ⟨rfl, c1, c3, c2⟩

theorem trace_consume_alike (a b : trace_iterator) (h : reads_alike a b)
    (hc : a.cpu = b.cpu) : reads_alike (trace_consume a) (trace_consume b) := by
  obtain ⟨h1, h2, h3, h4⟩ := h
  unfold trace_consume ring_buffer_consume
  rw [← h1, ← hc]
  cases hx : a.array_buffer.cpus[a.cpu.toNat]? with
  | none => exact ⟨rfl, h2, h3, h4⟩
  | some cb =>
    obtain ⟨evs, cl, csz⟩ := cb
    cases evs with
    | nil => exact ⟨rfl, h2, h3, h4⟩
    | cons e rest => exact ⟨rfl, h2, h3, h4⟩

theorem record_text_alike (out : trace_output) (size : Nat) (a b : trace_iterator)
    (h1 : a.ent = b.ent) (h2 : a.cpu = b.cpu) (h3 : a.ts = b.ts)
    (h4 : a.lost_events = b.lost_events) : record_text out size a = record_text out size b := by
  have hc : record_chunks out a = record_chunks out b := by
    unfold record_chunks lost_events_text
    rw [h1, h2, h3, h4]
  unfold record_text record_line
  rw [hc]

/-- The text still to come depends on the logs and the scope of the iterator only. -/
theorem pipe_remaining_alike (out : trace_output) (size : Nat) (n : Nat) :
    ∀ (a b : trace_iterator), reads_alike a b →
      pipe_remaining out size n a = pipe_remaining out size n b := by
  induction n with
  | zero => intro a b _; rfl
  | succ n ih =>
    intro a b h
    obtain ⟨r1, r2, -, -, r5⟩ := trace_find_next_entry_inc_alike a b h
    unfold pipe_remaining
    simp only
    rw [← r1]
    by_cases hf : (trace_find_next_entry_inc a).2 = true
    · obtain ⟨c1, c2, c3, c4⟩ := r5 hf
      rw [if_pos hf, if_pos hf, record_text_alike out size _ _ c1 c2 c3 c4,
        ih _ _ (trace_consume_alike _ _ r2 c2)]
    · rw [if_neg hf, if_neg hf]

/-- A record that `trace_find_next_entry_inc` delivers on a consuming iterator is the head
of the log of the CPU it reports, and `trace_consume` then removes exactly that record. -/
theorem trace_consume_found (iter : trace_iterator) (hb : iter.buffer_iter = none)
    (hf : (trace_find_next_entry_inc iter).2 = true) :
    (committed (trace_consume (trace_find_next_entry_inc iter).1).array_buffer).length + 1 =
      (committed iter.array_buffer).length := by
  obtain ⟨h1, h2, h3, h4, h5, h6, h7⟩ := trace_find_next_entry_inc_consuming iter hb
  rw [hf] at h1
  have key : ∃ cpu e, (pending iter cpu).head? = some e ∧
      (__find_next_entry iter iter.cpu iter.lost_events iter.ts).ent_cpu = (cpu : Int) := by
    cases hent : (__find_next_entry iter iter.cpu iter.lost_events iter.ts).ent with
    | none => rw [hent] at h1; cases h1
    | some ent =>
      by_cases hs : iter.cpu_file > RING_BUFFER_ALL_CPUS
      · obtain ⟨s1, s2⟩ := find_next_entry_scoped_spec iter iter.cpu iter.lost_events iter.ts hs
        rw [hent] at s1
        cases hh : (pending iter iter.cpu_file.toNat).head? with
        | none => rw [hh] at s1; cases s1
        | some e =>
          refine ⟨iter.cpu_file.toNat, e, hh, ?_⟩
          rw [(s2 e hh).1]
          unfold RING_BUFFER_ALL_CPUS at hs
          omega
      · obtain ⟨-, s2⟩ := find_next_entry_full_spec iter iter.cpu iter.lost_events iter.ts hs
        obtain ⟨cpu, e, -, q1, -, q2, -⟩ := s2 ent hent
        exact ⟨cpu, e, q1, q2⟩
  obtain ⟨cpu, e, hhead, hcpu⟩ := key
  rw [pending_consuming iter hb] at hhead
  cases hget : iter.array_buffer.cpus[cpu]? with
  | none => rw [hget] at hhead; cases hhead
  | some cb =>
    rw [hget] at hhead
    obtain ⟨evs, l, sz⟩ := cb
    cases evs with
    | nil => cases hhead
    | cons e0 rest =>
      have hget1 : (trace_find_next_entry_inc iter).1.array_buffer.cpus[cpu]? =
          some { events := e0 :: rest, lost_events := l, size := sz } := by rw [h7]; exact hget
      obtain ⟨c1, -, -⟩ := trace_consume_head (trace_find_next_entry_inc iter).1 cpu e0
        rest l sz (by rw [h3, hcpu]) hget1
      rw [c1, h7]
      have hperm := records_from_perm_set iter.array_buffer.cpus 0 cpu e0 rest l 0 sz hget
      have := hperm.length_eq
      simp only [List.length_cons] at this
      unfold committed
      show (records_from 0 (iter.array_buffer.cpus.set cpu
        { events := rest, lost_events := 0, size := sz })).length + 1 = _
      omega

/-- A consuming iterator that is not empty gets a record from
`trace_find_next_entry_inc`. -/
theorem trace_find_next_entry_inc_of_not_empty (iter : trace_iterator)
    (hb : iter.buffer_iter = none) (hc : RING_BUFFER_ALL_CPUS ≤ iter.cpu_file)
    (he : trace_empty iter = false) : (trace_find_next_entry_inc iter).2 = true := by
  obtain ⟨h1, -⟩ := trace_find_next_entry_inc_consuming iter hb
  rw [h1]
  have hcpu : ∀ cpu, trace_empty_cpu iter cpu = false → pending iter cpu ≠ [] := by
    intro cpu hx hp
    unfold trace_empty_cpu trace_buffer_iter at hx
    rw [hb] at hx
    simp only at hx
    unfold ring_buffer_empty_cpu at hx
    rw [pending_consuming iter hb] at hp
    cases hg : iter.array_buffer.cpus[cpu]? with
    | none => rw [hg] at hx; cases hx
    | some cb =>
      rw [hg] at hx hp
      simp only at hx hp
      rw [hp] at hx
      cases hx
  unfold trace_empty at he
  by_cases hs : iter.cpu_file = RING_BUFFER_ALL_CPUS
  · rw [if_neg (by rw [hs]; simp)] at he
    have hns : ¬ iter.cpu_file > RING_BUFFER_ALL_CPUS := by rw [hs]; simp
    obtain ⟨s1, -⟩ := find_next_entry_full_spec iter iter.cpu iter.lost_events iter.ts hns
    cases hent : (__find_next_entry iter iter.cpu iter.lost_events iter.ts).ent with
    | some ent => rfl
    | none =>
      exfalso
      have hall := s1.mp hent
      have : (for_each_tracing_cpu iter.array_buffer).all (trace_empty_cpu iter) = true := by
        rw [List.all_eq_true]
        intro cpu hmem
        unfold for_each_tracing_cpu at hmem
        rw [List.mem_range] at hmem
        cases hx : trace_empty_cpu iter cpu with
        | true => rfl
        | false => exact absurd (hall cpu hmem) (hcpu cpu hx)
      rw [this] at he
      cases he
  · rw [if_pos hs] at he
    have hgt : iter.cpu_file > RING_BUFFER_ALL_CPUS := lt_of_le_of_ne hc (Ne.symm hs)
    obtain ⟨s1, -⟩ := find_next_entry_scoped_spec iter iter.cpu iter.lost_events iter.ts hgt
    rw [s1]
    have := hcpu _ he
    cases hp : pending iter iter.cpu_file.toNat with
    | nil => exact absurd hp this
    | cons e rest => rfl

theorem pipe_pending_alike (out : trace_output) (size : Nat) (a b : trace_iterator)
    (h : reads_alike a b) : pipe_pending out size a = pipe_pending out size b := by
  unfold pipe_pending
  rw [h.1]
  exact pipe_remaining_alike out size _ a b h

theorem pipe_pending_found (out : trace_output) (size : Nat) (iter : trace_iterator)
    (hb : iter.buffer_iter = none) (hf : (trace_find_next_entry_inc iter).2 = true) :
    pipe_pending out size iter =
      record_text out size (trace_find_next_entry_inc iter).1 ++
        pipe_pending out size (trace_consume (trace_find_next_entry_inc iter).1) := by
  have hlen := trace_consume_found iter hb hf
  unfold pipe_pending
  rw [← hlen]
  conv => lhs; unfold pipe_remaining
  simp only
  rw [if_pos hf]

theorem pipe_pending_none (out : trace_output) (size : Nat) (iter : trace_iterator)
    (hf : (trace_find_next_entry_inc iter).2 = false) : pipe_pending out size iter = [] := by
  unfold pipe_pending pipe_remaining
  simp only
  rw [if_neg (by rw [hf]; decide)]

theorem trace_seq_eq_init (s : trace_seq) (h1 : s.buffer = []) (h2 : s.readpos = 0)
    (h3 : s.full = false) : s = {} := by
  obtain ⟨b, r, f⟩ := s
  simp only at h1 h2 h3
  subst h1 h2 h3
  rfl

/-- The loop of `tracing_read_pipe`, without a `print_line` hook of the tracer: it ends, and
the text in the sequence buffer followed by the text of the records left in the ring buffer
is what it was before. -/
theorem tracing_read_pipe_loop_spec (out : trace_output) (trace : tracer) (size cnt : Nat)
    (hp : trace.print_line = none) (fuel : Nat) :
    ∀ (iter : trace_iterator), iter.buffer_iter = none → iter.seq.full = false →
      iter.seq.readpos = 0 → iter.seq.buffer.length ≤ size →
      (committed iter.array_buffer).length < fuel →
      ∃ last, tracing_read_pipe_loop out trace size cnt fuel iter = some last ∧
        last.buffer_iter = none ∧ last.cpu_file = iter.cpu_file ∧ last.seq.readpos = 0 ∧
        last.seq.buffer ++ pipe_pending out size last =
          iter.seq.buffer ++ pipe_pending out size iter ∧
        (committed last.array_buffer).length ≤ (committed iter.array_buffer).length ∧
        ((trace_find_next_entry_inc iter).2 = true → iter.seq.buffer = [] →
          (committed last.array_buffer).length < (committed iter.array_buffer).length) := by
  induction fuel with
  | zero => intro iter _ _ _ _ h; exact absurd h (Nat.not_lt_zero _)
  | succ fuel ih =>
    intro iter hb hfull hpos hlen hfuel
    obtain ⟨-, -, rseq, ralike, -⟩ :=
      trace_find_next_entry_inc_alike iter iter (reads_alike_refl iter hb)
    rw [tracing_read_pipe_loop]
    simp only
    by_cases hf : (trace_find_next_entry_inc iter).2 = true
    swap
    · have hf2 : (trace_find_next_entry_inc iter).2 = false := by
        cases hx : (trace_find_next_entry_inc iter).2 with
        | true => exact absurd hx hf
        | false => rfl
      rw [hf2]
      simp only [Bool.not_false, if_true]
      refine ⟨_, rfl, ralike.2.1, ralike.2.2.2, by rw [rseq]; exact hpos, ?_, ?_, ?_⟩
      · rw [rseq, pipe_pending_alike out size _ _ ralike]
      · rw [ralike.1]
      · intro hx; cases hx
    · rw [hf]
      simp only [Bool.not_true, Bool.false_eq_true, if_false]
      have hfull1 : (trace_find_next_entry_inc iter).1.seq.full = false := by rw [rseq]; exact hfull
      rw [print_trace_line_pieces out trace size _ hp hfull1]
      simp only
      rw [rseq]
      have hdec := trace_consume_found iter hb hf
      have hfound := pipe_pending_found out size iter hb hf
      by_cases hfit : iter.seq.buffer.length +
          (record_line out (trace_find_next_entry_inc iter).1).length ≤ size
      · have hS := trace_seq_fold_fits size (record_chunks out (trace_find_next_entry_inc iter).1)
          iter.seq hfull hfit
        rw [hS]
        have hret : trace_handle_return
            { iter.seq with buffer := iter.seq.buffer ++
              (record_chunks out (trace_find_next_entry_inc iter).1).flatten } =
            print_line_t.TRACE_TYPE_HANDLED := by
          unfold trace_handle_return trace_seq_has_overflowed
          simp only [hfull, Bool.false_eq_true, if_false]
        rw [hret]
        simp only [reduceCtorEq, if_false, ne_eq, not_false_eq_true, if_true]
        have hal : reads_alike
            (trace_consume { (trace_find_next_entry_inc iter).1 with
              seq := { iter.seq with buffer := iter.seq.buffer ++
                (record_chunks out (trace_find_next_entry_inc iter).1).flatten } })
            (trace_consume (trace_find_next_entry_inc iter).1) :=
          trace_consume_alike _ _ ⟨rfl, ralike.2.1, ralike.2.1, rfl⟩ rfl
        have htext : record_text out size (trace_find_next_entry_inc iter).1 =
            (record_chunks out (trace_find_next_entry_inc iter).1).flatten := by
          unfold record_text
          rw [if_pos (by omega)]
          rfl
        have hinv : (iter.seq.buffer ++
              (record_chunks out (trace_find_next_entry_inc iter).1).flatten) ++
            pipe_pending out size
              (trace_consume { (trace_find_next_entry_inc iter).1 with
                seq := { iter.seq with buffer := iter.seq.buffer ++
                  (record_chunks out (trace_find_next_entry_inc iter).1).flatten } }) =
            iter.seq.buffer ++ pipe_pending out size iter := by
          rw [pipe_pending_alike out size _ _ hal, hfound, htext, List.append_assoc]
        have hcf : (trace_consume (trace_find_next_entry_inc iter).1).cpu_file = iter.cpu_file :=
          ralike.2.2.2
        split_ifs with hcnt
        · refine ⟨_, rfl, hal.2.1, hcf, hpos, hinv, ?_, ?_⟩
          · rw [hal.1]; omega
          · intro _ _; rw [hal.1]; omega
        · obtain ⟨last, l1, l2, l3, l4, l5, l6, -⟩ := ih
            (trace_consume { (trace_find_next_entry_inc iter).1 with
              seq := { iter.seq with buffer := iter.seq.buffer ++
                (record_chunks out (trace_find_next_entry_inc iter).1).flatten } })
            hal.2.1 hfull hpos
            (by
              show (iter.seq.buffer ++
                (record_chunks out (trace_find_next_entry_inc iter).1).flatten).length ≤ size
              rw [List.length_append]
              exact hfit)
            (by rw [hal.1]; omega)
          refine ⟨last, l1, l2, l3.trans hcf, l4, ?_, ?_, ?_⟩
          · rw [l5]; exact hinv
          · rw [hal.1] at l6; omega
          · intro _ _; rw [hal.1] at l6; omega
      · have hover := trace_seq_fold_overflow size
          (record_chunks out (trace_find_next_entry_inc iter).1) iter.seq hfull hlen
          (by unfold record_line at hfit; omega)
        obtain ⟨⟨t, hpre⟩, hrp⟩ := trace_seq_fold_extends size
          (record_chunks out (trace_find_next_entry_inc iter).1) iter.seq
        have hret : trace_handle_return
            ((record_chunks out (trace_find_next_entry_inc iter).1).foldl
              (trace_seq_puts size) iter.seq) = print_line_t.TRACE_TYPE_PARTIAL_LINE := by
          unfold trace_handle_return trace_seq_has_overflowed
          rw [hover]
          rfl
        rw [hret]
        simp only [if_true]
        by_cases hsave : iter.seq.buffer.length = 0
        · rw [if_pos hsave]
          have hnil : iter.seq.buffer = [] := List.length_eq_zero.mp hsave
          have hinit : iter.seq = {} := trace_seq_eq_init iter.seq hnil hpos hfull
          have hal : reads_alike
              (trace_consume { (trace_find_next_entry_inc iter).1 with
                seq := trace_seq_puts size
                  { (record_chunks out (trace_find_next_entry_inc iter).1).foldl
                      (trace_seq_puts size) iter.seq with full := false } LINE_TOO_BIG })
              (trace_consume (trace_find_next_entry_inc iter).1) :=
            trace_consume_alike _ _ ⟨rfl, ralike.2.1, ralike.2.1, rfl⟩ rfl
          have htext : record_text out size (trace_find_next_entry_inc iter).1 =
              (trace_seq_puts size
                { (record_chunks out (trace_find_next_entry_inc iter).1).foldl
                    (trace_seq_puts size) iter.seq with full := false } LINE_TOO_BIG).buffer := by
            unfold record_text
            rw [if_neg (by rw [hnil] at hfit; simp only [List.length_nil, Nat.zero_add] at hfit
                           exact hfit), hinit]
          refine ⟨_, rfl, hal.2.1, ralike.2.2.2, ?_, ?_, ?_, ?_⟩
          · show (trace_seq_puts size _ LINE_TOO_BIG).readpos = 0
            rw [(trace_seq_puts_extends size _ LINE_TOO_BIG).2]
            show ((record_chunks out (trace_find_next_entry_inc iter).1).foldl
              (trace_seq_puts size) iter.seq).readpos = 0
            rw [hrp, hpos]
          · rw [pipe_pending_alike out size _ _ hal, hfound, htext, hnil]
            rfl
          · rw [hal.1]; omega
          · intro _ _; rw [hal.1]; omega
        · rw [if_neg hsave]
          have htake : ((record_chunks out (trace_find_next_entry_inc iter).1).foldl
              (trace_seq_puts size) iter.seq).buffer.take iter.seq.buffer.length =
              iter.seq.buffer := by
            rw [hpre, List.take_left]
          rw [htake]
          have hal : reads_alike
              { (trace_find_next_entry_inc iter).1 with
                seq := { (record_chunks out (trace_find_next_entry_inc iter).1).foldl
                    (trace_seq_puts size) iter.seq with buffer := iter.seq.buffer } }
              iter :=
            ⟨ralike.1, ralike.2.1, hb, ralike.2.2.2⟩
          refine ⟨_, rfl, hal.2.1, ralike.2.2.2, ?_, ?_, ?_, ?_⟩
          · show ((record_chunks out (trace_find_next_entry_inc iter).1).foldl
              (trace_seq_puts size) iter.seq).readpos = 0
            rw [hrp, hpos]
          · rw [pipe_pending_alike out size _ _ hal]
          · rw [hal.1]
          · intro _ hx
            rw [hx] at hsave
            exact absurd rfl hsave

theorem take_drop_split (l : List Nat) (p n : Nat) :
    (l.drop p).take n ++ l.drop (p + n) = l.drop p := by
  have : l.drop (p + n) = (l.drop p).drop n := by
    rw [List.drop_drop, Nat.add_comm]
  rw [this, List.take_append_drop]

theorem trace_seq_to_user_spec (copy_to_user : Nat → Nat) (s : trace_seq) (cnt : Nat) :
    (trace_seq_to_user copy_to_user s cnt).2.2 ++
        (trace_seq_to_user copy_to_user s cnt).2.1.buffer.drop
          (trace_seq_to_user copy_to_user s cnt).2.1.readpos = s.buffer.drop s.readpos ∧
      ((trace_seq_to_user copy_to_user s cnt).1 = -EBUSY → s.buffer.length ≤ s.readpos ∧
        (trace_seq_to_user copy_to_user s cnt).2.1 = s) ∧
      (0 ≤ (trace_seq_to_user copy_to_user s cnt).1 →
        (trace_seq_to_user copy_to_user s cnt).1 =
          ((trace_seq_to_user copy_to_user s cnt).2.2.length : Int)) := by
  have nb : (0 : Int) ≠ -EBUSY := by decide
  have nf : -EFAULT ≠ -EBUSY := by decide
  have n1 : ¬ (0 : Int) ≤ -EBUSY := by decide
  have n2 : ¬ (0 : Int) ≤ -EFAULT := by decide
  have nn : ∀ n : Nat, (n : Int) ≠ -EBUSY := by
    intro n hx
    unfold EBUSY at hx
    omega
  unfold trace_seq_to_user
  by_cases hc : cnt = 0
  · rw [if_pos hc]
    exact ⟨rfl, fun hx => absurd hx nb, fun _ => rfl⟩
  · rw [if_neg hc]
    by_cases hl : s.buffer.length ≤ s.readpos
    · rw [if_pos hl]
      exact ⟨rfl, fun _ => ⟨hl, rfl⟩, fun hx => absurd hx n1⟩
    · rw [if_neg hl]
      simp only
      split_ifs with h1 h2 h2
      · exact ⟨rfl, fun hx => absurd hx nf, fun hx => absurd hx n2⟩
      · refine ⟨take_drop_split s.buffer s.readpos _, fun hx => absurd hx (nn _), ?_⟩
        intro _
        show _ = ((List.take _ (List.drop s.readpos s.buffer)).length : Int)
        rw [List.length_take, List.length_drop]
        omega
      · exact ⟨rfl, fun hx => absurd hx nf, fun hx => absurd hx n2⟩
      · refine ⟨take_drop_split s.buffer s.readpos _, fun hx => absurd hx (nn _), ?_⟩
        intro _
        show _ = ((List.take _ (List.drop s.readpos s.buffer)).length : Int)
        rw [List.length_take, List.length_drop]
        omega

theorem tracing_wait_pipe_consuming (tr : trace_array) (nonblock : Bool) (fuel : Nat)
    (iter : trace_iterator) (hb : iter.buffer_iter = none) :
    tracing_wait_pipe tr nonblock (fuel + 1) iter =
      some (if trace_empty iter then
          if nonblock then wait_result.returned (-EAGAIN)
          else if !tracer_tracing_is_on tr && decide (iter.pos ≠ 0) then wait_result.returned 1
          else wait_result.suspended { wait_index := iter.wait_index }
        else wait_result.returned 1) := by
  have hw : wait_on_pipe iter = wait_result.suspended { wait_index := iter.wait_index } := by
    unfold wait_on_pipe trace_buffer_iter
    rw [hb]
    rfl
  rw [tracing_wait_pipe]
  rw [hw]
  split_ifs <;> rfl

theorem pipe_outcome_keeps_of_eq (out : trace_output) (size : Nat) (a b : trace_iterator)
    (o : read_pipe_outcome) (h1 : pipe_text out size a = pipe_text out size b)
    (h2 : a.cpu_file = b.cpu_file) (h : pipe_outcome_keeps out size a o) :
    pipe_outcome_keeps out size b o := by
  cases o with
  | returned sret ubuf last =>
    obtain ⟨k1, k2, k3, k4⟩ := h
    exact ⟨by rw [k1, h1], k2, k3, by rw [k4, h2]⟩
  | suspended pwait last =>
    obtain ⟨k1, k2, k3, k4, k5⟩ := h
    exact ⟨by rw [k1, h1], k2, k3, k4, by rw [k5, h2]⟩

theorem pipe_text_init (out : trace_output) (size : Nat) (iter : trace_iterator)
    (h : iter.seq = {}) : pipe_text out size iter = pipe_pending out size iter := by
  unfold pipe_text
  rw [h]
  rfl

/-- From the label `waitagain` on, a read of a consuming iterator whose sequence buffer is
empty ends or is suspended, and keeps the bytes the reader has still to get. -/
theorem tracing_read_pipe_waitagain_spec (out : trace_output) (copy_to_user : Nat → Nat)
    (tr : trace_array) (trace : tracer) (size : Nat) (nonblock : Bool) (cnt : Nat)
    (hp : trace.print_line = none) (fuel : Nat) :
    ∀ (iter : trace_iterator), iter.buffer_iter = none →
      RING_BUFFER_ALL_CPUS ≤ iter.cpu_file → iter.seq = {} →
      (committed iter.array_buffer).length + 1 < fuel →
      ∃ o, tracing_read_pipe_waitagain out copy_to_user tr trace size nonblock cnt fuel iter =
          some o ∧ pipe_outcome_keeps out size iter o := by
  induction fuel with
  | zero => intro iter _ _ _ h; exact absurd h (Nat.not_lt_zero _)
  | succ fuel ih =>
    intro iter hb hc hseq hfuel
    rw [tracing_read_pipe_waitagain, tracing_wait_pipe_consuming tr nonblock fuel iter hb]
    by_cases he : trace_empty iter = true
    · rw [if_pos he]
      by_cases hn : nonblock = true
      · rw [if_pos hn]
        simp only
        rw [if_pos (by decide)]
        exact ⟨_, rfl, rfl, fun hx => absurd hx (by decide), hb, rfl⟩
      · rw [if_neg hn]
        by_cases hoff : (!tracer_tracing_is_on tr && decide (iter.pos ≠ 0)) = true
        · rw [if_pos hoff]
          simp only
          rw [if_neg (by decide), if_pos he]
          exact ⟨_, rfl, rfl, fun _ => rfl, hb, rfl⟩
        · rw [if_neg hoff]
          exact ⟨_, rfl, rfl, hseq, rfl, hb, rfl⟩
    · rw [if_neg he]
      simp only
      rw [if_neg (by decide), if_neg he]
      generalize (if cnt ≥ size then size - 1 else cnt) = cnt1
      have he2 : trace_empty iter = false := by
        cases hx : trace_empty iter with
        | true => exact absurd hx he
        | false => rfl
      have hal1 : reads_alike { trace_iterator_reset iter with seq := trace_seq_init } iter :=
        ⟨rfl, hb, hb, rfl⟩
      have hfind : (trace_find_next_entry_inc
          { trace_iterator_reset iter with seq := trace_seq_init }).2 = true :=
        trace_find_next_entry_inc_of_not_empty _ hb hc he2
      obtain ⟨last, l1, l2, l3, l4, l5, l6, l7⟩ :=
        tracing_read_pipe_loop_spec out trace size cnt1 hp fuel
          { trace_iterator_reset iter with seq := trace_seq_init } hb rfl rfl
          (Nat.zero_le _) (by show (committed iter.array_buffer).length < fuel; omega)
      have l7b := l7 hfind rfl
      rw [l1]
      simp only
      rw [pipe_pending_alike out size _ _ hal1] at l5
      have l5b : last.seq.buffer ++ pipe_pending out size last = pipe_text out size iter := by
        rw [l5, pipe_text_init out size iter hseq]
        rfl
      obtain ⟨u1, u2, u3⟩ := trace_seq_to_user_spec copy_to_user last.seq cnt1
      rw [l4] at u1 u2
      have hal3 : ∀ s : trace_seq, reads_alike { last with seq := s } last :=
        fun s => ⟨rfl, l2, l2, rfl⟩
      by_cases hbusy : (trace_seq_to_user copy_to_user last.seq cnt1).1 = -EBUSY
      · rw [if_pos hbusy]
        obtain ⟨b1, b2⟩ := u2 hbusy
        have hnil : last.seq.buffer = [] := List.length_eq_zero.mp (Nat.le_zero.mp b1)
        rw [b2]
        have hge : last.seq.readpos ≥ trace_seq_used last.seq := by
          unfold trace_seq_used
          rw [l4, hnil]
          exact Nat.le_refl _
        rw [if_pos hge]
        obtain ⟨o, o1, o2⟩ := ih { last with seq := trace_seq_init } l2
          (by show RING_BUFFER_ALL_CPUS ≤ last.cpu_file; rw [l3]; exact hc) rfl
          (by
            show (committed last.array_buffer).length + 1 < fuel
            have : (committed ({ trace_iterator_reset iter with
              seq := trace_seq_init }).array_buffer).length =
                (committed iter.array_buffer).length := rfl
            omega)
        refine ⟨o, o1, pipe_outcome_keeps_of_eq out size
          { last with seq := trace_seq_init } iter o ?_ l3 o2⟩
        rw [pipe_text_init out size { last with seq := trace_seq_init } rfl,
          pipe_pending_alike out size _ _ (hal3 _), ← l5b, hnil]
        rfl
      · rw [if_neg hbusy]
        refine ⟨_, rfl, ?_, u3, l2, l3⟩
        rw [← l5b]
        unfold pipe_text
        rw [pipe_pending_alike out size _ _ (hal3 _), ← List.append_assoc]
        congr 1
        rw [List.drop_zero] at u1
        rw [← u1]
        congr 1
        show List.drop _ (if _ then trace_seq_init else _).buffer = _
        split_ifs with hge
        · unfold trace_seq_used at hge
          rw [List.drop_eq_nil_of_le hge]
          rfl
        · rfl

/-- A read of a consuming iterator ends or is suspended, and keeps the bytes the reader has
still to get. -/
theorem tracing_read_pipe_spec (out : trace_output) (copy_to_user : Nat → Nat)
    (tr : trace_array) (trace : tracer) (size : Nat) (nonblock : Bool) (cnt fuel : Nat)
    (iter : trace_iterator) (hr : trace.read = none) (hp : trace.print_line = none)
    (hb : iter.buffer_iter = none) (hc : RING_BUFFER_ALL_CPUS ≤ iter.cpu_file)
    (hfuel : (committed iter.array_buffer).length + 1 < fuel) :
    ∃ o, tracing_read_pipe out copy_to_user tr trace size nonblock cnt fuel iter = some o ∧
      pipe_outcome_keeps out size iter o := by
  obtain ⟨u1, u2, u3⟩ := trace_seq_to_user_spec copy_to_user iter.seq cnt
  have hal : ∀ s : trace_seq, reads_alike { iter with seq := s } iter :=
    fun s => ⟨rfl, hb, hb, rfl⟩
  unfold tracing_read_pipe
  simp only
  by_cases hbusy : (trace_seq_to_user copy_to_user iter.seq cnt).1 = -EBUSY
  · rw [if_neg (by rw [hbusy]; simp)]
    rw [hr]
    simp only
    rw [if_neg (by simp)]
    obtain ⟨o, o1, o2⟩ := tracing_read_pipe_waitagain_spec out copy_to_user tr trace size
      nonblock cnt hp fuel { iter with seq := trace_seq_init } hb hc rfl hfuel
    refine ⟨o, o1, pipe_outcome_keeps_of_eq out size
      { iter with seq := trace_seq_init } iter o ?_ rfl o2⟩
    rw [pipe_text_init out size { iter with seq := trace_seq_init } rfl,
      pipe_pending_alike out size _ _ (hal _)]
    unfold pipe_text
    rw [List.drop_eq_nil_of_le (u2 hbusy).1]
    rfl
  · rw [if_pos hbusy]
    refine ⟨_, rfl, ?_, u3, hb, rfl⟩
    unfold pipe_text
    rw [pipe_pending_alike out size _ _ (hal _), ← List.append_assoc]
    congr 1

theorem tracing_read_pipe_fresh (out : trace_output) (copy_to_user : Nat → Nat)
    (tr : trace_array) (trace : tracer) (size : Nat) (nonblock : Bool) (cnt fuel : Nat)
    (iter : trace_iterator) (hseq : iter.seq = {}) (hcnt : cnt ≠ 0) (hr : trace.read = none) :
    tracing_read_pipe out copy_to_user tr trace size nonblock cnt fuel iter =
      tracing_read_pipe_waitagain out copy_to_user tr trace size nonblock cnt fuel
        { iter with seq := trace_seq_init } := by
  have h0 : trace_seq_to_user copy_to_user iter.seq cnt = (-EBUSY, iter.seq, []) := by
    unfold trace_seq_to_user
    rw [if_neg hcnt, if_pos (by rw [hseq]; exact Nat.le_refl _)]
  unfold tracing_read_pipe
  rw [h0, hr]
  simp only
  rw [if_neg (by simp), if_neg (by simp)]

theorem tracing_read_pipe_waitagain_step (out : trace_output) (copy_to_user : Nat → Nat)
    (tr : trace_array) (trace : tracer) (size : Nat) (nonblock : Bool) (cnt fuel : Nat)
    (iter last : trace_iterator) (hb : iter.buffer_iter = none)
    (he : trace_empty iter = false)
    (hl : tracing_read_pipe_loop out trace size (if cnt ≥ size then size - 1 else cnt) fuel
      { trace_iterator_reset iter with seq := trace_seq_init } = some last)
    (hu : (trace_seq_to_user copy_to_user last.seq
      (if cnt ≥ size then size - 1 else cnt)).1 ≠ -EBUSY) :
    tracing_read_pipe_waitagain out copy_to_user tr trace size nonblock cnt (fuel + 1) iter =
      some (read_pipe_outcome.returned
        (trace_seq_to_user copy_to_user last.seq (if cnt ≥ size then size - 1 else cnt)).1
        (trace_seq_to_user copy_to_user last.seq (if cnt ≥ size then size - 1 else cnt)).2.2
        { last with
          seq :=
            if (trace_seq_to_user copy_to_user last.seq
                (if cnt ≥ size then size - 1 else cnt)).2.1.readpos ≥
              trace_seq_used (trace_seq_to_user copy_to_user last.seq
                (if cnt ≥ size then size - 1 else cnt)).2.1
            then trace_seq_init
            else (trace_seq_to_user copy_to_user last.seq
              (if cnt ≥ size then size - 1 else cnt)).2.1 }) := by
  rw [tracing_read_pipe_waitagain, tracing_wait_pipe_consuming tr nonblock fuel iter hb]
  rw [if_neg (by rw [he]; decide)]
  simp only
  rw [if_neg (by decide), if_neg (by rw [he]; decide), hl]
  simp only
  rw [if_neg hu]

theorem tracing_read_pipe_loop_too_big (out : trace_output) (trace : tracer)
    (size cnt fuel : Nat) (iter it : trace_iterator) (c : List Nat)
    (hp : trace.print_line = none)
    (hfind : trace_find_next_entry_inc iter = (it, true)) (hseq : it.seq = {})
    (hch : record_chunks out it = [c]) (hc : size < c.length)
    (hbig : LINE_TOO_BIG.length ≤ size) :
    tracing_read_pipe_loop out trace size cnt (fuel + 1) iter =
      some (trace_consume { it with seq := { buffer := LINE_TOO_BIG } }) := by
  have hS : trace_seq_puts size {} c = { full := true } := by
    unfold trace_seq_puts
    rw [if_neg (by decide), if_pos (by show size - 0 < c.length; omega)]
  have hT : trace_seq_puts size {} LINE_TOO_BIG = { buffer := LINE_TOO_BIG } := by
    unfold trace_seq_puts
    rw [if_neg (by decide), if_neg (by show ¬ (size - 0 < LINE_TOO_BIG.length); omega)]
    rfl
  rw [tracing_read_pipe_loop]
  simp only [hfind]
  rw [print_trace_line_pieces out trace size it hp (by rw [hseq])]
  rw [hch]
  simp only [List.foldl_cons, List.foldl_nil]
  rw [hseq, hS]
  simp only [Bool.not_true, Bool.false_eq_true, if_false]
  have hret : trace_handle_return { full := true } = print_line_t.TRACE_TYPE_PARTIAL_LINE := rfl
  rw [hret]
  simp only [if_true, List.length_nil]
  rw [hT]

/-- C13, counterexample: record A of the example scenario, whose line of
8157 bytes does not fit into the empty sequence buffer of 8156 bytes, is consumed by the
first read, and what the reader gets for it is the 15 bytes `[LINE TOO BIG]` and a newline;
nothing of the line is left in the sequence buffer, and B and C are what is left in the ring
buffer. -/
theorem tracing_read_pipe_line_too_big :
    ∃ last, tracing_read_pipe out_wide copy_ok scenario_tr scenario_nop scenario_seq_size
        false 4096 5 (open_pipe scenario_buffer RING_BUFFER_ALL_CPUS) =
          some (read_pipe_outcome.returned 15 LINE_TOO_BIG last) ∧
      last.seq = {} ∧
      committed last.array_buffer =
        [{ ent := scenario_B.data, cpu := 0, ts := 3 },
         { ent := scenario_C.data, cpu := 1, ts := 2 }] ∧
      (record_line out_wide (trace_find_next_entry_inc
        (open_pipe scenario_buffer RING_BUFFER_ALL_CPUS)).1).length = 8157 := by
  have hfind : trace_find_next_entry_inc
      { trace_iterator_reset (open_pipe scenario_buffer RING_BUFFER_ALL_CPUS) with
        seq := trace_seq_init } =
      ({ open_pipe scenario_buffer RING_BUFFER_ALL_CPUS with
          ent := some scenario_A.data, ent_size := 1, cpu := 0, ts := 1, idx := 1,
          pos := -1 }, true) := by decide
  have hloop := tracing_read_pipe_loop_too_big out_wide scenario_nop scenario_seq_size 4096 3
    _ _ (List.replicate 8157 65) rfl hfind rfl rfl
    (by rw [List.length_replicate]; decide) (by decide)
  have hcnt : (if 4096 ≥ scenario_seq_size then scenario_seq_size - 1 else 4096) = 4096 := by
    decide
  have hstep := tracing_read_pipe_waitagain_step out_wide copy_ok scenario_tr scenario_nop
    scenario_seq_size false 4096 4
    { open_pipe scenario_buffer RING_BUFFER_ALL_CPUS with seq := trace_seq_init } _ rfl
    (by decide) (by rw [hcnt]; exact hloop) (by rw [hcnt]; decide)
  rw [hcnt] at hstep
  rw [tracing_read_pipe_fresh out_wide copy_ok scenario_tr scenario_nop scenario_seq_size
    false 4096 5 _ rfl (by decide) rfl, hstep]
  refine ⟨_, rfl, ?_, ?_, ?_⟩
  · rfl
  · decide
  · show (List.replicate 8157 65 ++ []).length = 8157
    rw [List.append_nil, List.length_replicate]

/-- C13, amended: for a consuming iterator whose tracer has no `read` and no `print_line`
hook, every `tracing_read_pipe` ends or is suspended waiting for data, and so does its
continuation after a wake-up; the bytes it hands to the reader followed by the bytes still
to be got (what is left in the sequence buffer, then the text of every record of the ring
buffer in delivery order) are exactly the bytes that were still to be got before it, and a
non-negative return value is the number of bytes handed over.  So over every sequence of
reads nothing is dropped, duplicated or reordered, and a record whose line does not fit
into what is left of the sequence buffer is kept for a later read.  The text of a record
whose line fits into an empty sequence buffer is its whole line; only a record whose line
does not fit even there is consumed with the pieces that fitted and `[LINE TOO BIG]` in
the place of its line. -/
theorem tracing_read_pipe_keeps_lines (out : trace_output) (copy_to_user : Nat → Nat)
    (tr : trace_array) (trace : tracer) (size : Nat) (nonblock : Bool) (cnt fuel : Nat)
    (iter : trace_iterator) (ret : Int)
    (hr : trace.read = none) (hp : trace.print_line = none)
    (hb : iter.buffer_iter = none) (hc : RING_BUFFER_ALL_CPUS ≤ iter.cpu_file)
    (hret : ret ≤ 0) (hfuel : (committed iter.array_buffer).length + 1 < fuel) :
    (∃ o, tracing_read_pipe out copy_to_user tr trace size nonblock cnt fuel iter = some o ∧
        pipe_outcome_keeps out size iter o) ∧
      (iter.seq = {} →
        ∃ o, tracing_read_pipe_woken out copy_to_user tr trace size nonblock cnt ret fuel iter =
            some o ∧ pipe_outcome_keeps out size iter o) ∧
      (∀ it, (record_line out it).length ≤ size →
        record_text out size it = record_line out it) := by
  refine ⟨tracing_read_pipe_spec out copy_to_user tr trace size nonblock cnt fuel iter hr hp
    hb hc hfuel, ?_, ?_⟩
  · intro hseq
    unfold tracing_read_pipe_woken
    by_cases h0 : ret = 0
    · rw [if_neg (by rw [h0]; simp)]
      exact tracing_read_pipe_waitagain_spec out copy_to_user tr trace size nonblock cnt hp
        fuel iter hb hc hseq hfuel
    · rw [if_pos h0]
      refine ⟨_, rfl, rfl, ?_, hb, rfl⟩
      intro hx
      exact absurd (le_antisymm hret hx) h0
  · intro it hfit
    unfold record_text
    rw [if_pos hfit]

theorem tracing_read_pipe_keeps_lines_witness :
    (∃ o, tracing_read_pipe out_short copy_ok scenario_tr scenario_nop scenario_seq_size false
          3 5 (open_pipe scenario_buffer RING_BUFFER_ALL_CPUS) = some o ∧
        pipe_outcome_keeps out_short scenario_seq_size
          (open_pipe scenario_buffer RING_BUFFER_ALL_CPUS) o) ∧
      pipe_text out_short scenario_seq_size (open_pipe scenario_buffer RING_BUFFER_ALL_CPUS) =
        [65, 10, 67, 10, 66, 10] := by
  have h := tracing_read_pipe_keeps_lines out_short copy_ok scenario_tr scenario_nop
    scenario_seq_size false 3 5 (open_pipe scenario_buffer RING_BUFFER_ALL_CPUS) 0 rfl rfl rfl
    (by decide) (by decide) (by decide)
  exact ⟨h.1, by decide⟩

/-! ## The stop counter across a resize -/

theorem tracing_stop_tr_count (tr : trace_array) :
    (tracing_stop_tr tr).stop_count = tr.stop_count + 1 := by
  unfold tracing_stop_tr
  split <;> rfl

theorem tracing_start_tr_count (g : tracer_globals) (tr : trace_array)
    (hdis : g.tracing_disabled = false) (h : 0 < tr.stop_count) :
    (tracing_start_tr g tr).stop_count = tr.stop_count - 1 := by
  unfold tracing_start_tr
  rw [if_neg (by rw [hdis]; decide)]
  split_ifs with h1 h2
  · exact absurd h2 (by omega)
  · rfl
  · rfl

theorem tracing_start_tr_disabled (g : tracer_globals) (tr : trace_array)
    (hdis : g.tracing_disabled = true) : tracing_start_tr g tr = tr := by
  unfold tracing_start_tr
  rw [if_pos hdis]

/-- C27, counterexample: a resize of the example instance, whose spare buffer is
allocated, in which the live buffer is resized, the resize of the spare buffer fails and
the live buffer cannot be put back.  `tracing_disabled` is set, and the stop counter, 0 on
entry, is 1 on return: `tracing_start_tr` returns at once because tracing is disabled. -/
theorem tracing_resize_leaves_instance_stopped :
    scenario_tr.stop_count = 0 ∧ scenario_globals.tracing_disabled = false ∧
    (__tracing_resize_ring_buffer env_resize_unequal scenario_globals scenario_tr 8
      RING_BUFFER_ALL_CPUS).1 = -ENOMEM ∧
    (__tracing_resize_ring_buffer env_resize_unequal scenario_globals scenario_tr 8
      RING_BUFFER_ALL_CPUS).2.1.tracing_disabled = true ∧
    (__tracing_resize_ring_buffer env_resize_unequal scenario_globals scenario_tr 8
      RING_BUFFER_ALL_CPUS).2.2.stop_count = 1 := by
  decide

/-- C27, amended: `__tracing_resize_ring_buffer` on an instance with an allocated buffer and
a stop counter that is not negative, while tracing is not disabled.  The underlying resizes
run on the stopped instance, whose counter is one above its value on entry.  If the resize
of the spare buffer and the putting back of the live buffer both fail, `tracing_disabled` is
set, the function returns the error, and the counter stays one above its value on entry,
because `tracing_start_tr` does nothing once tracing is disabled.  In every other outcome
(success, failure on the live buffer, failure on the spare buffer with the live buffer put
back) the counter on return is its value on entry and `tracing_disabled` is untouched. -/
theorem tracing_resize_stop_count (env : ring_buffer_env) (g : tracer_globals)
    (tr : trace_array) (size : Nat) (cpu : Int) (hdis : g.tracing_disabled = false)
    (hstop : 0 ≤ tr.stop_count) :
    (resize_paused tr).stop_count = tr.stop_count + 1 ∧
      (resize_left_unequal env tr size cpu →
        (__tracing_resize_ring_buffer env g tr size cpu).2.1.tracing_disabled = true ∧
        (__tracing_resize_ring_buffer env g tr size cpu).2.2.stop_count = tr.stop_count + 1 ∧
        (__tracing_resize_ring_buffer env g tr size cpu).1 < 0) ∧
      (¬ resize_left_unequal env tr size cpu →
        (__tracing_resize_ring_buffer env g tr size cpu).2.1 = g ∧
        (__tracing_resize_ring_buffer env g tr size cpu).2.2.stop_count = tr.stop_count) := by
  have hp : (resize_paused tr).stop_count = tr.stop_count + 1 := by
    unfold resize_paused
    rw [tracing_stop_tr_count]
  have hback : ∀ x : trace_array, x.stop_count = (resize_paused tr).stop_count →
      (tracing_start_tr g x).stop_count = tr.stop_count := by
    intro x hx
    rw [tracing_start_tr_count g x hdis (by rw [hx, hp]; omega), hx, hp]
    omega
  refine ⟨hp, ?_, ?_⟩
  · intro hu
    obtain ⟨u1, u2, u3, u4⟩ := hu
    unfold resize_paused at u1 u2 u3 u4 hp hback
    unfold __tracing_resize_ring_buffer
    simp only
    rw [if_neg u1]
    rw [if_neg (by
      show ¬ ((!(tracing_stop_tr { tr with ring_buffer_expanded := true }).allocated_snapshot) = true)
      rw [u2]; decide)]
    rw [if_pos u3]
    simp only [if_pos u4]
    refine ⟨trivial, ?_, u3⟩
    rw [tracing_start_tr_disabled _ _ rfl]
    exact hp
  · intro hu
    unfold resize_left_unequal at hu
    unfold resize_paused at hu hp hback
    unfold __tracing_resize_ring_buffer
    simp only
    by_cases u1 : (ring_buffer_resize env (tracing_stop_tr { tr with ring_buffer_expanded := true }).array_buffer.buffer size cpu).1 < 0
    · rw [if_pos u1]
      exact ⟨rfl, hback _ rfl⟩
    · rw [if_neg u1]
      by_cases u2 : (tracing_stop_tr { tr with ring_buffer_expanded := true }).allocated_snapshot = true
      · rw [if_neg (by
          show ¬ ((!(tracing_stop_tr { tr with ring_buffer_expanded := true }).allocated_snapshot) = true)
          rw [u2]; decide)]
        by_cases u3 : (ring_buffer_resize env (tracing_stop_tr { tr with ring_buffer_expanded := true }).max_buffer.buffer size
            cpu).1 < 0
        · rw [if_pos u3]
          have u4 : ¬ (resize_buffer_duplicate_size env
              { (tracing_stop_tr { tr with ring_buffer_expanded := true }).array_buffer with
                buffer := (ring_buffer_resize env (tracing_stop_tr { tr with ring_buffer_expanded := true }).array_buffer.buffer size
                  cpu).2 }
              { (tracing_stop_tr { tr with ring_buffer_expanded := true }).array_buffer with
                buffer := (ring_buffer_resize env (tracing_stop_tr { tr with ring_buffer_expanded := true }).array_buffer.buffer size
                  cpu).2 } cpu).1 < 0 := fun h4 => hu ⟨u1, u2, u3, h4⟩
          simp only [if_neg u4]
          exact ⟨trivial, hback _ rfl⟩
        · rw [if_neg u3]
          exact ⟨rfl, hback _ rfl⟩
      · rw [if_pos (by
          show (!(tracing_stop_tr { tr with ring_buffer_expanded := true }).allocated_snapshot) = true
          simpa using u2)]
        exact ⟨rfl, hback _ rfl⟩

theorem tracing_resize_stop_count_witness :
    scenario_globals.tracing_disabled = false ∧ 0 ≤ scenario_tr.stop_count ∧
    ¬ resize_left_unequal env_nomem scenario_tr 8 RING_BUFFER_ALL_CPUS ∧
    (__tracing_resize_ring_buffer env_nomem scenario_globals scenario_tr 8
      RING_BUFFER_ALL_CPUS).1 = -ENOMEM ∧
    (__tracing_resize_ring_buffer env_nomem scenario_globals scenario_tr 8
      RING_BUFFER_ALL_CPUS).2.2.stop_count = scenario_tr.stop_count ∧
    resize_left_unequal env_resize_unequal scenario_tr 8 RING_BUFFER_ALL_CPUS ∧
    (__tracing_resize_ring_buffer env_resize_unequal scenario_globals scenario_tr 8
      RING_BUFFER_ALL_CPUS).2.2.stop_count = scenario_tr.stop_count + 1 := by
  have h1 := tracing_resize_stop_count env_nomem scenario_globals scenario_tr 8
    RING_BUFFER_ALL_CPUS rfl (by decide)
  have h2 := tracing_resize_stop_count env_resize_unequal scenario_globals scenario_tr 8
    RING_BUFFER_ALL_CPUS rfl (by decide)
  have n1 : ¬ resize_left_unequal env_nomem scenario_tr 8 RING_BUFFER_ALL_CPUS := by
    unfold resize_left_unequal
    decide
  have n2 : resize_left_unequal env_resize_unequal scenario_tr 8 RING_BUFFER_ALL_CPUS := by
    unfold resize_left_unequal
    decide
  exact ⟨rfl, by decide, n1, by decide, (h1.2.2 n1).2, n2, (h2.2.1 n2).2.1⟩

/-! ## The sub-buffer size control -/

set_option maxRecDepth 100000 in
/-- For the numbers up to 512, `buffer_subbuf_size_write` computes what its comment says: 0
is out of range, and a size of `v` KB from 1 to 512 gets the smallest order from 0 to 7
whose sub-buffer of `2 ^ order` pages holds `v` KB. -/
theorem subbuf_size_order_in_range :
    ∀ v, v < 513 →
      (v = 0 → 7 < subbuf_size_order v) ∧
      (0 < v → subbuf_size_order v ≤ 7 ∧
        v * 1024 ≤ PAGE_SIZE * 2 ^ subbuf_size_order v ∧
        ∀ o, o < subbuf_size_order v → PAGE_SIZE * 2 ^ o < v * 1024) := by
  decide

/-- C26, the code at the failing input: the number 17179869188 (16 TiB and 4 KiB, which
needs 4294967297 pages) written to the control of an instance whose sub-buffers have order
3.  The page count does not fit the `int` it is stored in and becomes 1, so the order
computed is 0 and the write is accepted: it returns the count and both buffers have order 0
afterwards.  With a change of order that fails on the spare buffer and cannot be put back
on the live buffer, `tracing_disabled` is set and the stop counter, 0 on entry, is 1 on
return. -/
theorem buffer_subbuf_size_write_accepts_oversize :
    DIV_ROUND_UP (17179869188 * 1024) PAGE_SIZE = 4294967297 ∧
    subbuf_size_order 17179869188 = 0 ∧
    ring_buffer_subbuf_order_get scenario_tr_order3.array_buffer.buffer = 3 ∧
    (buffer_subbuf_size_write env_ok scenario_globals scenario_tr_order3
      (0, 17179869188) 12).1 = 12 ∧
    ring_buffer_subbuf_order_get (buffer_subbuf_size_write env_ok scenario_globals
      scenario_tr_order3 (0, 17179869188) 12).2.2.array_buffer.buffer = 0 ∧
    ring_buffer_subbuf_order_get (buffer_subbuf_size_write env_ok scenario_globals
      scenario_tr_order3 (0, 17179869188) 12).2.2.max_buffer.buffer = 0 ∧
    scenario_tr_order3.stop_count = 0 ∧
    (buffer_subbuf_size_write env_order_unequal scenario_globals scenario_tr_order3
      (0, 4) 2).1 = -ENOMEM ∧
    (buffer_subbuf_size_write env_order_unequal scenario_globals scenario_tr_order3
      (0, 4) 2).2.1.tracing_disabled = true ∧
    (buffer_subbuf_size_write env_order_unequal scenario_globals scenario_tr_order3
      (0, 4) 2).2.2.stop_count = 1 := by
  decide

/-! ## Trace exports: the enable counts -/

theorem exports_with_cons (heap : Nat → trace_export) (list : List Nat) (e flag : Nat) :
    exports_with heap (e :: list) flag =
      exports_with heap list flag + (if (heap e).flags &&& flag ≠ 0 then 1 else 0) := by
  unfold exports_with
  by_cases h : (heap e).flags &&& flag ≠ 0
  · rw [List.filter_cons_of_pos (by simpa using h), if_pos h]
    rfl
  · rw [List.filter_cons_of_neg (by simpa using h), if_neg h]
    rfl

theorem exports_with_erase (heap : Nat → trace_export) (flag : Nat) :
    ∀ (list : List Nat) (e : Nat), e ∈ list →
      exports_with heap list flag =
        exports_with heap (list.erase e) flag +
          (if (heap e).flags &&& flag ≠ 0 then 1 else 0) := by
  intro list
  induction list with
  | nil => intro e h; cases h
  | cons a rest ih =>
    intro e h
    by_cases hae : a = e
    · subst hae
      rw [List.erase_cons_head, exports_with_cons]
    · have hr : e ∈ rest := by
        rcases List.mem_cons.mp h with h1 | h1
        · exact absurd h1.symm hae
        · exact h1
      rw [List.erase_cons_tail (by simpa using hae), exports_with_cons, exports_with_cons,
        ih e hr]
      omega

/-- Registering an export keeps the counts right. -/
theorem register_ftrace_export_counted (heap : Nat → trace_export)
    (st : ftrace_exports_state) (exp : Nat) (h : exports_counted heap st) :
    exports_counted heap (register_ftrace_export heap st exp).2 := by
  obtain ⟨h1, h2, h3⟩ := h
  unfold register_ftrace_export
  split
  · exact ⟨h1, h2, h3⟩
  · unfold add_ftrace_export add_trace_export ftrace_exports_enable static_branch_inc
    unfold exports_counted
    simp only
    rw [exports_with_cons, exports_with_cons, exports_with_cons]
    refine ⟨?_, ?_, ?_⟩ <;> split_ifs <;> simp_all

/-- Unregistering a registered export keeps the counts right. -/
theorem unregister_ftrace_export_counted (heap : Nat → trace_export)
    (st : ftrace_exports_state) (exp : Nat) (h : exports_counted heap st)
    (hin : exp ∈ st.ftrace_exports_list) :
    (unregister_ftrace_export heap st exp).1 = 0 ∧
      exports_counted heap (unregister_ftrace_export heap st exp).2 := by
  obtain ⟨h1, h2, h3⟩ := h
  have e1 := exports_with_erase heap TRACE_EXPORT_FUNCTION _ _ hin
  have e2 := exports_with_erase heap TRACE_EXPORT_EVENT _ _ hin
  have e3 := exports_with_erase heap TRACE_EXPORT_MARKER _ _ hin
  unfold unregister_ftrace_export rm_ftrace_export rm_trace_export
  rw [if_pos hin]
  refine ⟨rfl, ?_⟩
  unfold ftrace_exports_disable static_branch_dec exports_counted
  simp only
  refine ⟨?_, ?_, ?_⟩ <;> split_ifs <;> simp_all

/-- C28, the code at the failing input: with the export at address 1 registered, which
takes function calls and events, `unregister_ftrace_export` is called for the export at
address 2, which takes function calls and markers and is not registered.  It returns -1,
the list still holds the export at address 1, and the count for function calls has gone
from 1 to 0 although an export that takes function calls is registered.  Registering an
export and unregistering the same export restores the list and the counts. -/
theorem unregister_ftrace_export_unregistered_disables :
    (register_ftrace_export scenario_exports scenario_no_exports 1).1 = 0 ∧
    (register_ftrace_export scenario_exports scenario_no_exports 1).2 =
      { ftrace_exports_list := [1], trace_function_exports_enabled := 1,
        trace_event_exports_enabled := 1, trace_marker_exports_enabled := 0 } ∧
    (unregister_ftrace_export scenario_exports
      (register_ftrace_export scenario_exports scenario_no_exports 1).2 2).1 = -1 ∧
    (unregister_ftrace_export scenario_exports
      (register_ftrace_export scenario_exports scenario_no_exports 1).2 2).2 =
      { ftrace_exports_list := [1], trace_function_exports_enabled := 0,
        trace_event_exports_enabled := 1, trace_marker_exports_enabled := 0 } ∧
    exports_with scenario_exports [1] TRACE_EXPORT_FUNCTION = 1 ∧
    (unregister_ftrace_export scenario_exports
      (register_ftrace_export scenario_exports scenario_no_exports 1).2 1) =
      (0, scenario_no_exports) := by
  decide

/-! ## Addresses of the previous boot -/

theorem trace_adjust_address_this_boot (in_kernel : Nat → Bool) (tr : trace_array)
    (info : last_boot_info) (addr : Nat) (h : tr.fl_last_boot = false) :
    trace_adjust_address in_kernel tr info addr = addr := by
  unfold trace_adjust_address
  rw [h]
  rfl

/-- C25, the code at the failing input: an instance flagged LAST_BOOT with the sorted
module entries 0x1000, 0x2000 and 0x3000 and the deltas 16, 32 and 48.  For the address
0x3000, the start of the last module, the largest entry not above it is the third, but the
function returns the address plus 16, the delta of the first: the test for the last entry
is `<`, the search of the entries before it finds none, and the index stays 0.  One byte
higher the delta of the third entry is used.  Beside that, `cmp_mod_entry` returns the low
32 bits of the difference: with a module 4 GiB above the first it returns 0 for an address
below that module, and the address 0x1000 of the first module gets the delta of the
second. -/
theorem trace_adjust_address_start_of_last_module :
    scenario_tr_last_boot.fl_last_boot = true ∧
    scenario_last_boot.scratch.entries.Pairwise (fun a b => a < b) ∧
    cmp_mod_entry scenario_last_boot.scratch.entries 12288 1 = 4096 ∧
    trace_adjust_address (fun _ => false) scenario_tr_last_boot scenario_last_boot 12288 =
      12288 + 16 ∧
    trace_adjust_address (fun _ => false) scenario_tr_last_boot scenario_last_boot 12289 =
      12289 + 48 ∧
    trace_adjust_address (fun _ => false) scenario_tr_last_boot scenario_last_boot 8192 =
      8192 + 32 ∧
    scenario_last_boot_far.scratch.entries.Pairwise (fun a b => a < b) ∧
    cmp_mod_entry scenario_last_boot_far.scratch.entries 4096 1 = 0 ∧
    trace_adjust_address (fun _ => false) scenario_tr_last_boot scenario_last_boot_far 4096 =
      4096 + 32 ∧
    trace_adjust_address (fun _ => false) scenario_tr scenario_last_boot 12288 = 12288 := by
  decide

/-! ## The format buffer of an iterator -/

theorem trace_iter_expand_format_grows (krealloc : Nat → Bool) (iter : format_iterator) :
    (trace_iter_expand_format krealloc iter).2.stores = iter.stores ∧
    ((trace_iter_expand_format krealloc iter).1 = none →
      (trace_iter_expand_format krealloc iter).2 = iter) ∧
    ((trace_iter_expand_format krealloc iter).1 ≠ none →
      (trace_iter_expand_format krealloc iter).2.fmt_size =
        iter.fmt_size + STATIC_FMT_BUF_SIZE) := by
  unfold trace_iter_expand_format
  split_ifs <;> simp

/-- The stores of the loop stay below `fmt_size`, and the offset at its end is at most
`fmt_size`. -/
theorem trace_event_format_loop_bound (krealloc : Nat → Bool) :
    ∀ (n : Nat) (p : List Nat) (iter : format_iterator) (q : Nat), p.length ≤ n →
      q ≤ iter.fmt_size → (∀ s ∈ iter.stores, s.1 < iter.fmt_size) →
      (∀ s ∈ (trace_event_format_loop krealloc p iter q).1.stores,
        s.1 < (trace_event_format_loop krealloc p iter q).1.fmt_size) ∧
      (∀ q1, (trace_event_format_loop krealloc p iter q).2 = some q1 →
        q1 ≤ (trace_event_format_loop krealloc p iter q).1.fmt_size) := by
  intro n
  induction n with
  | zero =>
    intro p iter q hp hq hs
    have : p = [] := List.length_eq_zero.mp (Nat.le_zero.mp hp)
    subst this
    simp [trace_event_format_loop]
    exact ⟨fun a b h => hs (a, b) h, hq⟩
  | succ n ih =>
    intro p iter q hp hq hs
    cases p with
    | nil =>
      simp [trace_event_format_loop]
      exact ⟨fun a b h => hs (a, b) h, hq⟩
    | cons c p =>
      have hlen : p.length ≤ n := by simpa using hp
      unfold trace_event_format_loop
      by_cases hc : c = 0
      · simp only [hc, if_true]
        exact ⟨hs, fun q1 h => by cases h; exact hq⟩
      · simp only [hc, if_false]
        -- the buffer after the test for room
        obtain ⟨g1, g2, hg, hroom, hst⟩ : ∃ g1 g2,
            (if q + 3 > iter.fmt_size then trace_iter_expand_format krealloc iter
              else (some iter.fmt, iter)) = (g1, g2) ∧
            (g1 ≠ none → q + 3 ≤ g2.fmt_size) ∧
            (∀ s ∈ g2.stores, s.1 < g2.fmt_size) := by
          by_cases hgt : q + 3 > iter.fmt_size
          · refine ⟨(trace_iter_expand_format krealloc iter).1,
              (trace_iter_expand_format krealloc iter).2, by rw [if_pos hgt], ?_, ?_⟩
            · intro hne
              have := (trace_iter_expand_format_grows krealloc iter).2.2 hne
              rw [this]
              unfold STATIC_FMT_BUF_SIZE
              omega
            · intro s hs1
              rw [(trace_iter_expand_format_grows krealloc iter).1] at hs1
              have h1 := hs s hs1
              by_cases hn : (trace_iter_expand_format krealloc iter).1 = none
              · rw [(trace_iter_expand_format_grows krealloc iter).2.1 hn]
                exact h1
              · rw [(trace_iter_expand_format_grows krealloc iter).2.2 hn]
                omega
          · exact ⟨some iter.fmt, iter, by rw [if_neg hgt], fun _ => by omega, hs⟩
        rw [hg]
        cases g1 with
        | none => exact ⟨hst, fun q1 h => by cases h⟩
        | some ptr =>
          have hr : q + 3 ≤ g2.fmt_size := hroom (by simp)
          have hstore : ∀ (it : format_iterator) (o b : Nat), o < it.fmt_size →
              (∀ s ∈ it.stores, s.1 < it.fmt_size) →
              (fmt_store it o b).fmt_size = it.fmt_size ∧
              ∀ s ∈ (fmt_store it o b).stores, s.1 < (fmt_store it o b).fmt_size := by
            intro it o b ho hall
            refine ⟨rfl, ?_⟩
            intro s hs1
            simp only [fmt_store, List.mem_append, List.mem_singleton] at hs1
            rcases hs1 with h | h
            · exact hall s h
            · subst h
              exact ho
          have h2 := hstore g2 q c (by omega) hst
          simp only []
          by_cases h37 : c = 37
          · subst h37
            simp only [if_true]
            cases p with
            | nil =>
              exact ih [] _ (q + 1) (by simp) (by rw [h2.1]; omega) h2.2
            | cons c0 p1 =>
              have hlen1 : p1.length ≤ n := by
                simp at hlen
                omega
              simp only []
              by_cases hc0 : c0 = 37
              · subst hc0
                simp only [if_true]
                have h3 := hstore _ (q + 1) 37 (by rw [h2.1]; omega) h2.2
                exact ih p1 _ (q + 2) hlen1 (by rw [h3.1, h2.1]; omega) h3.2
              · simp only [hc0, if_false]
                by_cases hpx : c0 = 112 ∧ isalnum (p1.headD 0) = false
                · rw [if_pos hpx]
                  have h3 := hstore _ (q + 1) c0 (by rw [h2.1]; omega) h2.2
                  have h4 := hstore _ (q + 2) 120 (by rw [h3.1, h2.1]; omega) h3.2
                  exact ih p1 _ (q + 3) hlen1 (by rw [h4.1, h3.1, h2.1]; omega) h4.2
                · rw [if_neg hpx]
                  exact ih (c0 :: p1) _ (q + 1) hlen (by rw [h2.1]; omega) h2.2
          · simp only [h37, if_false]
            exact ih p _ (q + 1) hlen (by rw [h2.1]; omega) h2.2

/-- What holds of every call: a store of `trace_event_format` is at an offset of at most
`fmt_size`, one past the last byte of the buffer. -/
theorem trace_event_format_stores_le (krealloc : Nat → Bool) (iter : format_iterator)
    (fmt : List Nat) (hs : ∀ s ∈ iter.stores, s.1 < iter.fmt_size) :
    ∀ s ∈ (trace_event_format krealloc iter fmt).2.stores,
      s.1 ≤ (trace_event_format krealloc iter fmt).2.fmt_size := by
  unfold trace_event_format
  split_ifs with h
  · exact fun s h1 => Nat.le_of_lt (hs s h1)
  · have hb := trace_event_format_loop_bound krealloc fmt.length fmt iter 0 (Nat.le_refl _)
      (Nat.zero_le _) hs
    rcases hr : trace_event_format_loop krealloc fmt iter 0 with ⟨iter1, _ | q⟩
    · rw [hr] at hb
      exact fun s h1 => Nat.le_of_lt (hb.1 s h1)
    · rw [hr] at hb
      intro s h1
      simp only [fmt_store, List.mem_append, List.mem_singleton] at h1
      rcases h1 with h1 | h1
      · exact Nat.le_of_lt (hb.1 s h1)
      · subst h1
        exact hb.2 q rfl

set_option maxRecDepth 100000 in
set_option maxHeartbeats 4000000 in
/-- C24, the code at the failing input: an instance without HASH_PTR and a format of 125
letters followed by "%p".  On an iterator without a buffer the loop grows the buffer once,
to 128 bytes, stores "%px" at the offsets 125, 126 and 127, and then stores the terminating
NUL at offset 128, one past the last byte of the buffer; the same happens in the static
buffer of 128 bytes, which cannot grow.  For an empty format on an iterator without a
buffer the NUL is stored at offset 0 of a buffer of no bytes. -/
theorem trace_event_format_nul_past_buffer :
    (trace_event_format (fun _ => true) scenario_format_iter scenario_fmt_127).1 =
      format_result.new_fmt ∧
    (trace_event_format (fun _ => true) scenario_format_iter scenario_fmt_127).2.fmt_size =
      128 ∧
    (trace_event_format (fun _ => true) scenario_format_iter
      scenario_fmt_127).2.stores.drop 125 = [(125, 37), (126, 112), (127, 120), (128, 0)] ∧
    (trace_event_format (fun _ => false) scenario_format_iter_static scenario_fmt_127).1 =
      format_result.new_fmt ∧
    (trace_event_format (fun _ => false) scenario_format_iter_static
      scenario_fmt_127).2.fmt_size = 128 ∧
    (128, 0) ∈ (trace_event_format (fun _ => false) scenario_format_iter_static
      scenario_fmt_127).2.stores ∧
    trace_event_format (fun _ => true) scenario_format_iter [] =
      (format_result.new_fmt, { scenario_format_iter with stores := [(0, 0)] }) ∧
    scenario_format_iter.fmt_size = 0 := by
  decide

/-! ## The parser of user input -/

theorem int_of_ulong_small (n : Nat) (h : n < 2 ^ 31) : int_of_ulong n = (n : Int) := by
  unfold int_of_ulong
  have h1 : n % 2 ^ 32 = n := Nat.mod_eq_of_lt (by omega)
  rw [h1, if_pos h]

theorem parser_limit_eq (parser : trace_parser_struct) (h1 : 1 ≤ parser.size)
    (h2 : parser.size < 2 ^ 32) : parser_limit parser = parser.size - 1 := by
  unfold parser_limit
  omega

theorem trace_get_user_skip_stop (parser : trace_parser_struct) (ubuf : List Nat) (ch read cnt : Nat)
    (h : isspace ch = false ∨ cnt = 0) :
    trace_get_user_skip parser ubuf ch read cnt =
      { parser := parser, ch := ch, ubuf := ubuf, read := read, cnt := cnt, out := none } := by
  have hn : ¬(cnt ≠ 0 ∧ isspace ch = true) := by
    rintro ⟨h1, h2⟩
    rcases h with h | h
    · rw [h] at h2
      cases h2
    · exact h1 h
  cases ubuf <;> simp only [trace_get_user_skip, if_neg hn]

/-- The skip loop over white space that is followed by another character within the
count. -/
theorem trace_get_user_skip_spaces (parser : trace_parser_struct) (c : Nat) (rest : List Nat)
    (hc : isspace c = false) :
    ∀ (ws : List Nat) (w read cnt : Nat), isspace w = true → (∀ x ∈ ws, isspace x = true) →
      ws.length + 1 ≤ cnt →
      trace_get_user_skip parser (ws ++ c :: rest) w read cnt =
        { parser := parser, ch := c, ubuf := rest, read := read + (ws.length + 1),
          cnt := cnt - (ws.length + 1), out := none } := by
  intro ws
  induction ws with
  | nil =>
    intro w read cnt hw _ hcnt
    have hy : cnt ≠ 0 ∧ isspace w = true := ⟨by simp at hcnt; omega, hw⟩
    simp only [List.nil_append, trace_get_user_skip, if_pos hy]
    rw [trace_get_user_skip_stop parser rest c _ _ (Or.inl hc)]
    rfl
  | cons x ws ih =>
    intro w read cnt hw hws hcnt
    have hy : cnt ≠ 0 ∧ isspace w = true := ⟨by simp at hcnt; omega, hw⟩
    rw [List.cons_append]
    simp only [trace_get_user_skip, if_pos hy]
    rw [ih x (read + 1) (cnt - 1) (hws x (List.mem_cons_self _ _))
      (fun y hy1 => hws y (List.mem_cons_of_mem _ hy1)) (by simp at hcnt; omega)]
    simp only [List.length_cons, get_user_vars.mk.injEq, true_and, and_true]
    constructor <;> omega

/-- The skip loop over white space that fills the count. -/
theorem trace_get_user_skip_all (parser : trace_parser_struct) (beyond : List Nat) :
    ∀ (ws : List Nat) (w read : Nat), isspace w = true → (∀ x ∈ ws, isspace x = true) →
      (trace_get_user_skip parser (ws ++ beyond) w read ws.length).out = none ∧
      isspace (trace_get_user_skip parser (ws ++ beyond) w read ws.length).ch = true ∧
      (trace_get_user_skip parser (ws ++ beyond) w read ws.length).read =
        read + ws.length := by
  intro ws
  induction ws with
  | nil =>
    intro w read hw _
    rw [List.nil_append, List.length_nil,
      trace_get_user_skip_stop parser beyond w read 0 (Or.inr rfl)]
    exact ⟨rfl, hw, rfl⟩
  | cons x ws ih =>
    intro w read hw hws
    have hy : (x :: ws).length ≠ 0 ∧ isspace w = true := ⟨by simp, hw⟩
    rw [List.cons_append]
    simp only [trace_get_user_skip, if_pos hy]
    have h := ih x (read + 1) (hws x (List.mem_cons_self _ _))
      (fun y hy1 => hws y (List.mem_cons_of_mem _ hy1))
    simp only [List.length_cons, Nat.add_sub_cancel]
    refine ⟨h.1, h.2.1, ?_⟩
    rw [h.2.2]
    omega

theorem trace_get_user_read_stop (parser : trace_parser_struct) (ubuf : List Nat)
    (ch read cnt : Nat) (h : isspace ch = true ∨ ch = 0 ∨ cnt = 0) :
    trace_get_user_read ubuf parser ch read cnt =
      { parser := parser, ch := ch, ubuf := ubuf, read := read, cnt := cnt, out := none } := by
  have hn : ¬(cnt ≠ 0 ∧ isspace ch = false ∧ ch ≠ 0) := by
    rintro ⟨h1, h2, h3⟩
    rcases h with h | h | h
    · rw [h] at h2
      cases h2
    · exact h3 h
    · exact h1 h
  cases ubuf <;> simp only [trace_get_user_read, if_neg hn]

theorem parser_fill_cons (parser : trace_parser_struct) (t : Nat) (ts : List Nat) :
    parser_fill parser (t :: ts) =
      parser_fill { parser_store parser parser.idx t with idx := parser.idx + 1 } ts := rfl

theorem parser_fill_snoc (parser : trace_parser_struct) (ts : List Nat) (t : Nat) :
    parser_fill parser (ts ++ [t]) =
      { parser_store (parser_fill parser ts) (parser_fill parser ts).idx t with
        idx := (parser_fill parser ts).idx + 1 } := by
  unfold parser_fill
  rw [List.foldl_append]
  rfl

/-- What `parser_fill` leaves: the characters stand in the buffer from `idx` on. -/
theorem parser_fill_eq : ∀ (token : List Nat) (parser : trace_parser_struct) (pre suf : List Nat),
    parser.buffer = pre ++ suf → parser.idx = pre.length → token.length ≤ suf.length →
    parser_fill parser token =
      { parser with buffer := pre ++ token ++ suf.drop token.length,
                    idx := pre.length + token.length,
                    stores := parser.stores ++ List.range' pre.length token.length } := by
  intro token
  induction token with
  | nil =>
    intro parser pre suf hb hi _
    rcases parser with ⟨cont, buffer, idx, size, stores⟩
    simp only at hb hi
    subst hb hi
    simp [parser_fill]
  | cons t ts ih =>
    intro parser pre suf hb hi hl
    rcases parser with ⟨cont, buffer, idx, size, stores⟩
    simp only at hb hi
    subst hb hi
    cases suf with
    | nil => simp at hl
    | cons s suf =>
      rw [parser_fill_cons]
      rw [ih _ (pre ++ [t]) suf (by simp [parser_store]) (by simp) (by simpa using hl)]
      simp [parser_store, List.range'_succ, Nat.add_assoc, Nat.add_comm 1]

theorem parser_fill_limit (token : List Nat) (parser : trace_parser_struct) :
    parser_limit (parser_fill parser token) = parser_limit parser ∧
    (parser_fill parser token).idx = parser.idx + token.length ∧
    (parser_fill parser token).cont = parser.cont ∧
    (parser_fill parser token).size = parser.size := by
  induction token generalizing parser with
  | nil => exact ⟨rfl, rfl, rfl, rfl⟩
  | cons t ts ih =>
    rw [parser_fill_cons]
    obtain ⟨h1, h2, h3, h4⟩ := ih { parser_store parser parser.idx t with idx := parser.idx + 1 }
    refine ⟨h1, ?_, h3, h4⟩
    rw [h2]
    simp only [List.length_cons]
    omega

/-- The read loop over a token that is followed by a delimiter within the count. -/
theorem trace_get_user_read_token (d : Nat) (rest : List Nat)
    (hd : isspace d = true ∨ d = 0) :
    ∀ (ts : List Nat) (t : Nat) (parser : trace_parser_struct) (read cnt : Nat),
      (∀ c ∈ t :: ts, isspace c = false ∧ c ≠ 0) →
      parser.idx + (ts.length + 1) ≤ parser_limit parser → ts.length + 1 ≤ cnt →
      trace_get_user_read (ts ++ d :: rest) parser t read cnt =
        { parser := parser_fill parser (t :: ts), ch := d, ubuf := rest,
          read := read + (ts.length + 1), cnt := cnt - (ts.length + 1), out := none } := by
  intro ts
  induction ts with
  | nil =>
    intro t parser read cnt htok hroom hcnt
    have ht := htok t (List.mem_cons_self _ _)
    have hy : cnt ≠ 0 ∧ isspace t = false ∧ t ≠ 0 := ⟨by simp at hcnt; omega, ht.1, ht.2⟩
    have hlt : parser.idx < parser_limit parser := by simp at hroom; omega
    simp only [List.nil_append, trace_get_user_read, if_pos hy, if_pos hlt]
    rw [trace_get_user_read_stop _ rest d _ _
      (hd.elim Or.inl (fun h => Or.inr (Or.inl h)))]
    rfl
  | cons x ts ih =>
    intro t parser read cnt htok hroom hcnt
    have ht := htok t (List.mem_cons_self _ _)
    have hy : cnt ≠ 0 ∧ isspace t = false ∧ t ≠ 0 := ⟨by simp at hcnt; omega, ht.1, ht.2⟩
    have hlt : parser.idx < parser_limit parser := by simp at hroom; omega
    rw [List.cons_append]
    simp only [trace_get_user_read, if_pos hy, if_pos hlt]
    rw [ih x _ (read + 1) (cnt - 1) (fun c hc => htok c (List.mem_cons_of_mem _ hc))
      (by
        have : parser_limit { parser_store parser parser.idx t with idx := parser.idx + 1 } =
          parser_limit parser := rfl
        rw [this]
        simp only [List.length_cons] at hroom ⊢
        omega)
      (by simp at hcnt; omega)]
    rw [parser_fill_cons parser t (x :: ts)]
    simp only [List.length_cons, get_user_vars.mk.injEq, true_and, and_true]
    constructor <;> omega

/-- The read loop over a token that ends with the count: all characters but the last are
stored, the last is the one held in `ch`. -/
theorem trace_get_user_read_unfinished (beyond : List Nat) :
    ∀ (ts : List Nat) (t : Nat) (parser : trace_parser_struct) (read : Nat),
      (∀ c ∈ t :: ts, isspace c = false ∧ c ≠ 0) →
      parser.idx + ts.length ≤ parser_limit parser →
      trace_get_user_read (ts ++ beyond) parser t read ts.length =
        { parser := parser_fill parser (t :: ts).dropLast, ch := (t :: ts).getLastD 0,
          ubuf := beyond, read := read + ts.length, cnt := 0, out := none } := by
  intro ts
  induction ts with
  | nil =>
    intro t parser read _ _
    rw [List.nil_append, List.length_nil,
      trace_get_user_read_stop parser beyond t read 0 (Or.inr (Or.inr rfl))]
    rfl
  | cons x ts ih =>
    intro t parser read htok hroom
    have ht := htok t (List.mem_cons_self _ _)
    have hy : (x :: ts).length ≠ 0 ∧ isspace t = false ∧ t ≠ 0 := ⟨by simp, ht.1, ht.2⟩
    have hlt : parser.idx < parser_limit parser := by simp at hroom; omega
    rw [List.cons_append]
    simp only [trace_get_user_read, if_pos hy, if_pos hlt]
    simp only [List.length_cons, Nat.add_sub_cancel]
    rw [ih x _ (read + 1) (fun c hc => htok c (List.mem_cons_of_mem _ hc))
      (by
        have : parser_limit { parser_store parser parser.idx t with idx := parser.idx + 1 } =
          parser_limit parser := rfl
        rw [this]
        simp only [List.length_cons] at hroom ⊢
        omega)]
    simp only [List.dropLast_cons₂, List.getLastD_cons, get_user_vars.mk.injEq, true_and,
      and_true]
    refine ⟨?_, by omega⟩
    rw [parser_fill_cons]

/-- The read loop and the end of the function on a run of characters that does not fit:
the result is `-EINVAL`. -/
theorem trace_get_user_read_too_long (rest : List Nat) (ppos : Nat) :
    ∀ (ts : List Nat) (t : Nat) (parser : trace_parser_struct) (read cnt : Nat),
      (∀ c ∈ t :: ts, isspace c = false ∧ c ≠ 0) →
      parser.idx ≤ parser_limit parser →
      parser_limit parser - parser.idx ≤ ts.length →
      parser_limit parser - parser.idx ≤ cnt →
      (trace_get_user_finish (trace_get_user_read (ts ++ rest) parser t read cnt) ppos).1 =
        -EINVAL := by
  intro ts
  induction ts with
  | nil =>
    intro t parser read cnt htok hle hroom _
    have ht := htok t (List.mem_cons_self _ _)
    have hnlt : ¬parser.idx < parser_limit parser := by simp at hroom; omega
    have hnd : ¬(isspace t = true ∨ t = 0) := by
      rintro (h | h)
      · rw [ht.1] at h
        cases h
      · exact ht.2 h
    by_cases hc : cnt = 0
    · rw [trace_get_user_read_stop parser _ t read cnt (Or.inr (Or.inr hc))]
      simp only [trace_get_user_finish, if_neg hnd, if_neg hnlt]
    · have hy : cnt ≠ 0 ∧ isspace t = false ∧ t ≠ 0 := ⟨hc, ht.1, ht.2⟩
      cases rest <;>
        simp only [List.nil_append, trace_get_user_read, if_pos hy, if_neg hnlt,
          trace_get_user_finish]
  | cons x ts ih =>
    intro t parser read cnt htok hle hroom hcnt
    have ht := htok t (List.mem_cons_self _ _)
    have hnd : ¬(isspace t = true ∨ t = 0) := by
      rintro (h | h)
      · rw [ht.1] at h
        cases h
      · exact ht.2 h
    by_cases hlt : parser.idx < parser_limit parser
    · have hy : cnt ≠ 0 ∧ isspace t = false ∧ t ≠ 0 := ⟨by omega, ht.1, ht.2⟩
      rw [List.cons_append]
      simp only [trace_get_user_read, if_pos hy, if_pos hlt]
      have hl : parser_limit { parser_store parser parser.idx t with idx := parser.idx + 1 } =
          parser_limit parser := rfl
      exact ih x _ (read + 1) (cnt - 1) (fun c hc => htok c (List.mem_cons_of_mem _ hc))
        (by rw [hl]; exact hlt)
        (by
          rw [hl]
          simp only [List.length_cons] at hroom
          show parser_limit parser - (parser.idx + 1) ≤ ts.length
          omega)
        (by
          rw [hl]
          show parser_limit parser - (parser.idx + 1) ≤ cnt - 1
          omega)
    · by_cases hc : cnt = 0
      · rw [trace_get_user_read_stop parser _ t read cnt (Or.inr (Or.inr hc))]
        simp only [trace_get_user_finish, if_neg hnd, if_neg hlt]
      · have hy : cnt ≠ 0 ∧ isspace t = false ∧ t ≠ 0 := ⟨hc, ht.1, ht.2⟩
        rw [List.cons_append]
        simp only [trace_get_user_read, if_pos hy, if_neg hlt, trace_get_user_finish]

theorem dropLast_append_getLastD (t : Nat) (ts : List Nat) :
    (t :: ts).dropLast ++ [(t :: ts).getLastD 0] = t :: ts := by
  induction ts generalizing t with
  | nil => rfl
  | cons x ts ih =>
    rw [List.dropLast_cons₂, List.getLastD_cons, List.cons_append]
    have := ih x
    rw [List.getLastD_cons] at this
    rw [List.getLastD_cons, this]

theorem trace_get_user_read_bounds :
    ∀ (ubuf : List Nat) (parser : trace_parser_struct) (ch read cnt : Nat),
      parser.idx ≤ parser_limit parser → parser_limit parser < parser.size →
      (∀ i ∈ parser.stores, i < parser.size) →
      (trace_get_user_read ubuf parser ch read cnt).parser.idx ≤ parser_limit parser ∧
      (trace_get_user_read ubuf parser ch read cnt).parser.size = parser.size ∧
      (∀ i ∈ (trace_get_user_read ubuf parser ch read cnt).parser.stores,
        i < parser.size) := by
  intro ubuf
  induction ubuf with
  | nil =>
    intro parser ch read cnt hidx hlim hst
    simp only [trace_get_user_read]
    split_ifs with h1 h2
    · refine ⟨h2, rfl, ?_⟩
      intro i hi
      simp only [parser_store, List.mem_append, List.mem_singleton] at hi
      rcases hi with hi | hi
      · exact hst i hi
      · omega
    · exact ⟨hidx, rfl, hst⟩
    · exact ⟨hidx, rfl, hst⟩
  | cons c ubuf ih =>
    intro parser ch read cnt hidx hlim hst
    simp only [trace_get_user_read]
    split_ifs with h1 h2
    · have hl : parser_limit { parser_store parser parser.idx ch with idx := parser.idx + 1 } =
          parser_limit parser := rfl
      have := ih { parser_store parser parser.idx ch with idx := parser.idx + 1 } c (read + 1)
        (cnt - 1) (by rw [hl]; exact h2) (by rw [hl]; exact hlim)
        (by
          intro i hi
          simp only [parser_store, List.mem_append, List.mem_singleton] at hi
          rcases hi with hi | hi
          · exact hst i hi
          · show i < parser.size
            omega)
      rw [hl] at this
      exact this
    · exact ⟨hidx, rfl, hst⟩
    · exact ⟨hidx, rfl, hst⟩

theorem trace_get_user_finish_bounds (v : get_user_vars) (ppos bound size : Nat)
    (hidx : v.parser.idx ≤ bound) (hlim : parser_limit v.parser = bound) (hb : bound < size)
    (hst : ∀ i ∈ v.parser.stores, i < size) :
    (trace_get_user_finish v ppos).2.1.idx ≤ bound ∧
    (∀ i ∈ (trace_get_user_finish v ppos).2.1.stores, i < size) := by
  unfold trace_get_user_finish
  rcases v with ⟨parser, ch, ubuf, read, cnt, out⟩
  cases out with
  | some ret => exact ⟨hidx, hst⟩
  | none =>
    simp only at hidx hlim hst ⊢
    split_ifs with h1 h2
    · refine ⟨hidx, ?_⟩
      intro i hi
      simp only [parser_store, List.mem_append, List.mem_singleton] at hi
      rcases hi with hi | hi
      · exact hst i hi
      · omega
    · refine ⟨by show parser.idx + 1 ≤ bound; omega, ?_⟩
      intro i hi
      simp only [parser_store, List.mem_append, List.mem_singleton] at hi
      rcases hi with (hi | hi) | hi
      · exact hst i hi
      · omega
      · omega
    · exact ⟨hidx, hst⟩

theorem trace_get_user_skip_keeps (parser : trace_parser_struct) :
    ∀ (ubuf : List Nat) (ch read cnt : Nat),
      (trace_get_user_skip parser ubuf ch read cnt).parser = parser := by
  intro ubuf
  induction ubuf with
  | nil =>
    intro ch read cnt
    simp only [trace_get_user_skip]
    split_ifs <;> rfl
  | cons c ubuf ih =>
    intro ch read cnt
    simp only [trace_get_user_skip]
    split_ifs
    · exact ih c _ _
    · rfl

/-- Whatever the input, a parser that is not in continuation mode keeps `idx` at most
`size - 1` and stores below `size`. -/
theorem trace_get_user_bounds (parser : trace_parser_struct) (ubuf : List Nat) (cnt ppos : Nat)
    (hcont : parser.cont = false) (h1 : 1 ≤ parser.size) (h2 : parser.size < 2 ^ 32)
    (hidx : parser.idx ≤ parser.size - 1) (hst : ∀ i ∈ parser.stores, i < parser.size) :
    (trace_get_user parser ubuf cnt ppos).2.1.idx ≤ parser.size - 1 ∧
    (∀ i ∈ (trace_get_user parser ubuf cnt ppos).2.1.stores, i < parser.size) := by
  have hlim := parser_limit_eq parser h1 h2
  obtain ⟨p0, hp0, hc0, hs0, hi0, hst0⟩ : ∃ p0,
      (if ppos = 0 then trace_parser_clear parser else parser) = p0 ∧ p0.cont = false ∧
      p0.size = parser.size ∧ p0.idx ≤ parser.size - 1 ∧ p0.stores = parser.stores := by
    refine ⟨_, rfl, ?_⟩
    split_ifs
    · exact ⟨rfl, rfl, Nat.zero_le _, rfl⟩
    · exact ⟨hcont, rfl, hidx, rfl⟩
  rcases p0 with ⟨c0, b0, i0, s0, st0⟩
  simp only at hc0 hs0 hi0 hst0
  subst hc0 hs0 hst0
  unfold trace_get_user
  simp only [hp0]
  cases ubuf with
  | nil => exact ⟨hi0, hst⟩
  | cons ch ubuf1 =>
    simp only [if_true]
    generalize trace_get_user_skip _ ubuf1 ch 1 ((cnt + 2 ^ 64 - 1) % 2 ^ 64) = v
    cases ho : v.out with
    | some ret => exact ⟨hi0, hst⟩
    | none =>
      simp only []
      split_ifs with hsp
      · exact ⟨Nat.zero_le _, hst⟩
      · have hl1 : parser_limit (⟨false, b0, 0, parser.size, parser.stores⟩ : trace_parser_struct) =
            parser.size - 1 := by
          show (parser.size + 2 ^ 32 - 1) % 2 ^ 32 = parser.size - 1
          omega
        have hb := trace_get_user_read_bounds v.ubuf
          (⟨false, b0, 0, parser.size, parser.stores⟩ : trace_parser_struct) v.ch v.read v.cnt
          (Nat.zero_le _) (by rw [hl1]; show parser.size - 1 < parser.size; omega) hst
        rw [hl1] at hb
        refine trace_get_user_finish_bounds _ ppos (parser.size - 1) parser.size hb.1 ?_
          (by omega) hb.2.2
        show (_ + 2 ^ 32 - 1) % 2 ^ 32 = parser.size - 1
        rw [hb.2.1]
        show (parser.size + 2 ^ 32 - 1) % 2 ^ 32 = parser.size - 1
        omega

theorem trace_parser_entry (parser : trace_parser_struct) (ppos : Nat) (hcont : parser.cont = false) :
    ((if ppos = 0 then trace_parser_clear parser else parser).cont = false) ∧
    ({ (if ppos = 0 then trace_parser_clear parser else parser) with idx := 0 } :
      trace_parser_struct) = { parser with idx := 0 } := by
  rcases parser with ⟨c, b, i, s, st⟩
  simp only at hcont
  subst hcont
  split_ifs <;> exact ⟨rfl, rfl⟩

/-- What `trace_get_user` does up to the first character that is not white space, for a
parser that is not in continuation mode. -/
theorem trace_get_user_after_spaces (parser : trace_parser_struct) (ws : List Nat) (t : Nat)
    (rest : List Nat) (cnt ppos : Nat) (hcont : parser.cont = false)
    (hws : ∀ w ∈ ws, isspace w = true) (ht : isspace t = false ∧ t ≠ 0)
    (hcnt : ws.length + 1 ≤ cnt) (h64 : cnt < 2 ^ 64) :
    trace_get_user parser (ws ++ t :: rest) cnt ppos =
      trace_get_user_finish (trace_get_user_read rest { parser with idx := 0 } t
        (ws.length + 1) (cnt - (ws.length + 1))) ppos := by
  obtain ⟨p0, hp0, he1, he2⟩ : ∃ p0,
      (if ppos = 0 then trace_parser_clear parser else parser) = p0 ∧ p0.cont = false ∧
      ({ p0 with idx := 0 } : trace_parser_struct) = { parser with idx := 0 } :=
    ⟨_, rfl, (trace_parser_entry parser ppos hcont).1, (trace_parser_entry parser ppos hcont).2⟩
  rcases p0 with ⟨c0, b0, i0, s0, st0⟩
  simp only at he1 he2
  subst he1
  have hnd : ¬(isspace t = true ∨ t = 0) := by
    rintro (h | h)
    · rw [ht.1] at h
      cases h
    · exact ht.2 h
  have hc1 : (cnt + 2 ^ 64 - 1) % 2 ^ 64 = cnt - 1 := by omega
  unfold trace_get_user
  simp only [hp0]
  cases ws with
  | nil =>
    simp only [List.nil_append, if_true, hc1]
    rw [trace_get_user_skip_stop _ rest t 1 (cnt - 1) (Or.inl ht.1)]
    simp only [if_neg hnd, List.length_nil, Nat.zero_add]
    rw [he2]
  | cons w ws =>
    simp only [List.cons_append, if_true, hc1]
    rw [trace_get_user_skip_spaces _ t rest ht.1 ws w 1 (cnt - 1)
      (hws w (List.mem_cons_self _ _)) (fun x hx => hws x (List.mem_cons_of_mem _ hx))
      (by simp only [List.length_cons] at hcnt; omega)]
    simp only [if_neg hnd, List.length_cons]
    have e1 : 1 + (ws.length + 1) = ws.length + 1 + 1 := by omega
    have e2 : cnt - 1 - (ws.length + 1) = cnt - (ws.length + 1 + 1) := by omega
    rw [e1, e2, he2]

/-- The call on white space, a token that fits and a delimiter. -/
theorem trace_get_user_token (parser : trace_parser_struct) (ws token rest : List Nat)
    (d cnt ppos : Nat) (hcont : parser.cont = false) (hws : ∀ w ∈ ws, isspace w = true)
    (hne : token ≠ []) (htok : ∀ c ∈ token, isspace c = false ∧ c ≠ 0)
    (hd : isspace d = true ∨ d = 0) (hfit : token.length ≤ parser_limit parser)
    (hcnt : ws.length + token.length + 1 ≤ cnt) (h64 : cnt < 2 ^ 64) :
    trace_get_user parser (ws ++ token ++ d :: rest) cnt ppos =
      (int_of_ulong (ws.length + token.length + 1),
        { parser_store (parser_fill { parser with idx := 0 } token) token.length 0 with
          cont := false },
        ppos + (ws.length + token.length + 1)) := by
  cases token with
  | nil => exact absurd rfl hne
  | cons t ts =>
    simp only [List.length_cons] at hfit hcnt
    rw [List.append_assoc, List.cons_append,
      trace_get_user_after_spaces parser ws t _ cnt ppos hcont hws
        (htok t (List.mem_cons_self _ _)) (by omega) h64,
      trace_get_user_read_token d rest hd ts t _ _ _ htok
        (by
          show 0 + (ts.length + 1) ≤ parser_limit parser
          omega)
        (by omega)]
    have hidx := (parser_fill_limit (t :: ts) { parser with idx := 0 }).2.1
    simp only [trace_get_user_finish, if_pos hd, hidx, List.length_cons, Nat.zero_add]
    have e : ws.length + 1 + (ts.length + 1) = ws.length + (ts.length + 1) + 1 := by omega
    rw [e]

/-- The call on white space and a token that fits and ends with the count. -/
theorem trace_get_user_unfinished (parser : trace_parser_struct) (ws token beyond : List Nat)
    (ppos : Nat) (hcont : parser.cont = false) (hws : ∀ w ∈ ws, isspace w = true)
    (hne : token ≠ []) (htok : ∀ c ∈ token, isspace c = false ∧ c ≠ 0)
    (hfit : token.length ≤ parser_limit parser)
    (h64 : ws.length + token.length < 2 ^ 64) :
    trace_get_user parser (ws ++ token ++ beyond) (ws.length + token.length) ppos =
      (int_of_ulong (ws.length + token.length),
        { parser_store (parser_fill { parser with idx := 0 } token) token.length 0 with
          cont := true },
        ppos + (ws.length + token.length)) := by
  cases token with
  | nil => exact absurd rfl hne
  | cons t ts =>
    simp only [List.length_cons] at hfit h64 ⊢
    have e0 : ws.length + (ts.length + 1) - (ws.length + 1) = ts.length := by omega
    rw [List.append_assoc, List.cons_append,
      trace_get_user_after_spaces parser ws t _ _ ppos hcont hws
        (htok t (List.mem_cons_self _ _)) (by omega) h64, e0,
      trace_get_user_read_unfinished beyond ts t _ _ htok
        (by
          show 0 + ts.length ≤ parser_limit parser
          omega)]
    have hlast : isspace ((t :: ts).getLastD 0) = false ∧ (t :: ts).getLastD 0 ≠ 0 := by
      apply htok
      have h := dropLast_append_getLastD t ts
      have : (t :: ts).getLastD 0 ∈ (t :: ts).dropLast ++ [(t :: ts).getLastD 0] := by simp
      rw [h] at this
      exact this
    have hnd : ¬(isspace ((t :: ts).getLastD 0) = true ∨ (t :: ts).getLastD 0 = 0) := by
      rintro (h | h)
      · rw [hlast.1] at h
        cases h
      · exact hlast.2 h
    have hfl := parser_fill_limit (t :: ts).dropLast { parser with idx := 0 }
    have hdl : (t :: ts).dropLast.length = ts.length := by simp
    have hlt : (parser_fill { parser with idx := 0 } (t :: ts).dropLast).idx <
        parser_limit (parser_fill { parser with idx := 0 } (t :: ts).dropLast) := by
      rw [hfl.1, hfl.2.1, hdl]
      show 0 + ts.length < parser_limit parser
      omega
    have hsn := parser_fill_snoc { parser with idx := 0 } (t :: ts).dropLast
      ((t :: ts).getLastD 0)
    rw [dropLast_append_getLastD] at hsn
    simp only [trace_get_user_finish, if_neg hnd, if_pos hlt]
    rw [hsn]
    simp only [hfl.2.1, hdl, Nat.zero_add]
    refine Prod.ext ?_ (Prod.ext ?_ ?_)
    · show int_of_ulong (ws.length + 1 + ts.length) = int_of_ulong (ws.length + (ts.length + 1))
      rw [Nat.add_right_comm, Nat.add_assoc]
    · rfl
    · show ppos + (ws.length + 1 + ts.length) = ppos + (ws.length + (ts.length + 1))
      omega

/-- The call on white space and a run of characters longer than `size - 1`. -/
theorem trace_get_user_too_long (parser : trace_parser_struct) (ws token rest : List Nat)
    (cnt ppos : Nat) (hcont : parser.cont = false) (hws : ∀ w ∈ ws, isspace w = true)
    (htok : ∀ c ∈ token, isspace c = false ∧ c ≠ 0)
    (hlong : parser_limit parser < token.length)
    (hcnt : ws.length + token.length ≤ cnt) (h64 : cnt < 2 ^ 64) :
    (trace_get_user parser (ws ++ token ++ rest) cnt ppos).1 = -EINVAL := by
  cases token with
  | nil => simp at hlong
  | cons t ts =>
    simp only [List.length_cons] at hlong hcnt
    rw [List.append_assoc, List.cons_append,
      trace_get_user_after_spaces parser ws t _ cnt ppos hcont hws
        (htok t (List.mem_cons_self _ _)) (by omega) h64]
    exact trace_get_user_read_too_long rest ppos ts t _ _ _ htok (Nat.zero_le _)
      (by
        show parser_limit parser - 0 ≤ ts.length
        omega)
      (by
        show parser_limit parser - 0 ≤ cnt - (ws.length + 1)
        omega)

/-- The parser that holds a token: the token and its NUL stand at the start of the buffer,
`idx` is the length of the token, and the stores went to the offsets 0 to that length. -/
theorem parser_token_state (parser : trace_parser_struct) (token : List Nat) (cont : Bool)
    (hlen : token.length < parser.buffer.length) :
    ({ parser_store (parser_fill { parser with idx := 0 } token) token.length 0 with
        cont := cont } : trace_parser_struct) =
      { cont := cont,
        buffer := token ++ 0 :: parser.buffer.drop (token.length + 1),
        idx := token.length,
        size := parser.size,
        stores := parser.stores ++ List.range (token.length + 1) } := by
  rw [parser_fill_eq token { parser with idx := 0 } [] parser.buffer rfl rfl (Nat.le_of_lt hlen)]
  simp only [parser_store, List.nil_append, List.length_nil, Nat.zero_add,
    trace_parser_struct.mk.injEq, true_and]
  refine ⟨?_, ?_⟩
  · have h1 : (token ++ List.drop token.length parser.buffer).set token.length 0 =
        token ++ (List.drop token.length parser.buffer).set 0 0 := by
      rw [List.set_append_right _ _ (Nat.le_refl _), Nat.sub_self]
    rw [h1]
    cases hd : List.drop token.length parser.buffer with
    | nil =>
      have := congrArg List.length hd
      simp only [List.length_drop, List.length_nil] at this
      omega
    | cons x xs =>
      have : List.drop (token.length + 1) parser.buffer = xs := by
        rw [← List.drop_drop, hd]
        rfl
      rw [this]
      rfl
  · rw [List.append_assoc]
    congr 1
    rw [List.range_eq_range', List.range'_concat]
    simp

theorem parser_string_token (token rest : List Nat) (cont : Bool) (idx size : Nat)
    (stores : List Nat) (htok : ∀ c ∈ token, c ≠ 0) :
    parser_string { cont := cont, buffer := token ++ 0 :: rest, idx := idx, size := size,
                    stores := stores } = token := by
  unfold parser_string
  simp only
  induction token with
  | nil => simp
  | cons t ts ih =>
    have ht : t ≠ 0 := htok t (List.mem_cons_self _ _)
    rw [List.cons_append, List.takeWhile_cons]
    simp only [ht, ne_eq, not_false_eq_true, decide_True, if_true]
    rw [ih (fun c hc => htok c (List.mem_cons_of_mem _ hc))]

/-- C30: `trace_get_user` on a parser that is not in continuation mode, whose buffer has
`size` bytes, `size` at least 1, for a count below 2^31 as the write path passes it.  For
input made of white space, a token of at most `size - 1` characters and a white-space or
NUL byte, all within the count, it returns the number of bytes up to and including the
delimiter, clears `cont`, leaves the token and a NUL at the start of the buffer with `idx`
the length of the token, and has stored to the offsets 0 up to that length only.  For input
whose count ends with the token it returns the count and sets `cont`, with the same buffer
contents.  For a run of more than `size - 1` characters that are neither white space nor
NUL it returns `-EINVAL`.  Whatever the input, readable or not, `idx` is at most
`size - 1` afterwards and every store is to an offset below `size`. -/
theorem trace_get_user_contract (parser : trace_parser_struct) (hcont : parser.cont = false)
    (h1 : 1 ≤ parser.size) (h2 : parser.size < 2 ^ 32)
    (hbuf : parser.buffer.length = parser.size) (hidx : parser.idx ≤ parser.size - 1)
    (hst : ∀ i ∈ parser.stores, i < parser.size) :
    (∀ (ws token rest : List Nat) (d cnt ppos : Nat),
      (∀ w ∈ ws, isspace w = true) → token ≠ [] →
      (∀ c ∈ token, isspace c = false ∧ c ≠ 0) → (isspace d = true ∨ d = 0) →
      token.length ≤ parser.size - 1 → ws.length + token.length + 1 ≤ cnt → cnt < 2 ^ 31 →
      trace_get_user parser (ws ++ token ++ d :: rest) cnt ppos =
        (((ws.length + token.length + 1 : Nat) : Int),
          { cont := false,
            buffer := token ++ 0 :: parser.buffer.drop (token.length + 1),
            idx := token.length,
            size := parser.size,
            stores := parser.stores ++ List.range (token.length + 1) },
          ppos + (ws.length + token.length + 1))) ∧
    (∀ (ws token beyond : List Nat) (ppos : Nat),
      (∀ w ∈ ws, isspace w = true) → token ≠ [] →
      (∀ c ∈ token, isspace c = false ∧ c ≠ 0) →
      token.length ≤ parser.size - 1 → ws.length + token.length < 2 ^ 31 →
      trace_get_user parser (ws ++ token ++ beyond) (ws.length + token.length) ppos =
        (((ws.length + token.length : Nat) : Int),
          { cont := true,
            buffer := token ++ 0 :: parser.buffer.drop (token.length + 1),
            idx := token.length,
            size := parser.size,
            stores := parser.stores ++ List.range (token.length + 1) },
          ppos + (ws.length + token.length))) ∧
    (∀ (ws token rest : List Nat) (cnt ppos : Nat),
      (∀ w ∈ ws, isspace w = true) → (∀ c ∈ token, isspace c = false ∧ c ≠ 0) →
      parser.size - 1 < token.length → ws.length + token.length ≤ cnt → cnt < 2 ^ 31 →
      (trace_get_user parser (ws ++ token ++ rest) cnt ppos).1 = -EINVAL) ∧
    (∀ (ubuf : List Nat) (cnt ppos : Nat),
      (trace_get_user parser ubuf cnt ppos).2.1.idx ≤ parser.size - 1 ∧
      ∀ i ∈ (trace_get_user parser ubuf cnt ppos).2.1.stores, i < parser.size) := by
  have hlim := parser_limit_eq parser h1 h2
  refine ⟨?_, ?_, ?_, ?_⟩
  · intro ws token rest d cnt ppos hws hne htok hd hfit hcnt h31
    rw [trace_get_user_token parser ws token rest d cnt ppos hcont hws hne htok hd
      (by rw [hlim]; exact hfit) hcnt (by omega),
      parser_token_state parser token false (by omega),
      int_of_ulong_small _ (by omega)]
  · intro ws token beyond ppos hws hne htok hfit h31
    rw [trace_get_user_unfinished parser ws token beyond ppos hcont hws hne htok
      (by rw [hlim]; exact hfit) (by omega),
      parser_token_state parser token true (by omega),
      int_of_ulong_small _ h31]
  · intro ws token rest cnt ppos hws htok hlong hcnt h31
    exact trace_get_user_too_long parser ws token rest cnt ppos hcont hws htok
      (by rw [hlim]; exact hlong) hcnt (by omega)
  · intro ubuf cnt ppos
    exact trace_get_user_bounds parser ubuf cnt ppos hcont h1 h2 hidx hst

/-- C30 at a parser of eight bytes: " ab cd" leaves "ab" and returns 4, " ab" with the
count 3 leaves "ab" in continuation mode, and eight letters give `-EINVAL`. -/
theorem trace_get_user_contract_witness :
    trace_get_user scenario_parse_state (bytes " ab cd") 6 0 =
      (4, { cont := false, buffer := [97, 98, 0, 255, 255, 255, 255, 255], idx := 2,
            size := 8, stores := [0, 1, 2] }, 4) ∧
    trace_get_user scenario_parse_state (bytes " ab") 3 0 =
      (3, { cont := true, buffer := [97, 98, 0, 255, 255, 255, 255, 255], idx := 2,
            size := 8, stores := [0, 1, 2] }, 3) ∧
    (trace_get_user scenario_parse_state (bytes "abcdefgh") 8 0).1 = -EINVAL := by
  have h := trace_get_user_contract scenario_parse_state rfl (by decide) (by decide) rfl
    (by decide) (by simp [scenario_parse_state, trace_parser_get_init])
  refine ⟨?_, ?_, ?_⟩
  · exact h.1 [32] [97, 98] [99, 100] 32 6 0 (by decide) (by decide) (by decide)
      (by decide) (by decide) (by decide) (by decide)
  · exact h.2.1 [32] [97, 98] [] 0 (by decide) (by decide) (by decide) (by decide)
      (by decide)
  · exact h.2.2.1 [] (bytes "abcdefgh") [] 8 0 (by decide) (by decide) (by decide)
      (by decide) (by decide)

/-! ## Writes to a pid filter -/

theorem EINVAL_neg : (-EINVAL : Int) < 0 := by decide

theorem EFAULT_neg : (-EFAULT : Int) < 0 := by decide

theorem trace_get_user_skip_count (parser : trace_parser_struct) :
    ∀ (ubuf : List Nat) (ch read cnt : Nat),
      (trace_get_user_skip parser ubuf ch read cnt).read +
          (trace_get_user_skip parser ubuf ch read cnt).cnt = read + cnt ∧
        read ≤ (trace_get_user_skip parser ubuf ch read cnt).read := by
  intro ubuf
  induction ubuf with
  | nil =>
    intro ch read cnt
    simp only [trace_get_user_skip]
    split_ifs <;> exact ⟨rfl, Nat.le_refl _⟩
  | cons c ubuf ih =>
    intro ch read cnt
    simp only [trace_get_user_skip]
    split_ifs with h
    · have hc := h.1
      obtain ⟨h1, h2⟩ := ih c (read + 1) (cnt - 1)
      exact ⟨by omega, by omega⟩
    · exact ⟨rfl, Nat.le_refl _⟩

theorem trace_get_user_read_count :
    ∀ (ubuf : List Nat) (parser : trace_parser_struct) (ch read cnt : Nat),
      (trace_get_user_read ubuf parser ch read cnt).read +
          (trace_get_user_read ubuf parser ch read cnt).cnt = read + cnt ∧
        read ≤ (trace_get_user_read ubuf parser ch read cnt).read := by
  intro ubuf
  induction ubuf with
  | nil =>
    intro parser ch read cnt
    simp only [trace_get_user_read]
    split_ifs <;> exact ⟨rfl, Nat.le_refl _⟩
  | cons c ubuf ih =>
    intro parser ch read cnt
    simp only [trace_get_user_read]
    split_ifs with h h1
    · have hc := h.1
      have key : ∀ p1 : trace_parser_struct,
          (trace_get_user_read ubuf p1 c (read + 1) (cnt - 1)).read +
              (trace_get_user_read ubuf p1 c (read + 1) (cnt - 1)).cnt = read + cnt ∧
            read ≤ (trace_get_user_read ubuf p1 c (read + 1) (cnt - 1)).read := by
        intro p1
        obtain ⟨h2, h3⟩ := ih p1 c (read + 1) (cnt - 1)
        exact ⟨by omega, by omega⟩
      exact key _
    · exact ⟨rfl, Nat.le_refl _⟩
    · exact ⟨rfl, Nat.le_refl _⟩

theorem trace_get_user_finish_range (v : get_user_vars) (ppos cnt : Nat)
    (h1 : 1 ≤ v.read) (h2 : v.read ≤ cnt) (h31 : cnt < 2 ^ 31)
    (hout : ∀ ret, v.out = some ret → ret < 0) :
    (trace_get_user_finish v ppos).1 < 0 ∨
      (1 ≤ (trace_get_user_finish v ppos).1 ∧ (trace_get_user_finish v ppos).1 ≤ cnt) := by
  unfold trace_get_user_finish
  cases ho : v.out with
  | some ret => exact Or.inl (hout ret ho)
  | none =>
    simp only
    have hr : int_of_ulong v.read = (v.read : Int) := int_of_ulong_small _ (by omega)
    split_ifs
    · right
      simp only [hr]
      exact ⟨by exact_mod_cast h1, by exact_mod_cast h2⟩
    · right
      simp only [hr]
      exact ⟨by exact_mod_cast h1, by exact_mod_cast h2⟩
    · left
      exact EINVAL_neg

theorem trace_get_user_skip_out (parser : trace_parser_struct) :
    ∀ (ubuf : List Nat) (ch read cnt : Nat) (ret : Int),
      (trace_get_user_skip parser ubuf ch read cnt).out = some ret → ret < 0 := by
  intro ubuf
  induction ubuf with
  | nil =>
    intro ch read cnt ret
    simp only [trace_get_user_skip]
    split_ifs
    · intro h
      cases h
      exact EFAULT_neg
    · intro h
      cases h
  | cons c ubuf ih =>
    intro ch read cnt ret
    simp only [trace_get_user_skip]
    split_ifs
    · exact ih c _ _ ret
    · intro h
      cases h

theorem trace_get_user_read_out :
    ∀ (ubuf : List Nat) (parser : trace_parser_struct) (ch read cnt : Nat) (ret : Int),
      (trace_get_user_read ubuf parser ch read cnt).out = some ret → ret < 0 := by
  intro ubuf
  induction ubuf with
  | nil =>
    intro parser ch read cnt ret
    simp only [trace_get_user_read]
    split_ifs <;> intro h <;> cases h <;> first | exact EFAULT_neg | exact EINVAL_neg
  | cons c ubuf ih =>
    intro parser ch read cnt ret
    simp only [trace_get_user_read]
    split_ifs
    · exact ih _ c _ _ ret
    · intro h
      cases h
      exact EINVAL_neg
    · intro h
      cases h

/-- What `trace_get_user` returns for a count of at least 1 that a write can pass: an
error, or a number of bytes from 1 to the count. -/
theorem trace_get_user_range (parser : trace_parser_struct) (ubuf : List Nat) (cnt ppos : Nat)
    (h1 : 1 ≤ cnt) (h31 : cnt < 2 ^ 31) :
    (trace_get_user parser ubuf cnt ppos).1 < 0 ∨
      (1 ≤ (trace_get_user parser ubuf cnt ppos).1 ∧
        (trace_get_user parser ubuf cnt ppos).1 ≤ cnt) := by
  have hc1 : (cnt + 2 ^ 64 - 1) % 2 ^ 64 = cnt - 1 := by omega
  unfold trace_get_user
  cases ubuf with
  | nil => exact Or.inl EFAULT_neg
  | cons ch ubuf1 =>
    simp only [hc1]
    generalize (if ppos = 0 then trace_parser_clear parser else parser) = p0
    by_cases hcont : p0.cont = false
    · rw [if_pos hcont]
      have hk := trace_get_user_skip_count p0 ubuf1 ch 1 (cnt - 1)
      have hko := trace_get_user_skip_out p0 ubuf1 ch 1 (cnt - 1)
      generalize trace_get_user_skip p0 ubuf1 ch 1 (cnt - 1) = v at hk hko
      cases ho : v.out with
      | some ret => exact Or.inl (hko ret ho)
      | none =>
        simp only
        by_cases hsp : isspace v.ch = true ∨ v.ch = 0
        · rw [if_pos hsp]
          right
          show 1 ≤ int_of_ulong v.read ∧ int_of_ulong v.read ≤ (cnt : Int)
          rw [int_of_ulong_small _ (by omega)]
          have h2 : v.read ≤ cnt := by omega
          exact ⟨by exact_mod_cast hk.2, by exact_mod_cast h2⟩
        · rw [if_neg hsp]
          have key : ∀ p1 : trace_parser_struct,
              (trace_get_user_finish (trace_get_user_read v.ubuf p1 v.ch v.read v.cnt) ppos).1 <
                  0 ∨
                (1 ≤ (trace_get_user_finish
                    (trace_get_user_read v.ubuf p1 v.ch v.read v.cnt) ppos).1 ∧
                  (trace_get_user_finish
                    (trace_get_user_read v.ubuf p1 v.ch v.read v.cnt) ppos).1 ≤ cnt) := by
            intro p1
            have hr := trace_get_user_read_count v.ubuf p1 v.ch v.read v.cnt
            exact trace_get_user_finish_range _ ppos cnt (by omega) (by omega) h31
              (trace_get_user_read_out _ _ _ _ _)
          exact key _
    · rw [if_neg hcont]
      have hr := trace_get_user_read_count ubuf1 p0 ch 1 (cnt - 1)
      exact trace_get_user_finish_range _ ppos cnt (by omega) (by omega) h31
        (trace_get_user_read_out _ _ _ _ _)

/-- The loop over the input returns when the fuel exceeds the count, and it ends with an
error in `ret` or with `read` between 0 and the bytes there were. -/
theorem trace_pid_write_loop_total (env : pid_write_env) :
    ∀ (fuel : Nat) (v : pid_write_vars), v.cnt < fuel → v.cnt < 2 ^ 31 → 0 ≤ v.read →
      0 ≤ v.ret →
      ∃ v1, trace_pid_write_loop env fuel v = some v1 ∧
        (v1.ret < 0 ∨ (0 ≤ v1.ret ∧ 0 ≤ v1.read ∧ v1.read ≤ v.read + v.cnt)) := by
  intro fuel
  induction fuel with
  | zero => intro v h; omega
  | succ fuel ih =>
    intro v hf h31 hread hret
    rw [trace_pid_write_loop]
    by_cases hc : v.cnt > 0
    · rw [if_pos hc]
      simp only []
      have hrange := trace_get_user_range v.parser v.ubuf v.cnt 0 hc h31
      generalize trace_get_user v.parser v.ubuf v.cnt 0 = r at hrange
      by_cases hneg : r.1 < 0
      · rw [if_pos hneg]
        exact ⟨_, rfl, Or.inl hneg⟩
      · rw [if_neg hneg]
        have hr : 1 ≤ r.1 ∧ r.1 ≤ v.cnt := hrange.resolve_left hneg
        have hcnt : (v.cnt + 2 ^ 64 - r.1.toNat) % 2 ^ 64 = v.cnt - r.1.toNat := by omega
        have hle : r.1.toNat ≤ v.cnt := by omega
        have hpos : 1 ≤ r.1.toNat := by omega
        have hcast : ((r.1.toNat : Nat) : Int) = r.1 := Int.toNat_of_nonneg (by omega)
        by_cases hl : (!trace_parser_loaded r.2.1) = true
        · rw [if_pos hl]
          refine ⟨_, rfl, Or.inr ⟨by show 0 ≤ r.1; omega, by show 0 ≤ v.read + r.1; omega, ?_⟩⟩
          show v.read + r.1 ≤ v.read + (v.cnt : Int)
          omega
        · rw [if_neg hl]
          cases hk : env.kstrtoul (parser_string r.2.1) with
          | none => exact ⟨_, rfl, Or.inl EINVAL_neg⟩
          | some val =>
            simp only []
            split_ifs with hs
            · exact ⟨_, rfl, Or.inl (show (-1 : Int) < 0 by decide)⟩
            · obtain ⟨v1, hv1, hres⟩ := ih
                { parser := trace_parser_clear r.2.1,
                  pid_list := (trace_pid_list_set env v.pid_list
                    (int_of_ulong val % 2 ^ 32).toNat).2,
                  nr_pids := v.nr_pids + 1, read := v.read + r.1, ret := 0,
                  ubuf := v.ubuf.drop r.1.toNat,
                  cnt := (v.cnt + 2 ^ 64 - r.1.toNat) % 2 ^ 64 }
                (by show (v.cnt + 2 ^ 64 - r.1.toNat) % 2 ^ 64 < fuel; omega)
                (by show (v.cnt + 2 ^ 64 - r.1.toNat) % 2 ^ 64 < 2 ^ 31; omega)
                (by show 0 ≤ v.read + r.1; omega) (Int.le_refl _)
              refine ⟨v1, hv1, ?_⟩
              rcases hres with h | ⟨h1, h2, h3⟩
              · exact Or.inl h
              · refine Or.inr ⟨h1, h2, ?_⟩
                have h4 : v1.read ≤ v.read + r.1 +
                    (((v.cnt + 2 ^ 64 - r.1.toNat) % 2 ^ 64 : Nat) : Int) := h3
                rw [hcnt] at h4
                omega
    · rw [if_neg hc]
      exact ⟨v, rfl, Or.inr ⟨hret, hread, by omega⟩⟩

/-- All or nothing, for every input: `trace_pid_write` returns once the fuel exceeds the
count, and it stores to `*new_pid_list` exactly when the value it returns is not
negative. -/
theorem trace_pid_write_all_or_nothing (env : pid_write_env)
    (filtered_pids : Option (List Nat)) (ubuf : List Nat) (cnt fuel : Nat)
    (h31 : cnt < 2 ^ 31) (hfuel : cnt < fuel) :
    ∃ ret stored, trace_pid_write env filtered_pids ubuf cnt fuel = some (ret, stored) ∧
      (ret < 0 ↔ stored = none) := by
  unfold trace_pid_write
  cases env.parser_memory with
  | none => exact ⟨_, _, rfl, by decide⟩
  | some memory =>
    simp only []
    by_cases ha : (!env.pid_list_alloc) = true
    · rw [if_pos ha]
      exact ⟨_, _, rfl, by decide⟩
    · rw [if_neg ha]
      obtain ⟨v1, hv1, hres⟩ := trace_pid_write_loop_total env fuel
        { parser := trace_parser_get_init memory (PID_BUF_SIZE + 1),
          pid_list := (match filtered_pids with
            | some pids => trace_pid_write_copy env pids [] 0
            | none => ([], 0)).1,
          nr_pids := (match filtered_pids with
            | some pids => trace_pid_write_copy env pids [] 0
            | none => ([], 0)).2,
          read := 0, ret := 0, ubuf := ubuf, cnt := cnt }
        hfuel h31 (Int.le_refl _) (Int.le_refl _)
      rw [hv1]
      simp only []
      by_cases hneg : v1.ret < 0
      · rw [if_pos hneg]
        exact ⟨_, _, rfl, by simp [hneg]⟩
      · rw [if_neg hneg]
        obtain ⟨-, h2, h3⟩ := hres.resolve_left hneg
        have h4 : v1.read ≤ (cnt : Int) := by
          have : v1.read ≤ (0 : Int) + (cnt : Int) := h3
          omega
        have hmod : v1.read % 2 ^ 64 = v1.read := Int.emod_eq_of_lt h2 (by omega)
        have hnn : ¬int_of_ulong (v1.read % 2 ^ 64).toNat < 0 := by
          rw [hmod, int_of_ulong_small _ (by omega)]
          omega
        split_ifs
        · exact ⟨_, _, rfl, fun h => absurd h hnn, fun h => by cases h⟩
        · exact ⟨_, _, rfl, fun h => absurd h hnn, fun h => by cases h⟩

set_option maxRecDepth 100000 in
set_option maxHeartbeats 4000000 in
/-- C22, the code at the failing input: the filter holds the pid 7 and "4294967301\n" is
written.  `kstrtoul` gives 4294967301, which is no pid: the same write of "1073741824",
the first number that is not below `MAX_PID`, fails with -1 and stores nothing.  The
conversion to `pid_t` keeps the low 32 bits, 5, so the write returns 11, the number of
bytes, and the list stored to `*new_pid_list` holds the pids 5 and 7: a pid that was not
written. -/
theorem trace_pid_write_truncates_pid :
    kstrtoul_decimal (bytes "4294967301") = some 4294967301 ∧
    trace_pid_write scenario_pid_env (some [7]) (bytes "4294967301\n") 11 12 =
      some (11, some (some [5, 7])) ∧
    trace_pid_write scenario_pid_env (some [7]) (bytes "1073741824\n") 11 12 =
      some (-1, none) ∧
    trace_pid_write scenario_pid_env (some [7]) (bytes "5\n") 2 3 =
      some (2, some (some [5, 7])) := by
  decide

/-! ## Commands written line by line -/

theorem strchr_lt : ∀ (s : List Nat) (c i : Nat), strchr s c = some i → i < s.length := by
  intro s
  induction s with
  | nil => intro c i h; simp [strchr] at h
  | cons ch s ih =>
    intro c i h
    simp only [strchr] at h
    split_ifs at h with h1 h2
    · cases h
      simp
    · cases hs : strchr s c with
      | none => rw [hs] at h; cases h
      | some j =>
        rw [hs] at h
        cases h
        have := ih c j hs
        simp only [List.length_cons]
        omega

theorem strchr_append_found : ∀ (l r : List Nat) (c : Nat), c ∉ l → 0 ∉ l →
    strchr (l ++ c :: r) c = some l.length := by
  intro l
  induction l with
  | nil => intro r c _ _; simp [strchr]
  | cons x l ih =>
    intro r c hc h0
    have hx : x ≠ c := fun h => hc (h ▸ List.mem_cons_self _ _)
    have hx0 : x ≠ 0 := fun h => h0 (h ▸ List.mem_cons_self _ _)
    rw [List.cons_append]
    simp only [strchr, if_neg hx, if_neg hx0]
    rw [ih r c (fun h => hc (List.mem_cons_of_mem _ h)) (fun h => h0 (List.mem_cons_of_mem _ h))]
    rfl

theorem strchr_none : ∀ (l : List Nat) (c : Nat), c ∉ l → strchr l c = none := by
  intro l
  induction l with
  | nil => intro c _; rfl
  | cons x l ih =>
    intro c hc
    have hx : x ≠ c := fun h => hc (h ▸ List.mem_cons_self _ _)
    simp only [strchr, if_neg hx]
    split_ifs
    · rfl
    · rw [ih c (fun h => hc (List.mem_cons_of_mem _ h))]
      rfl

theorem strlen_eq_length : ∀ (l : List Nat), 0 ∉ l → strlen l = l.length := by
  intro l
  induction l with
  | nil => intro _; rfl
  | cons x l ih =>
    intro h0
    have hx0 : x ≠ 0 := fun h => h0 (h ▸ List.mem_cons_self _ _)
    simp only [strlen, if_neg hx0, List.length_cons]
    rw [ih (fun h => h0 (List.mem_cons_of_mem _ h))]

theorem remove_comment_eq : ∀ (l : List Nat), 0 ∉ l → remove_comment l = line_text l := by
  intro l h0
  unfold remove_comment line_text
  induction l with
  | nil => rfl
  | cons x l ih =>
    have hx0 : x ≠ 0 := fun h => h0 (h ▸ List.mem_cons_self _ _)
    have ih1 := ih (fun h => h0 (List.mem_cons_of_mem _ h))
    by_cases hx : x = 35
    · subst hx
      simp [strchr]
    · simp only [strchr, if_neg hx, if_neg hx0]
      rw [List.takeWhile_cons]
      simp only [hx, ne_eq, not_false_eq_true, decide_True, if_true]
      cases hs : strchr l 35 with
      | none =>
        rw [hs] at ih1
        simp only [Option.map_none']
        rw [← ih1]
      | some i =>
        rw [hs] at ih1
        simp only [Option.map_some', List.take_succ_cons]
        rw [← ih1]

/-- One pass of the inner loop when the string at `buf` holds a line and its newline. -/
theorem trace_parse_run_command_lines_newline {σ : Type} (createfn : σ → List Nat → Int × σ)
    (count : Nat) (kbuf : List Nat) (f buf done : Nat) (s : σ) (l rest : List Nat)
    (hstr : kbuf.drop buf = l ++ 10 :: rest) (hnl : 10 ∉ l) (h0 : 0 ∉ l) :
    trace_parse_run_command_lines createfn count kbuf (f + 1) buf done s =
      if (createfn s (line_text l)).1 ≠ 0 then
        some (run_command_step.out (createfn s (line_text l)).1 (createfn s (line_text l)).2)
      else if done + (l.length + 1) < count then
        trace_parse_run_command_lines createfn count kbuf f (buf + (l.length + 1))
          (done + (l.length + 1)) (createfn s (line_text l)).2
      else some (run_command_step.again (done + (l.length + 1)) (createfn s (line_text l)).2) := by
  rw [trace_parse_run_command_lines]
  simp only [hstr, strchr_append_found l rest 10 hnl h0, List.take_left',
    remove_comment_eq l h0]

/-- One pass of the inner loop when the string at `buf` has no newline and reaches the end
of the input. -/
theorem trace_parse_run_command_lines_last {σ : Type} (createfn : σ → List Nat → Int × σ)
    (count : Nat) (kbuf : List Nat) (f buf done : Nat) (s : σ) (t : List Nat)
    (hstr : kbuf.drop buf = t) (hnl : 10 ∉ t) (h0 : 0 ∉ t) (hend : done + t.length = count) :
    trace_parse_run_command_lines createfn count kbuf (f + 1) buf done s =
      if (createfn s (line_text t)).1 ≠ 0 then
        some (run_command_step.out (createfn s (line_text t)).1 (createfn s (line_text t)).2)
      else some (run_command_step.again count (createfn s (line_text t)).2) := by
  rw [trace_parse_run_command_lines]
  have hlt : ¬(done + t.length < count) := by omega
  simp only [hstr, strchr_none t 10 hnl, strlen_eq_length t h0, if_neg hlt, List.take_length,
    remove_comment_eq t h0]
  rw [hend]

/-- One pass of the inner loop when the string at `buf` has no newline and the input goes
on behind it. -/
theorem trace_parse_run_command_lines_cut {σ : Type} (createfn : σ → List Nat → Int × σ)
    (count : Nat) (kbuf : List Nat) (f buf done : Nat) (s : σ) (t : List Nat)
    (hstr : kbuf.drop buf = t) (hnl : 10 ∉ t) (h0 : 0 ∉ t) (hmore : done + t.length < count) :
    trace_parse_run_command_lines createfn count kbuf (f + 1) buf done s =
      if buf ≠ 0 then some (run_command_step.again done s)
      else some (run_command_step.out (-EINVAL) s) := by
  rw [trace_parse_run_command_lines]
  simp only [hstr, strchr_none t 10 hnl, strlen_eq_length t h0, if_pos hmore]

/-- The inner loop returns, and it leaves `done` no smaller, and larger when it started at
the head of the buffer. -/
theorem trace_parse_run_command_lines_total {σ : Type} (createfn : σ → List Nat → Int × σ)
    (count : Nat) (kbuf : List Nat) :
    ∀ (f buf done : Nat) (s : σ), kbuf.length - buf < f →
      ∃ st, trace_parse_run_command_lines createfn count kbuf f buf done s = some st ∧
        ∀ d s1, st = run_command_step.again d s1 →
          done ≤ d ∧ (buf = 0 → done < count → done < d) := by
  intro f
  induction f with
  | zero => intro buf done s h; omega
  | succ f ih =>
    intro buf done s hf
    rw [trace_parse_run_command_lines]
    cases hs : strchr (kbuf.drop buf) 10 with
    | some tmp =>
      have htmp := strchr_lt _ _ _ hs
      rw [List.length_drop] at htmp
      simp only []
      split_ifs with h1 h2
      · exact ⟨_, rfl, fun d s1 h => by cases h⟩
      · obtain ⟨st, hst, hd⟩ := ih (buf + (tmp + 1)) (done + (tmp + 1))
          (createfn s (remove_comment (List.take tmp (List.drop buf kbuf)))).2 (by omega)
        refine ⟨st, hst, fun d s1 h => ?_⟩
        have := (hd d s1 h).1
        exact ⟨by omega, fun _ _ => by omega⟩
      · refine ⟨_, rfl, fun d s1 h => ?_⟩
        cases h
        exact ⟨by omega, fun _ _ => by omega⟩
    | none =>
      simp only []
      by_cases hlt : done + strlen (List.drop buf kbuf) < count
      · simp only [if_pos hlt]
        by_cases hb : buf = 0
        · simp only [hb, ne_eq, not_true_eq_false, if_false]
          exact ⟨_, rfl, fun d s1 h => by cases h⟩
        · simp only [ne_eq, hb, not_false_eq_true, if_true]
          refine ⟨_, rfl, fun d s1 h => ?_⟩
          cases h
          exact ⟨Nat.le_refl _, fun h0 => False.elim h0⟩
      · simp only [if_neg hlt]
        split_ifs with h1
        · exact ⟨_, rfl, fun d s1 h => by cases h⟩
        · refine ⟨_, rfl, fun d s1 h => ?_⟩
          cases h
          exact ⟨by omega, fun _ _ => by omega⟩

/-- The outer loop returns when the fuel exceeds the bytes left. -/
theorem trace_parse_run_command_loop_total {σ : Type} (createfn : σ → List Nat → Int × σ)
    (buffer : List Nat) (count : Nat) :
    ∀ (F done : Nat) (s : σ), count - done < F →
      (trace_parse_run_command_loop createfn buffer count F done s).isSome = true := by
  intro F
  induction F with
  | zero => intro done s h; omega
  | succ F ih =>
    intro done s hF
    rw [trace_parse_run_command_loop]
    by_cases hlt : done < count
    · simp only [if_pos hlt]
      cases hc : copy_from_user buffer done
          (if count - done ≥ WRITE_BUFSIZE then WRITE_BUFSIZE - 1 else count - done) with
      | none => rfl
      | some kbuf =>
        simp only []
        have hk : kbuf.length ≤ count - done := by
          unfold copy_from_user at hc
          split_ifs at hc with h1 h2
          · cases hc
            rw [List.length_take]
            unfold WRITE_BUFSIZE at h2
            omega
          · cases hc
            rw [List.length_take]
            omega
        obtain ⟨st, hst, hd⟩ := trace_parse_run_command_lines_total createfn count kbuf (F + 1)
          0 done s (by omega)
        rw [hst]
        cases st with
        | out ret s1 => rfl
        | again d s1 =>
          have := (hd d s1 rfl).2 rfl hlt
          exact ih d s1 (by omega)
    · simp only [if_neg hlt]
      rfl

theorem trace_parse_run_command_loop_end {σ : Type} (createfn : σ → List Nat → Int × σ)
    (buffer : List Nat) (count : Nat) (F : Nat) (s : σ) :
    trace_parse_run_command_loop createfn buffer count (F + 1) count s =
      some (int_of_ulong count, s) := by
  rw [trace_parse_run_command_loop, if_neg (Nat.lt_irrefl _)]

theorem copy_from_user_chunk (buffer : List Nat) (count done : Nat) (hlt : done < count)
    (hc : count ≤ buffer.length) :
    copy_from_user buffer done
        (if count - done ≥ WRITE_BUFSIZE then WRITE_BUFSIZE - 1 else count - done) =
      some (((buffer.take count).drop done).take 4095) := by
  unfold copy_from_user WRITE_BUFSIZE
  have e : (buffer.take count).drop done = (buffer.drop done).take (count - done) := by
    rw [List.drop_take]
  rw [e, List.take_take]
  split_ifs with h1 h2 h3
  · have : min 4095 (count - done) = 4096 - 1 := by omega
    rw [this]
  · omega
  · have : min 4095 (count - done) = count - done := by omega
    rw [this]
  · omega

/-- One pass of the outer loop: the copy of the next 4095 bytes, the inner loop from the
head of the buffer, and what follows it. -/
theorem trace_parse_run_command_loop_unfold {σ : Type} (createfn : σ → List Nat → Int × σ)
    (buffer : List Nat) (count : Nat) (F done : Nat) (s : σ) (hlt : done < count)
    (hc : count ≤ buffer.length) :
    trace_parse_run_command_loop createfn buffer count (F + 1) done s =
      trace_parse_run_command_resume createfn buffer count F
        (trace_parse_run_command_lines createfn count
          (((buffer.take count).drop done).take 4095) (F + 1) 0 done s) := by
  rw [trace_parse_run_command_loop, if_pos hlt]
  simp only [copy_from_user_chunk buffer count done hlt hc]
  cases trace_parse_run_command_lines createfn count
      (((buffer.take count).drop done).take 4095) (F + 1) 0 done s with
  | none => rfl
  | some st =>
    cases st with
    | out ret s1 => rfl
    | again d s1 => rfl

/-- From the first pass of the inner loop to the outer loop. -/
theorem lines_loop_ok_of_first {σ : Type} (createfn : σ → List Nat → Int × σ)
    (buffer : List Nat) (count : Nat) (hc : count ≤ buffer.length) (R : List Nat)
    (E : σ → Int × σ) (hfirst : lines_first_ok createfn buffer count R E)
    (hempty : R = [] → ∀ s, E s = (int_of_ulong count, s)) :
    lines_loop_ok createfn buffer count R E := by
  intro done s F hR hlen hF
  obtain ⟨F1, rfl⟩ : ∃ F1, F = F1 + 1 := ⟨F - 1, by omega⟩
  by_cases hne : R = []
  · subst hne
    simp only [List.length_nil, Nat.add_zero] at hlen
    subst hlen
    rw [trace_parse_run_command_loop_end, hempty rfl]
  · have hpos : 0 < R.length := List.length_pos.mpr hne
    rw [trace_parse_run_command_loop_unfold createfn buffer count F1 done s (by omega) hc, hR]
    exact hfirst done s F1 (F1 + 1) hne hR hlen (by omega) (by omega)

theorem drop_line (l r : List Nat) (c : Nat) : (l ++ c :: r).drop (l.length + 1) = r := by
  simp

theorem take_line (l r : List Nat) (c k : Nat) (hk : l.length + 1 ≤ k) :
    (l ++ c :: r).take k = l ++ c :: r.take (k - (l.length + 1)) := by
  rw [List.take_append_eq_append_take, List.take_of_length_le (by omega)]
  obtain ⟨m, hm⟩ : ∃ m, k - l.length = m + 1 := ⟨k - l.length - 1, by omega⟩
  rw [hm, List.take_succ_cons]
  have : k - (l.length + 1) = m := by omega
  rw [this]

theorem take_short (l r : List Nat) (k : Nat) (hk : k ≤ l.length) :
    (l ++ r).take k = l.take k := by
  rw [List.take_append_eq_append_take]
  have : k - l.length = 0 := by omega
  rw [this, List.take_zero, List.append_nil]

/-- A pass of the inner loop over a line that lies in the buffer with its newline. -/
theorem lines_pass {σ : Type} (createfn : σ → List Nat → Int × σ) (buffer : List Nat)
    (count : Nat) (l R1 : List Nat) (E1 : σ → Int × σ) (hnl : 10 ∉ l) (h0 : 0 ∉ l)
    (hnext : lines_next_ok createfn buffer count R1 E1)
    (hloop : lines_loop_ok createfn buffer count R1 E1)
    (kbuf : List Nat) (buf done : Nat) (s : σ) (F f k : Nat)
    (hR : (buffer.take count).drop done = l ++ 10 :: R1)
    (hlen : done + (l ++ 10 :: R1).length = count)
    (hk : kbuf.drop buf = (l ++ 10 :: R1).take k) (hfit : l.length + 1 ≤ k) (hk1 : k ≤ 4095)
    (hf : (l ++ 10 :: R1).length + 1 ≤ f) (hF : R1.length + 1 ≤ F) :
    trace_parse_run_command_resume createfn buffer count F
        (trace_parse_run_command_lines createfn count kbuf f buf done s) =
      some (createfn_per_line createfn E1 [l] s) := by
  obtain ⟨f1, rfl⟩ : ∃ f1, f = f1 + 1 := ⟨f - 1, by omega⟩
  simp only [List.length_append, List.length_cons] at hlen hf
  have hR1 : (buffer.take count).drop (done + (l.length + 1)) = R1 := by
    rw [← List.drop_drop, hR, drop_line]
  rw [take_line l R1 10 k hfit] at hk
  rw [trace_parse_run_command_lines_newline createfn count kbuf f1 buf done s l _ hk hnl h0]
  simp only [createfn_per_line]
  split_ifs with h1 h2
  · rfl
  · have hne : R1 ≠ [] := by
      intro h
      rw [h] at hlen
      simp only [List.length_nil] at hlen
      omega
    refine hnext kbuf (buf + (l.length + 1)) (done + (l.length + 1)) _ F f1
      (k - (l.length + 1)) hne hR1 (by omega) ?_ (by omega) (by omega) (by omega) hF
    rw [← List.drop_drop, hk, drop_line]
  · exact hloop (done + (l.length + 1)) _ F hR1 (by omega) hF

theorem lines_first_step {σ : Type} (createfn : σ → List Nat → Int × σ) (buffer : List Nat)
    (count : Nat) (l R1 : List Nat) (E1 : σ → Int × σ) (hnl : 10 ∉ l) (h0 : 0 ∉ l)
    (hl : l.length ≤ 4094)
    (hnext : lines_next_ok createfn buffer count R1 E1)
    (hloop : lines_loop_ok createfn buffer count R1 E1) :
    lines_first_ok createfn buffer count (l ++ 10 :: R1) (createfn_per_line createfn E1 [l]) := by
  intro done s F f _ hR hlen hf hF
  refine lines_pass createfn buffer count l R1 E1 hnl h0 hnext hloop _ 0 done s F f 4095 hR
    hlen (by rw [List.drop_zero]) (by omega) (Nat.le_refl _) hf ?_
  simp only [List.length_append, List.length_cons] at hF
  omega

theorem lines_next_step {σ : Type} (createfn : σ → List Nat → Int × σ) (buffer : List Nat)
    (count : Nat) (l R1 : List Nat) (E1 : σ → Int × σ) (hnl : 10 ∉ l) (h0 : 0 ∉ l)
    (hnext : lines_next_ok createfn buffer count R1 E1)
    (hloop : lines_loop_ok createfn buffer count R1 E1)
    (hloop0 : lines_loop_ok createfn buffer count (l ++ 10 :: R1)
      (createfn_per_line createfn E1 [l])) :
    lines_next_ok createfn buffer count (l ++ 10 :: R1) (createfn_per_line createfn E1 [l]) := by
  intro kbuf buf done s F f k _ hR hlen hk hk1 hbuf hf hF
  by_cases hfit : l.length + 1 ≤ k
  · refine lines_pass createfn buffer count l R1 E1 hnl h0 hnext hloop kbuf buf done s F f k hR
      hlen hk hfit hk1 hf ?_
    simp only [List.length_append, List.length_cons] at hF
    omega
  · obtain ⟨f1, rfl⟩ : ∃ f1, f = f1 + 1 := ⟨f - 1, by omega⟩
    rw [take_short l _ k (by omega)] at hk
    have hlk : (l.take k).length = k := by
      rw [List.length_take]
      omega
    simp only [List.length_append, List.length_cons] at hlen
    rw [trace_parse_run_command_lines_cut createfn count kbuf f1 buf done s (l.take k) hk
      (fun h => hnl (List.mem_of_mem_take h)) (fun h => h0 (List.mem_of_mem_take h))
      (by rw [hlk]; omega), if_pos hbuf]
    exact hloop0 done s F hR (by simpa using hlen) hF

/-- The first pass over a last line without newline of at most 4095 characters. -/
theorem lines_first_last {σ : Type} (createfn : σ → List Nat → Int × σ) (buffer : List Nat)
    (count : Nat) (t : List Nat) (hnl : 10 ∉ t) (h0 : 0 ∉ t) (hl : t.length ≤ 4095) :
    lines_first_ok createfn buffer count t (run_command_last createfn count t) := by
  intro done s F f hne hR hlen hf hF
  obtain ⟨f1, rfl⟩ : ∃ f1, f = f1 + 1 := ⟨f - 1, by omega⟩
  have hpos : 0 < t.length := List.length_pos.mpr hne
  obtain ⟨F1, rfl⟩ : ∃ F1, F = F1 + 1 := ⟨F - 1, by omega⟩
  rw [trace_parse_run_command_lines_last createfn count _ f1 0 done s t
    (by rw [List.drop_zero, List.take_of_length_le hl]) hnl h0 hlen]
  simp only [run_command_last, if_neg hne, createfn_per_line]
  split_ifs with h1
  · rfl
  · exact trace_parse_run_command_loop_end createfn buffer count F1 _

/-- A later pass over a last line without newline of at most 4095 characters. -/
theorem lines_next_last {σ : Type} (createfn : σ → List Nat → Int × σ) (buffer : List Nat)
    (count : Nat) (hc : count ≤ buffer.length) (t : List Nat) (hnl : 10 ∉ t) (h0 : 0 ∉ t)
    (hl : t.length ≤ 4095) :
    lines_next_ok createfn buffer count t (run_command_last createfn count t) := by
  intro kbuf buf done s F f k hne hR hlen hk hk1 hbuf hf hF
  obtain ⟨f1, rfl⟩ : ∃ f1, f = f1 + 1 := ⟨f - 1, by omega⟩
  obtain ⟨F1, rfl⟩ : ∃ F1, F = F1 + 1 := ⟨F - 1, by omega⟩
  by_cases hfit : t.length ≤ k
  · rw [List.take_of_length_le hfit] at hk
    rw [trace_parse_run_command_lines_last createfn count _ f1 buf done s t hk hnl h0 hlen]
    simp only [run_command_last, if_neg hne, createfn_per_line]
    split_ifs with h1
    · rfl
    · exact trace_parse_run_command_loop_end createfn buffer count F1 _
  · have hlk : (t.take k).length = k := by
      rw [List.length_take]
      omega
    rw [trace_parse_run_command_lines_cut createfn count kbuf f1 buf done s (t.take k) hk
      (fun h => hnl (List.mem_of_mem_take h)) (fun h => h0 (List.mem_of_mem_take h))
      (by rw [hlk]; omega), if_pos hbuf]
    exact lines_loop_ok_of_first createfn buffer count hc t _
      (lines_first_last createfn buffer count t hnl h0 hl) (fun h => absurd h hne)
      done s (F1 + 1) hR hlen hF

/-- The first pass over 4095 characters without newline that are followed by more. -/
theorem lines_first_too_long {σ : Type} (createfn : σ → List Nat → Int × σ)
    (buffer : List Nat) (count : Nat) (long rest : List Nat) (hnl : 10 ∉ long)
    (h0 : 0 ∉ long) (hl : long.length = 4095) (hrest : rest ≠ []) :
    lines_first_ok createfn buffer count (long ++ rest) run_command_too_long := by
  intro done s F f hne hR hlen hf hF
  obtain ⟨f1, rfl⟩ : ∃ f1, f = f1 + 1 := ⟨f - 1, by omega⟩
  have hpos : 0 < rest.length := List.length_pos.mpr hrest
  simp only [List.length_append] at hlen
  rw [trace_parse_run_command_lines_cut createfn count _ f1 0 done s long
    (by rw [List.drop_zero, take_short long rest 4095 (by omega),
      List.take_of_length_le (by omega)]) hnl h0 (by omega)]
  rfl

/-- A later pass over 4095 characters without newline that are followed by more. -/
theorem lines_next_too_long {σ : Type} (createfn : σ → List Nat → Int × σ)
    (buffer : List Nat) (count : Nat) (hc : count ≤ buffer.length) (long rest : List Nat)
    (hnl : 10 ∉ long) (h0 : 0 ∉ long) (hl : long.length = 4095) (hrest : rest ≠ []) :
    lines_next_ok createfn buffer count (long ++ rest) run_command_too_long := by
  intro kbuf buf done s F f k hne hR hlen hk hk1 hbuf hf hF
  obtain ⟨f1, rfl⟩ : ∃ f1, f = f1 + 1 := ⟨f - 1, by omega⟩
  have hpos : 0 < rest.length := List.length_pos.mpr hrest
  have hlk : (long.take k).length = k := by
    rw [List.length_take]
    omega
  rw [take_short long rest k (by omega)] at hk
  rw [trace_parse_run_command_lines_cut createfn count kbuf f1 buf done s (long.take k) hk
    (fun h => hnl (List.mem_of_mem_take h)) (fun h => h0 (List.mem_of_mem_take h))
    (by
      rw [hlk]
      simp only [List.length_append] at hlen
      omega), if_pos hbuf]
  exact lines_loop_ok_of_first createfn buffer count hc (long ++ rest) _
    (lines_first_too_long createfn buffer count long rest hnl h0 hl hrest)
    (fun h => absurd h hne) done s F hR hlen hF

theorem createfn_per_line_cons {σ : Type} (createfn : σ → List Nat → Int × σ)
    (E : σ → Int × σ) (l : List Nat) (ls : List (List Nat)) :
    createfn_per_line createfn E (l :: ls) =
      createfn_per_line createfn (createfn_per_line createfn E ls) [l] := by
  funext s
  simp only [createfn_per_line]

/-- The three loops over complete lines of at most 4094 characters followed by a tail
whose passes are known. -/
theorem lines_all_ok {σ : Type} (createfn : σ → List Nat → Int × σ) (buffer : List Nat)
    (count : Nat) (hc : count ≤ buffer.length) (tl : List Nat) (E : σ → Int × σ)
    (hfirst : lines_first_ok createfn buffer count tl E)
    (hnext : lines_next_ok createfn buffer count tl E)
    (hempty : tl = [] → ∀ s, E s = (int_of_ulong count, s)) :
    ∀ (ls : List (List Nat)), (∀ l ∈ ls, 10 ∉ l ∧ 0 ∉ l ∧ l.length ≤ 4094) →
      lines_first_ok createfn buffer count (render_lines ls tl) (createfn_per_line createfn E ls) ∧
      lines_next_ok createfn buffer count (render_lines ls tl) (createfn_per_line createfn E ls) ∧
      lines_loop_ok createfn buffer count (render_lines ls tl)
        (createfn_per_line createfn E ls) := by
  intro ls
  induction ls with
  | nil =>
    intro _
    exact ⟨hfirst, hnext, lines_loop_ok_of_first createfn buffer count hc tl E hfirst hempty⟩
  | cons l ls ih =>
    intro hls
    obtain ⟨_, ihn, ihl⟩ := ih (fun x hx => hls x (List.mem_cons_of_mem _ hx))
    obtain ⟨hnl, h0, hl⟩ := hls l (List.mem_cons_self _ _)
    have e : render_lines (l :: ls) tl = l ++ 10 :: render_lines ls tl := rfl
    rw [e, createfn_per_line_cons]
    have h1 := lines_first_step createfn buffer count l _ _ hnl h0 hl ihn ihl
    have h3 := lines_loop_ok_of_first createfn buffer count hc _ _ h1 (fun h => by simp at h)
    exact ⟨h1, lines_next_step createfn buffer count l _ _ hnl h0 ihn ihl h3, h3⟩

/-- The whole call on complete lines of at most 4094 characters and a last line without
newline of at most 4095. -/
theorem trace_parse_run_command_on_lines {σ : Type} (createfn : σ → List Nat → Int × σ)
    (buffer : List Nat) (count fuel : Nat) (s : σ) (ls : List (List Nat)) (t : List Nat)
    (hc : count ≤ buffer.length) (hin : buffer.take count = render_lines ls t)
    (hls : ∀ l ∈ ls, 10 ∉ l ∧ 0 ∉ l ∧ l.length ≤ 4094)
    (hnl : 10 ∉ t) (h0 : 0 ∉ t) (hl : t.length ≤ 4095) (hfuel : count + 1 ≤ fuel) :
    trace_parse_run_command true createfn buffer count fuel s =
      some (createfn_per_line createfn (run_command_last createfn count t) ls s) := by
  have hlen : (render_lines ls t).length = count := by
    rw [← hin, List.length_take]
    omega
  have h := (lines_all_ok createfn buffer count hc t (run_command_last createfn count t)
    (lines_first_last createfn buffer count t hnl h0 hl)
    (lines_next_last createfn buffer count hc t hnl h0 hl)
    (fun h s => by simp [run_command_last, run_command_done, h]) ls hls).2.2
  simp only [trace_parse_run_command, Bool.not_true, Bool.false_eq_true, if_false]
  exact h 0 s fuel (by rw [List.drop_zero, hin]) (by omega) (by omega)

/-- The whole call on complete lines of at most 4094 characters followed by 4095
characters without newline and more input. -/
theorem trace_parse_run_command_on_long {σ : Type} (createfn : σ → List Nat → Int × σ)
    (buffer : List Nat) (count fuel : Nat) (s : σ) (ls : List (List Nat))
    (long rest : List Nat) (hc : count ≤ buffer.length)
    (hin : buffer.take count = render_lines ls (long ++ rest))
    (hls : ∀ l ∈ ls, 10 ∉ l ∧ 0 ∉ l ∧ l.length ≤ 4094)
    (hnl : 10 ∉ long) (h0 : 0 ∉ long) (hl : long.length = 4095) (hrest : rest ≠ [])
    (hfuel : count + 1 ≤ fuel) :
    trace_parse_run_command true createfn buffer count fuel s =
      some (createfn_per_line createfn run_command_too_long ls s) := by
  have hlen : (render_lines ls (long ++ rest)).length = count := by
    rw [← hin, List.length_take]
    omega
  have h := (lines_all_ok createfn buffer count hc (long ++ rest) run_command_too_long
    (lines_first_too_long createfn buffer count long rest hnl h0 hl hrest)
    (lines_next_too_long createfn buffer count hc long rest hnl h0 hl hrest)
    (fun h => by
      have := congrArg List.length h
      simp only [List.length_append, List.length_nil] at this
      omega) ls hls).2.2
  simp only [trace_parse_run_command, Bool.not_true, Bool.false_eq_true, if_false]
  exact h 0 s fuel (by rw [List.drop_zero, hin]) (by omega) (by omega)

/-- With a `createfn` that always returns 0 the calls line by line are a fold. -/
theorem createfn_per_line_zero {σ : Type} (createfn : σ → List Nat → Int × σ)
    (E : σ → Int × σ) (hz : ∀ s l, (createfn s l).1 = 0) :
    ∀ (ls : List (List Nat)) (s : σ),
      createfn_per_line createfn E ls s =
        E (ls.foldl (fun s1 l => (createfn s1 (line_text l)).2) s) := by
  intro ls
  induction ls with
  | nil => intro s; rfl
  | cons l ls ih =>
    intro s
    simp only [createfn_per_line, hz, ne_eq, not_true_eq_false, if_false, List.foldl_cons]
    exact ih _

theorem line_text_replicate (n c : Nat) (hc : c ≠ 35) :
    line_text (List.replicate n c) = List.replicate n c := by
  unfold line_text
  induction n with
  | zero => rfl
  | succ n ih =>
    rw [List.replicate_succ, List.takeWhile_cons]
    simp only [hc, ne_eq, not_false_eq_true, decide_True, if_true]
    rw [ih]

/-- C29, a counterexample to the bound on the line: a write of 4095 letters x without a
newline.  The line has 4095 characters, and the call does not fail with `-EINVAL`: the
buffer takes the 4095 bytes, the length found reaches the end of the input, `createfn` is
called with the 4095 characters, and the count is returned. -/
theorem trace_parse_run_command_accepts_4095 :
    trace_parse_run_command true createfn_log (List.replicate 4095 120) 4095 4096 [] =
      some (4095, [List.replicate 4095 120]) := by
  have hlen : (List.replicate 4095 120).length = 4095 := List.length_replicate _ _
  have hnl : 10 ∉ List.replicate 4095 120 := fun h => by
    have := List.eq_of_mem_replicate h
    omega
  have h0 : 0 ∉ List.replicate 4095 120 := fun h => by
    have := List.eq_of_mem_replicate h
    omega
  have hne : List.replicate 4095 120 ≠ [] := fun h => by
    have := congrArg List.length h
    rw [hlen] at this
    cases this
  rw [trace_parse_run_command_on_lines createfn_log (List.replicate 4095 120) 4095 4096 [] []
    (List.replicate 4095 120) (by rw [hlen])
    (by rw [List.take_of_length_le (by rw [hlen])]; rfl)
    (fun l h => by cases h) hnl h0 (by rw [hlen]) (Nat.le_refl _)]
  simp only [createfn_per_line, run_command_last, if_neg hne, run_command_done, createfn_log,
    ne_eq, not_true_eq_false, if_false, List.nil_append]
  rw [line_text_replicate 4095 120 (by omega), int_of_ulong_small 4095 (by omega)]
  rfl

/-- C29, amended: `trace_parse_run_command` returns for every input once the fuel exceeds
the count.  For a readable input of `count` bytes, `count` below 2^31 as the write path
passes it, made of lines without NUL that end with a newline and have at most 4094
characters, and of a last line without NUL and without newline of at most 4095 characters
(or none), it calls `createfn` once per line, in the order of the input, with the text of
the line up to but not including its first '#', up to the first call that does not return
0, whose result it returns at once; when all calls return 0 it returns the count.  When the
complete lines are followed by 4095 characters without newline and NUL and by at least one
more byte, it returns `-EINVAL` after the calls for the lines before them. -/
theorem trace_parse_run_command_contract {σ : Type} (createfn : σ → List Nat → Int × σ)
    (buffer : List Nat) (count : Nat) (s : σ) :
    (∀ (kmalloc : Bool) (fuel : Nat), count + 1 ≤ fuel →
      (trace_parse_run_command kmalloc createfn buffer count fuel s).isSome = true) ∧
    (∀ (ls : List (List Nat)) (t : List Nat) (fuel : Nat), count + 1 ≤ fuel →
      count ≤ buffer.length → count < 2 ^ 31 → buffer.take count = render_lines ls t →
      (∀ l ∈ ls, 10 ∉ l ∧ 0 ∉ l ∧ l.length ≤ 4094) → 10 ∉ t → 0 ∉ t → t.length ≤ 4095 →
      trace_parse_run_command true createfn buffer count fuel s =
        some (createfn_per_line createfn (run_command_last createfn count t) ls s) ∧
      ((∀ s1 l, (createfn s1 l).1 = 0) →
        trace_parse_run_command true createfn buffer count fuel s =
          some ((count : Int),
            (ls ++ (if t = [] then [] else [t])).foldl
              (fun s1 l => (createfn s1 (line_text l)).2) s)) ∧
      (∀ l ls1, ls = l :: ls1 → (createfn s (line_text l)).1 ≠ 0 →
        trace_parse_run_command true createfn buffer count fuel s =
          some (createfn s (line_text l)))) ∧
    (∀ (ls : List (List Nat)) (long rest : List Nat) (fuel : Nat), count + 1 ≤ fuel →
      count ≤ buffer.length → buffer.take count = render_lines ls (long ++ rest) →
      (∀ l ∈ ls, 10 ∉ l ∧ 0 ∉ l ∧ l.length ≤ 4094) → 10 ∉ long → 0 ∉ long →
      long.length = 4095 → rest ≠ [] →
      trace_parse_run_command true createfn buffer count fuel s =
        some (createfn_per_line createfn run_command_too_long ls s) ∧
      ((∀ s1 l, (createfn s1 l).1 = 0) →
        trace_parse_run_command true createfn buffer count fuel s =
          some (-EINVAL, ls.foldl (fun s1 l => (createfn s1 (line_text l)).2) s))) := by
  refine ⟨?_, ?_, ?_⟩
  · intro kmalloc fuel hfuel
    unfold trace_parse_run_command
    split_ifs
    · rfl
    · exact trace_parse_run_command_loop_total createfn buffer count fuel 0 s (by omega)
  · intro ls t fuel hfuel hc h31 hin hls hnl h0 hl
    have h := trace_parse_run_command_on_lines createfn buffer count fuel s ls t hc hin hls
      hnl h0 hl hfuel
    refine ⟨h, ?_, ?_⟩
    · intro hz
      rw [h, createfn_per_line_zero createfn _ hz, List.foldl_append]
      unfold run_command_last
      by_cases ht : t = []
      · simp only [ht, if_true, List.foldl_nil, run_command_done,
          int_of_ulong_small count h31]
      · simp only [ht, if_false, createfn_per_line, hz, ne_eq, not_true_eq_false,
          List.foldl_cons, List.foldl_nil, run_command_done, int_of_ulong_small count h31]
    · intro l ls1 hcons hnz
      rw [h, hcons]
      simp only [createfn_per_line]
      rw [if_pos hnz]
  · intro ls long rest fuel hfuel hc hin hls hnl h0 hl hrest
    have h := trace_parse_run_command_on_long createfn buffer count fuel s ls long rest hc hin
      hls hnl h0 hl hrest hfuel
    refine ⟨h, ?_⟩
    intro hz
    rw [h, createfn_per_line_zero createfn _ hz]
    rfl

/-- C29 at concrete inputs: four lines, one of them with a comment, an empty one and a
last one without newline; and a second line on which `createfn` fails. -/
theorem trace_parse_run_command_contract_witness :
    trace_parse_run_command true createfn_log (bytes "ab # c\ncd\n\nef") 13 14 [] =
      some (13, [bytes "ab ", bytes "cd", [], bytes "ef"]) ∧
    trace_parse_run_command true createfn_bad (bytes "bad\ncd\n") 7 8 [] =
      some (-22, []) := by
  constructor
  · exact (((trace_parse_run_command_contract createfn_log (bytes "ab # c\ncd\n\nef") 13
      []).2.1 [bytes "ab # c", bytes "cd", []] (bytes "ef") 14 (by decide) (by decide)
      (by decide) (by decide) (by decide) (by decide) (by decide) (by decide)).2.1
      (fun _ _ => rfl)).trans (by decide)
  · exact (((trace_parse_run_command_contract createfn_bad (bytes "bad\ncd\n") 7
      []).2.1 [bytes "bad", bytes "cd"] [] 8 (by decide) (by decide)
      (by decide) (by decide) (by decide) (by decide) (by decide) (by decide)).2.2
      (bytes "bad") [bytes "cd"] rfl (by decide)).trans (by decide)

/-! ## Creating and removing instances -/

theorem update_printk_trace_list (sys : trace_system) (tr : Nat) :
    (update_printk_trace sys tr).ftrace_trace_arrays = sys.ftrace_trace_arrays := by
  unfold update_printk_trace
  split_ifs <;> rfl

theorem set_tracer_flag_list (ok : Bool) (sys : trace_system) (tr mask : Nat) (enabled : Int) :
    (set_tracer_flag ok sys tr mask enabled).2.ftrace_trace_arrays =
      sys.ftrace_trace_arrays := by
  unfold set_tracer_flag
  cases sys.arrays tr with
  | none => rfl
  | some t =>
    simp only
    split_ifs <;> first | rfl | exact update_printk_trace_list _ _

theorem remove_instance_flags_list (ok : Bool) (tr : Nat) (l : List Nat) :
    ∀ sys : trace_system,
      (l.foldl (remove_instance_flags ok tr) sys).ftrace_trace_arrays =
        sys.ftrace_trace_arrays := by
  induction l with
  | nil => intro sys; rfl
  | cons i rest ih =>
    intro sys
    rw [List.foldl_cons, ih]
    unfold remove_instance_flags
    split_ifs
    · exact set_tracer_flag_list ok sys tr _ 0
    · rfl

/-- An instance that is not busy is removed: the call returns 0, the entry leaves the list
and the object is freed. -/
theorem __remove_instance_removes (ok : Bool) (sys : trace_system) (tr : Nat)
    (t : trace_array) (htr : sys.arrays tr = some t) (href : t.ref ≤ 1)
    (hreader : t.trace_ref = 0) :
    (__remove_instance ok sys tr).1 = 0 ∧
    (__remove_instance ok sys tr).2.ftrace_trace_arrays = sys.ftrace_trace_arrays.erase tr ∧
    (__remove_instance ok sys tr).2.arrays tr = none := by
  have hnb : (decide (t.ref > 1) || decide (t.trace_ref ≠ 0)) = false := by
    simp only [Bool.or_eq_false_iff, decide_eq_false_iff_not]
    exact ⟨by omega, by simp [hreader]⟩
  unfold __remove_instance
  simp only [htr, hnb, Bool.false_eq_true, if_false]
  refine ⟨trivial, ?_, ?_⟩
  · split_ifs
    · rw [update_printk_trace_list, remove_instance_flags_list]
    · rw [remove_instance_flags_list]
  · simp

theorem __remove_instance_busy (ok : Bool) (sys : trace_system) (tr : Nat) (t : trace_array)
    (htr : sys.arrays tr = some t) (hbusy : t.ref > 1 ∨ t.trace_ref > 0) :
    __remove_instance ok sys tr = (-EBUSY, sys) := by
  have hb : (decide (t.ref > 1) || decide (t.trace_ref ≠ 0)) = true := by
    simp only [Bool.or_eq_true, decide_eq_true_eq]
    rcases hbusy with h | h
    · exact Or.inl h
    · exact Or.inr (by omega)
  unfold __remove_instance
  simp only [htr, hb, if_true]

/-- The lookup and the release of an instance that is on the list leave `ref` as it was,
and the list as it was. -/
theorem trace_array_get_put_listed (env : instance_env) (sys : trace_system) (name : String)
    (tr : Nat) (t : trace_array)
    (hfind : sys.ftrace_trace_arrays.find? (instance_named sys name) = some tr)
    (htr : sys.arrays tr = some t) :
    (trace_array_get_by_name env sys name).1 = some tr ∧
    (trace_array_put (trace_array_get_by_name env sys name).2 (some tr)).ftrace_trace_arrays =
      sys.ftrace_trace_arrays ∧
    (trace_array_put (trace_array_get_by_name env sys name).2 (some tr)).arrays tr =
      some { t with ref := t.ref + 1 - 1 } := by
  unfold trace_array_get_by_name
  simp only [hfind]
  refine ⟨trivial, rfl, ?_⟩
  simp [trace_array_put, modify_tr, htr, trace_array_ref_inc, __trace_array_put]

/-- The creation and the release of an instance that was not on the list leave it with
its creation reference, at the head of the list. -/
theorem trace_array_get_put_new (env : instance_env) (sys : trace_system) (name : String)
    (p : Nat) (t : trace_array)
    (hfind : sys.ftrace_trace_arrays.find? (instance_named sys name) = none)
    (halloc : env.alloc sys name = Except.ok (p, t)) :
    (trace_array_get_by_name env sys name).1 = some p ∧
    (trace_array_put (trace_array_get_by_name env sys name).2 (some p)).ftrace_trace_arrays =
      p :: sys.ftrace_trace_arrays ∧
    ∃ t1, (trace_array_put (trace_array_get_by_name env sys name).2 (some p)).arrays p =
        some t1 ∧ t1.ref = t.ref + 1 + 1 - 1 ∧ t1.trace_ref = t.trace_ref ∧
        t1.name = some name := by
  unfold trace_array_get_by_name trace_array_create_systems
  simp only [hfind, halloc]
  refine ⟨trivial, rfl, ?_⟩
  simp [trace_array_put, modify_tr, trace_array_ref_inc, __trace_array_put]

theorem instance_mkdir_exists (env : instance_env) (sys : trace_system) (name : String)
    (h : (trace_array_find sys name).isSome = true) :
    instance_mkdir env sys name = (-EEXIST, sys) := by
  unfold instance_mkdir
  rw [if_pos h]

/-- Creating an instance keeps the names unique. -/
theorem instance_mkdir_names_unique (env : instance_env) (sys : trace_system) (name : String)
    (hu : names_unique sys) (hfresh : instance_env_fresh env sys name) :
    names_unique (instance_mkdir env sys name).2 := by
  unfold instance_mkdir
  split_ifs with hex
  · exact hu
  · unfold trace_array_create trace_array_create_systems
    cases halloc : env.alloc sys name with
    | error ret => exact hu
    | ok pt =>
      obtain ⟨p, t⟩ := pt
      obtain ⟨hnone, hnot, -, -⟩ := hfresh p t halloc
      have hnf : sys.ftrace_trace_arrays.find? (instance_named sys name) = none := by
        cases hf : sys.ftrace_trace_arrays.find? (instance_named sys name) with
        | none => rfl
        | some x =>
          exfalso
          apply hex
          unfold trace_array_find
          rw [hf]
          rfl
      have hno : ∀ q ∈ sys.ftrace_trace_arrays, ∀ tq, sys.arrays q = some tq →
          tq.name ≠ some name := by
        intro q hq tq hqt hname
        have := List.find?_eq_none.mp hnf q hq
        apply this
        unfold instance_named
        rw [hqt]
        simp [hname]
      simp only
      intro a b ta tb ha hb hta htb hne hab
      simp only [List.mem_cons] at ha hb
      simp only at hta htb
      by_cases hap : a = p
      · by_cases hbp : b = p
        · rw [hap, hbp]
        · exfalso
          rw [if_pos hap] at hta
          rw [if_neg hbp] at htb
          cases hta
          have hbl : b ∈ sys.ftrace_trace_arrays := hb.resolve_left hbp
          exact hno b hbl tb htb hab.symm
      · by_cases hbp : b = p
        · exfalso
          rw [if_neg hap] at hta
          rw [if_pos hbp] at htb
          cases htb
          have hal : a ∈ sys.ftrace_trace_arrays := ha.resolve_left hap
          exact hno a hal ta hta hab
        · rw [if_neg hap] at hta
          rw [if_neg hbp] at htb
          exact hu a b ta tb (ha.resolve_left hap) (hb.resolve_left hbp) hta htb hne hab

/-- C21: on a list of instances in which every entry stands once and is an object:
`trace_array_destroy` and `instance_rmdir` return `-EBUSY` and change nothing while there
is a reference to the instance beyond the one of its creation (`ref > 1`) or an open
reader (`trace_ref > 0`).  After `trace_array_get_by_name` and `trace_array_put`, for an instance
that was on the list with no other reference and no reader as well as for one the call
created in memory that was free and zeroed, `trace_array_destroy` returns 0, the instance
is not on the list any more and its object is freed.  `instance_mkdir` under a name that
an entry of the list has returns `-EEXIST` and changes nothing, and whatever it returns it
leaves the names of the entries unique when they were. -/
theorem instance_removal_contract (env : instance_env) (ok : Bool) (sys : trace_system)
    (hl : instances_listed sys) :
    (∀ tr t, tr ∈ sys.ftrace_trace_arrays → sys.arrays tr = some t →
      (t.ref > 1 ∨ t.trace_ref > 0) →
      trace_array_destroy ok sys (some tr) = (-EBUSY, sys)) ∧
    (∀ name tr t, trace_array_find sys name = some tr → sys.arrays tr = some t →
      (t.ref > 1 ∨ t.trace_ref > 0) →
      instance_rmdir ok sys name = (-EBUSY, sys)) ∧
    (∀ name tr t, trace_array_find sys name = some tr → sys.arrays tr = some t →
      t.ref ≤ 1 → t.trace_ref = 0 →
      (trace_array_get_by_name env sys name).1 = some tr ∧
      (trace_array_destroy ok
        (trace_array_put (trace_array_get_by_name env sys name).2 (some tr)) (some tr)).1 = 0 ∧
      tr ∉ (trace_array_destroy ok
        (trace_array_put (trace_array_get_by_name env sys name).2 (some tr))
        (some tr)).2.ftrace_trace_arrays ∧
      (trace_array_destroy ok
        (trace_array_put (trace_array_get_by_name env sys name).2 (some tr))
        (some tr)).2.arrays tr = none) ∧
    (∀ name p t, trace_array_find sys name = none → instance_env_fresh env sys name →
      env.alloc sys name = Except.ok (p, t) →
      (trace_array_get_by_name env sys name).1 = some p ∧
      (trace_array_destroy ok
        (trace_array_put (trace_array_get_by_name env sys name).2 (some p)) (some p)).1 = 0 ∧
      p ∉ (trace_array_destroy ok
        (trace_array_put (trace_array_get_by_name env sys name).2 (some p))
        (some p)).2.ftrace_trace_arrays ∧
      (trace_array_destroy ok
        (trace_array_put (trace_array_get_by_name env sys name).2 (some p))
        (some p)).2.arrays p = none) ∧
    (∀ name, (trace_array_find sys name).isSome = true →
      instance_mkdir env sys name = (-EEXIST, sys)) ∧
    (∀ name, names_unique sys → instance_env_fresh env sys name →
      names_unique (instance_mkdir env sys name).2) := by
  refine ⟨?_, ?_, ?_, ?_, ?_, ?_⟩
  · intro tr t hmem htr hbusy
    unfold trace_array_destroy
    simp only [hmem, if_true]
    exact __remove_instance_busy ok sys tr t htr hbusy
  · intro name tr t hfind htr hbusy
    unfold instance_rmdir
    simp only [hfind]
    exact __remove_instance_busy ok sys tr t htr hbusy
  · intro name tr t hfind htr href hreader
    obtain ⟨g1, g2, g3⟩ := trace_array_get_put_listed env sys name tr t hfind htr
    have hmem : tr ∈ sys.ftrace_trace_arrays := List.mem_of_find?_eq_some hfind
    have hrm := __remove_instance_removes ok
      (trace_array_put (trace_array_get_by_name env sys name).2 (some tr)) tr _ g3
      (by show t.ref + 1 - 1 ≤ 1; omega) hreader
    unfold trace_array_destroy
    simp only [g2, hmem, if_true]
    refine ⟨g1, hrm.1, ?_, hrm.2.2⟩
    rw [hrm.2.1, g2]
    exact fun h => (List.Nodup.mem_erase_iff hl.1).mp h |>.1 rfl
  · intro name p t hfind hfresh halloc
    obtain ⟨hnone, hnot, href, hreader⟩ := hfresh p t halloc
    obtain ⟨g1, g2, t1, g3, g4, g5, -⟩ := trace_array_get_put_new env sys name p t hfind halloc
    have hrm := __remove_instance_removes ok
      (trace_array_put (trace_array_get_by_name env sys name).2 (some p)) p t1 g3
      (by rw [g4, href]; decide) (by rw [g5, hreader])
    unfold trace_array_destroy
    simp only [g2, List.mem_cons, true_or, if_true]
    refine ⟨g1, hrm.1, ?_, hrm.2.2⟩
    rw [hrm.2.1, g2, List.erase_cons_head]
    exact hnot
  · intro name h
    exact instance_mkdir_exists env sys name h
  · intro name hu hfresh
    exact instance_mkdir_names_unique env sys name hu hfresh

/-- C21 at the system of `global_trace` and the instance "foo": the instance cannot be
removed while a reader is open on it, a second "foo" cannot be created, and an instance
"bar" that `trace_array_get_by_name` creates at address 2 is removed after
`trace_array_put`. -/
theorem instance_removal_contract_witness :
    trace_array_find scenario_instances_reader "foo" = some 1 ∧
    (instance_rmdir true scenario_instances_reader "foo").1 = -EBUSY ∧
    (instance_mkdir scenario_instance_env scenario_instances "foo").1 = -EEXIST ∧
    (trace_array_get_by_name scenario_instance_env scenario_instances "bar").1 = some 2 ∧
    (trace_array_destroy true
      (trace_array_put
        (trace_array_get_by_name scenario_instance_env scenario_instances "bar").2 (some 2))
      (some 2)).1 = 0 ∧
    2 ∉ (trace_array_destroy true
      (trace_array_put
        (trace_array_get_by_name scenario_instance_env scenario_instances "bar").2 (some 2))
      (some 2)).2.ftrace_trace_arrays := by
  have h1 := instance_removal_contract scenario_instance_env true scenario_instances_reader
    ⟨by decide, by decide⟩
  have h2 := instance_removal_contract scenario_instance_env true scenario_instances
    ⟨by decide, by decide⟩
  have hnew := h2.2.2.2.1 "bar" 2 _ (by decide)
    (by
      intro p t h
      cases h
      decide)
    rfl
  refine ⟨by decide, ?_, ?_, hnew.1, hnew.2.1, hnew.2.2.1⟩
  · rw [h1.2.1 "foo" 1 _ (by decide) rfl (Or.inr (by decide))]
  · rw [h2.2.2.2.2.1 "foo" (by decide)]

/-! ## Producers that run while live and spare change places -/

theorem buffer_object_other_ne (x : buffer_object) : x.other ≠ x := by
  cases x <;> decide

theorem buffer_object_cases (x y : buffer_object) (h : y ≠ x) : y = x.other := by
  cases x <;> cases y <;> first | rfl | exact absurd rfl h

theorem object_at_store (m : swap_machine) (x y : buffer_object) (b : trace_buffer) :
    object_at (store_object m x b) y = if y = x then b else object_at m y := by
  unfold store_object object_at
  by_cases hx : x = m.live
  · by_cases hy : y = x
    · simp [hx, hy]
    · have : y ≠ m.live := fun h => hy (h.trans hx.symm)
      simp [hx, hy, this]
  · by_cases hy : y = x
    · simp [hx, hy]
    · have : y = m.live := by
        rw [buffer_object_cases x y hy, buffer_object_cases m.live x hx]
        cases m.live <;> rfl
      have hx1 : ¬m.live = x := fun h => hx h.symm
      simp [hx, hx1, this]

theorem store_object_live (m : swap_machine) (x : buffer_object) (b : trace_buffer) :
    (store_object m x b).live = m.live := by
  unfold store_object
  split_ifs <;> rfl

theorem object_events_commit (b : trace_buffer) (cpu cpu1 : Nat) (e : ring_buffer_event)
    (h : cpu < b.cpus.length) :
    object_events (ring_buffer_unlock_commit b cpu e) cpu1 =
      object_events b cpu1 ++ (if cpu1 = cpu then [e] else []) := by
  unfold object_events ring_buffer_unlock_commit
  by_cases hc : cpu1 = cpu
  · subst hc
    simp only [List.getElem?_modify_eq, if_true]
    rw [List.getElem?_eq_getElem h]
    rfl
  · simp only [if_neg hc, List.append_nil]
    rw [List.getElem?_modify_ne _ _ (fun h1 => hc h1.symm)]

theorem ring_buffer_unlock_commit_length (b : trace_buffer) (cpu : Nat)
    (e : ring_buffer_event) :
    (ring_buffer_unlock_commit b cpu e).cpus.length = b.cpus.length := by
  unfold ring_buffer_unlock_commit
  simp

theorem __update_max_tr_buffers (tr : trace_array) (tsk : task_struct) (cur : Bool)
    (cpu : Nat) :
    (__update_max_tr tr tsk cur cpu).array_buffer.buffer = tr.array_buffer.buffer ∧
    (__update_max_tr tr tsk cur cpu).max_buffer.buffer = tr.max_buffer.buffer := by
  unfold __update_max_tr
  split <;> exact ⟨rfl, rfl⟩

/-- The exchange with the identity of the buffers is the exchange of the instance. -/
theorem update_max_tr_objects_tr (update : trace_array → Nat → Bool) (m : swap_machine)
    (tsk : task_struct) (cur : Bool) (cpu : Nat) (cond_data : Nat) :
    (update_max_tr_objects update m tsk cur cpu cond_data).tr =
      update_max_tr update m.tr tsk cur cpu cond_data := by
  have hne := buffer_object_other_ne m.live
  unfold update_max_tr_objects update_max_tr inherit_recordable
  simp only [object_at, store_object, if_true, if_neg hne]
  split_ifs <;> rfl

theorem inherit_recordable_cpus (m : swap_machine) (y : buffer_object) :
    (object_at (inherit_recordable m) y).cpus = (object_at m y).cpus := by
  unfold inherit_recordable
  rw [object_at_store]
  split_ifs with h1 h2
  · rw [h1]
    rfl
  · rw [h1]
    rfl
  · rfl

theorem inherit_recordable_live (m : swap_machine) : (inherit_recordable m).live = m.live :=
  store_object_live _ _ _

/-- The exchange leaves the records of either object as they are: it changes which object
is the live one, and the recording switch of the spare. -/
theorem update_max_tr_objects_cpus (update : trace_array → Nat → Bool) (m : swap_machine)
    (tsk : task_struct) (cur : Bool) (cpu : Nat) (cond_data : Nat) (x : buffer_object) :
    (object_at (update_max_tr_objects update m tsk cur cpu cond_data) x).cpus =
      (object_at m x).cpus := by
  unfold update_max_tr_objects
  by_cases h1 : m.tr.stop_count ≠ 0
  · rw [if_pos h1]
  · rw [if_neg h1]
    by_cases h2 : (!m.tr.allocated_snapshot) = true
    · rw [if_pos h2]
    · rw [if_neg h2, ← inherit_recordable_cpus m x]
      generalize inherit_recordable m = m1
      simp only []
      by_cases h3 : (m1.tr.cond_snapshot.isSome && !update m1.tr cond_data) = true
      · rw [if_pos h3]
      · rw [if_neg h3]
        have hne := buffer_object_other_ne m1.live
        unfold object_at
        simp only [(__update_max_tr_buffers _ tsk cur cpu).1,
          (__update_max_tr_buffers _ tsk cur cpu).2]
        by_cases hx : x = m1.live
        · simp [hx, hne.symm]
        · have hxo : x = m1.live.other := buffer_object_cases m1.live x hx
          simp [hxo, hne]

theorem commits_to_append (a b : List commit_record) (x : buffer_object) (cpu : Nat) :
    commits_to (a ++ b) x cpu = commits_to a x cpu ++ commits_to b x cpu := by
  unfold commits_to
  rw [List.filter_append, List.map_append]

/-- One step of a producer: the records of an object on a CPU grow by the commit the step
makes to that object on that CPU, and by nothing else. -/
theorem trace_function_step_events (env : ring_buffer_env) (m : swap_machine)
    (c : function_call) (p : producer) (hcpu : ∀ x, c.cpu < (object_at m x).cpus.length)
    (x : buffer_object) (cpu : Nat) :
    object_events (object_at (trace_function_step env m c p).1 x) cpu =
      object_events (object_at m x) cpu ++
        commits_to
          (match p with
            | producer.reserved buffer event => [{ buffer := buffer, cpu := c.cpu, event := event }]
            | _ => []) x cpu ∧
    (object_at (trace_function_step env m c p).1 x).cpus.length =
      (object_at m x).cpus.length := by
  cases p with
  | entry => exact ⟨by simp [trace_function_step, commits_to], rfl⟩
  | loaded buffer =>
    simp only [trace_function_step]
    split <;> exact ⟨by simp [commits_to], rfl⟩
  | returned r => exact ⟨by simp [trace_function_step, commits_to], rfl⟩
  | reserved buffer event =>
    simp only [trace_function_step, object_at_store]
    by_cases hx : x = buffer
    · subst hx
      simp only [if_true, ring_buffer_unlock_commit_length, and_true]
      rw [object_events_commit _ _ _ _ (hcpu x)]
      by_cases hc : cpu = c.cpu
      · simp [commits_to, hc]
      · have hc1 : ¬c.cpu = cpu := fun h => hc h.symm
        simp [commits_to, hc, hc1]
    · simp only [if_neg hx, and_true]
      have hx1 : ¬buffer = x := fun h => hx h.symm
      simp [commits_to, hx1]

/-- One action of a schedule: the records of an object on a CPU grow by the commit the
action makes to that object on that CPU, and by nothing else. -/
theorem schedule_step_events (env : ring_buffer_env) (update : trace_array → Nat → Bool)
    (s : producers_state) (a : schedule_action) (hcpu : producers_on_cpus s) :
    producers_on_cpus (schedule_step env update s a) ∧
    ∀ x cpu, object_events (object_at (schedule_step env update s a).m x) cpu =
      object_events (object_at s.m x) cpu ++ commits_to (commit_of s a) x cpu := by
  cases a with
  | exchange tsk cur cpu0 cond_data =>
    refine ⟨?_, ?_⟩
    · intro cp hcp x
      show cp.1.cpu < (object_at (update_max_tr_objects update s.m tsk cur cpu0 cond_data)
        x).cpus.length
      rw [update_max_tr_objects_cpus]
      exact hcpu cp hcp x
    · intro x cpu
      show object_events (object_at (update_max_tr_objects update s.m tsk cur cpu0 cond_data)
        x) cpu = _
      unfold object_events
      rw [update_max_tr_objects_cpus]
      simp [commit_of, commits_to]
  | step i =>
    cases hp : s.producers[i]? with
    | none =>
      simp only [schedule_step, commit_of, hp]
      exact ⟨hcpu, fun x cpu => by simp [commits_to]⟩
    | some cp =>
      obtain ⟨c, p⟩ := cp
      have hmem : (c, p) ∈ s.producers := List.getElem?_mem hp
      have hc := hcpu (c, p) hmem
      simp only [schedule_step, commit_of, hp]
      refine ⟨?_, ?_⟩
      · intro cp1 hcp1 x
        simp only at hcp1 ⊢
        rw [(trace_function_step_events env s.m c p hc x 0).2]
        rcases List.mem_or_eq_of_mem_set hcp1 with h | h
        · exact hcpu cp1 h x
        · rw [h]
          exact hc x
      · intro x cpu
        have := (trace_function_step_events env s.m c p hc x cpu).1
        rw [this]
        cases p <;> rfl

/-- C23: for every schedule of calls of `update_max_tr` and of steps of any number of
calls of `trace_function` on an instance, each call loading the buffer pointer, reserving
and committing as steps of its own: at the end the records of either buffer object on a
CPU are the records it had at the start followed by the events committed to that object on
that CPU, in the order of the commits.  A commit goes to the object its producer loaded
from `tr->array_buffer.buffer`, the live one at that moment, whether or not the buffers
have changed places since; so every committed event is in one of the two objects, whole
and once, and the exchange moves no record from one object to the other. -/
theorem commits_land_in_one_log (env : ring_buffer_env) (update : trace_array → Nat → Bool)
    (schedule : List schedule_action) :
    ∀ (s : producers_state), producers_on_cpus s →
      ∀ x cpu, object_events (object_at (schedule_run env update s schedule).m x) cpu =
        object_events (object_at s.m x) cpu ++
          commits_to (commits_of env update s schedule) x cpu := by
  induction schedule with
  | nil =>
    intro s _ x cpu
    simp [schedule_run, commits_of, commits_to]
  | cons a rest ih =>
    intro s hcpu x cpu
    obtain ⟨h1, h2⟩ := schedule_step_events env update s a hcpu
    have h3 := ih (schedule_step env update s a) h1 x cpu
    simp only [schedule_run, List.foldl_cons] at h3 ⊢
    rw [h3, h2 x cpu, commits_of, commits_to_append, List.append_assoc]

/-- C23 at the scenario instance: the producer on CPU 0 loads the buffer pointer, the
buffers change places, and the producer reserves and commits.  The record is behind A and
B in the first object, which was live and is now the spare; the second object, now live,
has no record on CPU 0. -/
theorem commits_land_in_one_log_witness :
    (schedule_run env_ok accept_update scenario_producers scenario_schedule).m.live =
      buffer_object.second ∧
    object_events (object_at (schedule_run env_ok accept_update scenario_producers
        scenario_schedule).m buffer_object.first) 0 =
      [scenario_A, scenario_B,
        { ts := 100, length := 24,
          data := { type := 1, ctx := 0, pid := 42, payload := [4096, 8192] } }] ∧
    object_events (object_at (schedule_run env_ok accept_update scenario_producers
        scenario_schedule).m buffer_object.second) 0 = [] := by
  have hcpu : producers_on_cpus scenario_producers := by
    intro cp hcp x
    simp only [scenario_producers, List.mem_singleton] at hcp
    subst hcp
    cases x <;> decide
  refine ⟨by decide, ?_, ?_⟩
  · exact (commits_land_in_one_log env_ok accept_update scenario_schedule scenario_producers
      hcpu buffer_object.first 0).trans (by decide)
  · exact (commits_land_in_one_log env_ok accept_update scenario_schedule scenario_producers
      hcpu buffer_object.second 0).trans (by decide)

end Trace
